import Mathlib

/-!
# CubeSQL C SDK: a verification development

A shallow embedding of the parts of `src/CubeSQL-SDK/C_SDK/cubesql.c` that the
properties below are about, followed by the theorems.

Conventions of the embedding

* A byte buffer is a `List Nat` (`Bytes`); a C pointer into a buffer is an
  offset into the list.  `peek` reads a range, `poke` is `memcpy` into a range.
* C `int` values are modelled by `Int` (or by `Nat` where the code only handles
  values that are not negative); signed overflow is undefined in C and is not
  modelled.
* The block cipher (`csql_aes_encrypt`, `csql_aes_decrypt`), SHA1 (`csql_sha1`)
  and the random generator are primitives of other files: they are parameters.
* Constants of the headers `cubesql.h` and `csql.h`, which are not among the
  sources, are parameters too (structure `SdkConsts`).
* Socket writes and `malloc` are modelled on their success path.
-/

namespace CubeSQL

/-! ## Memory -/

/-- A byte buffer. -/
abbrev Bytes := List Nat

/-- The `n` bytes found at `m + off`. -/
def peek (m : Bytes) (off n : Nat) : Bytes := (m.drop off).take n

/-- The buffer after `memcpy (m + off, src, src.length)`. -/
def poke (m : Bytes) (off : Nat) (src : Bytes) : Bytes :=
  m.take off ++ src ++ m.drop (off + src.length)

/-- The bytes `a[i] ^ b[i]`: the result of a loop `for (i...) a[i] ^= b[i]`. -/
def xorb (a b : Bytes) : Bytes := List.zipWith (fun x y => x ^^^ y) a b

/-- Modelled from the spec: `BLOCK_LEN`, the AES block length, is defined in a
header that is not among the sources; the spec gives "Block length = 16". -/
def BLOCK_LEN : Nat := 16

/-! ## encrypt_buffer -/

/-- Where the pointer `b1` of `encrypt_buffer` points: at the local `dbuf`
or inside `buffer`. -/
inductive Ptr where
  | dbuf : Ptr
  | buf (off : Nat) : Ptr
  deriving DecidableEq

/-- The two memory regions the loop of `encrypt_buffer` works on. -/
structure EncMem where
  dbuf : Bytes
  buffer : Bytes
  deriving DecidableEq

/-- The block `b1[0 .. BLOCK_LEN)`. -/
def EncMem.rd (m : EncMem) : Ptr → Bytes
  | Ptr.dbuf => peek m.dbuf 0 BLOCK_LEN
  | Ptr.buf off => peek m.buffer off BLOCK_LEN

/-- Store a block at `b1`. -/
def EncMem.wr (m : EncMem) (p : Ptr) (b : Bytes) : EncMem :=
  match p with
  | Ptr.dbuf => { m with dbuf := poke m.dbuf 0 b }
  | Ptr.buf off => { m with buffer := poke m.buffer off b }

/-- The `do { ... } while (len >= BLOCK_LEN)` loop of `encrypt_buffer`
(lines 2366-2386).  The first argument bounds the number of iterations; the
result is the memory, `b1`, `len` and `index` when the loop is left. -/
def encrypt_loop (E : Bytes → Bytes) :
    Nat → EncMem → Ptr → Nat → Nat → Nat → EncMem × Ptr × Nat × Nat
  | 0, m, b1, _, len, index => (m, b1, len, index)
  | fuel + 1, m, b1, b2, len, index =>
    -- for (i = 0; i < BLOCK_LEN; ++i) b1[i] ^= b2[i];
    let m1 := m.wr b1 (xorb (m.rd b1) (peek m.buffer b2 BLOCK_LEN))
    -- csql_aes_encrypt (b1, b1, ctx);
    let m2 := m1.wr b1 (E (m1.rd b1))
    -- len -= BLOCK_LEN;
    let len1 := len - BLOCK_LEN
    -- if (index == 0) memcpy (buffer, b1, BLOCK_LEN);
    let m3 := if index = 0 then { m2 with buffer := poke m2.buffer 0 (m2.rd b1) } else m2
    -- if (len >= BLOCK_LEN) { b2 = buffer + index * BLOCK_LEN; b1 = b2 + BLOCK_LEN; }
    let b2n := if len1 ≥ BLOCK_LEN then index * BLOCK_LEN else b2
    let b1n := if len1 ≥ BLOCK_LEN then Ptr.buf (index * BLOCK_LEN + BLOCK_LEN) else b1
    -- index++;
    let index1 := index + 1
    -- while (len >= BLOCK_LEN)
    if len1 ≥ BLOCK_LEN then encrypt_loop E fuel m3 b1n b2n len1 index1
    else (m3, b1n, len1, index1)

/-- The function `encrypt_buffer (buffer, dim, random, ctx)` (lines 2337-2416):
the result is the buffer, the block `random` and the value returned.
`E` is `csql_aes_encrypt` under the key of `ctx`. -/
def encrypt_buffer (E : Bytes → Bytes) (buffer : Bytes) (dim : Nat) (random : Bytes) :
    Bytes × Bytes × Nat :=
  -- char dbuf[2 * BLOCK_LEN]; memcpy (dbuf, random, BLOCK_LEN);
  let dbuf0 := poke (List.replicate (2 * BLOCK_LEN) 0) 0 (peek random 0 BLOCK_LEN)
  if dim < BLOCK_LEN then
    -- memcpy (dbuf + BLOCK_LEN, buffer, dim);
    let dbuf1 := poke dbuf0 BLOCK_LEN (peek buffer 0 dim)
    -- for (i = 0; i < dim; ++i) dbuf[i + BLOCK_LEN] ^= dbuf[i];
    let dbuf2 := poke dbuf1 BLOCK_LEN (xorb (peek dbuf1 BLOCK_LEN dim) (peek dbuf1 0 dim))
    -- csql_aes_encrypt (dbuf + dim, dbuf + dim, ctx);
    let dbuf3 := poke dbuf2 dim (E (peek dbuf2 dim BLOCK_LEN))
    -- memcpy (random, dbuf, BLOCK_LEN); memcpy (buffer, dbuf + BLOCK_LEN, dim);
    let random1 := poke random 0 (peek dbuf3 0 BLOCK_LEN)
    let buffer1 := poke buffer 0 (peek dbuf3 BLOCK_LEN dim)
    (buffer1, random1, dim + BLOCK_LEN)
  else
    -- b1 = dbuf; b2 = buffer; len = dim; index = 0; do { ... } while (...)
    match encrypt_loop E (dim + 1) ⟨dbuf0, buffer⟩ Ptr.dbuf 0 dim 0 with
    | (m, b1, len, index) =>
      if len ≠ 0 then
        -- memcpy (b3, buffer + index * BLOCK_LEN, len);
        let b3a := peek m.buffer (index * BLOCK_LEN) len
        -- for (i = 0; i < len; ++i) b3[i] ^= b1[i];
        let b3b := xorb b3a (peek (m.rd b1) 0 len)
        -- for (i = len; i < BLOCK_LEN; ++i) b3[i] = b1[i];
        let b3c := b3b ++ peek (m.rd b1) len (BLOCK_LEN - len)
        -- csql_aes_encrypt (b3, b3, ctx);
        let b3d := E b3c
        -- memcpy (back, b1, BLOCK_LEN);
        let back := m.rd b1
        -- memcpy (buffer + dim - len - BLOCK_LEN, b3, BLOCK_LEN);
        let buffer1 := poke m.buffer (dim - len - BLOCK_LEN) b3d
        -- memcpy (buffer + dim - len, back, len);
        let buffer2 := poke buffer1 (dim - len) (peek back 0 len)
        (buffer2, random, dim + BLOCK_LEN)
      else (m.buffer, random, dim + BLOCK_LEN)

/-! ## decrypt_buffer -/

/-- The `do { ... } while (1)` loop of `decrypt_buffer` (lines 2440-2495);
`b1` and `b2` are offsets into `buffer`.  The first argument bounds the number
of iterations. -/
def decrypt_loop (D : Bytes → Bytes) : Nat → Bytes → Nat → Nat → Nat → Nat → Bytes
  | 0, buffer, _, _, _, _ => buffer
  | fuel + 1, buffer, b1, b2, len, index =>
    -- nextlen = len - BLOCK_LEN; if (nextlen > BLOCK_LEN) nextlen = BLOCK_LEN;
    let nextlen := if len - BLOCK_LEN > BLOCK_LEN then BLOCK_LEN else len - BLOCK_LEN
    -- csql_aes_decrypt (b2, buf, ctx);
    let buf := D (peek buffer b2 BLOCK_LEN)
    if nextlen = 0 ∨ nextlen = BLOCK_LEN then
      -- for (i = 0; i < BLOCK_LEN; ++i) buf[i] ^= b1[i];
      let buf1 := xorb buf (peek buffer b1 BLOCK_LEN)
      -- memcpy (buffer + index * BLOCK_LEN, buf, BLOCK_LEN);
      let buffer1 := poke buffer (index * BLOCK_LEN) buf1
      -- index++; len -= BLOCK_LEN; if (len == 0) return 0;
      let index1 := index + 1
      let len1 := len - BLOCK_LEN
      if len1 = 0 then buffer1
      -- b1 = b2; b2 = b2 + BLOCK_LEN;
      else decrypt_loop D fuel buffer1 b2 (b2 + BLOCK_LEN) len1 index1
    else
      -- len = nextlen; memcpy (b3, b2 + BLOCK_LEN, len);
      let len1 := nextlen
      let b3a := peek buffer (b2 + BLOCK_LEN) len1
      -- for (i = 0; i < len; ++i) buf[i] ^= b3[i];
      let buf1 := poke buf 0 (xorb (peek buf 0 len1) b3a)
      -- for (i = len; i < BLOCK_LEN; ++i) b3[i] = buf[i];
      let b3b := b3a ++ peek buf1 len1 (BLOCK_LEN - len1)
      -- csql_aes_decrypt (b3, b3, ctx);
      let b3c := D b3b
      -- for (i = 0; i < BLOCK_LEN; ++i) b3[i] ^= b1[i];
      let b3d := xorb b3c (peek buffer b1 BLOCK_LEN)
      -- memcpy (buffer + index * BLOCK_LEN, b3, BLOCK_LEN); index++;
      let buffer1 := poke buffer (index * BLOCK_LEN) b3d
      let index1 := index + 1
      -- memcpy (buffer + index * BLOCK_LEN, buf, nextlen); return 0;
      poke buffer1 (index1 * BLOCK_LEN) (peek buf1 0 nextlen)

/-- The function `decrypt_buffer (buffer, dim, ctx)` (lines 2418-2498): the
result is the buffer it leaves (the C function returns 0 on every path).  `D`
is `csql_aes_decrypt` under the key of `ctx`.  `dim` counts the IV block, so
`dim >= BLOCK_LEN` for every buffer that `encrypt_buffer` produced. -/
def decrypt_buffer (D : Bytes → Bytes) (buffer : Bytes) (dim : Nat) : Bytes :=
  if dim < 2 * BLOCK_LEN then
    -- len = dim - BLOCK_LEN;
    let len := dim - BLOCK_LEN
    -- csql_aes_decrypt (buffer + len, buffer + len, ctx);
    let buffer1 := poke buffer len (D (peek buffer len BLOCK_LEN))
    -- for (i = 0; i < len; ++i) buffer[i] ^= buffer[i + BLOCK_LEN];
    poke buffer1 0 (xorb (peek buffer1 0 len) (peek buffer1 BLOCK_LEN len))
  else
    -- b1 = buffer; b2 = b1 + BLOCK_LEN; len = dim - BLOCK_LEN; index = 0;
    decrypt_loop D (dim + 1) buffer 0 BLOCK_LEN (dim - BLOCK_LEN) 0

/-- A toy block cipher for evaluating the definitions: reverse the block and
flip bits of every byte.  It is its own inverse. -/
def toyCipher (b : Bytes) : Bytes := (b.map (fun x => x ^^^ 90)).reverse

/-! ## Constants of the missing headers -/

/-- The constants of `cubesql.h` and `csql.h` that the modelled functions use.
The two headers are not among the sources, so the values are parameters. -/
structure SdkConsts where
  CUBESQL_COLNAME : Int
  CUBESQL_CURROW : Int
  CUBESQL_COLTABLE : Int
  CUBESQL_ROWID : Int
  CUBESQL_SEEKNEXT : Int
  CUBESQL_SEEKFIRST : Int
  CUBESQL_SEEKLAST : Int
  CUBESQL_SEEKPREV : Int
  CUBESQL_NOERR : Int
  CUBESQL_ERR : Int
  CUBESQL_MEMORY_ERROR : Int
  CUBESQL_ZLIB_ERROR : Int
  CUBESQL_ENCRYPTION_NONE : Int
  CUBESQL_ENCRYPTION_AES128 : Int
  CUBESQL_ENCRYPTION_AES192 : Int
  CUBESQL_ENCRYPTION_AES256 : Int
  CUBESQL_BIND_NULL : Int
  CUBESQL_BIND_ZEROBLOB : Int
  PROTOCOL_SIGNATURE : Int
  END_CHUNK : Int
  ERR_WRONG_HEADER : Int
  ERR_WRONG_SIGNATURE : Int
  ERR_SOCKET_READ : Int
  kCOMMAND_SELECT : Int
  kCOMMAND_EXECUTE : Int
  kCOMMAND_CHUNK : Int
  kCOMMAND_CURSOR_STEP : Int
  kCOMMAND_ENDCHUNK : Int
  kCOMMAND_CHUNK_BIND : Int
  kBIND_FINALIZE : Int
  kBIND_ABORT : Int
  kVM_BIND : Int
  kVM_CLOSE : Int
  kBIND_STEP : Int
  CUBESQL_BIND_TEXT : Int
  CUBESQL_BIND_BLOB : Int
  kCOMMAND_CONNECT : Int
  kENCRYPT_CONNECT_PHASE1 : Int
  kENCRYPT_CONNECT_PHASE2 : Int
  kENCRYPT_TOKEN_CONNECT1 : Int
  kENCRYPT_TOKEN_CONNECT2 : Int
  kNO_SELECTOR : Int
  kCHUNK_OK : Int
  kNUMBUFFER : Nat
  kDEFAULT_ALLOC_ROWS : Int
  kHEADER_SIZE : Nat
  kRANDPOOLSIZE : Nat
  ERRMSG_SIZE : Nat
  CUBESQL_PARAMETER_ERROR : Int
  CUBESQL_SSL_CERT_ERROR : Int
  CUBESQL_SSL_DISABLED_ERROR : Int
  CUBESQL_ENCRYPTION_SSL : Int
  CUBESQL_ENCRYPTION_SSL_AES128 : Int
  CUBESQL_ENCRYPTION_SSL_AES192 : Int
  CUBESQL_ENCRYPTION_SSL_AES256 : Int
  CUBESQL_DEFAULT_PORT : Int
  CUBESQL_DEFAULT_TIMEOUT : Int
  kCLEAR_CONNECT_PHASE1 : Int
  kCLEAR_CONNECT_PHASE2 : Int
  kCLEAR_TOKEN_CONNECT1 : Int
  kCLEAR_TOKEN_CONNECT2 : Int
  kCHUNK_ABORT : Int
  kCOMMAND_CURSOR_CLOSE : Int

/-- One assignment of values to the constants, used where a statement needs
concrete numbers: distinct values for distinct names, in the ranges the code
relies on.  `ERRMSG_SIZE` is `sizeof (db->errmsg)`. -/
def sdk : SdkConsts where
  CUBESQL_COLNAME := 0
  CUBESQL_CURROW := -1
  CUBESQL_COLTABLE := -2
  CUBESQL_ROWID := -666
  CUBESQL_SEEKNEXT := -2
  CUBESQL_SEEKFIRST := -3
  CUBESQL_SEEKLAST := -4
  CUBESQL_SEEKPREV := -5
  CUBESQL_NOERR := 0
  CUBESQL_ERR := -1
  CUBESQL_MEMORY_ERROR := -2
  CUBESQL_ZLIB_ERROR := -5
  CUBESQL_ENCRYPTION_NONE := 0
  CUBESQL_ENCRYPTION_AES128 := 2
  CUBESQL_ENCRYPTION_AES192 := 3
  CUBESQL_ENCRYPTION_AES256 := 4
  CUBESQL_BIND_NULL := 5
  CUBESQL_BIND_ZEROBLOB := 9
  PROTOCOL_SIGNATURE := 1397836883
  END_CHUNK := 777
  ERR_WRONG_HEADER := 800
  ERR_WRONG_SIGNATURE := 801
  ERR_SOCKET_READ := 803
  kCOMMAND_SELECT := 3
  kCOMMAND_EXECUTE := 4
  kCOMMAND_CHUNK := 7
  kCOMMAND_CURSOR_STEP := 10
  kCOMMAND_ENDCHUNK := 8
  kCOMMAND_CHUNK_BIND := 12
  kBIND_FINALIZE := 33
  kBIND_ABORT := 34
  kVM_BIND := 22
  kVM_CLOSE := 25
  kBIND_STEP := 32
  CUBESQL_BIND_TEXT := 3
  CUBESQL_BIND_BLOB := 4
  kCOMMAND_CONNECT := 1
  kENCRYPT_CONNECT_PHASE1 := 3
  kENCRYPT_CONNECT_PHASE2 := 4
  kENCRYPT_TOKEN_CONNECT1 := 7
  kENCRYPT_TOKEN_CONNECT2 := 8
  kNO_SELECTOR := 0
  kCHUNK_OK := 1
  kNUMBUFFER := 100
  kDEFAULT_ALLOC_ROWS := 100
  kHEADER_SIZE := 32
  kRANDPOOLSIZE := 20
  ERRMSG_SIZE := 1024
  CUBESQL_PARAMETER_ERROR := -3
  CUBESQL_SSL_CERT_ERROR := -7
  CUBESQL_SSL_DISABLED_ERROR := -8
  CUBESQL_ENCRYPTION_SSL := 8
  CUBESQL_ENCRYPTION_SSL_AES128 := 10
  CUBESQL_ENCRYPTION_SSL_AES192 := 11
  CUBESQL_ENCRYPTION_SSL_AES256 := 12
  CUBESQL_DEFAULT_PORT := 4430
  CUBESQL_DEFAULT_TIMEOUT := 12
  kCLEAR_CONNECT_PHASE1 := 1
  kCLEAR_CONNECT_PHASE2 := 2
  kCLEAR_TOKEN_CONNECT1 := 5
  kCLEAR_TOKEN_CONNECT2 := 6
  kCHUNK_ABORT := 2
  kCOMMAND_CURSOR_CLOSE := 11

/-- What the modelled code needs of the constants: the special row and column
numbers are not positive (so they are no row or column of a cursor), the symbolic
seek indices are negative and distinct, the result codes and the encryption
modes are distinct, `END_CHUNK` is not 0. -/
structure SdkConsts.Ok (K : SdkConsts) : Prop where
  colname : K.CUBESQL_COLNAME ≤ 0
  currow : K.CUBESQL_CURROW ≤ 0
  coltable : K.CUBESQL_COLTABLE ≤ 0
  rowid : K.CUBESQL_ROWID ≤ 0
  next_neg : K.CUBESQL_SEEKNEXT < 0
  first_neg : K.CUBESQL_SEEKFIRST < 0
  last_neg : K.CUBESQL_SEEKLAST < 0
  prev_neg : K.CUBESQL_SEEKPREV < 0
  next_first : K.CUBESQL_SEEKNEXT ≠ K.CUBESQL_SEEKFIRST
  next_last : K.CUBESQL_SEEKNEXT ≠ K.CUBESQL_SEEKLAST
  next_prev : K.CUBESQL_SEEKNEXT ≠ K.CUBESQL_SEEKPREV
  first_last : K.CUBESQL_SEEKFIRST ≠ K.CUBESQL_SEEKLAST
  first_prev : K.CUBESQL_SEEKFIRST ≠ K.CUBESQL_SEEKPREV
  last_prev : K.CUBESQL_SEEKLAST ≠ K.CUBESQL_SEEKPREV
  noerr_err : K.CUBESQL_NOERR ≠ K.CUBESQL_ERR
  none_128 : K.CUBESQL_ENCRYPTION_NONE ≠ K.CUBESQL_ENCRYPTION_AES128
  none_192 : K.CUBESQL_ENCRYPTION_NONE ≠ K.CUBESQL_ENCRYPTION_AES192
  none_256 : K.CUBESQL_ENCRYPTION_NONE ≠ K.CUBESQL_ENCRYPTION_AES256
  a128_192 : K.CUBESQL_ENCRYPTION_AES128 ≠ K.CUBESQL_ENCRYPTION_AES192
  a128_256 : K.CUBESQL_ENCRYPTION_AES128 ≠ K.CUBESQL_ENCRYPTION_AES256
  a192_256 : K.CUBESQL_ENCRYPTION_AES192 ≠ K.CUBESQL_ENCRYPTION_AES256
  end_chunk : K.END_CHUNK ≠ 0
  randpool : K.kRANDPOOLSIZE = 20

/-! ## Integers and strings in memory -/

/-- The `int` that `ntohl` yields for four bytes in network order (two's
complement, 32 bits). -/
def be32 (b0 b1 b2 b3 : Nat) : Int :=
  let u := b0 * 16777216 + b1 * 65536 + b2 * 256 + b3
  if u ≥ 2147483648 then (u : Int) - 4294967296 else (u : Int)

/-- The four bytes of `htonl (i)`. -/
def enc32 (i : Int) : Bytes :=
  let u := (i % 4294967296).toNat
  [u / 16777216 % 256, u / 65536 % 256, u / 256 % 256, u % 256]

/-- The array of big-endian 32-bit integers that starts at a pointer: the
values `ntohl (p[i])`.  The code converts the integers of a reply buffer in
place, once, and never reads them as bytes again; the model keeps the bytes as
they arrived and converts on reading. -/
def intsOf : Bytes → List Int
  | b0 :: b1 :: b2 :: b3 :: rest => be32 b0 b1 b2 b3 :: intsOf rest
  | _ => []

/-- `strlen`: the number of bytes before the first NUL. -/
def strlen : Bytes → Nat
  | [] => 0
  | b :: rest => if b = 0 then 0 else strlen rest + 1

/-- The total length, terminators included, of the first `k` NUL-terminated
strings at a pointer: the loop `len = strlen (temp) + 1; data_seek += len;
temp += len`. -/
def skipStrings (m : Bytes) : Nat → Nat
  | 0 => 0
  | k + 1 => (strlen m + 1) + skipStrings (m.drop (strlen m + 1)) k

/-- Read `a[i]` in an `int` array; a read outside the array (undefined in C)
gives 0. -/
def geti (a : List Int) (i : Int) : Int :=
  if i < 0 then 0 else a.getD i.toNat 0

/-! ## Headers, the connection and the socket -/

/-- The bits of `flag1` in a request.  The bit masks and the macros `SETBIT`
and `TESTBIT` are in `csql.h`; a flag byte is modelled by its named bits. -/
structure ReqFlags where
  support_compression : Bool := false
  partial_packet : Bool := false
  compressed_packet : Bool := false
  server_side : Bool := false
  deriving DecidableEq

/-- The request header (`inhead`), its integer fields in host order. -/
structure InHead where
  signature : Int := 0
  packetSize : Int := 0
  command : Int := 0
  selector : Int := 0
  flag1 : ReqFlags := {}
  flag2 : Int := 0
  flag3 : Int := 0
  encryptedPacket : Int := 0
  numFields : Int := 0
  expandedSize : Int := 0
  timeout : Int := 0
  oldProtocol : Bool := false
  reserved1 : Int := 0
  deriving DecidableEq

/-- The bits of `flag1` in a reply. -/
structure RepFlags where
  has_table_name : Bool := false
  partial_packet : Bool := false
  has_rowid_column : Bool := false
  server_side : Bool := false
  compressed_packet : Bool := false
  deriving DecidableEq

/-- The reply header (`outhead`), its integer fields in host order. -/
structure OutHead where
  signature : Int := 0
  packetSize : Int := 0
  errorCode : Int := 0
  flag1 : RepFlags := {}
  encryptedPacket : Int := 0
  numFields : Int := 0
  rows : Int := 0
  cols : Int := 0
  expandedSize : Int := 0
  deriving DecidableEq

/-- What the server sends for one reply: the header and the bytes after it. -/
structure Frame where
  header : OutHead
  payload : Bytes
  deriving DecidableEq

/-- What one `csql_socketwrite` puts on the wire: the request header, or bytes. -/
inductive WireItem where
  | header (h : InHead) : WireItem
  | bytes (b : Bytes) : WireItem
  deriving DecidableEq

/-- The connection (`csqldb`) with its socket: `wire` is what has been written,
`rx` the replies that are still to arrive, `pending` the bytes that follow the
header read last.  `pools` are the values that the calls of `csql_rand_fill`
produce, in order.  `errmsg` is the whole `char` array; `username` and
`password` are NUL-terminated strings, `token` is `none` for `NULL`; `host` is
the NUL-terminated host name and `sockfd` the descriptor of the socket. -/
structure Db where
  encryption : Int := 0
  timeout : Int := 0
  useOldProtocol : Bool := false
  request : InHead := {}
  reply : OutHead := {}
  toread : Int := 0
  inbuffer : Option Bytes := none
  insize : Int := 0
  errcode : Int := 0
  errmsg : Bytes := []
  wire : List WireItem := []
  rx : List Frame := []
  pending : Bytes := []
  pools : List Bytes := []
  username : Bytes := [0]
  password : Bytes := [0]
  token : Option Bytes := none
  host : Bytes := [0]
  port : Int := 0
  sockfd : Int := 0
  deriving DecidableEq

/-- The bytes of a string literal, with the terminating NUL. -/
def cstr (s : String) : Bytes := s.toList.map Char.toNat ++ [0]

/-- The array `dst` of `n` bytes after `strncpy (dst, src, n)`: the bytes of
`src` before its first NUL, at most `n` of them, then NUL bytes up to `n`. -/
def strncpy (src : Bytes) (n : Nat) : Bytes :=
  List.take n (List.take (strlen src) src)
    ++ List.replicate (n - (List.take n (List.take (strlen src) src)).length) 0

/-- The function `csql_seterror` (lines 2046-2049). -/
def csql_seterror (K : SdkConsts) (db : Db) (errcode : Int) (errmsg : Bytes) : Db :=
  { db with errcode := errcode, errmsg := strncpy errmsg K.ERRMSG_SIZE }

/-- The function `cubesql_clear_errors` (lines 662-667): `errmsg[0] = 0`. -/
def cubesql_clear_errors (K : SdkConsts) (db : Db) : Db :=
  { db with errcode := K.CUBESQL_NOERR, errmsg := poke db.errmsg 0 [0] }

/-- The function `csql_socketwrite` (lines 1914-1971) for a header: the socket
accepts what is written (the error paths of `select` and `sock_write` are not
modelled). -/
def csql_socketwrite_header (db : Db) : Db :=
  { db with wire := db.wire ++ [WireItem.header db.request] }

/-- The function `csql_socketwrite` for `nbuffer` bytes at `buffer`; nothing is
written when `nbuffer <= 0`. -/
def csql_socketwrite (db : Db) (buffer : Bytes) (nbuffer : Int) : Db :=
  if nbuffer > 0 then { db with wire := db.wire ++ [WireItem.bytes (peek buffer 0 nbuffer.toNat)] }
  else db

/-- The function `csql_socketread` (lines 1973-2044) with `is_header` set: the
next reply header arrives, or nothing does and the read fails. -/
def csql_socketread_header (K : SdkConsts) (db : Db) : Db × Int :=
  match db.rx with
  | [] => (csql_seterror K db K.ERR_SOCKET_READ
      (cstr "An error occurred while executing sock_read"), K.CUBESQL_ERR)
  | f :: rest => ({ db with reply := f.header, pending := f.payload, rx := rest }, K.CUBESQL_NOERR)

/-- The function `csql_socketread` without `is_header`: `db->toread` bytes are
read into `db->inbuffer`; the read fails when fewer arrive. -/
def csql_socketread (K : SdkConsts) (db : Db) : Db × Int :=
  if 0 < db.toread ∧ db.toread.toNat ≤ db.pending.length then
    ({ db with
        inbuffer := some (poke (db.inbuffer.getD []) 0 (peek db.pending 0 db.toread.toNat)),
        pending := db.pending.drop db.toread.toNat }, K.CUBESQL_NOERR)
  else (csql_seterror K db K.ERR_SOCKET_READ
      (cstr "An error occurred while executing sock_read"), K.CUBESQL_ERR)

/-- The function `csql_checkinbuffer` (lines 1787-1800); `malloc` succeeds and
the new buffer is modelled as zeroed. -/
def csql_checkinbuffer (K : SdkConsts) (db : Db) : Db × Int :=
  if db.insize ≥ db.toread then (db, K.CUBESQL_NOERR)
  else ({ db with inbuffer := some (List.replicate db.toread.toNat 0), insize := db.toread },
    K.CUBESQL_NOERR)

/-! ## Checking a reply header, reading a reply -/

/-- The function `csql_checkheader` (lines 2067-2134): the connection, the value
returned and the flag `*end_chunk`.  `D` is `csql_aes_decrypt` under the session
key.  `header` is `&db->reply`, which is never `NULL`.  In the comparison
`dsize < sizeof (db->errmsg)` the `int` is converted to an unsigned type, so a
negative `dsize` does not pass it. -/
def csql_checkheader (K : SdkConsts) (D : Bytes → Bytes) (db : Db)
    (expected_size expected_nfields : Int) : Db × Int × Bool :=
  -- db->toread = 0;
  let db0 := { db with toread := 0 }
  -- signature = ntohl (header->signature);
  if db0.reply.signature ≠ K.PROTOCOL_SIGNATURE then
    (csql_seterror K db0 K.ERR_WRONG_SIGNATURE (cstr "Wrong SIGNATURE HEADER from the server"),
      K.CUBESQL_ERR, false)
  else
    -- err = ntohs (header->errorCode); if (err == END_CHUNK) { *end_chunk = kTRUE; err = 0; }
    let end_chunk := decide (db0.reply.errorCode = K.END_CHUNK)
    let err := if db0.reply.errorCode = K.END_CHUNK then 0 else db0.reply.errorCode
    -- dsize = ntohl (header->packetSize);
    let dsize := db0.reply.packetSize
    if err = 0 ∧ expected_size ≠ -1 ∧ expected_size ≠ dsize then
      (csql_seterror K db0 K.ERR_WRONG_SIGNATURE
        (cstr "Wrong PACKET SIZE received from the server"), K.CUBESQL_ERR, end_chunk)
    else
      -- db->toread = dsize;
      let db1 := { db0 with toread := dsize }
      if err = 0 ∧ expected_nfields ≠ -1 ∧ expected_nfields ≠ db1.reply.numFields then
        (csql_seterror K db1 K.ERR_WRONG_SIGNATURE
          (cstr "Wrong NUMBER OF FIELDS received from the server"), K.CUBESQL_ERR, end_chunk)
      else if err ≠ 0 ∧ dsize ≠ 0 then
        if 0 ≤ dsize ∧ dsize < K.ERRMSG_SIZE then
          -- use_static: db->inbuffer = db->errmsg; db->inbuffer[dsize] = 0;
          -- db->insize = dsize; db->errcode = err;
          let msg := poke db1.errmsg dsize.toNat [0]
          let db2 := { db1 with errmsg := msg, inbuffer := some msg, insize := dsize,
                                errcode := err }
          match csql_socketread K db2 with
          | (db3, r) =>
            if r ≠ K.CUBESQL_NOERR then (db3, K.CUBESQL_ERR, end_chunk)
            else
              -- db->toread = 0; decrypt_buffer (db->inbuffer, dsize, db->decryptkey);
              let buf := db3.inbuffer.getD []
              let buf1 := if db3.reply.encryptedPacket ≠ K.CUBESQL_ENCRYPTION_NONE
                then decrypt_buffer D buf dsize.toNat else buf
              -- the buffer is db->errmsg; db->inbuffer = NULL; db->insize = 0;
              ({ db3 with toread := 0, errmsg := buf1, inbuffer := none, insize := 0 },
                K.CUBESQL_ERR, end_chunk)
        else
          match csql_checkinbuffer K db1 with
          | (db2, r0) =>
            if r0 ≠ K.CUBESQL_NOERR then (db2, K.CUBESQL_ERR, end_chunk)
            else
              match csql_socketread K db2 with
              | (db3, r) =>
                if r ≠ K.CUBESQL_NOERR then (db3, K.CUBESQL_ERR, end_chunk)
                else
                  let buf := db3.inbuffer.getD []
                  let buf1 := if db3.reply.encryptedPacket ≠ K.CUBESQL_ENCRYPTION_NONE
                    then decrypt_buffer D buf dsize.toNat else buf
                  -- csql_seterror (db, err, db->inbuffer); free (db->inbuffer);
                  let db4 := csql_seterror K { db3 with toread := 0 } err buf1
                  ({ db4 with inbuffer := none, insize := 0 }, K.CUBESQL_ERR, end_chunk)
      else (db1, K.CUBESQL_NOERR, end_chunk)

/-- The function `csql_netread` (lines 1739-1785): the connection, the value
returned and the flag `*end_chunk`.  `inflate src n` is zlib's `uncompress` into
a buffer of `n` bytes (`none` when it fails). -/
def csql_netread (K : SdkConsts) (D : Bytes → Bytes) (inflate : Bytes → Nat → Option Bytes)
    (db : Db) (expected_size expected_nfields : Int) (is_chunk : Bool) : Db × Int × Bool :=
  -- read header first
  match csql_socketread_header K db with
  | (db1, r1) =>
    if r1 ≠ K.CUBESQL_NOERR then (db1, K.CUBESQL_ERR, false)
    else
      match csql_checkheader K D db1 expected_size expected_nfields with
      | (db2, r2, is_end_chunk) =>
        if r2 ≠ K.CUBESQL_NOERR then (db2, K.CUBESQL_ERR, false)
        else if is_chunk ∧ is_end_chunk then (db2, K.CUBESQL_NOERR, is_end_chunk)
        else if db2.toread = 0 then (db2, K.CUBESQL_NOERR, is_end_chunk)
        else
          match csql_checkinbuffer K db2 with
          | (db3, r3) =>
            if r3 ≠ K.CUBESQL_NOERR then (db3, K.CUBESQL_ERR, is_end_chunk)
            else
              match csql_socketread K db3 with
              | (db4, r4) =>
                if r4 ≠ K.CUBESQL_NOERR then (db4, K.CUBESQL_ERR, is_end_chunk)
                else
                  -- check if packet is encrypted
                  let plain := decrypt_buffer D (db4.inbuffer.getD []) db4.toread.toNat
                  let db5 := if db4.reply.encryptedPacket ≠ K.CUBESQL_ENCRYPTION_NONE
                    then { db4 with inbuffer := some plain } else db4
                  -- check if packet is compressed
                  if db5.reply.flag1.compressed_packet then
                    match inflate (peek (db5.inbuffer.getD []) 0 db5.toread.toNat)
                        db5.reply.expandedSize.toNat with
                    | none => (csql_seterror K db5 K.CUBESQL_ZLIB_ERROR
                        (cstr "An error occurred while trying to uncompress received cursor"),
                        K.CUBESQL_ERR, is_end_chunk)
                    | some buffer =>
                      ({ db5 with inbuffer := some buffer, insize := db5.reply.expandedSize },
                        K.CUBESQL_NOERR, is_end_chunk)
                  else (db5, K.CUBESQL_NOERR, is_end_chunk)

/-! ## Building and writing a request -/

/-- The function `csql_initrequest` (lines 2136-2160); `kEMPTY_FIELD` is 0, as
after `bzero`. -/
def csql_initrequest (K : SdkConsts) (db : Db) (packetsize nfields command selector : Int) :
    Db :=
  { db with request :=
    { signature := K.PROTOCOL_SIGNATURE
      packetSize := if packetsize ≠ 0 ∧ db.encryption ≠ K.CUBESQL_ENCRYPTION_NONE
        then packetsize + BLOCK_LEN else packetsize
      command := command
      selector := selector
      flag1 := { support_compression := true }
      flag2 := 0
      flag3 := 0
      encryptedPacket := db.encryption
      numFields := nfields
      expandedSize := 0
      timeout := db.timeout
      oldProtocol := db.useOldProtocol } }

/-- The function `csql_rand_fill`: the next random pool of `kRANDPOOLSIZE` bytes. -/
def csql_rand_fill (K : SdkConsts) (db : Db) : Db × Bytes :=
  match db.pools with
  | [] => (db, List.replicate K.kRANDPOOLSIZE 0)
  | p :: rest => ({ db with pools := rest }, p)

/-- The function `csql_netwrite` (lines 1802-1842).  `E` is `csql_aes_encrypt`
under the session key; a pointer argument is `none` when it is `NULL`. -/
def csql_netwrite (K : SdkConsts) (E : Bytes → Bytes) (db : Db)
    (size_array : Option Bytes) (nsize_array : Int) (buffer : Option Bytes) (nbuffer : Int) :
    Db × Int :=
  -- send header request
  let db1 := csql_socketwrite_header db
  -- send size array
  let db2 := match size_array with
    | some a => csql_socketwrite db1 a nsize_array
    | none => db1
  -- send buffer as is if it's a not encrypted channel
  if db2.encryption = K.CUBESQL_ENCRYPTION_NONE then
    match buffer with
    | some b => (csql_socketwrite db2 b nbuffer, K.CUBESQL_NOERR)
    | none => (db2, K.CUBESQL_NOERR)
  else
    match buffer with
    | none => (db2, K.CUBESQL_NOERR)
    | some b =>
      -- csql_rand_fill (rand1); encbuffer = malloc (nbuffer+1); memcpy (encbuffer, buffer, nbuffer);
      let db3 := (csql_rand_fill K db2).1
      let rand1 := (csql_rand_fill K db2).2
      let encbuffer := peek b 0 nbuffer.toNat ++ [0]
      -- encrypt_buffer (encbuffer, nbuffer, rand1, db->encryptkey);
      let enc := encrypt_buffer E encbuffer nbuffer.toNat rand1
      -- send random pool (rand1 after the call), send encrypted buffer
      let db4 := csql_socketwrite db3 enc.2.1 BLOCK_LEN
      (csql_socketwrite db4 enc.1 nbuffer, K.CUBESQL_NOERR)

/-- The function `csql_send_statement` (lines 1280-1300); `sql` is the memory at
the pointer, a NUL-terminated string; `sizeof (int)` is 4. -/
def csql_send_statement (K : SdkConsts) (E : Bytes → Bytes) (db : Db) (command_type : Int)
    (sql : Bytes) ( is_partial server_side : Bool) : Db × Int :=
  let nfields : Int := 1
  let nsizedim : Int := 4 * nfields
  let datasize : Int := strlen sql + 1
  -- build packet
  let packet_size := datasize + nsizedim
  let db1 := csql_initrequest K db packet_size nfields command_type K.kNO_SELECTOR
  let field_size := enc32 datasize
  let db2 :=
    if command_type = K.kCOMMAND_SELECT then
      if server_side then
        { db1 with request := { db1.request with
            flag1 := { db1.request.flag1 with server_side := true } } }
      else db1
    else if is_partial then
      { db1 with request := { db1.request with
          flag1 := { db1.request.flag1 with partial_packet := true } } }
    else db1
  csql_netwrite K E db2 (some field_size) nsizedim (some sql) datasize

/-- The function `csql_bind_value` (lines 1209-1240) up to the request it
sends; the reply is read by `csql_netread` afterwards.  `value` is `none` for
a `NULL` pointer; `htons`/`htonl` leave the host value in the model. -/
def csql_bind_value_send (K : SdkConsts) (E : Bytes → Bytes) (db : Db) (index bindtype : Int)
    (value : Option Bytes) (len : Int) : Db × Int :=
  if bindtype = K.CUBESQL_BIND_NULL ∨ bindtype = K.CUBESQL_BIND_ZEROBLOB then
    -- value = NULL; nfields = nsizedim = packet_size = datasize = 0
    let db1 := csql_initrequest K db 0 0 K.kVM_BIND K.kNO_SELECTOR
    let req := { db1.request with flag3 := bindtype % 256, reserved1 := index }
    let db2 := { db1 with request := req }
    let db3 := if bindtype = K.CUBESQL_BIND_ZEROBLOB
      then { db2 with request := { db2.request with expandedSize := len } } else db2
    -- the array field_size is passed with nsizedim = 0, the buffer is NULL
    csql_netwrite K E db3 (some [0, 0, 0, 0]) 0 none 0
  else
    -- if (!value) {value = ""; len = 0;}
    let value1 : Bytes := match value with
      | some v => v
      | none => [0]
    let len1 : Int := match value with
      | some _ => len
      | none => 0
    -- if (len == -1) len = strlen (value);
    let len2 : Int := if len1 = -1 then strlen value1 else len1
    let nfields : Int := 1
    let nsizedim : Int := 4 * nfields
    let datasize := len2
    let packet_size := datasize + nsizedim
    let field_size := enc32 datasize
    let db1 := csql_initrequest K db packet_size nfields K.kVM_BIND K.kNO_SELECTOR
    let req := { db1.request with flag3 := bindtype % 256, reserved1 := index }
    let db2 := { db1 with request := req }
    csql_netwrite K E db2 (some field_size) nsizedim (some value1) datasize

/-- The function `cubesql_execute` (lines 93-105); the trace callback is left
out. -/
def cubesql_execute (K : SdkConsts) (E D : Bytes → Bytes) (inflate : Bytes → Nat → Option Bytes)
    (db : Db) (sql : Bytes) : Db × Int :=
  -- clear errors first
  let db0 := cubesql_clear_errors K db
  -- send sql statement
  match csql_send_statement K E db0 K.kCOMMAND_EXECUTE sql false false with
  | (db1, r) =>
    if r ≠ K.CUBESQL_NOERR then (db1, K.CUBESQL_ERR)
    else
      -- read replay
      match csql_netread K D inflate db1 (-1) (-1) false with
      | (db2, r2, _) => (db2, r2)

/-- The function `csql_ack` (lines 1893-1912). -/
def csql_ack (K : SdkConsts) (E D : Bytes → Bytes) (inflate : Bytes → Nat → Option Bytes)
    (db : Db) (chunk_code : Int) : Db × Int :=
  if chunk_code = K.kCOMMAND_ENDCHUNK then
    let db1 := csql_initrequest K db 0 0 K.kCOMMAND_ENDCHUNK K.kNO_SELECTOR
    match csql_netread K D inflate (csql_netwrite K E db1 none 0 none 0).1 (-1) (-1) false with
    | (db2, r, _) => (db2, r)
  else if chunk_code = K.kBIND_FINALIZE ∨ chunk_code = K.kBIND_ABORT then
    let db1 := csql_initrequest K db 0 0 K.kCOMMAND_CHUNK_BIND chunk_code
    match csql_netread K D inflate (csql_netwrite K E db1 none 0 none 0).1 (-1) (-1) false with
    | (db2, r, _) => (db2, r)
  else
    -- other cases
    let db1 := csql_initrequest K db 0 0 K.kCOMMAND_CHUNK chunk_code
    csql_netwrite K E db1 none 0 none 0

/-! ## The cursor -/

/-- The cursor (`csqlc`).  A pointer into a reply buffer is modelled by the
memory that starts at it: `data` is the memory at `c->data`, `size` the `int`
array at `c->size`.  `psum` and the arrays `rowsum[i]` are separate `int`
arrays.  The chunk registry (`buffer`, `rowsum`, `rowcount`) is modelled by
lists of `nbuffer` entries.  For a custom cursor the field `buffer` is an array
of cell pointers: `cells`.  `freed` is not a field of the struct: it records
that `free (c)` has released the struct (`cubesql_cursor_free`), after which the
pointer that the caller holds is dangling and the other fields are what the
memory held before. -/
structure Cursor where
  server_side : Bool := false
  has_rowid : Bool := false
  eof : Bool := false
  nrows : Int := 0
  ncols : Int := 0
  current_row : Int := 0
  cursor_id : Int := 0
  index : Int := 0
  types : List Int := []
  names : Bytes := []
  tables : Option Bytes := none
  size : List Int := []
  psum : List Int := []
  data : Bytes := []
  data0 : Bytes := []
  size0 : List Int := []
  p0 : Bytes := []
  data_seek : Int := 0
  nbuffer : Nat := 0
  nalloc : Int := 0
  current_buffer : Nat := 0
  buffer : List Bytes := []
  rowsum : List (List Int) := []
  rowcount : List Int := []
  cells : List Bytes := []
  freed : Bool := false
  deriving DecidableEq

/-- The function `csql_cursor_alloc` (lines 2162-2175): `bzero`, then
`current_row = 1`. -/
def csql_cursor_alloc : Cursor := { current_row := 1 }

/-- One iteration of the loop that fills `server_sum` (lines 1406-1416). -/
def sum_step (server_sizes server_sum : List Int) (i : Nat) : List Int :=
  if server_sizes.getD i 0 = -1 then
    -- special NULL case
    if i = 0 then server_sum.set i 0
    else server_sum.set i (server_sum.getD (i - 1) 0)
  else
    if i = 0 then server_sum.set i (server_sizes.getD i 0)
    else server_sum.set i (server_sizes.getD i 0 + server_sum.getD (i - 1) 0)

/-- The loop `for (i = 0; i < count; i++)` that fills `server_sum`, from the
array `server_sum` as allocated. -/
def sum_loop (server_sizes server_sum : List Int) (count : Nat) : List Int :=
  (List.range count).foldl (sum_step server_sizes) server_sum

/-- The function `csql_cursor_reallocate` (lines 2177-2218): the registry gets
room for `kNUMBUFFER` more chunks (`malloc` and `realloc` succeed). -/
def csql_cursor_reallocate (K : SdkConsts) (c : Cursor) : Cursor :=
  { c with nalloc := c.nalloc + K.kNUMBUFFER }

/-- The body of the loop of `csql_read_cursor` for a reply that is not an end
of chunk (lines 1337-1468): the cursor and `is_partial` after it. -/
def read_cursor_frame (K : SdkConsts) (db : Db) (c : Cursor) (index : Int) ( is_partial : Bool) :
    Cursor × Bool :=
  -- decode reply
  let has_tables := db.reply.flag1.has_table_name
  let is_partial1 := is_partial || db.reply.flag1.partial_packet
  let has_rowid := db.reply.flag1.has_rowid_column
  let c1 := if db.reply.flag1.server_side then { c with server_side := true } else c
  let is_partial2 := if c1.server_side then false else is_partial1
  let server_rowcount := db.reply.rows
  let server_colcount := db.reply.cols
  let cursor_colcount := if has_rowid then server_colcount - 1 else server_colcount
  let nrows := server_rowcount
  let ncols := cursor_colcount
  let count := server_colcount * server_rowcount
  -- adjust pointers
  let buffer := db.inbuffer.getD []
  let server_sum0 : List Int :=
    if !c1.server_side || c1.psum.isEmpty then List.replicate count.toNat 0 else c1.psum
  -- set buffers
  let sizes_at : Bytes := if index = 0 then buffer.drop (4 * server_colcount).toNat else buffer
  let server_names : Bytes := sizes_at.drop (server_rowcount * server_colcount * 4).toNat
  let names_len := skipStrings server_names server_colcount.toNat
  let server_tables : Option Bytes :=
    if index = 0 ∧ has_tables then some (server_names.drop names_len) else none
  let data_seek : Nat :=
    if index = 0 then
      names_len + (if has_tables
        then skipStrings (server_names.drop names_len) server_colcount.toNat else 0)
    else 0
  let server_data := server_names.drop data_seek
  let server_sizes := intsOf sizes_at
  -- adjust endianess of the size buffer and compute the sum buffer
  let server_sum := sum_loop server_sizes server_sum0 count.toNat
  let c2 := if is_partial2 ∧ (c1.nbuffer : Int) ≥ c1.nalloc
    then csql_cursor_reallocate K c1 else c1
  -- adjust others counters/pointers
  let c3 := if index = 0 then
      { c2 with types := intsOf buffer, size := server_sizes, names := server_names,
                tables := server_tables, data := server_data, psum := server_sum,
                data0 := server_data, size0 := server_sizes, data_seek := data_seek,
                p0 := if c2.server_side then buffer else c2.p0 }
    else c2
  -- adjust pointers for server side cursors
  let c4 := if c3.server_side ∧ index > 0 then
      { c3 with index := c3.index + 1, types := intsOf c3.p0,
                names := c3.p0.drop (4 * server_colcount).toNat, size := server_sizes,
                data := server_data, psum := server_sum, data0 := server_data,
                size0 := server_sizes }
    else c3
  let c5 := { c4 with has_rowid := has_rowid, nrows := c4.nrows + nrows, ncols := ncols }
  let c6 := if !is_partial2 then { c5 with psum := server_sum }
    else { c5 with buffer := c5.buffer ++ [buffer], rowsum := c5.rowsum ++ [server_sum],
                   rowcount := c5.rowcount ++ [c5.nrows], nbuffer := c5.nbuffer + 1 }
  (c6, is_partial2)

/-- The function `csql_cursor_close` (lines 2233-2241), for the connection `db`
of the cursor: the connection and the value returned. -/
def csql_cursor_close (K : SdkConsts) (D : Bytes → Bytes)
    (inflate : Bytes → Nat → Option Bytes) (db : Db) : Db × Int :=
  -- prepare header request
  let db1 := csql_initrequest K db 0 0 K.kCOMMAND_CURSOR_CLOSE K.kNO_SELECTOR
  -- send header request
  let db2 := csql_socketwrite_header db1
  match csql_netread K D inflate db2 (-1) (-1) false with
  | (db3, r, _) => (db3, r)

/-- The function `cubesql_cursor_free` (lines 510-550) for a cursor that is not
`NULL`, for the connection `db` of the cursor: a server-side cursor is closed on
the server first, then the buffers and the struct are released. -/
def cubesql_cursor_free (K : SdkConsts) (D : Bytes → Bytes)
    (inflate : Bytes → Nat → Option Bytes) (db : Db) (c : Cursor) : Db × Cursor :=
  -- close the cursor on server side also
  let db1 := if c.server_side then (csql_cursor_close K D inflate db).1 else db
  -- free (c)
  (db1, { c with freed := true })

/-- The loop of `csql_read_cursor` (lines 1327-1483); `existing` says whether
`existing_c` is not `NULL`, and the argument after it bounds the number of
replies read.  The result is `none` when the function returns `NULL`: at the
label `abort` a cursor that the caller passed in is handed to
`cubesql_cursor_free`. -/
def read_cursor_loop (K : SdkConsts) (E D : Bytes → Bytes)
    (inflate : Bytes → Nat → Option Bytes) (existing : Bool) :
    Nat → Db → Cursor → Int → Bool → Db × Option Cursor
  | 0, db, _, _, _ => (db, none)
  | fuel + 1, db, c, index, is_partial =>
    match csql_netread K D inflate db (-1) (-1) false with
    | (db1, r, end_chuck) =>
      if r ≠ K.CUBESQL_NOERR then
        -- abort: if ((c) && (existing_c != NULL)) cubesql_cursor_free (c);
        if existing then ((cubesql_cursor_free K D inflate db1 c).1, none) else (db1, none)
      else if end_chuck then
        (db1, some (if c.server_side then { c with eof := true } else c))
      else
        match read_cursor_frame K db1 c index is_partial with
        | (c1, is_partial1) =>
          -- reset inbuffer
          let db2 := { db1 with inbuffer := none, insize := 0 }
          -- send ACK only in case of chunk cursor
          if is_partial1 ∧ ¬ c1.server_side then
            read_cursor_loop K E D inflate existing fuel
              (csql_ack K E D inflate db2 K.kCHUNK_OK).1 c1 (index + 1) is_partial1
          else (db2, some c1)

/-- The function `csql_read_cursor` (lines 1302-1484); `existing_c` is `none`
for `NULL`.  When it returns `NULL` for a cursor that was passed in, that cursor
has been released. -/
def csql_read_cursor (K : SdkConsts) (E D : Bytes → Bytes)
    (inflate : Bytes → Nat → Option Bytes) (db : Db) (existing_c : Option Cursor) :
    Db × Option Cursor :=
  match existing_c with
  | none => read_cursor_loop K E D inflate false (db.rx.length + 1) db csql_cursor_alloc 0 false
  | some c => read_cursor_loop K E D inflate true (db.rx.length + 1) db c 1 false

/-- The function `csql_cursor_step` (lines 2220-2231), for the connection `db`
of the cursor.  When `csql_read_cursor` returns `NULL` it has released the
cursor (`cubesql_cursor_free` at its label `abort`): the cursor of the caller
is then the released one. -/
def csql_cursor_step (K : SdkConsts) (E D : Bytes → Bytes)
    (inflate : Bytes → Nat → Option Bytes) (db : Db) (c : Cursor) : Db × Cursor × Int :=
  let db1 := csql_initrequest K db 0 0 K.kCOMMAND_CURSOR_STEP K.kNO_SELECTOR
  let db2 := csql_socketwrite_header db1
  match csql_read_cursor K E D inflate db2 (some c) with
  | (db3, none) => (db3, { c with freed := true }, K.CUBESQL_ERR)
  | (db3, some c1) => (db3, c1, K.CUBESQL_NOERR)

/-- The row that `cubesql_cursor_seek` resolves `index` to for a client-side
cursor (lines 269-272). -/
def seek_index (K : SdkConsts) (c : Cursor) (index : Int) : Int :=
  if index = K.CUBESQL_SEEKNEXT then c.current_row + 1
  else if index = K.CUBESQL_SEEKFIRST then 1
  else if index = K.CUBESQL_SEEKPREV then c.current_row - 1
  else if index = K.CUBESQL_SEEKLAST then c.nrows
  else index

/-- The function `cubesql_cursor_seek` (lines 262-280), for the connection `db`
of the cursor: the connection, the cursor and the value returned. -/
def cubesql_cursor_seek (K : SdkConsts) (E D : Bytes → Bytes)
    (inflate : Bytes → Nat → Option Bytes) (db : Db) (c : Cursor) (index : Int) :
    Db × Cursor × Bool :=
  if c.server_side then
    if index ≠ K.CUBESQL_SEEKNEXT then (db, c, false)
    else if c.eof then (db, c, false)
    else
      match csql_cursor_step K E D inflate db c with
      | (db1, c1, r) => (db1, c1, decide (r = K.CUBESQL_NOERR))
  else
    let index1 := seek_index K c index
    if c.nrows ≠ -1 ∧ index1 > c.nrows then (db, { c with eof := true }, false)
    else if index1 < 0 then (db, c, false)
    else (db, { c with eof := decide (index1 = c.nrows + 1), current_row := index1 }, true)

/-- The search for the chunk of `row` in `cubesql_cursor_field` (lines
364-396): `(nindex, v1, v2)` at the label `found_buffer`, or `none` when the
function returns `NULL` after the linear search. -/
def find_buffer (c : Cursor) (row : Int) : Option (Nat × Int × Int) :=
  -- search in current buffer first
  let v1 : Int := if c.current_buffer = 0 then 0 else geti c.rowcount (c.current_buffer - 1)
  let v2 : Int := geti c.rowcount c.current_buffer
  if row ≥ v1 ∧ row ≤ v2 then some (c.current_buffer, v1, v2)
  else
    -- then search in the next buffer
    let w1 : Int := geti c.rowcount c.current_buffer
    let w2 : Int := if (c.current_buffer : Int) = (c.nbuffer : Int) - 1
      then geti c.rowcount c.current_buffer else geti c.rowcount (c.current_buffer + 1)
    if row ≥ w1 ∧ row ≤ w2 then some (c.current_buffer + 1, w1, w2)
    else
      -- otherwise perform a linear search
      (List.range c.nbuffer).findSome? fun (i : Nat) =>
        let u1 : Int := if i = 0 then 0 else geti c.rowcount (Int.ofNat i - 1)
        let u2 : Int := geti c.rowcount (Int.ofNat i)
        if row ≥ u1 ∧ row ≤ u2 then some (i, u1, u2) else none

/-- The end of `cubesql_cursor_field` (lines 418-429): the index inside the
current chunk, the pointer returned (the memory at it) and `*len`. -/
def field_at (K : SdkConsts) (c : Cursor) (row column : Int) : Option Bytes × Int :=
  let n0 : Int := if c.has_rowid ∧ column ≠ K.CUBESQL_ROWID
    then (row - 1) * (c.ncols + 1) + column
    else (row - 1) * c.ncols + (column - 1)
  let n : Int := if n0 < 0 then 0 else n0
  let result : Bytes := if n > 0 then c.data.drop (geti c.psum (n - 1)).toNat else c.data
  -- special NULL value case
  if geti c.size n = -1 then (none, geti c.size n) else (some result, geti c.size n)

/-- The function `cubesql_cursor_field (c, row, column, &len)` (lines 312-430):
the cursor (the function moves `current_buffer`, `psum`, `data` and `size`), the
pointer returned (`none` for `NULL`, otherwise the memory at the pointer) and
`*len`. -/
def cubesql_cursor_field (K : SdkConsts) (c : Cursor) (row column : Int) :
    Cursor × Option Bytes × Int :=
  -- if (len) *len = 0;
  if column ≠ K.CUBESQL_ROWID ∧ (column ≤ 0 ∨ column > c.ncols) then (c, none, 0)
  else if row > c.nrows then (c, none, 0)
  else if row < -2 then (c, none, 0)
  else
    -- row CUBESQL_CURROW means current row
    let row1 := if row = K.CUBESQL_CURROW then c.current_row else row
    if row1 = K.CUBESQL_COLNAME then
      -- row CUBESQL_COLNAME means to get column names
      let r0 := c.names
      let r1 := if c.has_rowid then r0.drop (strlen r0 + 1) else r0
      let r2 := r1.drop (skipStrings r1 (column - 1).toNat)
      (c, some r2, strlen r2)
    else if row1 = K.CUBESQL_COLTABLE then
      -- row CUBESQL_COLTABLE means get table name
      match c.tables with
      | none => (c, none, -1)
      | some r0 =>
        let r1 := if c.has_rowid then r0.drop (strlen r0 + 1) else r0
        let r2 := r1.drop (skipStrings r1 (column - 1).toNat)
        (c, some r2, strlen r2)
    else if column = K.CUBESQL_ROWID ∧ c.has_rowid = false then (c, none, 0)
    else
      let column1 := if column = K.CUBESQL_ROWID then 0 else column
      -- I think I can avoid a lot of crashes with with trick
      if c.nrows = 0 then (c, none, 0)
      -- check for special custom created cursor
      else if c.cursor_id = -1 then
        let n := (row1 - 1) * c.ncols + (column1 - 1)
        (c, some (if n < 0 then [] else c.cells.getD n.toNat []), geti c.size0 n)
      -- first find out the right index buffer
      else if c.nbuffer ≠ 0 then
        match find_buffer c row1 with
        | none => (c, none, 0)
        | some (nindex, v1, v2) =>
          -- found_buffer: row = row - v1;
          let row2 := row1 - v1
          let c1 :=
            if c.current_buffer ≠ nindex then
              let cnum := if c.has_rowid then c.ncols + 1 else c.ncols
              let rnum := v2 - v1
              if nindex = 0 then
                { c with current_buffer := nindex, psum := c.rowsum.getD nindex [],
                         data := c.data0, size := c.size0 }
              else
                { c with current_buffer := nindex, psum := c.rowsum.getD nindex [],
                         size := intsOf (c.buffer.getD nindex []),
                         data := (c.buffer.getD nindex []).drop (rnum * cnum * 4).toNat }
            else c
          (c1, (field_at K c1 row2 column1).1, (field_at K c1 row2 column1).2)
      else (c, (field_at K c row1 column1).1, (field_at K c row1 column1).2)

/-- The function `cubesql_cursor_create` (lines 695-758) on its success path
(`malloc` succeeds, `types` and `names` are not `NULL`); `none` is `NULL`.
`names` is the packed copy of the column names.  The arrays `buffer` (here
`cells`) and `size0` have `ncols * nalloc` entries; what `malloc` leaves in them
is modelled as empty cells and zeros. -/
def cubesql_cursor_create (K : SdkConsts) (nrows ncolumns : Int) (types : List Int)
    (names : List Bytes) : Option Cursor :=
  -- simple sanity check
  if nrows < 0 ∨ ncolumns ≤ 0 then none
  else
    let nalloc := if nrows > 0 then nrows else K.kDEFAULT_ALLOC_ROWS
    some { csql_cursor_alloc with
      server_side := false
      has_rowid := false
      ncols := ncolumns
      nrows := 0
      current_row := -1
      cursor_id := -1
      names := ((names.take ncolumns.toNat).map fun s => List.take (strlen s) s ++ [0]).flatten
      types := types.take ncolumns.toNat
      nalloc := nalloc
      cells := List.replicate (ncolumns * nalloc).toNat []
      size0 := List.replicate (ncolumns * nalloc).toNat 0 }

/-- The cell that one iteration of the loop of `cubesql_cursor_addrow` stores
for the value `v` (`none` for `NULL`) and the size `l`: `malloc (rlen)` and,
when `v` is not `NULL` and `rlen` is not 0, `memcpy (cell, v, rlen)`.  Fresh
memory that is not written is modelled as zeros. -/
def addrow_cell (v : Option Bytes) (l : Int) : Bytes :=
  let rlen : Int := if l < 0 then 0 else l
  match v with
  | some m => if rlen ≠ 0 then peek m 0 rlen.toNat else []
  | none => List.replicate rlen.toNat 0

/-- One iteration of the loop of `cubesql_cursor_addrow` (lines 782-790), for
`j` and `i = index + j`.  A store outside the arrays (undefined in C) is
dropped. -/
def addrow_step (row : List (Option Bytes)) (len : List Int) (index : Int) (c : Cursor)
    (j : Nat) : Cursor :=
  { c with cells := c.cells.set (index + j).toNat (addrow_cell (row.getD j none) (len.getD j 0)),
           size0 := c.size0.set (index + j).toNat (len.getD j 0) }

/-- The function `cubesql_cursor_addrow (cursor, row, len)` (lines 760-796):
the cursor and the value returned.  In a custom cursor `cursor->data` and
`cursor->size` are `NULL` (`csql_cursor_alloc` zeroes the struct and nothing
sets them), so the two calls `realloc (cursor->data, ...)` and
`realloc (cursor->size, ...)` allocate fresh arrays; `malloc` and `realloc`
succeed. -/
def cubesql_cursor_addrow (K : SdkConsts) (cursor : Cursor) (row : List (Option Bytes))
    (len : List Int) : Cursor × Bool :=
  -- row can be added to a custom created cursor only
  if cursor.cursor_id ≠ -1 then (cursor, false)
  else
    -- check if there is enough space for the new row
    let index := cursor.nrows * cursor.ncols
    let newsize := cursor.nalloc + K.kDEFAULT_ALLOC_ROWS * 2
    let grown : Cursor := { cursor with cells := List.replicate (cursor.ncols * newsize).toNat [], size0 := List.replicate (cursor.ncols * newsize).toNat 0, nalloc := newsize }
    let c1 := if cursor.nalloc < index + cursor.ncols then grown else cursor
    -- append new row to the cursor
    let c2 := (List.range cursor.ncols.toNat).foldl (addrow_step row len index) c1
    -- cursor->nrows++; if (cursor->current_row == -1) cursor->current_row = 1;
    let c3 := { c2 with nrows := c2.nrows + 1 }
    (if c3.current_row = -1 then { c3 with current_row := 1 } else c3, true)

/-! ## The session key -/

/-- The function `generate_session_key` (lines 2500-2554): the value returned
(`keyLen`) and the 32 bytes of `session_key` that are handed to the key
schedules.  `H` is `csql_sha1` (`hash_field` with `times = 1`). -/
def generate_session_key (K : SdkConsts) (H : Bytes → Bytes) (encryption : Int)
    (password rand1 rand2 : Bytes) : Nat × Bytes :=
  -- dummy1 is H(H(P));X;Y
  let dummy1 := peek password 0 20 ++ peek rand1 0 K.kRANDPOOLSIZE
    ++ peek rand2 0 K.kRANDPOOLSIZE
  -- s1 is H(H(H(P));X;Y)
  let s1 := H dummy1
  -- dummy2 is X^Y
  let dummy2 := xorb (peek rand1 0 K.kRANDPOOLSIZE) (peek rand2 0 K.kRANDPOOLSIZE)
  -- s2 is H(X^Y)
  let s2 := H dummy2
  -- bzero (session_key, 32);
  let session_key := List.replicate 32 0
  if encryption = K.CUBESQL_ENCRYPTION_NONE then (0, session_key)
  else if encryption = K.CUBESQL_ENCRYPTION_AES128 then
    (16, poke session_key 0 (peek s1 0 16))
  else if encryption = K.CUBESQL_ENCRYPTION_AES192 then
    (24, poke (poke session_key 0 (peek s1 0 20)) 0 (peek s2 0 4))
  else if encryption = K.CUBESQL_ENCRYPTION_AES256 then
    (32, poke (poke session_key 0 (peek s1 0 20)) 0 (peek s2 0 12))
  else (0, session_key)

/-! ## Reference CBC chaining (used to state what the loops compute) -/

/-- CBC over a list of plaintext blocks: `C_i = E (P_i xor C_(i-1))`, starting
from the block `prev`. -/
def cbcBlocks (E : Bytes → Bytes) (prev : Bytes) : List Bytes → List Bytes
  | [] => []
  | p :: ps => E (xorb p prev) :: cbcBlocks E (E (xorb p prev)) ps

/-- The last block of `prev :: cs`. -/
def lastBlock (prev : Bytes) : List Bytes → Bytes
  | [] => prev
  | c :: cs => lastBlock c cs

/-- The ciphertext-stealing end of the reference ciphertext: for the last full
cipher block `cl` and the plaintext tail `t` (shorter than a block), the block
`E ((t xor cl[0..r)) ‖ cl[r..16))` followed by the `r` stolen bytes `cl[0..r)`. -/
def stealTail (E : Bytes → Bytes) (cl t : Bytes) : Bytes :=
  E (xorb t (peek cl 0 t.length) ++ peek cl t.length (16 - t.length)) ++ peek cl 0 t.length

/-! ## More functions of the SDK -/

/-- The function `cubesql_select` (lines 107-121); the trace callback is left
out.  The function does not use `is_serverside` ("serverside is disabled in
this version"). -/
def cubesql_select (K : SdkConsts) (E D : Bytes → Bytes) (inflate : Bytes → Nat → Option Bytes)
    (db : Db) (sql : Bytes) (_is_serverside : Bool) : Db × Option Cursor :=
  -- clear errors first
  let db0 := cubesql_clear_errors K db
  -- send sql statement
  match csql_send_statement K E db0 K.kCOMMAND_SELECT sql false false with
  | (db1, r) =>
    if r ≠ K.CUBESQL_NOERR then (db1, none)
    -- read the cursor
    else csql_read_cursor K E D inflate db1 none

/-- The function `csql_bind_value` (lines 1209-1240): the request, then the
reply read by `csql_netread`. -/
def csql_bind_value (K : SdkConsts) (E D : Bytes → Bytes) (inflate : Bytes → Nat → Option Bytes)
    (db : Db) (index bindtype : Int) (value : Option Bytes) (len : Int) : Db × Int :=
  -- send request (the value of csql_netwrite is not looked at)
  let db1 := (csql_bind_value_send K E db index bindtype value len).1
  -- read reply
  match csql_netread K D inflate db1 (-1) (-1) false with
  | (db2, r, _) => (db2, r)

/-- The function `cubesql_vmbind_null` (lines 602-604), for the connection
`vm->db`. -/
def cubesql_vmbind_null (K : SdkConsts) (E D : Bytes → Bytes)
    (inflate : Bytes → Nat → Option Bytes) (db : Db) (index : Int) : Db × Int :=
  csql_bind_value K E D inflate db index K.CUBESQL_BIND_NULL none 0

/-- The function `cubesql_vmclose` (lines 647-658) for a `vm` that is not
`NULL`, on the connection `vm->db`. -/
def cubesql_vmclose (K : SdkConsts) (E D : Bytes → Bytes) (inflate : Bytes → Nat → Option Bytes)
    (db : Db) : Db × Int :=
  let db1 := csql_initrequest K db 0 0 K.kVM_CLOSE K.kNO_SELECTOR
  let db2 := (csql_netwrite K E db1 none 0 none 0).1
  let db3 := (csql_netread K D inflate db2 (-1) (-1) false).1
  (db3, K.CUBESQL_NOERR)

/-- The function `cubesql_changes` (lines 145-160) up to the cursor it reads;
the value it returns is then taken from cell (1, 1) of the cursor by
`cubesql_cursor_int64` (0 when there is no cursor). -/
def cubesql_changes (K : SdkConsts) (E D : Bytes → Bytes) (inflate : Bytes → Nat → Option Bytes)
    (db : Db) : Db × Option Cursor :=
  -- send sql statement
  match csql_send_statement K E db K.kCOMMAND_SELECT (cstr "SELECT changes();") false false with
  | (db1, r) =>
    if r ≠ K.CUBESQL_NOERR then (db1, none)
    -- read the cursor
    else csql_read_cursor K E D inflate db1 none

/-- The function `csql_sendchunk` (lines 1844-1882).  `deflate b` is what
`compress2` makes of the bytes `b` (`none` when it fails, or when the buffer for
it cannot be allocated); `buffer` is the memory at the pointer. -/
def csql_sendchunk (K : SdkConsts) (E : Bytes → Bytes) (deflate : Bytes → Option Bytes)
    (db : Db) (buffer : Bytes) (bufferlen buffertype : Int) (is_bind : Bool) : Db × Int :=
  -- try to compress buffer, in case of error just use the uncompressed one
  let z := deflate (peek buffer 0 bufferlen.toNat)
  let b : Bytes := z.getD buffer
  let bsize : Int := match z with
    | some d => d.length
    | none => bufferlen
  -- build packet, the chunk command never sends the field_size
  let dbb := csql_initrequest K db bsize 1 K.kCOMMAND_CHUNK_BIND K.kBIND_STEP
  let reqb := { dbb.request with flag3 := buffertype % 256 }
  let db1 := if is_bind then { dbb with request := reqb }
    else csql_initrequest K db bsize 1 K.kCOMMAND_CHUNK K.kNO_SELECTOR
  let f1 := { db1.request.flag1 with partial_packet := true }
  let f2 := if z.isSome then { f1 with compressed_packet := true } else f1
  let req := { db1.request with flag1 := f2, expandedSize := if z.isSome then bufferlen else db1.request.expandedSize }
  csql_netwrite K E { db1 with request := req } none 0 (some b) bsize

/-- The two characters that `snprintf` writes for `%02x` and a byte. -/
def hexByte (b : Nat) : Bytes :=
  let digit := fun (d : Nat) => if d < 10 then 48 + d else 87 + d
  [digit (b / 16 % 16), digit (b % 16)]

/-- The function `hex_hash_field2 (result, field, randpoll)` (lines 2289-2317):
the array `result` afterwards.  `H` is `csql_sha1`. -/
def hex_hash_field2 (H : Bytes → Bytes) (result field randpoll : Bytes) : Bytes :=
  if strlen field > 256 then result
  else
    -- hexify randpool
    let randhex := ((peek randpoll 0 16).map hexByte).flatten
    -- concat two fields, compute hash
    let hval := H (peek field 0 (strlen field) ++ randhex)
    -- convert result
    poke result 0 (((peek hval 0 20).map hexByte).flatten ++ [0])

/-- The function `csql_connect_encrypted` (lines 1486-1647): the connection and
the value returned.  `H` is `csql_sha1`, `aes_enc k` and `aes_dec k` are
`csql_aes_encrypt` and `csql_aes_decrypt` under the key `k`, `D0` is
`csql_aes_decrypt` under `db->decryptkey` as it is on entry.  The socket accepts
what is written; the local array `hash` starts as zeros; the key schedules that
`generate_session_key` leaves in `db->encryptkey` and `db->decryptkey` are used
here and not kept in the model of the connection. -/
def csql_connect_encrypted (K : SdkConsts) (H : Bytes → Bytes)
    (aes_enc aes_dec : Bytes → Bytes → Bytes) (D0 : Bytes → Bytes)
    (inflate : Bytes → Nat → Option Bytes) (db : Db) : Db × Int :=
  let encryption := db.encryption
  -- reset encryption because session key hasn't yet been computed
  let db0 := { db with encryption := K.CUBESQL_ENCRYPTION_NONE }
  -- check if its a token connect
  let is_token := db.token.isSome
  -- Generate the 20-byte random number X
  let db1 := (csql_rand_fill K db0).1
  let rand1 := (csql_rand_fill K db0).2
  -- Compute H(X), H(H(P))
  let hash1 := H (peek rand1 0 K.kRANDPOOLSIZE)
  let hash2 := H (peek (H (peek db.password 0 (strlen db.password))) 0 20)
  -- Prepare X;H(X)
  let buffer1 := peek rand1 0 K.kRANDPOOLSIZE ++ peek hash1 0 20
  -- Generate AESCBC(X;H(X),H(H(P)))
  let db2 := (csql_rand_fill K db1).1
  let rand2 := (csql_rand_fill K db1).2
  let enc := encrypt_buffer (aes_enc (peek hash2 0 16)) buffer1 (20 + K.kRANDPOOLSIZE) rand2
  let len : Int := enc.2.2
  -- build packet
  let nsizedim : Int := 4 * 2
  let hash := hex_hash_field2 H (List.replicate 42 0) db.username enc.2.1
  let p := if db.useOldProtocol = false then hash else db.username
  let datasize0 : Int := strlen p + 1
  let packet_size := datasize0 + len + nsizedim
  let sel1 := if is_token then K.kENCRYPT_TOKEN_CONNECT1 else K.kENCRYPT_CONNECT_PHASE1
  let db3 := csql_initrequest K db2 packet_size 2 K.kCOMMAND_CONNECT sel1
  let req1 := { db3.request with encryptedPacket := encryption }
  let db4 := { db3 with request := req1 }
  let field_size := enc32 datasize0 ++ enc32 len
  -- send header request, size array, username, rand2, encrypted data
  let db5 := csql_socketwrite_header db4
  let db6 := csql_socketwrite db5 field_size nsizedim
  let db7 := csql_socketwrite db6 p datasize0
  let db8 := csql_socketwrite db7 enc.2.1 BLOCK_LEN
  let db9 := csql_socketwrite db8 enc.1 (20 + K.kRANDPOOLSIZE)
  -- read reply (encrypted random pool)
  match csql_netread K D0 inflate db9 (BLOCK_LEN + K.kRANDPOOLSIZE + 20) 1 false with
  | (db10, r, _) =>
    if r ≠ K.CUBESQL_NOERR then ({ db10 with encryption := encryption }, K.CUBESQL_ERR)
    else
      -- Decrypt message using H(H(P)): now inbuffer is Y;H(Y)
      let inb := decrypt_buffer (aes_dec (peek hash2 0 16)) (db10.inbuffer.getD []) db10.insize.toNat
      let db11 := { db10 with inbuffer := some inb }
      -- Generate H(Y) from Y and compares it to the H(Y) sent by the server
      let hash3 := H (peek inb 0 K.kRANDPOOLSIZE)
      if peek hash3 0 20 ≠ peek inb K.kRANDPOOLSIZE 20 then
        -- goto abort_connect
        ({ db11 with encryption := encryption }, K.CUBESQL_ERR)
      else
        -- Generate SessionKey by both client and server
        let sk := generate_session_key K H encryption hash2 rand1 inb
        let Es := aes_enc (peek sk.2 0 sk.1)
        let Ds := aes_dec (peek sk.2 0 sk.1)
        -- Compute H(P), AESCBC(H(P),S)
        let hp := H (peek db.password 0 (strlen db.password))
        let db12 := (csql_rand_fill K db11).1
        let rand2b := (csql_rand_fill K db11).2
        let enc2 := encrypt_buffer Es hp 20 rand2b
        let len2a : Int := enc2.2.2
        -- the token
        let tok := db.token.getD []
        let tlen := strlen tok + 1
        let db13 := if is_token then (csql_rand_fill K db12).1 else db12
        let rand3 := (csql_rand_fill K db12).2
        let enc3 := encrypt_buffer Es (peek tok 0 tlen ++ List.replicate K.kRANDPOOLSIZE 0) tlen rand3
        let len2 : Int := if is_token then enc3.2.2 else 0
        -- build packet
        let nfields2 : Int := if is_token then 2 else 1
        let nsizedim2 : Int := 4 * nfields2
        let packet_size2 := len2a + nsizedim2 + len2
        let sel2 := if is_token then K.kENCRYPT_TOKEN_CONNECT2 else K.kENCRYPT_CONNECT_PHASE2
        let db14 := csql_initrequest K db13 packet_size2 nfields2 K.kCOMMAND_CONNECT sel2
        let field_size2 := enc32 len2a ++ enc32 len2
        -- send header request, size array, rand2, hash2, token
        let db15 := csql_socketwrite_header db14
        let db16 := csql_socketwrite db15 field_size2 nsizedim2
        let db17 := csql_socketwrite db16 enc2.2.1 BLOCK_LEN
        let db18 := csql_socketwrite db17 enc2.1 20
        let db19 := if is_token then csql_socketwrite db18 enc3.2.1 BLOCK_LEN else db18
        let db20 := if is_token then csql_socketwrite db19 enc3.1 tlen else db19
        -- read header reply and sanity check it
        match csql_netread K Ds inflate db20 0 0 false with
        | (db21, r2, _) =>
          if r2 ≠ K.CUBESQL_NOERR then ({ db21 with encryption := encryption }, K.CUBESQL_ERR)
          else ({ db21 with encryption := encryption }, K.CUBESQL_NOERR)

/-! ## Definitions for the statements: payloads, examples, invariants -/

/-- A toy hash for evaluating the definitions: 20 bytes that depend on the sum
of the input. -/
def toyHash (m : Bytes) : Bytes := (List.range 20).map fun i => (m.sum + 7 * i) % 256

/-- The bytes written after the request header written last. -/
def bytesAfterHeader (w : List WireItem) : Bytes :=
  w.foldl (fun acc it => match it with
    | WireItem.header _ => []
    | WireItem.bytes b => acc ++ b) []

/-- What one `csql_socketwrite` of `n` bytes appends to the wire. -/
def wbytes (buffer : Bytes) (n : Int) : List WireItem :=
  if n > 0 then [WireItem.bytes (peek buffer 0 n.toNat)] else []

/-- The bind values that `csql_bind_value` can be given: a `NULL` pointer, a
NUL-terminated string with `len = -1`, or `len >= 0` bytes of memory. -/
def validValue (value : Option Bytes) (len : Int) : Prop :=
  match value with
  | none => True
  | some v => (len = -1 ∧ 0 ∈ v) ∨ (0 ≤ len ∧ len.toNat ≤ v.length)

/-- The size that stands for a cell in the size array of a reply: -1 for SQL
NULL, the number of bytes otherwise. -/
def cellSize : Option Bytes → Int
  | none => -1
  | some b => b.length

/-- The bytes of a cell in the data area of a reply (none for SQL NULL). -/
def cellData : Option Bytes → Bytes
  | none => []
  | some b => b

/-- An array of `int` in network order. -/
def encInts (l : List Int) : Bytes := (l.map enc32).flatten

/-- Strings packed one after the other, each with its terminating NUL. -/
def packStrings (names : List Bytes) : Bytes := (names.map fun s => s ++ [0]).flatten

/-- The table names of a reply, packed like the column names; nothing when the
reply has none. -/
def packTables : Option (List Bytes) → Bytes
  | none => []
  | some t => packStrings t

/-- The payload of a reply that carries rows, as the parser in `csql_read_cursor`
takes it apart: for the first reply (`index == 0`) the column types, the cell
sizes, the column names, the table names when the header announces them, then the
cell data, row after row. -/
def cursorPayload (types : List Int) (names : List Bytes) (tables : Option (List Bytes))
    (cells : List (Option Bytes)) : Bytes :=
  encInts types ++ (encInts (cells.map cellSize) ++ (packStrings names ++
    (packTables tables ++ (cells.map cellData).flatten)))

/-- The payload of a later reply of a chunked result set (`index > 0`): the
cell sizes, then the cell data. -/
def chunkPayload (cells : List (Option Bytes)) : Bytes :=
  encInts (cells.map cellSize) ++ (cells.map cellData).flatten

/-- The sum of the sizes of the first `k` cells, NULL cells counting 0. -/
def cellOffset (cells : List (Option Bytes)) (k : Nat) : Nat :=
  ((cells.take k).map fun x => (cellData x).length).sum

/-- The index of the cell `(row, col)` in the size array of a reply: the rows
have one more cell, the first, when the reply has a rowid column. -/
def cellIndex (rowid : Bool) (ncols row col : Nat) : Nat :=
  if rowid then (row - 1) * (ncols + 1) + col else (row - 1) * ncols + (col - 1)

/-- The bytes that a call of `cubesql_cursor_field` hands to the caller: the
`len` bytes at the pointer returned, nothing for `NULL`. -/
def fieldBytes (r : Cursor × Option Bytes × Int) : Option Bytes :=
  r.2.1.map fun m => peek m 0 r.2.2.toNat

/-- A connection on which a result set of four rows with one column (the
cells `A`, `B`, `C`, `D`) arrives in two partial packets of two rows, followed
by the end-of-chunk reply. -/
def chunkedRx : Db :=
  { rx := [{ header := { signature := sdk.PROTOCOL_SIGNATURE, packetSize := 16, rows := 2, cols := 1,
                         flag1 := { partial_packet := true } },
             payload := cursorPayload [3] [[110]] none [some [65], some [66]] },
           { header := { signature := sdk.PROTOCOL_SIGNATURE, packetSize := 10, rows := 2, cols := 1,
                         flag1 := { partial_packet := true } },
             payload := chunkPayload [some [67], some [68]] },
           { header := { signature := sdk.PROTOCOL_SIGNATURE, errorCode := sdk.END_CHUNK },
             payload := [] }] }

/-- A server-side cursor with one column, on its first row. -/
def stepCursor : Cursor := { server_side := true, nrows := 1, ncols := 1, current_row := 1 }

/-- A connection on which the server answers the next request with one more
row, the cell `B`, of a server-side cursor. -/
def stepRx : Db :=
  { rx := [{ header := { signature := sdk.PROTOCOL_SIGNATURE, packetSize := 5, rows := 1, cols := 1,
                         flag1 := { server_side := true } },
             payload := chunkPayload [some [66]] }] }

/-- A connection on which the same result set arrives in one reply. -/
def singleRx : Db :=
  { rx := [{ header := { signature := sdk.PROTOCOL_SIGNATURE, packetSize := 26, rows := 4, cols := 1 },
             payload := cursorPayload [3] [[110]] none
               [some [65], some [66], some [67], some [68]] }] }

/-- The request headers written to the socket, in order. -/
def headersOf (w : List WireItem) : List InHead :=
  w.filterMap fun it => match it with
    | WireItem.header h => some h
    | WireItem.bytes _ => none

/-- A connection whose last error is set (code 1, message "no such table"), on
which the server answers the next request with a reply without error and
without payload. -/
def staleErrorDb : Db :=
  { errcode := 1, errmsg := cstr "no such table",
    rx := [{ header := { signature := sdk.PROTOCOL_SIGNATURE }, payload := [] }] }

/-- The same connection when the server answers the next request with a
result set of one row and one column, the cell `3`. -/
def staleErrorDbRows : Db :=
  { errcode := 1, errmsg := cstr "no such table",
    rx := [{ header := { signature := sdk.PROTOCOL_SIGNATURE, packetSize := 11, rows := 1, cols := 1 },
             payload := cursorPayload [1] [[99]] none [some [51]] }] }

/-- What holds of a custom cursor, one made by `cubesql_cursor_create` and
filled by `cubesql_cursor_addrow`: the arrays `buffer` and `size0` have
`ncols * nalloc` entries and there are no more rows than `nalloc`. -/
structure CustomCursor (c : Cursor) : Prop where
  id : c.cursor_id = -1
  ncols_pos : 0 < c.ncols
  nrows_nonneg : 0 ≤ c.nrows
  fits : c.nrows ≤ c.nalloc
  cells_len : c.cells.length = (c.ncols * c.nalloc).toNat
  size0_len : c.size0.length = (c.ncols * c.nalloc).toNat

/-- A custom cursor with one column, made by `cubesql_cursor_create (db, 1, 1,
types, names)`: room for one row. -/
def customOne : Cursor := (cubesql_cursor_create sdk 1 1 [3] [[110, 0]]).getD {}

/-- The cursor `customOne` after the row `A` was added. -/
def customOneA : Cursor := (cubesql_cursor_addrow sdk customOne [some [65]] [1]).1

/-- The cursor `customOneA` after the row `B` was added. -/
def customOneAB : Cursor := (cubesql_cursor_addrow sdk customOneA [some [66]] [1]).1

/-- A connection as `csql_dbinit` leaves it for AES-128 (no error stored), on
which the server's reply to phase 1 arrives: 56 bytes that are not
`AESCBC (Y;H(Y))` for any `Y`. -/
def connectDb : Db :=
  { encryption := sdk.CUBESQL_ENCRYPTION_AES128, errcode := sdk.CUBESQL_NOERR,
    errmsg := List.replicate 8 0, username := cstr "admin", password := cstr "secret",
    rx := [{ header := { signature := sdk.PROTOCOL_SIGNATURE, packetSize := 56, numFields := 1 },
             payload := List.replicate 56 0 }] }

/-! ## Functions of the SDK for connections, data chunks and parameter arrays -/

/-- The function `csql_receivechunk (db, len, is_end_chunk)` (lines 1884-1891):
the connection, the pointer returned (`none` for `NULL`, else the memory at
`db->inbuffer`), and `*len` and `*is_end_chunk` afterwards; `len` is `*len` on
entry. -/
def csql_receivechunk (K : SdkConsts) (E D : Bytes → Bytes)
    (inflate : Bytes → Nat → Option Bytes) (db : Db) (len : Int) :
    Db × Option Bytes × Int × Bool :=
  match csql_netread K D inflate db (-1) (-1) true with
  | (db1, err, is_end_chunk) =>
    let db2 := if err = K.CUBESQL_ERR then (csql_ack K E D inflate db1 K.kCHUNK_ABORT).1 else db1
    if err ≠ K.CUBESQL_NOERR then (db2, none, len, is_end_chunk)
    else (db2, db2.inbuffer, db2.insize, is_end_chunk)

/-- The function `cubesql_receive_data (db, len, is_end_chunk)` (lines
241-245); the memory at the pointer returned is given as it is when
`csql_receivechunk` returns. -/
def cubesql_receive_data (K : SdkConsts) (E D : Bytes → Bytes)
    (inflate : Bytes → Nat → Option Bytes) (db : Db) (len : Int) :
    Db × Option Bytes × Int × Bool :=
  match csql_receivechunk K E D inflate db len with
  | (db1, data, len1, is_end_chunk) => ((csql_ack K E D inflate db1 0).1, data, len1, is_end_chunk)

/-- The function `encryption_is_ssl` (lines 2260-2264). -/
def encryption_is_ssl (K : SdkConsts) (encryption : Int) : Bool :=
  decide (encryption = K.CUBESQL_ENCRYPTION_SSL ∨ encryption = K.CUBESQL_ENCRYPTION_SSL_AES128 ∨
    encryption = K.CUBESQL_ENCRYPTION_SSL_AES192 ∨ encryption = K.CUBESQL_ENCRYPTION_SSL_AES256)

/-- The function `hex_hash_field (result, field, len)` (lines 2277-2287): the
array `result` afterwards.  `H` is `csql_sha1`. -/
def hex_hash_field (H : Bytes → Bytes) (result field : Bytes) (len : Int) : Bytes :=
  let hval := H (peek field 0 len.toNat)
  -- convert result
  poke result 0 (((peek hval 0 20).map hexByte).flatten ++ [0])

/-- The function `random_hash_field (hval, randpoll, field)` (lines 2319-2335):
the 20 bytes of `hval` afterwards. -/
def random_hash_field (K : SdkConsts) (H : Bytes → Bytes) (randpoll field : Bytes) : Bytes :=
  -- SHA1(P)
  let hval1 := H (peek field 0 (strlen field))
  -- SHA1(SHA1(P))
  let hval2 := H (peek hval1 0 20)
  let buffer := peek randpoll 0 K.kRANDPOOLSIZE ++ peek hval2 0 20
  -- SHA1(R;SHA1(SHA1(P)))
  H buffer

/-- The function `cubesql_settoken` (lines 681-684). -/
def cubesql_settoken (db : Db) (token : Option Bytes) : Db :=
  match token with
  | some t => if strlen t = 0 then { db with token := none } else { db with token := some t }
  | none => { db with token := none }

/-- What `cubesql_connect_token` finds outside the program: whether the library
was built with `CUBESQL_DISABLE_SSL_ENCRYPTION`, whether `malloc` in
`csql_dbinit` succeeds, whether the TLS setup of `csql_dbinit` succeeds,
the descriptor that `csql_socketconnect` returns (not positive when no socket
connects or the TLS handshake fails), the error code and the message that
`csql_socketconnect` stores when it fails, the replies that the server sends
on the new socket and the random pools that `csql_rand_fill` produces. -/
structure ConnectEnv where
  ssl_disabled : Bool := false
  malloc_ok : Bool := true
  tls_ok : Bool := true
  sockfd : Int := 3
  connect_errcode : Int := 0
  connect_errmsg : Bytes := [0]
  rx : List Frame := []
  pools : List Bytes := []

/-- The function `csql_dbinit` (lines 833-930); `none` is `NULL`.  The strings
fit into the arrays of the struct; the certificate arguments only matter for
the TLS setup, whose outcome is `env.tls_ok`. -/
def csql_dbinit (K : SdkConsts) (env : ConnectEnv) (host : Bytes) (port : Int)
    (username password : Bytes) (timeout encryption : Int) : Option Db :=
  if env.malloc_ok = false then none
  else
    -- zero all the struct, save db fields
    let db : Db :=
      { port := port, timeout := timeout, encryption := encryption, token := none,
        useOldProtocol := false, host := peek host 0 (strlen host) ++ [0],
        username := peek username 0 (strlen username) ++ [0],
        password := peek password 0 (strlen password) ++ [0],
        rx := env.rx, pools := env.pools }
    if env.ssl_disabled = false ∧ encryption_is_ssl K encryption = true then
      if env.tls_ok then some db else none
    else some db

/-- The function `csql_socketconnect` (lines 943-1206), in what it leaves in
the connection and returns: the connection attempts themselves are outside the
model and end with the descriptor `env.sockfd`.  When that is not positive the
function has stored an error code and a message; on a connected socket, in a
build with SSL, an SSL mode in `db->encryption` is reduced by
`CUBESQL_ENCRYPTION_SSL` after the TLS handshake (line 1202). -/
def csql_socketconnect (K : SdkConsts) (env : ConnectEnv) (db : Db) : Db × Int :=
  if env.sockfd ≤ 0 then
    (csql_seterror K db env.connect_errcode env.connect_errmsg, env.sockfd)
  -- socket is connected - now check for SSL
  else if env.ssl_disabled = false ∧ encryption_is_ssl K db.encryption = true then
    ({ db with encryption := db.encryption - K.CUBESQL_ENCRYPTION_SSL }, env.sockfd)
  else (db, env.sockfd)

/-- The function `csql_connect` (lines 1649-1737): the connection and the value
returned.  The transport (TCP or TLS) is the socket of the model.  `H`,
`aes_enc`, `aes_dec`, `D0` and `inflate` are as in `csql_connect_encrypted`; the
local array `hash` starts as zeros. -/
def csql_connect (K : SdkConsts) (H : Bytes → Bytes)
    (aes_enc aes_dec : Bytes → Bytes → Bytes) (D0 : Bytes → Bytes)
    (inflate : Bytes → Nat → Option Bytes) (env : ConnectEnv) (db : Db) (encryption : Int) :
    Db × Int :=
  -- db->sockfd = csql_socketconnect (db);
  let sc := csql_socketconnect K env db
  let db0 := { sc.1 with sockfd := sc.2 }
  if sc.2 ≤ 0 then (db0, K.CUBESQL_ERR)
  else
    let encryption1 := if encryption_is_ssl K encryption = true
      then encryption - K.CUBESQL_ENCRYPTION_SSL else encryption
    if encryption1 ≠ K.CUBESQL_ENCRYPTION_NONE then
      csql_connect_encrypted K H aes_enc aes_dec D0 inflate db0
    else
      -- check if its a token connect
      let is_token := db0.token.isSome
      let tok := db0.token.getD []
      -- CLEAR CONNECT PHASE 1: in the old protocol username was sent in clear
      let hash := hex_hash_field H (List.replicate 42 0) db0.username (strlen db0.username)
      let p := if db0.useOldProtocol = false then hash else db0.username
      let datasize : Int := strlen p + 1
      -- build packet
      let sel1 := if is_token then K.kCLEAR_TOKEN_CONNECT1 else K.kCLEAR_CONNECT_PHASE1
      let db1 := csql_initrequest K db0 (datasize + 4) 1 K.kCOMMAND_CONNECT sel1
      -- send header, size array, hash (username)
      let db2 := csql_socketwrite_header db1
      let db3 := csql_socketwrite db2 (enc32 datasize) 4
      let db4 := csql_socketwrite db3 p datasize
      -- read random pool
      match csql_netread K D0 inflate db4 K.kRANDPOOLSIZE 1 false with
      | (db5, r, _) =>
        if r ≠ K.CUBESQL_NOERR then (db5, K.CUBESQL_ERR)
        else
          -- CLEAR CONNECT PHASE 2: encrypt password with random pool
          let hval := random_hash_field K H (db5.inbuffer.getD []) db5.password
          let nfields : Int := if is_token then 2 else 1
          let nsizedim : Int := 4 * nfields
          let tlen : Int := strlen tok + 1
          let datasize2 : Int := if is_token then 20 + tlen else 20
          -- build packet
          let sel2 := if is_token then K.kCLEAR_TOKEN_CONNECT2 else K.kCLEAR_CONNECT_PHASE2
          let db6 := csql_initrequest K db5 (datasize2 + nsizedim) nfields K.kCOMMAND_CONNECT sel2
          -- send header, size array, SH1 (Encrypted password), token
          let db7 := csql_socketwrite_header db6
          let db8 := csql_socketwrite db7 (enc32 20 ++ enc32 tlen) nsizedim
          let db9 := csql_socketwrite db8 hval 20
          let db10 := if is_token then csql_socketwrite db9 tok tlen else db9
          -- read header reply and sanity check it
          match csql_netread K D0 inflate db10 0 0 false with
          | (db11, r2, _) =>
            if r2 ≠ K.CUBESQL_NOERR then (db11, K.CUBESQL_ERR) else (db11, K.CUBESQL_NOERR)

/-- The function `cubesql_connect_token` (lines 29-66): the value returned and
the connection stored in `*db` (`none` when the function stores nothing: no
connection object was made and `csql_connect`, the only user of the network,
did not run).  A pointer argument is `none` for `NULL`; `csql_libinit` has no
part in the model; the certificate arguments are part of `env.tls_ok`. -/
def cubesql_connect_token (K : SdkConsts) (env : ConnectEnv) (H : Bytes → Bytes)
    (aes_enc aes_dec : Bytes → Bytes → Bytes) (D0 : Bytes → Bytes)
    (inflate : Bytes → Nat → Option Bytes) (host : Option Bytes) (port : Int)
    (username password : Option Bytes) (timeout encryption : Int) (token : Option Bytes)
    (useOldProtocol : Bool) : Int × Option Db :=
  let is_ssl := encryption_is_ssl K encryption
  -- try to adjust encryption parameter
  let encryption1 :=
    if encryption = 128 then K.CUBESQL_ENCRYPTION_AES128
    else if encryption = 192 then K.CUBESQL_ENCRYPTION_AES192
    else if encryption = 256 then K.CUBESQL_ENCRYPTION_AES256
    else encryption
  let useOldProtocol1 :=
    if encryption = 128 then useOldProtocol
    else if encryption = 192 then useOldProtocol
    else if encryption = 256 then useOldProtocol
    else if is_ssl = true then false
    else useOldProtocol
  if env.ssl_disabled = true ∧ is_ssl = true then (K.CUBESQL_SSL_DISABLED_ERROR, none)
  else
    -- sanity check parameters
    match host, username, password with
    | some h, some u, some p =>
      if encryption1 ≠ K.CUBESQL_ENCRYPTION_NONE ∧ encryption1 ≠ K.CUBESQL_ENCRYPTION_AES128 ∧
          encryption1 ≠ K.CUBESQL_ENCRYPTION_AES192 ∧ encryption1 ≠ K.CUBESQL_ENCRYPTION_AES256 ∧
          is_ssl = false then (K.CUBESQL_PARAMETER_ERROR, none)
      else
        let port1 := if port ≤ 0 then K.CUBESQL_DEFAULT_PORT else port
        let timeout1 := if timeout < 0 then K.CUBESQL_DEFAULT_TIMEOUT else timeout
        -- allocate db struct
        match csql_dbinit K env h port1 u p timeout1 encryption1 with
        | none =>
          if is_ssl = true then (K.CUBESQL_SSL_CERT_ERROR, none)
          else (K.CUBESQL_MEMORY_ERROR, none)
        | some rdb =>
          let rdb1 := if useOldProtocol1 = true then { rdb with useOldProtocol := true } else rdb
          let rdb2 := if token.isSome then cubesql_settoken rdb1 token else rdb1
          match csql_connect K H aes_enc aes_dec D0 inflate env rdb2 encryption1 with
          | (db1, r) => (r, some db1)
    | _, _, _ => (K.CUBESQL_PARAMETER_ERROR, none)

/-- The test "fix to null values" of `csql_bindexecute` (line 1257) for the
parameter `i`. -/
def bind_fix (K : SdkConsts) (colvalue : List (Option Bytes)) (coltype : List Int) (i : Nat) :
    Bool :=
  decide (coltype.getD i 0 = K.CUBESQL_BIND_NULL ∨
    (coltype.getD i 0 = K.CUBESQL_BIND_TEXT ∧ colvalue.getD i none = none))

/-- The array `colvalue` of the caller after the store `colvalue[i] = ""` of one
iteration of the loop of `csql_bindexecute` (lines 1257-1260). -/
def bind_store_value (K : SdkConsts) (colvalue : List (Option Bytes)) (coltype : List Int)
    (i : Nat) : List (Option Bytes) :=
  if bind_fix K colvalue coltype i = true then colvalue.set i (some [0]) else colvalue

/-- The array `colsize` of the caller after the stores `colsize[i] = 0` and
`colsize[i]++` of one iteration of the loop of `csql_bindexecute` (lines
1257-1265). -/
def bind_store_size (K : SdkConsts) (colvalue : List (Option Bytes)) (colsize coltype : List Int)
    (i : Nat) : List Int :=
  -- fix to null values
  let colsize1 := if bind_fix K colvalue coltype i = true then colsize.set i 0 else colsize
  -- includes the terminal 0
  if coltype.getD i 0 ≠ K.CUBESQL_BIND_BLOB then colsize1.set i (colsize1.getD i 0 + 1)
  else colsize1

/-- The loop of `csql_bindexecute` (lines 1255-1273) with the arrays of the
caller: `n` iterations from the index `i`; the connection, the value that the
function returns when the loop ends it (`CUBESQL_NOERR` when the loop runs to
its end), and the arrays `colvalue` and `colsize` afterwards.  A `NULL` value
that the code passes on to `csql_sendchunk` is modelled as empty memory. -/
def bind_loop_store (K : SdkConsts) (E D : Bytes → Bytes) (deflate : Bytes → Option Bytes) :
    Nat → Db → Nat → List (Option Bytes) → List Int → List Int →
      Db × Int × List (Option Bytes) × List Int
  | 0, db, _, colvalue, colsize, _ => (db, K.CUBESQL_NOERR, colvalue, colsize)
  | n + 1, db, i, colvalue, colsize, coltype =>
    let colvalue1 := bind_store_value K colvalue coltype i
    let colsize1 := bind_store_size K colvalue colsize coltype i
    match csql_sendchunk K E deflate db ((colvalue1.getD i none).getD []) (colsize1.getD i 0)
        (coltype.getD i 0) true with
    | (db1, r) =>
      if r = K.CUBESQL_ERR then (db1, K.CUBESQL_ERR, colvalue1, colsize1)
      else
        -- read and check header first
        match csql_socketread_header K db1 with
        | (db2, r2) =>
          if r2 ≠ K.CUBESQL_NOERR then (db2, K.CUBESQL_ERR, colvalue1, colsize1)
          else
            match csql_checkheader K D db2 (-1) (-1) with
            | (db3, r3, _) =>
              if r3 ≠ K.CUBESQL_NOERR then (db3, K.CUBESQL_ERR, colvalue1, colsize1)
              else bind_loop_store K E D deflate n db3 (i + 1) colvalue1 colsize1 coltype

/-- The function `csql_bindexecute` (lines 1242-1278) with the arrays of the
caller: the connection, the value returned, and `colvalue` and `colsize`
afterwards. -/
def csql_bindexecute_store (K : SdkConsts) (E D : Bytes → Bytes)
    (inflate : Bytes → Nat → Option Bytes) (deflate : Bytes → Option Bytes) (db : Db)
    (sql : Bytes) (colvalue : List (Option Bytes)) (colsize coltype : List Int)
    (nvalues : Int) : Db × Int × List (Option Bytes) × List Int :=
  -- send sql statement first
  match csql_send_statement K E db K.kCOMMAND_CHUNK_BIND sql false false with
  | (db1, r) =>
    if r ≠ K.CUBESQL_NOERR then (db1, K.CUBESQL_ERR, colvalue, colsize)
    else
      -- read and check header first
      match csql_socketread_header K db1 with
      | (db2, r2) =>
        if r2 ≠ K.CUBESQL_NOERR then (db2, K.CUBESQL_ERR, colvalue, colsize)
        else
          match csql_checkheader K D db2 (-1) (-1) with
          | (db3, r3, _) =>
            if r3 ≠ K.CUBESQL_NOERR then (db3, K.CUBESQL_ERR, colvalue, colsize)
            else
              -- send individual fields
              match bind_loop_store K E D deflate nvalues.toNat db3 0 colvalue colsize coltype with
              | (db4, r4, colvalue1, colsize1) =>
                if r4 ≠ K.CUBESQL_NOERR then (db4, K.CUBESQL_ERR, colvalue1, colsize1)
                -- send BIND FINALIZE command
                else
                  ((csql_ack K E D inflate db4 K.kBIND_FINALIZE).1,
                   (csql_ack K E D inflate db4 K.kBIND_FINALIZE).2, colvalue1, colsize1)

/-- The first `m` 16-byte blocks `P_0 .. P_(m-1)` of a payload. -/
def fullBlocks : Nat → Bytes → List Bytes
  | 0, _ => []
  | m + 1, x => x.take 16 :: fullBlocks m (x.drop 16)

/-- The plaintext tail `T` of a payload: what follows the full blocks. -/
def tailBytes (x : Bytes) : Bytes := x.drop (16 * (x.length / 16))

/-- The cursor after the calls `cubesql_cursor_addrow (c, row, len)` for the
rows of a list, in order. -/
def addrows (K : SdkConsts) (c : Cursor) (rows : List (List (Option Bytes) × List Int)) :
    Cursor :=
  rows.foldl (fun c r => (cubesql_cursor_addrow K c r.1 r.2).1) c

/-- A connection on which two data chunks arrive: four bytes, then two. -/
def twoChunksRx : Db :=
  { rx := [{ header := { signature := sdk.PROTOCOL_SIGNATURE, packetSize := 4 },
             payload := [1, 2, 3, 4] },
           { header := { signature := sdk.PROTOCOL_SIGNATURE, packetSize := 2 },
             payload := [5, 6] }] }

/-- The encryption values that `cubesql_connect_token` takes, by name. -/
def validEncryption (K : SdkConsts) (e : Int) : Prop :=
  e = K.CUBESQL_ENCRYPTION_NONE ∨ e = K.CUBESQL_ENCRYPTION_AES128 ∨
  e = K.CUBESQL_ENCRYPTION_AES192 ∨ e = K.CUBESQL_ENCRYPTION_AES256 ∨
  e = K.CUBESQL_ENCRYPTION_SSL ∨ e = K.CUBESQL_ENCRYPTION_SSL_AES128 ∨
  e = K.CUBESQL_ENCRYPTION_SSL_AES192 ∨ e = K.CUBESQL_ENCRYPTION_SSL_AES256 ∨
  e = 128 ∨ e = 192 ∨ e = 256

/-- What the statements about `cubesql_connect_token` need of the constants: the
parameter error is not one of the other values that the function returns, the
names of the AES modes are not SSL modes and not other legacy integers, and the
legacy integers are not SSL modes. -/
structure SdkConsts.ConnectOk (K : SdkConsts) : Prop where
  param_noerr : K.CUBESQL_PARAMETER_ERROR ≠ K.CUBESQL_NOERR
  param_err : K.CUBESQL_PARAMETER_ERROR ≠ K.CUBESQL_ERR
  param_memory : K.CUBESQL_PARAMETER_ERROR ≠ K.CUBESQL_MEMORY_ERROR
  param_cert : K.CUBESQL_PARAMETER_ERROR ≠ K.CUBESQL_SSL_CERT_ERROR
  param_disabled : K.CUBESQL_PARAMETER_ERROR ≠ K.CUBESQL_SSL_DISABLED_ERROR
  legacy128 : encryption_is_ssl K 128 = false
  legacy192 : encryption_is_ssl K 192 = false
  legacy256 : encryption_is_ssl K 256 = false
  aes128 : encryption_is_ssl K K.CUBESQL_ENCRYPTION_AES128 = false
  aes192 : encryption_is_ssl K K.CUBESQL_ENCRYPTION_AES192 = false
  aes256 : encryption_is_ssl K K.CUBESQL_ENCRYPTION_AES256 = false
  aes128_192 : K.CUBESQL_ENCRYPTION_AES128 ≠ 192
  aes128_256 : K.CUBESQL_ENCRYPTION_AES128 ≠ 256
  aes192_128 : K.CUBESQL_ENCRYPTION_AES192 ≠ 128
  aes192_256 : K.CUBESQL_ENCRYPTION_AES192 ≠ 256
  aes256_128 : K.CUBESQL_ENCRYPTION_AES256 ≠ 128
  aes256_192 : K.CUBESQL_ENCRYPTION_AES256 ≠ 192

/-- Whether `csql_bindexecute` gets to its last line,
`return csql_ack (db, kBIND_FINALIZE)` (line 1277): no `return CUBESQL_ERR` of
the lines before it was taken, so the SQL text was sent and acknowledged and the
loop has sent all `nvalues` parameters.  The value that the function returns
is then the one of `csql_ack`, which may still be an error. -/
def bindexecute_sent_all (K : SdkConsts) (E D : Bytes → Bytes)
    (deflate : Bytes → Option Bytes) (db : Db) (sql : Bytes) (colvalue : List (Option Bytes))
    (colsize coltype : List Int) (nvalues : Int) : Bool :=
  match csql_send_statement K E db K.kCOMMAND_CHUNK_BIND sql false false with
  | (db1, r) =>
    if r ≠ K.CUBESQL_NOERR then false
    else
      match csql_socketread_header K db1 with
      | (db2, r2) =>
        if r2 ≠ K.CUBESQL_NOERR then false
        else
          match csql_checkheader K D db2 (-1) (-1) with
          | (db3, r3, _) =>
            if r3 ≠ K.CUBESQL_NOERR then false
            else
              decide ((bind_loop_store K E D deflate nvalues.toNat db3 0 colvalue colsize
                coltype).2.1 = K.CUBESQL_NOERR)

/-- The number of rows in the first `k` chunks of a chunked result set; a chunk
is given by its number of rows and its cells. -/
def cumRows (chunks : List (Nat × List (Option Bytes))) (k : Nat) : Nat :=
  ((chunks.take k).map Prod.fst).sum

/-- All cells of a chunked result set, row after row. -/
def allCells (chunks : List (Nat × List (Option Bytes))) : List (Option Bytes) :=
  (chunks.map Prod.snd).flatten

/-- What holds of a chunked cursor whose chunks are `chunks` and whose current
chunk is `cb`: the registry (`rowcount`, `rowsum`, `buffer`) describes the
chunks, `data0` and `size0` are the arrays of the first chunk, and `data`,
`size` and `psum` are the arrays of the current chunk. -/
structure ChunkedCursor (c : Cursor) (rowid : Bool) (ncols : Nat)
    (chunks : List (Nat × List (Option Bytes))) (cb : Nat) : Prop where
  id : c.cursor_id = 0
  ss : c.server_side = false
  rid : c.has_rowid = rowid
  cols : c.ncols = ncols
  nbuf : c.nbuffer = chunks.length
  cur : c.current_buffer = cb
  cb_lt : cb < chunks.length
  nrows : c.nrows = cumRows chunks chunks.length
  rowcount : c.rowcount = (List.range chunks.length).map (fun i => (cumRows chunks (i + 1) : Int))
  lens : ∀ ch ∈ chunks, ch.2.length = ch.1 * (ncols + if rowid then 1 else 0)
  buflen : c.buffer.length = chunks.length
  sumlen : c.rowsum.length = chunks.length
  rowsum : ∀ i < chunks.length, ∃ j, c.rowsum.getD i []
    = sum_loop ((chunks.getD i (0, [])).2.map cellSize ++ j)
        (List.replicate (chunks.getD i (0, [])).2.length 0) (chunks.getD i (0, [])).2.length
  buffer : ∀ i, 0 < i → i < chunks.length → ∃ js junk,
    intsOf (c.buffer.getD i []) = (chunks.getD i (0, [])).2.map cellSize ++ js ∧
    (c.buffer.getD i []).drop ((chunks.getD i (0, [])).1 * (ncols + if rowid then 1 else 0) * 4)
      = ((chunks.getD i (0, [])).2.map cellData).flatten ++ junk
  zero : ∃ js junk, c.size0 = (chunks.getD 0 (0, [])).2.map cellSize ++ js ∧
    c.data0 = ((chunks.getD 0 (0, [])).2.map cellData).flatten ++ junk
  now : ∃ js junk j, c.size = (chunks.getD cb (0, [])).2.map cellSize ++ js ∧
    c.data = ((chunks.getD cb (0, [])).2.map cellData).flatten ++ junk ∧
    c.psum = sum_loop ((chunks.getD cb (0, [])).2.map cellSize ++ j)
        (List.replicate (chunks.getD cb (0, [])).2.length 0) (chunks.getD cb (0, [])).2.length

/-- The results of a sequence of calls `cubesql_cursor_field (c, row, col, &len)`
on one cursor: for each call the bytes handed to the caller and `len`. -/
def fieldSeq (K : SdkConsts) : Cursor → List (Nat × Nat) → List (Option Bytes × Int)
  | _, [] => []
  | c, rc :: rest =>
    (fieldBytes (cubesql_cursor_field K c rc.1 rc.2), (cubesql_cursor_field K c rc.1 rc.2).2.2)
      :: fieldSeq K (cubesql_cursor_field K c rc.1 rc.2).1 rest

/-- A later reply of a chunked result set that carries the chunk `ch`: no
error, neither encrypted nor compressed, not server side. -/
def chunkFrame (K : SdkConsts) (rowid : Bool) (ncols : Nat) (f : Frame)
    (ch : Nat × List (Option Bytes)) : Prop :=
  f.header.signature = K.PROTOCOL_SIGNATURE ∧ f.header.errorCode = 0 ∧
  f.header.packetSize = f.payload.length ∧
  f.header.encryptedPacket = K.CUBESQL_ENCRYPTION_NONE ∧
  f.header.flag1.compressed_packet = false ∧ f.header.flag1.server_side = false ∧
  f.header.flag1.has_rowid_column = rowid ∧ f.header.rows = ch.1 ∧
  f.header.cols = ((ncols + if rowid then 1 else 0 : Nat) : Int) ∧
  f.payload = chunkPayload ch.2 ∧
  ch.2.length = ch.1 * (ncols + if rowid then 1 else 0) ∧
  ∀ x ∈ ch.2, (cellData x).length < 2147483648

/-- A first reply with rows: the column types and names and the rows `ch`,
neither encrypted nor compressed, not server side; `part` says whether it is a
partial packet (the first chunk of a chunked result set) or a whole result
set. -/
def cursorFrame (K : SdkConsts) (part : Bool) (rowid : Bool) (ncols : Nat) (types : List Int)
    (names : List Bytes) (tables : Option (List Bytes)) (f : Frame)
    (ch : Nat × List (Option Bytes)) : Prop :=
  f.header.signature = K.PROTOCOL_SIGNATURE ∧ f.header.errorCode = 0 ∧
  f.header.packetSize = f.payload.length ∧
  f.header.encryptedPacket = K.CUBESQL_ENCRYPTION_NONE ∧
  f.header.flag1.compressed_packet = false ∧ f.header.flag1.server_side = false ∧
  f.header.flag1.partial_packet = part ∧
  f.header.flag1.has_rowid_column = rowid ∧ f.header.flag1.has_table_name = tables.isSome ∧
  f.header.rows = ch.1 ∧ f.header.cols = ((ncols + if rowid then 1 else 0 : Nat) : Int) ∧
  f.payload = cursorPayload types names tables ch.2 ∧
  types.length = ncols + (if rowid then 1 else 0) ∧
  names.length = ncols + (if rowid then 1 else 0) ∧
  (∀ s ∈ names, ∀ b ∈ s, b ≠ 0) ∧
  (∀ t, tables = some t →
    t.length = (ncols + if rowid then 1 else 0) ∧ ∀ s ∈ t, ∀ b ∈ s, b ≠ 0) ∧
  ch.2.length = ch.1 * (ncols + if rowid then 1 else 0) ∧
  ∀ x ∈ ch.2, (cellData x).length < 2147483648

/-- The reply that ends a chunked result set. -/
def endFrame (K : SdkConsts) (f : Frame) : Prop :=
  f.header.signature = K.PROTOCOL_SIGNATURE ∧ f.header.errorCode = K.END_CHUNK ∧
  f.header.packetSize = 0

/-! ## Lemmas: memory -/

theorem peek_eq (m a b c : Bytes) (off n : Nat) (hm : m = a ++ b ++ c)
    (ho : off = a.length) (hn : n = b.length) : peek m off n = b := by
  subst hm ho hn
  simp [peek]

theorem poke_eq (m a b c s : Bytes) (off : Nat) (hm : m = a ++ b ++ c)
    (ho : off = a.length) (hs : s.length = b.length) : poke m off s = a ++ s ++ c := by
  subst hm ho
  simp [poke, hs]

theorem xorb_length (a b : Bytes) : (xorb a b).length = min a.length b.length := by
  simp [xorb]

theorem xorb_comm (a b : Bytes) : xorb a b = xorb b a := by
  unfold xorb
  rw [List.zipWith_comm]
  congr 1
  funext x y
  exact Nat.xor_comm y x

theorem xorb_cancel : ∀ (a b : Bytes), a.length ≤ b.length → xorb (xorb a b) b = a
  | [], _, _ => by simp [xorb]
  | x :: a, [], h => by simp at h
  | x :: a, y :: b, h => by
    have ih := xorb_cancel a b (by simpa using h)
    simp only [xorb, List.zipWith_cons_cons] at ih ⊢
    rw [ih, Nat.xor_cancel_right]

theorem cbcBlocks_length (E : Bytes → Bytes) : ∀ (ps : List Bytes) (prev : Bytes),
    (cbcBlocks E prev ps).length = ps.length
  | [], _ => rfl
  | p :: ps, prev => by simp [cbcBlocks, cbcBlocks_length E ps]

theorem cbcBlocks_block (E : Bytes → Bytes) (hE : ∀ b, b.length = 16 → (E b).length = 16) :
    ∀ (ps : List Bytes) (prev : Bytes), prev.length = 16 → (∀ p ∈ ps, p.length = 16) →
      ∀ c ∈ cbcBlocks E prev ps, c.length = 16
  | [], _, _, _ => by simp [cbcBlocks]
  | p :: ps, prev, hp, h => by
    have h1 : p.length = 16 := h p (by simp)
    have h2 : (E (xorb p prev)).length = 16 := hE _ (by simp [xorb_length, h1, hp])
    intro c hc
    simp only [cbcBlocks, List.mem_cons] at hc
    rcases hc with rfl | hc
    · exact h2
    · exact cbcBlocks_block E hE ps _ h2 (fun q hq => h q (by simp [hq])) c hc

theorem join_block_length : ∀ (ps : List Bytes), (∀ p ∈ ps, p.length = 16) →
    ps.flatten.length = 16 * ps.length
  | [], _ => rfl
  | p :: ps, h => by
    have h1 : p.length = 16 := h p (by simp)
    have := join_block_length ps (fun q hq => h q (by simp [hq]))
    simp [h1, this]; omega

/-! ## Lemmas: the loop of encrypt_buffer -/

theorem encrypt_loop_buf (E : Bytes → Bytes) (hE : ∀ b, b.length = 16 → (E b).length = 16) :
    ∀ (ps : List Bytes) (fuel : Nat) (dbuf pre c tail : Bytes) (index b1 b2 len r : Nat),
      (∀ p ∈ ps, p.length = 16) → ps ≠ [] → ps.length ≤ fuel → c.length = 16 →
      r < 16 → index * 16 = pre.length + 16 → b1 = pre.length + 16 →
      b2 = pre.length → len = 16 * ps.length + r →
      encrypt_loop E fuel ⟨dbuf, pre ++ c ++ (ps.flatten ++ tail)⟩ (Ptr.buf b1) b2 len index
        = (⟨dbuf, pre ++ c ++ ((cbcBlocks E c ps).flatten ++ tail)⟩,
            Ptr.buf (pre.length + 16 * ps.length), r, index + ps.length)
  | [], _, _, _, _, _, _, _, _, _, _, _, h, _, _, _, _, _, _, _ => absurd rfl h
  | p :: ps, 0, _, _, _, _, _, _, _, _, _, _, _, h, _, _, _, _, _, _ => by simp at h
  | p :: ps, fuel + 1, dbuf, pre, c, tail, index, b1, b2, len, r, hps, _, hfuel, hc, ht, hidx,
      hb1, hb2, hlen => by
    have hp : p.length = 16 := hps p (by simp)
    have hps1 : ∀ q ∈ ps, q.length = 16 := fun q hq => hps q (by simp [hq])
    have hx : (xorb p c).length = 16 := by simp [xorb_length, hp, hc]
    have hEx : (E (xorb p c)).length = 16 := hE _ hx
    have hi0 : index ≠ 0 := by rintro rfl; omega
    have r1 : peek (pre ++ c ++ ((p :: ps).flatten ++ tail)) b1 16 = p :=
      peek_eq _ (pre ++ c) p (ps.flatten ++ tail) _ _ (by simp) (by simp [hb1, hc]) hp.symm
    have r2 : peek (pre ++ c ++ ((p :: ps).flatten ++ tail)) b2 16 = c :=
      peek_eq _ pre c ((p :: ps).flatten ++ tail) _ _ (by simp) hb2 hc.symm
    have w1 : poke (pre ++ c ++ ((p :: ps).flatten ++ tail)) b1 (xorb p c)
        = pre ++ c ++ xorb p c ++ (ps.flatten ++ tail) :=
      poke_eq _ (pre ++ c) p (ps.flatten ++ tail) _ _ (by simp) (by simp [hb1, hc])
        (by rw [hx, hp])
    have r3 : peek (pre ++ c ++ xorb p c ++ (ps.flatten ++ tail)) b1 16 = xorb p c :=
      peek_eq _ (pre ++ c) (xorb p c) (ps.flatten ++ tail) _ _ rfl (by simp [hb1, hc]) hx.symm
    have w2 : poke (pre ++ c ++ xorb p c ++ (ps.flatten ++ tail)) b1 (E (xorb p c))
        = pre ++ c ++ E (xorb p c) ++ (ps.flatten ++ tail) :=
      poke_eq _ (pre ++ c) (xorb p c) (ps.flatten ++ tail) _ _ rfl (by simp [hb1, hc])
        (by rw [hx, hEx])
    simp only [encrypt_loop, EncMem.rd, EncMem.wr, BLOCK_LEN, r1, r2, w1, r3, w2, hi0,
      if_false]
    by_cases hnil : ps = []
    · subst hnil
      have hl : ¬ (len - 16 ≥ 16) := by simp at hlen; omega
      simp only [hl, if_false]
      simp [cbcBlocks, hlen, hb1]
    · have hpos : 0 < ps.length := List.length_pos.mpr hnil
      have hl : len - 16 ≥ 16 := by simp at hlen; omega
      simp only [hl, if_true]
      have ih := encrypt_loop_buf E hE ps fuel dbuf (pre ++ c) (E (xorb p c)) tail (index + 1)
        (index * 16 + 16) (index * 16) (len - 16) r hps1 hnil (by simpa using hfuel) hEx ht
        (by simp [hc]; omega) (by simp [hc]; omega) (by simp [hc]; omega)
        (by simp at hlen; omega)
      rw [ih]
      simp [cbcBlocks, hc]
      omega

theorem cbcBlocks_concat (E : Bytes → Bytes) : ∀ (qs : List Bytes) (prev pl : Bytes),
    cbcBlocks E prev (qs ++ [pl])
      = cbcBlocks E prev qs ++ [E (xorb pl (lastBlock prev (cbcBlocks E prev qs)))]
  | [], _, _ => rfl
  | q :: qs, prev, pl => by
    simp [cbcBlocks, lastBlock, cbcBlocks_concat E qs]

theorem lastBlock_concat : ∀ (cs : List Bytes) (prev c : Bytes), lastBlock prev (cs ++ [c]) = c
  | [], _, _ => rfl
  | d :: cs, _, c => by simp [lastBlock, lastBlock_concat cs]

theorem encrypt_loop_start (E : Bytes → Bytes) (hE : ∀ b, b.length = 16 → (E b).length = 16)
    (p0 : Bytes) (ps : List Bytes) (tail iv zeros : Bytes) (fuel len r : Nat)
    (hp0 : p0.length = 16) (hps : ∀ p ∈ ps, p.length = 16) (hiv : iv.length = 16)
    (ht : r < 16) (hfuel : ps.length < fuel)
    (hlen : len = 16 * (ps.length + 1) + r) :
    encrypt_loop E fuel ⟨iv ++ zeros, (p0 :: ps).flatten ++ tail⟩ Ptr.dbuf 0 len 0
      = (⟨E (xorb p0 iv) ++ zeros, (cbcBlocks E iv (p0 :: ps)).flatten ++ tail⟩,
          if ps = [] then Ptr.dbuf else Ptr.buf (16 * ps.length), r,
          ps.length + 1) := by
  obtain ⟨f, rfl⟩ : ∃ f, fuel = f + 1 := ⟨fuel - 1, by omega⟩
  have hx : (xorb iv p0).length = 16 := by simp [xorb_length, hp0, hiv]
  have hEx : (E (xorb iv p0)).length = 16 := hE _ hx
  have r1 : peek (iv ++ zeros) 0 16 = iv := peek_eq _ [] iv zeros _ _ rfl rfl hiv.symm
  have r2 : peek ((p0 :: ps).flatten ++ tail) 0 16 = p0 :=
    peek_eq _ [] p0 (ps.flatten ++ tail) _ _ (by simp) rfl hp0.symm
  have w1 : poke (iv ++ zeros) 0 (xorb iv p0) = xorb iv p0 ++ zeros :=
    poke_eq _ [] iv zeros _ _ rfl rfl (by rw [hx, hiv])
  have r3 : peek (xorb iv p0 ++ zeros) 0 16 = xorb iv p0 :=
    peek_eq _ [] _ zeros _ _ rfl rfl hx.symm
  have w2 : poke (xorb iv p0 ++ zeros) 0 (E (xorb iv p0)) = E (xorb iv p0) ++ zeros :=
    poke_eq _ [] (xorb iv p0) zeros _ _ rfl rfl (by rw [hx, hEx])
  have r4 : peek (E (xorb iv p0) ++ zeros) 0 16 = E (xorb iv p0) :=
    peek_eq _ [] _ zeros _ _ rfl rfl hEx.symm
  have w3 : poke ((p0 :: ps).flatten ++ tail) 0 (E (xorb iv p0))
      = E (xorb iv p0) ++ (ps.flatten ++ tail) :=
    poke_eq _ [] p0 (ps.flatten ++ tail) _ _ (by simp) rfl (by rw [hEx, hp0])
  simp only [encrypt_loop, EncMem.rd, EncMem.wr, BLOCK_LEN, r1, r2, w1, r3, w2, r4, w3,
    if_true]
  rw [xorb_comm iv p0]
  by_cases hnil : ps = []
  · subst hnil
    have hl : ¬ (len - 16 ≥ 16) := by simp at hlen; omega
    simp only [hl, if_false]
    simp [cbcBlocks]
    omega
  · have hl : len - 16 ≥ 16 := by
      have := List.length_pos.mpr hnil
      omega
    simp only [hl, if_true, hnil, if_false]
    have hEx2 : (E (xorb p0 iv)).length = 16 := by rw [xorb_comm]; exact hEx
    have ih := encrypt_loop_buf E hE ps f (E (xorb p0 iv) ++ zeros) [] (E (xorb p0 iv)) tail
      (0 + 1) (0 * 16 + 16) (0 * 16) (len - 16) r hps hnil (by omega) hEx2 ht
      (by simp) (by simp) (by simp) (by omega)
    simp only [List.nil_append] at ih
    rw [ih]
    simp [cbcBlocks]
    omega

theorem lastBlock_length : ∀ (cs : List Bytes) (prev : Bytes), prev.length = 16 →
    (∀ c ∈ cs, c.length = 16) → (lastBlock prev cs).length = 16
  | [], _, h, _ => h
  | c :: cs, _, _, h =>
    lastBlock_length cs c (h c (by simp)) (fun d hd => h d (by simp [hd]))

theorem encrypt_loop_result (E : Bytes → Bytes) (hE : ∀ b, b.length = 16 → (E b).length = 16)
    (qs : List Bytes) (pl tail iv zeros : Bytes) (fuel len r : Nat)
    (hqs : ∀ q ∈ qs, q.length = 16) (hpl : pl.length = 16) (hiv : iv.length = 16)
    (ht : r < 16) (hfuel : qs.length < fuel)
    (hlen : len = 16 * (qs.length + 1) + r) :
    ∃ m b1, encrypt_loop E fuel ⟨iv ++ zeros, (qs ++ [pl]).flatten ++ tail⟩ Ptr.dbuf 0 len 0
        = (m, b1, r, qs.length + 1) ∧
      m.buffer = (cbcBlocks E iv qs).flatten
        ++ E (xorb pl (lastBlock iv (cbcBlocks E iv qs))) ++ tail ∧
      m.rd b1 = E (xorb pl (lastBlock iv (cbcBlocks E iv qs))) := by
  cases qs with
  | nil =>
    have h := encrypt_loop_start E hE pl [] tail iv zeros fuel len r hpl (by simp) hiv ht
      (by simpa using hfuel) (by simpa using hlen)
    have hc : (E (xorb pl iv)).length = 16 := hE _ (by simp [xorb_length, hpl, hiv])
    refine ⟨_, _, by simpa using h, by simp [cbcBlocks, lastBlock], ?_⟩
    simp only [if_true, EncMem.rd, BLOCK_LEN, cbcBlocks, lastBlock]
    exact peek_eq _ [] _ zeros _ _ rfl rfl hc.symm
  | cons q qs =>
    have hq : q.length = 16 := hqs q (by simp)
    have hqs1 : ∀ r ∈ qs, r.length = 16 := fun r hr => hqs r (by simp [hr])
    have hps : ∀ r ∈ qs ++ [pl], r.length = 16 := by
      intro r hr
      rcases List.mem_append.mp hr with h | h
      · exact hqs1 r h
      · simp at h; rw [h]; exact hpl
    have h := encrypt_loop_start E hE q (qs ++ [pl]) tail iv zeros fuel len r hq hps hiv ht
      (by simpa using hfuel) (by simp at hlen ⊢; omega)
    have hne : qs ++ [pl] ≠ [] := by simp
    simp only [hne, if_false] at h
    have hcs : ∀ c ∈ cbcBlocks E iv (q :: qs), c.length = 16 :=
      cbcBlocks_block E hE _ _ hiv hqs
    have hfl : (cbcBlocks E iv (q :: qs)).flatten.length = 16 * (qs.length + 1) := by
      rw [join_block_length _ hcs, cbcBlocks_length]; simp
    have hc : (E (xorb pl (lastBlock iv (cbcBlocks E iv (q :: qs))))).length = 16 := by
      apply hE
      have : (lastBlock iv (cbcBlocks E iv (q :: qs))).length = 16 :=
        lastBlock_length _ _ hiv hcs
      simp [xorb_length, hpl, this]
    have hbuf : (cbcBlocks E iv (q :: (qs ++ [pl]))).flatten ++ tail
        = (cbcBlocks E iv (q :: qs)).flatten
          ++ E (xorb pl (lastBlock iv (cbcBlocks E iv (q :: qs)))) ++ tail := by
      have := cbcBlocks_concat E (q :: qs) iv pl
      simp only [List.cons_append] at this
      rw [this]; simp
    refine ⟨_, _, by simpa using h, hbuf, ?_⟩
    simp only [EncMem.rd, BLOCK_LEN]
    rw [hbuf]
    exact peek_eq _ _ _ tail _ _ rfl (by rw [hfl]) hc.symm

/-! ## Lemmas: what encrypt_buffer computes -/

theorem dbuf_init (iv ex : Bytes) (hiv : iv.length = 16) :
    poke (List.replicate (2 * BLOCK_LEN) 0) 0 (peek (iv ++ ex) 0 BLOCK_LEN)
      = iv ++ List.replicate 16 0 := by
  have h1 : peek (iv ++ ex) 0 BLOCK_LEN = iv := peek_eq _ [] iv ex _ _ (by simp) rfl hiv.symm
  rw [h1]
  exact poke_eq _ [] (List.replicate 16 0) (List.replicate 16 0) _ _
    (by simp [BLOCK_LEN, ← List.replicate_add]) rfl (by simp [hiv])

/-- The long case (`dim >= 16`) on a buffer and a random pool that are longer
than `dim` and 16: the bytes `junk` and `ex` beyond are left alone. -/
theorem encrypt_buffer_long_frame (E : Bytes → Bytes)
    (hE : ∀ b, b.length = 16 → (E b).length = 16)
    (qs : List Bytes) (pl tail junk iv ex : Bytes)
    (hqs : ∀ q ∈ qs, q.length = 16) (hpl : pl.length = 16) (hiv : iv.length = 16)
    (ht : tail.length < 16) :
    encrypt_buffer E ((qs ++ [pl]).flatten ++ (tail ++ junk))
        (16 * (qs.length + 1) + tail.length) (iv ++ ex)
      = ((cbcBlocks E iv qs).flatten ++
          (if tail = [] then E (xorb pl (lastBlock iv (cbcBlocks E iv qs)))
           else stealTail E (E (xorb pl (lastBlock iv (cbcBlocks E iv qs)))) tail) ++ junk,
         iv ++ ex, 16 * (qs.length + 1) + tail.length + 16) := by
  obtain ⟨m, b1, hloop, hbuf, hrd⟩ := encrypt_loop_result E hE qs pl (tail ++ junk) iv
    (List.replicate 16 0) (16 * (qs.length + 1) + tail.length + 1)
    (16 * (qs.length + 1) + tail.length) tail.length hqs hpl hiv ht (by omega) rfl
  have hcs : ∀ c ∈ cbcBlocks E iv qs, c.length = 16 := cbcBlocks_block E hE _ _ hiv hqs
  have hfl : (cbcBlocks E iv qs).flatten.length = 16 * qs.length := by
    rw [join_block_length _ hcs, cbcBlocks_length]
  have hcl : (E (xorb pl (lastBlock iv (cbcBlocks E iv qs)))).length = 16 :=
    hE _ (by simp [xorb_length, hpl, lastBlock_length _ _ hiv hcs])
  have hdim : ¬ (16 * (qs.length + 1) + tail.length < BLOCK_LEN) := by simp [BLOCK_LEN]; omega
  unfold encrypt_buffer
  simp only [hdim, if_false, dbuf_init iv ex hiv, hloop]
  by_cases hnil : tail = []
  · subst hnil
    simp [hbuf, BLOCK_LEN]
  · have hpos : tail.length ≠ 0 := by simpa using hnil
    simp only [hpos, ne_eq, not_false_eq_true, if_true, hnil, if_false, hrd, hbuf, BLOCK_LEN]
    generalize hclv : E (xorb pl (lastBlock iv (cbcBlocks E iv qs))) = cl at *
    generalize hcsv : (cbcBlocks E iv qs).flatten = cf at *
    have r1 : peek (cf ++ cl ++ (tail ++ junk)) ((qs.length + 1) * 16) tail.length = tail :=
      peek_eq _ (cf ++ cl) tail junk _ _ (by simp) (by simp [hfl, hcl]; omega) rfl
    have hb3 : (E (xorb tail (peek cl 0 tail.length)
        ++ peek cl tail.length (16 - tail.length))).length = 16 := by
      apply hE
      simp [xorb_length, peek, hcl]
      omega
    have w1 : poke (cf ++ cl ++ (tail ++ junk))
        (16 * (qs.length + 1) + tail.length - tail.length - 16)
        (E (xorb tail (peek cl 0 tail.length) ++ peek cl tail.length (16 - tail.length)))
        = cf ++ E (xorb tail (peek cl 0 tail.length)
            ++ peek cl tail.length (16 - tail.length)) ++ (tail ++ junk) :=
      poke_eq _ cf cl (tail ++ junk) _ _ rfl (by rw [hfl]; omega) (by rw [hb3, hcl])
    have w2 : poke (cf ++ E (xorb tail (peek cl 0 tail.length)
            ++ peek cl tail.length (16 - tail.length)) ++ (tail ++ junk))
          (16 * (qs.length + 1) + tail.length - tail.length) (peek cl 0 tail.length)
        = cf ++ E (xorb tail (peek cl 0 tail.length)
            ++ peek cl tail.length (16 - tail.length)) ++ peek cl 0 tail.length ++ junk :=
      poke_eq _ _ tail junk _ _ (by simp) (by simp [hfl, hb3]; omega)
        (by simp [peek, hcl]; omega)
    rw [r1, w1, w2]
    simp [stealTail]

theorem encrypt_buffer_long (E : Bytes → Bytes) (hE : ∀ b, b.length = 16 → (E b).length = 16)
    (qs : List Bytes) (pl tail iv : Bytes)
    (hqs : ∀ q ∈ qs, q.length = 16) (hpl : pl.length = 16) (hiv : iv.length = 16)
    (ht : tail.length < 16) :
    encrypt_buffer E ((qs ++ [pl]).flatten ++ tail) (16 * (qs.length + 1) + tail.length) iv
      = ((cbcBlocks E iv qs).flatten ++
          (if tail = [] then E (xorb pl (lastBlock iv (cbcBlocks E iv qs)))
           else stealTail E (E (xorb pl (lastBlock iv (cbcBlocks E iv qs)))) tail),
         iv, 16 * (qs.length + 1) + tail.length + 16) := by
  have h := encrypt_buffer_long_frame E hE qs pl tail [] iv [] hqs hpl hiv ht
  simpa using h

/-! ## Lemmas: the loop of decrypt_buffer -/

theorem peek_split (cl : Bytes) (r : Nat) (hcl : cl.length = 16) :
    peek cl 0 r ++ peek cl r (16 - r) = cl := by
  have h : (List.drop r cl).take (16 - r) = List.drop r cl :=
    List.take_of_length_le (by simp [hcl])
  simp [peek, h]

theorem decrypt_step_aligned (E D : Bytes → Bytes) (hDE : ∀ b, b.length = 16 → D (E b) = b)
    (hE : ∀ b, b.length = 16 → (E b).length = 16)
    (fuel : Nat) (done prev p rest : Bytes) (b1 b2 len index : Nat)
    (hprev : prev.length = 16) (hp : p.length = 16) (hidx : index * 16 = done.length)
    (hb1 : b1 = done.length) (hb2 : b2 = done.length + 16)
    (hlen : len = 16 ∨ 32 ≤ len) :
    decrypt_loop D (fuel + 1) (done ++ prev ++ E (xorb p prev) ++ rest) b1 b2 len index
      = if len - 16 = 0 then done ++ p ++ E (xorb p prev) ++ rest
        else decrypt_loop D fuel (done ++ p ++ E (xorb p prev) ++ rest) b2 (b2 + 16)
          (len - 16) (index + 1) := by
  have hx : (xorb p prev).length = 16 := by simp [xorb_length, hp, hprev]
  have hc : (E (xorb p prev)).length = 16 := hE _ hx
  have hnl : (if len - 16 > 16 then 16 else len - 16) = 0
      ∨ (if len - 16 > 16 then 16 else len - 16) = 16 := by
    rcases hlen with h | h
    · left; simp [h]
    · right; split <;> omega
  have r1 : peek (done ++ prev ++ E (xorb p prev) ++ rest) b2 16 = E (xorb p prev) :=
    peek_eq _ (done ++ prev) _ rest _ _ rfl (by simp [hb2, hprev]) hc.symm
  have r2 : peek (done ++ prev ++ E (xorb p prev) ++ rest) b1 16 = prev :=
    peek_eq _ done prev (E (xorb p prev) ++ rest) _ _ (by simp) hb1 hprev.symm
  have w1 : poke (done ++ prev ++ E (xorb p prev) ++ rest) (index * 16) p
      = done ++ p ++ (E (xorb p prev) ++ rest) :=
    poke_eq _ done prev (E (xorb p prev) ++ rest) _ _ (by simp) hidx (by rw [hp, hprev])
  simp only [decrypt_loop, BLOCK_LEN, hnl, if_true, r1, r2, hDE _ hx,
    xorb_cancel p prev (by omega), w1]
  simp only [List.append_assoc]

theorem decrypt_loop_aligned (E D : Bytes → Bytes) (hDE : ∀ b, b.length = 16 → D (E b) = b)
    (hE : ∀ b, b.length = 16 → (E b).length = 16) :
    ∀ (blocks : List Bytes) (fuel : Nat) (done prev : Bytes) (b1 b2 len index : Nat),
      prev.length = 16 → (∀ p ∈ blocks, p.length = 16) → blocks ≠ [] → blocks.length ≤ fuel →
      index * 16 = done.length → b1 = done.length → b2 = done.length + 16 →
      len = 16 * blocks.length →
      decrypt_loop D fuel (done ++ prev ++ (cbcBlocks E prev blocks).flatten) b1 b2 len index
        = done ++ blocks.flatten ++ lastBlock prev (cbcBlocks E prev blocks)
  | [], _, _, _, _, _, _, _, _, _, h, _, _, _, _, _ => absurd rfl h
  | p :: ps, 0, _, _, _, _, _, _, _, _, _, h, _, _, _, _ => by simp at h
  | p :: ps, fuel + 1, done, prev, b1, b2, len, index, hprev, hbl, _, hfuel, hidx, hb1, hb2,
      hlen => by
    have hp : p.length = 16 := hbl p (by simp)
    have hps : ∀ q ∈ ps, q.length = 16 := fun q hq => hbl q (by simp [hq])
    have hc : (E (xorb p prev)).length = 16 := hE _ (by simp [xorb_length, hp, hprev])
    have hb : done ++ prev ++ (cbcBlocks E prev (p :: ps)).flatten
        = done ++ prev ++ E (xorb p prev) ++ (cbcBlocks E (E (xorb p prev)) ps).flatten := by
      simp [cbcBlocks]
    rw [hb, decrypt_step_aligned E D hDE hE fuel done prev p _ b1 b2 len index hprev hp hidx
      hb1 hb2 (by simp at hlen; omega)]
    by_cases hnil : ps = []
    · subst hnil
      have : len - 16 = 0 := by simp at hlen; omega
      simp [this, cbcBlocks, lastBlock]
    · have hpos := List.length_pos.mpr hnil
      have : ¬ (len - 16 = 0) := by simp at hlen; omega
      simp only [this, if_false]
      have ih := decrypt_loop_aligned E D hDE hE ps fuel (done ++ p) (E (xorb p prev)) b2
        (b2 + 16) (len - 16) (index + 1) hc hps hnil (by simpa using hfuel)
        (by simp [hp]; omega) (by simp [hp, hb2]) (by simp [hp, hb2])
        (by simp at hlen; omega)
      rw [ih]
      simp [cbcBlocks, lastBlock]

theorem decrypt_step_steal (E D : Bytes → Bytes) (hDE : ∀ b, b.length = 16 → D (E b) = b)
    (hE : ∀ b, b.length = 16 → (E b).length = 16)
    (fuel : Nat) (done prev pl t : Bytes) (b1 b2 len index : Nat)
    (hprev : prev.length = 16) (hpl : pl.length = 16) (ht0 : 0 < t.length)
    (ht : t.length < 16) (hidx : index * 16 = done.length)
    (hb1 : b1 = done.length) (hb2 : b2 = done.length + 16) (hlen : len = 16 + t.length) :
    ∃ junk, decrypt_loop D (fuel + 1) (done ++ prev ++ stealTail E (E (xorb pl prev)) t)
      b1 b2 len index = done ++ pl ++ t ++ junk := by
  have hxp : (xorb pl prev).length = 16 := by simp [xorb_length, hpl, hprev]
  have hcl : (E (xorb pl prev)).length = 16 := hE _ hxp
  unfold stealTail
  generalize hclv : E (xorb pl prev) = cl at *
  have hS : (peek cl 0 t.length).length = t.length := by simp [peek, hcl]; omega
  have hR : (peek cl t.length (16 - t.length)).length = 16 - t.length := by
    simp [peek, hcl]
  have hxt : (xorb t (peek cl 0 t.length)).length = t.length := by simp [xorb_length, hS]
  have hY : (xorb t (peek cl 0 t.length) ++ peek cl t.length (16 - t.length)).length = 16 := by
    simp [hxt, hR]; omega
  have hX := hE _ hY
  generalize hXv : E (xorb t (peek cl 0 t.length) ++ peek cl t.length (16 - t.length)) = X at *
  have hDX : D X = xorb t (peek cl 0 t.length) ++ peek cl t.length (16 - t.length) := by
    rw [← hXv]; exact hDE _ hY
  have hDcl : D cl = xorb pl prev := by rw [← hclv]; exact hDE _ hxp
  have hnl : (if len - 16 > 16 then 16 else len - 16) = t.length := by
    split <;> omega
  have hcond : ¬ (t.length = 0 ∨ t.length = 16) := by omega
  have r1 : peek (done ++ prev ++ (X ++ peek cl 0 t.length)) b2 16 = X :=
    peek_eq _ (done ++ prev) X (peek cl 0 t.length) _ _ (by simp) (by simp [hb2, hprev])
      hX.symm
  have r2 : peek (done ++ prev ++ (X ++ peek cl 0 t.length)) (b2 + 16) t.length
      = peek cl 0 t.length :=
    peek_eq _ (done ++ prev ++ X) _ [] _ _ (by simp) (by simp [hb2, hprev, hX]) hS.symm
  have r3 : peek (done ++ prev ++ (X ++ peek cl 0 t.length)) b1 16 = prev :=
    peek_eq _ done prev (X ++ peek cl 0 t.length) _ _ rfl hb1 hprev.symm
  have r4 : peek (xorb t (peek cl 0 t.length) ++ peek cl t.length (16 - t.length)) 0 t.length
      = xorb t (peek cl 0 t.length) :=
    peek_eq _ [] _ (peek cl t.length (16 - t.length)) _ _ rfl rfl hxt.symm
  have w3 : poke (xorb t (peek cl 0 t.length) ++ peek cl t.length (16 - t.length)) 0 t
      = t ++ peek cl t.length (16 - t.length) :=
    poke_eq _ [] _ (peek cl t.length (16 - t.length)) _ _ rfl rfl hxt.symm
  have r5 : peek (t ++ peek cl t.length (16 - t.length)) t.length (16 - t.length)
      = peek cl t.length (16 - t.length) :=
    peek_eq _ t _ [] _ _ (by simp) rfl hR.symm
  have r6 : peek (t ++ peek cl t.length (16 - t.length)) 0 t.length = t :=
    peek_eq _ [] t _ _ _ rfl rfl rfl
  have w1 : poke (done ++ prev ++ (X ++ peek cl 0 t.length)) (index * 16) pl
      = done ++ pl ++ (X ++ peek cl 0 t.length) :=
    poke_eq _ done prev _ _ _ rfl hidx (by rw [hpl, hprev])
  have w2 : poke (done ++ pl ++ (X ++ peek cl 0 t.length)) ((index + 1) * 16) t
      = done ++ pl ++ t ++ (List.drop t.length X ++ peek cl 0 t.length) :=
    poke_eq _ (done ++ pl) (List.take t.length X) _ _ _
      (by conv_lhs => rw [← List.take_append_drop t.length X]
          simp only [List.append_assoc])
      (by simp [hpl]; omega) (by simp [hX]; omega)
  refine ⟨List.drop t.length X ++ peek cl 0 t.length, ?_⟩
  simp only [stealTail, decrypt_loop, BLOCK_LEN, hnl, hcond, if_false, r1, r2, r3, hDX, r4,
    xorb_cancel t _ (le_of_eq hS.symm), w3, r5, peek_split cl t.length hcl, hDcl,
    xorb_cancel pl prev (by omega), w1, r6, w2]

theorem decrypt_loop_steal (E D : Bytes → Bytes) (hDE : ∀ b, b.length = 16 → D (E b) = b)
    (hE : ∀ b, b.length = 16 → (E b).length = 16) :
    ∀ (blocks : List Bytes) (fuel : Nat) (done prev pl t : Bytes) (b1 b2 len index : Nat),
      prev.length = 16 → (∀ p ∈ blocks, p.length = 16) → pl.length = 16 → 0 < t.length →
      t.length < 16 → blocks.length < fuel → index * 16 = done.length → b1 = done.length →
      b2 = done.length + 16 → len = 16 * blocks.length + 16 + t.length →
      ∃ junk, decrypt_loop D fuel (done ++ prev ++ ((cbcBlocks E prev blocks).flatten
          ++ stealTail E (E (xorb pl (lastBlock prev (cbcBlocks E prev blocks)))) t))
          b1 b2 len index = done ++ blocks.flatten ++ pl ++ t ++ junk
  | _, 0, _, _, _, _, _, _, _, _, _, _, _, _, _, h, _, _, _, _ => by simp at h
  | [], fuel + 1, done, prev, pl, t, b1, b2, len, index, hprev, _, hpl, ht0, ht, _, hidx, hb1,
      hb2, hlen => by
    obtain ⟨junk, hj⟩ := decrypt_step_steal E D hDE hE fuel done prev pl t b1 b2 len index
      hprev hpl ht0 ht hidx hb1 hb2 (by simpa using hlen)
    exact ⟨junk, by simpa [cbcBlocks, lastBlock] using hj⟩
  | p :: ps, fuel + 1, done, prev, pl, t, b1, b2, len, index, hprev, hbl, hpl, ht0, ht, hfuel,
      hidx, hb1, hb2, hlen => by
    have hp : p.length = 16 := hbl p (by simp)
    have hps : ∀ q ∈ ps, q.length = 16 := fun q hq => hbl q (by simp [hq])
    have hc : (E (xorb p prev)).length = 16 := hE _ (by simp [xorb_length, hp, hprev])
    obtain ⟨junk, ih⟩ := decrypt_loop_steal E D hDE hE ps fuel (done ++ p) (E (xorb p prev))
      pl t b2 (b2 + 16) (len - 16) (index + 1) hc hps hpl ht0 ht (by simpa using hfuel)
      (by simp [hp]; omega) (by simp [hp, hb2]) (by simp [hp, hb2])
      (by simp at hlen; omega)
    refine ⟨junk, ?_⟩
    have hb : done ++ prev ++ ((cbcBlocks E prev (p :: ps)).flatten
          ++ stealTail E (E (xorb pl (lastBlock prev (cbcBlocks E prev (p :: ps))))) t)
        = done ++ prev ++ E (xorb p prev) ++ ((cbcBlocks E (E (xorb p prev)) ps).flatten
          ++ stealTail E (E (xorb pl (lastBlock (E (xorb p prev))
              (cbcBlocks E (E (xorb p prev)) ps)))) t) := by
      simp [cbcBlocks, lastBlock]
    rw [hb, decrypt_step_aligned E D hDE hE fuel done prev p _ b1 b2 len index hprev hp hidx
      hb1 hb2 (by simp at hlen; omega)]
    have : ¬ (len - 16 = 0) := by simp at hlen; omega
    simp only [this, if_false]
    rw [ih]
    simp

/-! ## Lemmas: the short case and the decomposition into blocks -/

/-- The short case (`dim < 16`) on a buffer and a random pool that are longer
than `dim` and 16: the bytes `junk` and `ex` beyond are left alone. -/
theorem encrypt_buffer_short_frame (E : Bytes → Bytes)
    (hE : ∀ b, b.length = 16 → (E b).length = 16)
    (x junk iv ex : Bytes) (hx : x.length < 16) (hiv : iv.length = 16) :
    encrypt_buffer E (x ++ junk) x.length (iv ++ ex)
      = (List.drop (16 - x.length)
            (E (List.drop x.length iv ++ xorb x (List.take x.length iv))) ++ junk,
         List.take x.length iv ++ List.take (16 - x.length)
            (E (List.drop x.length iv ++ xorb x (List.take x.length iv))) ++ ex,
         x.length + 16) := by
  have hxx : (xorb x (List.take x.length iv)).length = x.length := by
    simp [xorb_length, hiv]; omega
  have hY : (List.drop x.length iv ++ xorb x (List.take x.length iv)).length = 16 := by
    simp [hxx, hiv]; omega
  have hEY := hE _ hY
  generalize hYv : E (List.drop x.length iv ++ xorb x (List.take x.length iv)) = EY at *
  have hdim : x.length < BLOCK_LEN := hx
  have p0 : peek (x ++ junk) 0 x.length = x := peek_eq _ [] x junk _ _ (by simp) rfl rfl
  have w1 : poke (iv ++ List.replicate 16 0) BLOCK_LEN x
      = iv ++ x ++ List.drop x.length (List.replicate 16 0) :=
    poke_eq _ iv (List.take x.length (List.replicate 16 0)) _ _ _
      (by simp only [List.append_assoc, List.take_append_drop]) hiv.symm
      (by simp; omega)
  have r1 : peek (iv ++ x ++ List.drop x.length (List.replicate 16 0)) BLOCK_LEN x.length = x :=
    peek_eq _ iv x _ _ _ rfl hiv.symm rfl
  have r2 : peek (iv ++ x ++ List.drop x.length (List.replicate 16 0)) 0 x.length
      = List.take x.length iv :=
    peek_eq _ [] _ (List.drop x.length iv ++ x ++ List.drop x.length (List.replicate 16 0))
      _ _ (by simp [← List.append_assoc, List.take_append_drop]) rfl (by simp [hiv]; omega)
  have w2 : poke (iv ++ x ++ List.drop x.length (List.replicate 16 0)) BLOCK_LEN
        (xorb x (List.take x.length iv))
      = iv ++ xorb x (List.take x.length iv) ++ List.drop x.length (List.replicate 16 0) :=
    poke_eq _ iv x _ _ _ rfl hiv.symm hxx
  have r3 : peek (iv ++ xorb x (List.take x.length iv)
        ++ List.drop x.length (List.replicate 16 0)) x.length BLOCK_LEN
      = List.drop x.length iv ++ xorb x (List.take x.length iv) :=
    peek_eq _ (List.take x.length iv) _ (List.drop x.length (List.replicate 16 0)) _ _
      (by simp [← List.append_assoc, List.take_append_drop]) (by simp [hiv]; omega) hY.symm
  have w3 : poke (iv ++ xorb x (List.take x.length iv)
        ++ List.drop x.length (List.replicate 16 0)) x.length EY
      = List.take x.length iv ++ EY ++ List.drop x.length (List.replicate 16 0) :=
    poke_eq _ (List.take x.length iv) (List.drop x.length iv ++ xorb x (List.take x.length iv))
      _ _ _ (by simp [← List.append_assoc, List.take_append_drop]) (by simp [hiv]; omega)
      (by rw [hEY, hY])
  have r4 : peek (List.take x.length iv ++ EY ++ List.drop x.length (List.replicate 16 0))
        0 BLOCK_LEN = List.take x.length iv ++ List.take (16 - x.length) EY :=
    peek_eq _ [] _ (List.drop (16 - x.length) EY ++ List.drop x.length (List.replicate 16 0))
      _ _ (by conv_lhs => rw [← List.take_append_drop (16 - x.length) EY]
              simp only [List.append_assoc, List.nil_append]) rfl
      (by simp [hiv, hEY, BLOCK_LEN]; omega)
  have r5 : peek (List.take x.length iv ++ EY ++ List.drop x.length (List.replicate 16 0))
        BLOCK_LEN x.length = List.drop (16 - x.length) EY :=
    peek_eq _ (List.take x.length iv ++ List.take (16 - x.length) EY) _
      (List.drop x.length (List.replicate 16 0)) _ _
      (by conv_lhs => rw [← List.take_append_drop (16 - x.length) EY]
          simp only [List.append_assoc])
      (by simp [hiv, hEY, BLOCK_LEN]; omega) (by simp [hEY]; omega)
  have w4 : poke (iv ++ ex) 0 (List.take x.length iv ++ List.take (16 - x.length) EY)
      = [] ++ (List.take x.length iv ++ List.take (16 - x.length) EY) ++ ex :=
    poke_eq _ [] iv ex _ _ (by simp) rfl (by simp [hiv, hEY]; omega)
  have w5 : poke (x ++ junk) 0 (List.drop (16 - x.length) EY)
      = [] ++ List.drop (16 - x.length) EY ++ junk :=
    poke_eq _ [] x junk _ _ (by simp) rfl (by simp [hEY]; omega)
  unfold encrypt_buffer
  simp only [hdim, if_true, dbuf_init iv ex hiv, p0, w1, r1, r2, w2, r3, hYv, w3, r4, r5, w4,
    w5]
  simp [BLOCK_LEN]

theorem encrypt_buffer_short (E : Bytes → Bytes) (hE : ∀ b, b.length = 16 → (E b).length = 16)
    (x iv : Bytes) (hx : x.length < 16) (hiv : iv.length = 16) :
    encrypt_buffer E x x.length iv
      = (List.drop (16 - x.length)
            (E (List.drop x.length iv ++ xorb x (List.take x.length iv))),
         List.take x.length iv ++ List.take (16 - x.length)
            (E (List.drop x.length iv ++ xorb x (List.take x.length iv))),
         x.length + 16) := by
  have h := encrypt_buffer_short_frame E hE x [] iv [] hx hiv
  simpa using h

theorem blocks_decomp : ∀ (n : Nat) (x : Bytes), x.length = n →
    ∃ bs tail, x = List.flatten bs ++ tail ∧ (∀ b ∈ bs, b.length = 16) ∧ tail.length < 16 ∧
      bs.length = n / 16
  | n, x, hn => by
    by_cases h : n < 16
    · exact ⟨[], x, by simp, by simp, by omega, by simp; omega⟩
    · obtain ⟨bs, tail, hx, hbs, ht, hl⟩ := blocks_decomp (n - 16) (List.drop 16 x)
        (by simp [hn])
      refine ⟨List.take 16 x :: bs, tail, ?_, ?_, ht, ?_⟩
      · rw [List.flatten_cons, List.append_assoc, ← hx, List.take_append_drop]
      · intro b hb
        rcases List.mem_cons.mp hb with rfl | hb
        · simp; omega
        · exact hbs b hb
      · simp [hl]; omega
  termination_by n => n
  decreasing_by omega

/-! ## C1: decrypt_buffer undoes encrypt_buffer -/

theorem decrypt_buffer_short (E D : Bytes → Bytes)
    (hE : ∀ b, b.length = 16 → (E b).length = 16) (hDE : ∀ b, b.length = 16 → D (E b) = b)
    (x iv : Bytes) (hx : x.length < 16) (hiv : iv.length = 16) :
    peek (decrypt_buffer D ((encrypt_buffer E x x.length iv).2.1
      ++ (encrypt_buffer E x x.length iv).1) (x.length + 16)) 0 x.length = x := by
  rw [encrypt_buffer_short E hE x iv hx hiv]
  have hxx : (xorb x (List.take x.length iv)).length = x.length := by
    simp [xorb_length, hiv]; omega
  have hY : (List.drop x.length iv ++ xorb x (List.take x.length iv)).length = 16 := by
    simp [hxx, hiv]; omega
  have hEY := hE _ hY
  have hD := hDE _ hY
  generalize hYv : E (List.drop x.length iv ++ xorb x (List.take x.length iv)) = EY at *
  have hdim : x.length + 16 < 2 * BLOCK_LEN := by simp [BLOCK_LEN]; omega
  have hw : List.take x.length iv ++ List.take (16 - x.length) EY
      ++ List.drop (16 - x.length) EY = List.take x.length iv ++ EY := by
    rw [List.append_assoc, List.take_append_drop]
  have r1 : peek (List.take x.length iv ++ EY) (x.length + 16 - BLOCK_LEN) BLOCK_LEN = EY :=
    peek_eq _ (List.take x.length iv) EY [] _ _ (by simp) (by simp [hiv, BLOCK_LEN]; omega)
      hEY.symm
  have w1 : poke (List.take x.length iv ++ EY) (x.length + 16 - BLOCK_LEN)
        (List.drop x.length iv ++ xorb x (List.take x.length iv))
      = iv ++ xorb x (List.take x.length iv) := by
    have := poke_eq (List.take x.length iv ++ EY) (List.take x.length iv) EY []
      (List.drop x.length iv ++ xorb x (List.take x.length iv)) (x.length + 16 - BLOCK_LEN)
      (by simp) (by simp [hiv, BLOCK_LEN]; omega) (by rw [hY, hEY])
    rw [this]
    simp [← List.append_assoc, List.take_append_drop]
  have r2 : peek (iv ++ xorb x (List.take x.length iv)) 0 (x.length + 16 - BLOCK_LEN)
      = List.take x.length iv :=
    peek_eq _ [] _ (List.drop x.length iv ++ xorb x (List.take x.length iv)) _ _
      (by simp [← List.append_assoc, List.take_append_drop]) rfl
      (by simp [hiv, BLOCK_LEN]; omega)
  have r3 : peek (iv ++ xorb x (List.take x.length iv)) BLOCK_LEN (x.length + 16 - BLOCK_LEN)
      = xorb x (List.take x.length iv) :=
    peek_eq _ iv _ [] _ _ (by simp) hiv.symm (by simp [hxx, BLOCK_LEN])
  have hc : xorb (List.take x.length iv) (xorb x (List.take x.length iv)) = x := by
    rw [xorb_comm]
    exact xorb_cancel x _ (by simp [hiv]; omega)
  have w2 : poke (iv ++ xorb x (List.take x.length iv)) 0 x
      = x ++ (List.drop x.length iv ++ xorb x (List.take x.length iv)) := by
    have := poke_eq (iv ++ xorb x (List.take x.length iv)) [] (List.take x.length iv)
      (List.drop x.length iv ++ xorb x (List.take x.length iv)) x 0
      (by simp [← List.append_assoc, List.take_append_drop]) rfl (by simp [hiv]; omega)
    simpa using this
  unfold decrypt_buffer
  simp only [hdim, if_true, hw, r1, hD, w1, r2, r3, hc, w2]
  exact peek_eq _ [] x _ _ _ rfl rfl rfl

theorem decrypt_buffer_blocks (E D : Bytes → Bytes)
    (hE : ∀ b, b.length = 16 → (E b).length = 16) (hDE : ∀ b, b.length = 16 → D (E b) = b)
    (qs : List Bytes) (pl tail iv : Bytes) (hqs : ∀ q ∈ qs, q.length = 16)
    (hpl : pl.length = 16) (ht : tail.length < 16) (hiv : iv.length = 16) :
    peek (decrypt_buffer D
      ((encrypt_buffer E ((qs ++ [pl]).flatten ++ tail)
          (16 * (qs.length + 1) + tail.length) iv).2.1
        ++ (encrypt_buffer E ((qs ++ [pl]).flatten ++ tail)
          (16 * (qs.length + 1) + tail.length) iv).1)
      (16 * (qs.length + 1) + tail.length + 16)) 0 (16 * (qs.length + 1) + tail.length)
      = (qs ++ [pl]).flatten ++ tail := by
  have hbs : ∀ b ∈ qs ++ [pl], b.length = 16 := by
    intro b hb
    rcases List.mem_append.mp hb with h | h
    · exact hqs b h
    · simp at h; rw [h]; exact hpl
  have hfl : (qs ++ [pl]).flatten.length = 16 * (qs.length + 1) := by
    rw [join_block_length _ hbs]; simp
  have hdim : ¬ (16 * (qs.length + 1) + tail.length + 16 < 2 * BLOCK_LEN) := by
    simp [BLOCK_LEN]; omega
  rw [encrypt_buffer_long E hE qs pl tail iv hqs hpl hiv ht]
  unfold decrypt_buffer
  simp only [hdim, if_false]
  simp only [BLOCK_LEN]
  by_cases hnil : tail = []
  · subst hnil
    have hct : iv ++ ((cbcBlocks E iv qs).flatten
          ++ E (xorb pl (lastBlock iv (cbcBlocks E iv qs))))
        = [] ++ iv ++ (cbcBlocks E iv (qs ++ [pl])).flatten := by
      rw [cbcBlocks_concat]; simp
    have h := decrypt_loop_aligned E D hDE hE (qs ++ [pl])
      (16 * (qs.length + 1) + ([] : Bytes).length + 16 + 1) [] iv 0 16
      (16 * (qs.length + 1) + ([] : Bytes).length + 16 - 16) 0 hiv hbs (by simp)
      (by simp; omega) (by simp) (by simp) (by simp) (by simp)
    simp only [if_true, hct, h]
    exact peek_eq _ [] _ (lastBlock iv (cbcBlocks E iv (qs ++ [pl]))) _ _ (by simp) rfl
      (by simp only [List.append_nil, hfl, List.length_nil, Nat.add_zero])
  · have ht0 : 0 < tail.length := List.length_pos.mpr hnil
    obtain ⟨junk, h⟩ := decrypt_loop_steal E D hDE hE qs
      (16 * (qs.length + 1) + tail.length + 16 + 1) [] iv pl tail 0 16
      (16 * (qs.length + 1) + tail.length + 16 - 16) 0 hiv hqs hpl ht0 ht
      (by omega) (by simp) (by simp) (by simp) (by omega)
    simp only [List.nil_append] at h
    simp only [hnil, if_false, h]
    exact peek_eq _ [] _ junk _ _ (by simp) rfl
      (by rw [List.length_append, hfl])

theorem decrypt_buffer_long (E D : Bytes → Bytes)
    (hE : ∀ b, b.length = 16 → (E b).length = 16) (hDE : ∀ b, b.length = 16 → D (E b) = b)
    (x iv : Bytes) (hx : 16 ≤ x.length) (hiv : iv.length = 16) :
    peek (decrypt_buffer D ((encrypt_buffer E x x.length iv).2.1
      ++ (encrypt_buffer E x x.length iv).1) (x.length + 16)) 0 x.length = x := by
  obtain ⟨bs, tail, hxe, hbs, ht, hl⟩ := blocks_decomp x.length x rfl
  have hne : bs ≠ [] := by
    rintro rfl
    simp at hl
    omega
  rcases List.eq_nil_or_concat bs with h | ⟨qs, pl, hq⟩
  · exact absurd h hne
  rw [List.concat_eq_append] at hq
  subst hq
  have hqs : ∀ q ∈ qs, q.length = 16 := fun q hq => hbs q (by simp [hq])
  have hpl : pl.length = 16 := hbs pl (by simp)
  have hlen : x.length = 16 * (qs.length + 1) + tail.length := by
    rw [hxe, List.length_append, join_block_length _ hbs]; simp
  rw [hlen]
  subst hxe
  exact decrypt_buffer_blocks E D hE hDE qs pl tail iv hqs hpl ht hiv

theorem encrypt_buffer_lengths (E : Bytes → Bytes)
    (hE : ∀ b, b.length = 16 → (E b).length = 16) (x iv : Bytes) (hiv : iv.length = 16) :
    (encrypt_buffer E x x.length iv).1.length = x.length ∧
    (encrypt_buffer E x x.length iv).2.1.length = 16 ∧
    (encrypt_buffer E x x.length iv).2.2 = x.length + 16 := by
  by_cases hx : x.length < 16
  · rw [encrypt_buffer_short E hE x iv hx hiv]
    have hxx : (xorb x (List.take x.length iv)).length = x.length := by
      simp [xorb_length, hiv]; omega
    have hEY := hE (List.drop x.length iv ++ xorb x (List.take x.length iv))
      (by simp [hxx, hiv]; omega)
    refine ⟨?_, ?_, rfl⟩
    · simp [hEY]; omega
    · simp [hEY, hiv]; omega
  · obtain ⟨bs, tail, hxe, hbs, ht, hl⟩ := blocks_decomp x.length x rfl
    have hne : bs ≠ [] := by
      rintro rfl
      simp at hl
      omega
    rcases List.eq_nil_or_concat bs with h | ⟨qs, pl, hq⟩
    · exact absurd h hne
    rw [List.concat_eq_append] at hq
    subst hq
    have hqs : ∀ q ∈ qs, q.length = 16 := fun q hq => hbs q (by simp [hq])
    have hpl : pl.length = 16 := hbs pl (by simp)
    have hlen : x.length = 16 * (qs.length + 1) + tail.length := by
      rw [hxe, List.length_append, join_block_length _ hbs]; simp
    rw [hlen]
    subst hxe
    rw [encrypt_buffer_long E hE qs pl tail iv hqs hpl hiv ht]
    have hcs : ∀ c ∈ cbcBlocks E iv qs, c.length = 16 := cbcBlocks_block E hE _ _ hiv hqs
    have hfl : (cbcBlocks E iv qs).flatten.length = 16 * qs.length := by
      rw [join_block_length _ hcs, cbcBlocks_length]
    have hcl : (E (xorb pl (lastBlock iv (cbcBlocks E iv qs)))).length = 16 :=
      hE _ (by simp [xorb_length, hpl, lastBlock_length _ _ hiv hcs])
    refine ⟨?_, hiv, rfl⟩
    by_cases hnil : tail = []
    · subst hnil
      simp only [if_true, List.length_append, hfl, hcl, List.length_nil]
      omega
    · generalize hclv : E (xorb pl (lastBlock iv (cbcBlocks E iv qs))) = cl at *
      have hb3 : (E (xorb tail (peek cl 0 tail.length)
          ++ peek cl tail.length (16 - tail.length))).length = 16 := by
        apply hE
        simp [xorb_length, peek, hcl]
        omega
      have hS : (peek cl 0 tail.length).length = tail.length := by simp [peek, hcl]; omega
      simp only [hnil, if_false, stealTail, List.length_append, hfl, hb3, hS]
      omega

theorem toyCipher_length (b : Bytes) (h : b.length = 16) : (toyCipher b).length = 16 := by
  simp [toyCipher, h]

theorem toyCipher_inverse (b : Bytes) (_h : b.length = 16) : toyCipher (toyCipher b) = b := by
  have hf : ((fun x : Nat => x ^^^ 90) ∘ fun x => x ^^^ 90) = id := by
    funext x
    simp [Nat.xor_cancel_right]
  simp [toyCipher, List.map_reverse, hf]

/-- C1: `decrypt_buffer` undoes `encrypt_buffer`.  For every block cipher `E`
with inverse `D` (on 16-byte blocks), every 16-byte IV and every payload `x` of
any length `n`: when `encrypt_buffer` on `(x, n, IV)` leaves the IV block `IV'`
and the ciphertext `c`, then `c` has `n` bytes, `IV'` has 16, and
`decrypt_buffer` on the buffer `IV' ‖ c` with `dim = n + 16` leaves exactly `x`
in the first `n` bytes.  The short, the aligned and the ciphertext-stealing
case are all covered. -/
theorem decrypt_buffer_encrypt_buffer (E D : Bytes → Bytes)
    (hE : ∀ b, b.length = 16 → (E b).length = 16) (hDE : ∀ b, b.length = 16 → D (E b) = b)
    (x iv : Bytes) (hiv : iv.length = 16) :
    (encrypt_buffer E x x.length iv).1.length = x.length ∧
    (encrypt_buffer E x x.length iv).2.1.length = 16 ∧
    peek (decrypt_buffer D ((encrypt_buffer E x x.length iv).2.1
      ++ (encrypt_buffer E x x.length iv).1) (x.length + 16)) 0 x.length = x := by
  refine ⟨(encrypt_buffer_lengths E hE x iv hiv).1, (encrypt_buffer_lengths E hE x iv hiv).2.1,
    ?_⟩
  by_cases hx : x.length < 16
  · exact decrypt_buffer_short E D hE hDE x iv hx hiv
  · exact decrypt_buffer_long E D hE hDE x iv (by omega) hiv

/-- C1 at a concrete input: a 21-byte payload (ciphertext stealing), the toy
cipher and a fixed IV. -/
theorem decrypt_buffer_encrypt_buffer_witness :
    (encrypt_buffer toyCipher (List.range 21) 21 (List.replicate 16 7)).1.length = 21 ∧
    (encrypt_buffer toyCipher (List.range 21) 21 (List.replicate 16 7)).2.1.length = 16 ∧
    peek (decrypt_buffer toyCipher
      ((encrypt_buffer toyCipher (List.range 21) 21 (List.replicate 16 7)).2.1
        ++ (encrypt_buffer toyCipher (List.range 21) 21 (List.replicate 16 7)).1) (21 + 16))
      0 21 = List.range 21 :=
  decrypt_buffer_encrypt_buffer toyCipher toyCipher toyCipher_length toyCipher_inverse
    (List.range 21) (List.replicate 16 7) (by decide)

/-! ## The constants of the SDK -/

theorem sdk_ok : sdk.Ok := by
  constructor <;> decide

/-! ## Lemmas: cubesql_cursor_seek on a client-side cursor -/

theorem seek_client (K : SdkConsts) (E D : Bytes → Bytes)
    (inflate : Bytes → Nat → Option Bytes) (db : Db) (c : Cursor) (index : Int)
    (hside : c.server_side = false) :
    cubesql_cursor_seek K E D inflate db c index =
      if c.nrows ≠ -1 ∧ seek_index K c index > c.nrows then (db, { c with eof := true }, false)
      else if seek_index K c index < 0 then (db, c, false)
      else (db, { c with eof := decide (seek_index K c index = c.nrows + 1),
                         current_row := seek_index K c index }, true) := by
  unfold cubesql_cursor_seek
  rw [if_neg (by simp [hside])]

theorem seek_client_above (K : SdkConsts) (E D : Bytes → Bytes)
    (inflate : Bytes → Nat → Option Bytes) (db : Db) (c : Cursor) (index : Int)
    (hside : c.server_side = false) (hn : 0 ≤ c.nrows) (h : seek_index K c index > c.nrows) :
    cubesql_cursor_seek K E D inflate db c index = (db, { c with eof := true }, false) := by
  rw [seek_client K E D inflate db c index hside, if_pos ⟨by omega, h⟩]

theorem seek_client_below (K : SdkConsts) (E D : Bytes → Bytes)
    (inflate : Bytes → Nat → Option Bytes) (db : Db) (c : Cursor) (index : Int)
    (hside : c.server_side = false) (hn : 0 ≤ c.nrows) (h : seek_index K c index < 0) :
    cubesql_cursor_seek K E D inflate db c index = (db, c, false) := by
  rw [seek_client K E D inflate db c index hside, if_neg (by omega), if_pos h]

theorem seek_client_inside (K : SdkConsts) (E D : Bytes → Bytes)
    (inflate : Bytes → Nat → Option Bytes) (db : Db) (c : Cursor) (index : Int)
    (hside : c.server_side = false) (h0 : 0 ≤ seek_index K c index)
    (h1 : seek_index K c index ≤ c.nrows) :
    cubesql_cursor_seek K E D inflate db c index =
      (db, { c with eof := false, current_row := seek_index K c index }, true) := by
  rw [seek_client K E D inflate db c index hside, if_neg (by omega), if_neg (by omega)]
  have : decide (seek_index K c index = c.nrows + 1) = false := by
    simp; omega
  rw [this]

theorem seek_index_last (K : SdkConsts) (hK : K.Ok) (c : Cursor) :
    seek_index K c K.CUBESQL_SEEKLAST = c.nrows := by
  simp [seek_index, hK.next_last.symm, hK.first_last.symm, hK.last_prev]

theorem seek_index_first (K : SdkConsts) (hK : K.Ok) (c : Cursor) :
    seek_index K c K.CUBESQL_SEEKFIRST = 1 := by
  simp [seek_index, hK.next_first.symm]

theorem seek_index_next (K : SdkConsts) (c : Cursor) :
    seek_index K c K.CUBESQL_SEEKNEXT = c.current_row + 1 := by
  simp [seek_index]

/-! ## C8, C9, C10: cubesql_cursor_seek on a client-side cursor -/

/-- C8: for every client-side cursor with `nrows >= 0`,
`cubesql_cursor_seek (c, SEEKLAST)` returns success and leaves
`current_row = nrows` with `eof = false`, and a `cubesql_cursor_seek (c, SEEKNEXT)`
right after it returns failure, sets `eof = true` and leaves `current_row = nrows`. -/
theorem seek_last_then_next (K : SdkConsts) (hK : K.Ok) (E D : Bytes → Bytes)
    (inflate : Bytes → Nat → Option Bytes) (db : Db) (c : Cursor)
    (hside : c.server_side = false) (hn : 0 ≤ c.nrows) :
    (cubesql_cursor_seek K E D inflate db c K.CUBESQL_SEEKLAST).2.2 = true ∧
    (cubesql_cursor_seek K E D inflate db c K.CUBESQL_SEEKLAST).2.1.current_row = c.nrows ∧
    (cubesql_cursor_seek K E D inflate db c K.CUBESQL_SEEKLAST).2.1.eof = false ∧
    (cubesql_cursor_seek K E D inflate
      (cubesql_cursor_seek K E D inflate db c K.CUBESQL_SEEKLAST).1
      (cubesql_cursor_seek K E D inflate db c K.CUBESQL_SEEKLAST).2.1
      K.CUBESQL_SEEKNEXT).2.2 = false ∧
    (cubesql_cursor_seek K E D inflate
      (cubesql_cursor_seek K E D inflate db c K.CUBESQL_SEEKLAST).1
      (cubesql_cursor_seek K E D inflate db c K.CUBESQL_SEEKLAST).2.1
      K.CUBESQL_SEEKNEXT).2.1.eof = true ∧
    (cubesql_cursor_seek K E D inflate
      (cubesql_cursor_seek K E D inflate db c K.CUBESQL_SEEKLAST).1
      (cubesql_cursor_seek K E D inflate db c K.CUBESQL_SEEKLAST).2.1
      K.CUBESQL_SEEKNEXT).2.1.current_row = c.nrows := by
  have h1 := seek_index_last K hK c
  have e1 := seek_client_inside K E D inflate db c K.CUBESQL_SEEKLAST hside (by omega)
    (by omega)
  have e2 := seek_client_above K E D inflate db
    { c with eof := false, current_row := seek_index K c K.CUBESQL_SEEKLAST }
    K.CUBESQL_SEEKNEXT hside hn
    (by rw [seek_index_next]; show c.nrows < seek_index K c K.CUBESQL_SEEKLAST + 1; omega)
  rw [e1]
  dsimp only
  rw [e2]
  exact ⟨rfl, h1, rfl, rfl, rfl, h1⟩

/-- C8 at a concrete cursor: three rows, the cursor on row 1. -/
theorem seek_last_then_next_witness :
    (cubesql_cursor_seek sdk toyCipher toyCipher (fun _ _ => none) {}
      { nrows := 3, current_row := 1 } sdk.CUBESQL_SEEKLAST).2.2 = true ∧
    (cubesql_cursor_seek sdk toyCipher toyCipher (fun _ _ => none) {}
      { nrows := 3, current_row := 1 } sdk.CUBESQL_SEEKLAST).2.1.current_row = 3 ∧
    (cubesql_cursor_seek sdk toyCipher toyCipher (fun _ _ => none) {}
      { nrows := 3, current_row := 1 } sdk.CUBESQL_SEEKLAST).2.1.eof = false ∧
    (cubesql_cursor_seek sdk toyCipher toyCipher (fun _ _ => none)
      (cubesql_cursor_seek sdk toyCipher toyCipher (fun _ _ => none) {}
        { nrows := 3, current_row := 1 } sdk.CUBESQL_SEEKLAST).1
      (cubesql_cursor_seek sdk toyCipher toyCipher (fun _ _ => none) {}
        { nrows := 3, current_row := 1 } sdk.CUBESQL_SEEKLAST).2.1
      sdk.CUBESQL_SEEKNEXT).2.2 = false ∧
    (cubesql_cursor_seek sdk toyCipher toyCipher (fun _ _ => none)
      (cubesql_cursor_seek sdk toyCipher toyCipher (fun _ _ => none) {}
        { nrows := 3, current_row := 1 } sdk.CUBESQL_SEEKLAST).1
      (cubesql_cursor_seek sdk toyCipher toyCipher (fun _ _ => none) {}
        { nrows := 3, current_row := 1 } sdk.CUBESQL_SEEKLAST).2.1
      sdk.CUBESQL_SEEKNEXT).2.1.eof = true ∧
    (cubesql_cursor_seek sdk toyCipher toyCipher (fun _ _ => none)
      (cubesql_cursor_seek sdk toyCipher toyCipher (fun _ _ => none) {}
        { nrows := 3, current_row := 1 } sdk.CUBESQL_SEEKLAST).1
      (cubesql_cursor_seek sdk toyCipher toyCipher (fun _ _ => none) {}
        { nrows := 3, current_row := 1 } sdk.CUBESQL_SEEKLAST).2.1
      sdk.CUBESQL_SEEKNEXT).2.1.current_row = 3 :=
  seek_last_then_next sdk sdk_ok toyCipher toyCipher (fun _ _ => none) {}
    { nrows := 3, current_row := 1 } rfl (by decide)

/-- C9 fails as stated: a cursor made by `cubesql_cursor_create` has no rows and
`current_row = -1`; `cubesql_cursor_seek (c, SEEKFIRST)` fails on it and the
current row is still -1, not 1. -/
theorem seek_first_counterexample :
    (cubesql_cursor_create sdk 0 1 [1] [[110, 0]]).map (fun c =>
      ((cubesql_cursor_seek sdk toyCipher toyCipher (fun _ _ => none) {} c
          sdk.CUBESQL_SEEKFIRST).2.2,
        (cubesql_cursor_seek sdk toyCipher toyCipher (fun _ _ => none) {} c
          sdk.CUBESQL_SEEKFIRST).2.1.current_row,
        c.server_side)) = some (false, -1, false) := by
  decide

/-- C9, amended: for every client-side cursor with at least one row
(`nrows >= 1`), `cubesql_cursor_seek (c, SEEKFIRST)` returns success and leaves
the current row 1 (and `eof` false). -/
theorem seek_first (K : SdkConsts) (hK : K.Ok) (E D : Bytes → Bytes)
    (inflate : Bytes → Nat → Option Bytes) (db : Db) (c : Cursor)
    (hside : c.server_side = false) (hn : 1 ≤ c.nrows) :
    (cubesql_cursor_seek K E D inflate db c K.CUBESQL_SEEKFIRST).2.2 = true ∧
    (cubesql_cursor_seek K E D inflate db c K.CUBESQL_SEEKFIRST).2.1.current_row = 1 ∧
    (cubesql_cursor_seek K E D inflate db c K.CUBESQL_SEEKFIRST).2.1.eof = false := by
  have h1 := seek_index_first K hK c
  rw [seek_client_inside K E D inflate db c K.CUBESQL_SEEKFIRST hside (by omega) (by omega)]
  exact ⟨rfl, h1, rfl⟩

/-- C9, amended, at a concrete cursor: three rows, the cursor on row 2. -/
theorem seek_first_witness :
    (cubesql_cursor_seek sdk toyCipher toyCipher (fun _ _ => none) {}
      { nrows := 3, current_row := 2 } sdk.CUBESQL_SEEKFIRST).2.2 = true ∧
    (cubesql_cursor_seek sdk toyCipher toyCipher (fun _ _ => none) {}
      { nrows := 3, current_row := 2 } sdk.CUBESQL_SEEKFIRST).2.1.current_row = 1 ∧
    (cubesql_cursor_seek sdk toyCipher toyCipher (fun _ _ => none) {}
      { nrows := 3, current_row := 2 } sdk.CUBESQL_SEEKFIRST).2.1.eof = false :=
  seek_first sdk sdk_ok toyCipher toyCipher (fun _ _ => none) {}
    { nrows := 3, current_row := 2 } rfl (by decide)

/-- C10 fails as stated: on a client-side cursor with three rows, the target row
0 (outside `1..nrows`, given as a number) is accepted: the call returns success,
`eof` stays false and the current row becomes 0.  The same holds for `SEEKPREV`
from row 1. -/
theorem seek_out_of_range_counterexample :
    cubesql_cursor_seek sdk toyCipher toyCipher (fun _ _ => none) {}
        { nrows := 3, current_row := 1 } 0
      = ({}, { nrows := 3, current_row := 0, eof := false }, true) ∧
    cubesql_cursor_seek sdk toyCipher toyCipher (fun _ _ => none) {}
        { nrows := 3, current_row := 1 } sdk.CUBESQL_SEEKPREV
      = ({}, { nrows := 3, current_row := 0, eof := false }, true) := by
  decide

/-- C10, amended: for every client-side cursor with `nrows >= 0` and every
index, with `t` the row the index resolves to (the number itself, or the row
reached through `SEEKNEXT`, `SEEKPREV`, `SEEKFIRST` or `SEEKLAST`): when
`t > nrows` the call sets `eof`, returns failure and leaves the current row;
when `t < 0` the call returns failure and leaves the cursor as it was (`eof` is
not set); and every `t` with `0 <= t <= nrows` is accepted: the call returns
success, the current row becomes `t` and `eof` is false.  In particular row 0
is accepted, as a position before the first row. -/
theorem seek_out_of_range (K : SdkConsts) (E D : Bytes → Bytes)
    (inflate : Bytes → Nat → Option Bytes) (db : Db) (c : Cursor) (index : Int)
    (hside : c.server_side = false) (hn : 0 ≤ c.nrows) :
    (seek_index K c index > c.nrows →
      cubesql_cursor_seek K E D inflate db c index = (db, { c with eof := true }, false)) ∧
    (seek_index K c index < 0 →
      cubesql_cursor_seek K E D inflate db c index = (db, c, false)) ∧
    (0 ≤ seek_index K c index → seek_index K c index ≤ c.nrows →
      cubesql_cursor_seek K E D inflate db c index
        = (db, { c with eof := false, current_row := seek_index K c index }, true)) ∧
    (seek_index K c index = 0 →
      cubesql_cursor_seek K E D inflate db c index
        = (db, { c with eof := false, current_row := 0 }, true)) :=
  ⟨seek_client_above K E D inflate db c index hside hn,
   seek_client_below K E D inflate db c index hside hn,
   seek_client_inside K E D inflate db c index hside,
   fun h0 => by
    have h := seek_client_inside K E D inflate db c index hside (by omega) (by omega)
    rw [h0] at h
    exact h⟩

/-- C10, amended, at concrete cursors with three rows: row 7 asked from row 1,
`SEEKPREV` from row 0, and row 0 asked from row 1. -/
theorem seek_out_of_range_witness :
    cubesql_cursor_seek sdk toyCipher toyCipher (fun _ _ => none) {}
        { nrows := 3, current_row := 1 } 7
      = ({}, { nrows := 3, current_row := 1, eof := true }, false) ∧
    cubesql_cursor_seek sdk toyCipher toyCipher (fun _ _ => none) {}
        { nrows := 3, current_row := 0 } sdk.CUBESQL_SEEKPREV
      = ({}, { nrows := 3, current_row := 0 }, false) ∧
    cubesql_cursor_seek sdk toyCipher toyCipher (fun _ _ => none) {}
        { nrows := 3, current_row := 1 } 0
      = ({}, { nrows := 3, current_row := 0, eof := false }, true) :=
  ⟨(seek_out_of_range sdk toyCipher toyCipher (fun _ _ => none) {}
      { nrows := 3, current_row := 1 } 7 rfl (by decide)).1 (by decide),
   (seek_out_of_range sdk toyCipher toyCipher (fun _ _ => none) {}
      { nrows := 3, current_row := 0 } sdk.CUBESQL_SEEKPREV rfl (by decide)).2.1 (by decide),
   (seek_out_of_range sdk toyCipher toyCipher (fun _ _ => none) {}
      { nrows := 3, current_row := 1 } 0 rfl (by decide)).2.2.2 (by decide)⟩

/-! ## C5: the session key -/

theorem toyHash_length (m : Bytes) : (toyHash m).length = 20 := by
  simp [toyHash]

/-- C5: `generate_session_key`, given `H(H(P))` and the 20-byte nonces `X` and
`Y`, with `s1 = SHA1 (H(H(P)) ‖ X ‖ Y)` and `s2 = SHA1 (X xor Y)`, returns key
length 16 with key bytes `0..15 = s1[0..15]` for AES-128; key length 24 with key
bytes `0..3 = s2[0..3]` and bytes `4..19 = s1[4..19]` for AES-192; and key length
32 with key bytes `0..11 = s2[0..11]` and bytes `12..19 = s1[12..19]` for
AES-256 (the bytes of `s2` overlay the start of `s1`). -/
theorem generate_session_key_layout (K : SdkConsts) (hK : K.Ok) (H : Bytes → Bytes)
    (hH : ∀ m, (H m).length = 20) (password X Y : Bytes)
    (hp : password.length = 20) (hX : X.length = 20) (hY : Y.length = 20) :
    (generate_session_key K H K.CUBESQL_ENCRYPTION_AES128 password X Y).1 = 16 ∧
    peek (generate_session_key K H K.CUBESQL_ENCRYPTION_AES128 password X Y).2 0 16
      = peek (H (password ++ X ++ Y)) 0 16 ∧
    (generate_session_key K H K.CUBESQL_ENCRYPTION_AES192 password X Y).1 = 24 ∧
    peek (generate_session_key K H K.CUBESQL_ENCRYPTION_AES192 password X Y).2 0 4
      = peek (H (xorb X Y)) 0 4 ∧
    peek (generate_session_key K H K.CUBESQL_ENCRYPTION_AES192 password X Y).2 4 16
      = peek (H (password ++ X ++ Y)) 4 16 ∧
    (generate_session_key K H K.CUBESQL_ENCRYPTION_AES256 password X Y).1 = 32 ∧
    peek (generate_session_key K H K.CUBESQL_ENCRYPTION_AES256 password X Y).2 0 12
      = peek (H (xorb X Y)) 0 12 ∧
    peek (generate_session_key K H K.CUBESQL_ENCRYPTION_AES256 password X Y).2 12 8
      = peek (H (password ++ X ++ Y)) 12 8 := by
  have e1 : peek password 0 20 = password := peek_eq _ [] _ [] _ _ (by simp) rfl hp.symm
  have e2 : peek X 0 K.kRANDPOOLSIZE = X :=
    peek_eq _ [] _ [] _ _ (by simp) rfl (by rw [hK.randpool, hX])
  have e3 : peek Y 0 K.kRANDPOOLSIZE = Y :=
    peek_eq _ [] _ [] _ _ (by simp) rfl (by rw [hK.randpool, hY])
  have h1 := hH (password ++ X ++ Y)
  have h2 := hH (xorb X Y)
  have n1 := hK.none_128.symm
  have n2 := hK.none_192.symm
  have n3 := hK.none_256.symm
  have n4 := hK.a128_192.symm
  have n5 := hK.a128_256.symm
  have n6 := hK.a192_256.symm
  simp only [generate_session_key, e1, e2, e3, n1, n2, n3, n4, n5, n6, if_true, if_false]
  generalize H (password ++ X ++ Y) = s1 at *
  generalize H (xorb X Y) = s2 at *
  have z : List.replicate 32 (0 : Nat) = List.replicate 20 0 ++ List.replicate 12 0 := by
    decide
  have f1 : peek s1 0 20 = s1 := peek_eq _ [] _ [] _ _ (by simp) rfl h1.symm
  -- the key buffer after `memcpy (session_key, s1, 20)`
  have w1 : poke (List.replicate 32 0) 0 s1 = s1 ++ List.replicate 12 0 := by
    rw [z]
    exact poke_eq _ [] (List.replicate 20 0) _ _ _ rfl rfl (by simp [h1])
  simp only [f1, w1]
  refine ⟨trivial, ?_, trivial, ?_, ?_, trivial, ?_, ?_⟩
  · have hl : (peek s1 0 16).length = 16 := by simp [peek, h1]
    have w : poke (List.replicate 32 0) 0 (peek s1 0 16)
        = peek s1 0 16 ++ List.replicate 16 0 :=
      poke_eq _ [] (List.replicate 16 0) (List.replicate 16 0) _ _ (by decide) rfl
        (by simp [hl])
    rw [w]
    exact peek_eq _ [] _ _ _ _ rfl rfl hl.symm
  · have hl : (peek s2 0 4).length = 4 := by simp [peek, h2]
    have w : poke (s1 ++ List.replicate 12 0) 0 (peek s2 0 4)
        = peek s2 0 4 ++ (List.drop 4 s1 ++ List.replicate 12 0) := by
      have := poke_eq (s1 ++ List.replicate 12 0) [] (List.take 4 s1)
        (List.drop 4 s1 ++ List.replicate 12 0) (peek s2 0 4) 0
        (by simp [← List.append_assoc, List.take_append_drop]) rfl (by simp [hl, h1])
      simpa using this
    rw [w]
    exact peek_eq _ [] _ _ _ _ rfl rfl hl.symm
  · have hl : (peek s2 0 4).length = 4 := by simp [peek, h2]
    have w : poke (s1 ++ List.replicate 12 0) 0 (peek s2 0 4)
        = peek s2 0 4 ++ (List.drop 4 s1 ++ List.replicate 12 0) := by
      have := poke_eq (s1 ++ List.replicate 12 0) [] (List.take 4 s1)
        (List.drop 4 s1 ++ List.replicate 12 0) (peek s2 0 4) 0
        (by simp [← List.append_assoc, List.take_append_drop]) rfl (by simp [hl, h1])
      simpa using this
    rw [w]
    have hs : peek s1 4 16 = List.drop 4 s1 := by
      simp [peek, h1]
    rw [hs]
    exact peek_eq _ (peek s2 0 4) _ (List.replicate 12 0) _ _ (by simp) hl.symm
      (by simp [h1])
  · have hl : (peek s2 0 12).length = 12 := by simp [peek, h2]
    have w : poke (s1 ++ List.replicate 12 0) 0 (peek s2 0 12)
        = peek s2 0 12 ++ (List.drop 12 s1 ++ List.replicate 12 0) := by
      have := poke_eq (s1 ++ List.replicate 12 0) [] (List.take 12 s1)
        (List.drop 12 s1 ++ List.replicate 12 0) (peek s2 0 12) 0
        (by simp [← List.append_assoc, List.take_append_drop]) rfl (by simp [hl, h1])
      simpa using this
    rw [w]
    exact peek_eq _ [] _ _ _ _ rfl rfl hl.symm
  · have hl : (peek s2 0 12).length = 12 := by simp [peek, h2]
    have w : poke (s1 ++ List.replicate 12 0) 0 (peek s2 0 12)
        = peek s2 0 12 ++ (List.drop 12 s1 ++ List.replicate 12 0) := by
      have := poke_eq (s1 ++ List.replicate 12 0) [] (List.take 12 s1)
        (List.drop 12 s1 ++ List.replicate 12 0) (peek s2 0 12) 0
        (by simp [← List.append_assoc, List.take_append_drop]) rfl (by simp [hl, h1])
      simpa using this
    rw [w]
    have hs : peek s1 12 8 = List.drop 12 s1 := by
      simp [peek, h1]
    rw [hs]
    exact peek_eq _ (peek s2 0 12) _ (List.replicate 12 0) _ _ (by simp) hl.symm
      (by simp [h1])

/-- C5 at a concrete input: the toy hash, `H(H(P)) = 1, 2, .., 20` and two
nonces. -/
theorem generate_session_key_layout_witness :
    (generate_session_key sdk toyHash sdk.CUBESQL_ENCRYPTION_AES128
      (List.range 20) (List.replicate 20 3) (List.replicate 20 5)).1 = 16 ∧
    peek (generate_session_key sdk toyHash sdk.CUBESQL_ENCRYPTION_AES128
      (List.range 20) (List.replicate 20 3) (List.replicate 20 5)).2 0 16
      = peek (toyHash (List.range 20 ++ List.replicate 20 3 ++ List.replicate 20 5)) 0 16 ∧
    (generate_session_key sdk toyHash sdk.CUBESQL_ENCRYPTION_AES192
      (List.range 20) (List.replicate 20 3) (List.replicate 20 5)).1 = 24 ∧
    peek (generate_session_key sdk toyHash sdk.CUBESQL_ENCRYPTION_AES192
      (List.range 20) (List.replicate 20 3) (List.replicate 20 5)).2 0 4
      = peek (toyHash (xorb (List.replicate 20 3) (List.replicate 20 5))) 0 4 ∧
    peek (generate_session_key sdk toyHash sdk.CUBESQL_ENCRYPTION_AES192
      (List.range 20) (List.replicate 20 3) (List.replicate 20 5)).2 4 16
      = peek (toyHash (List.range 20 ++ List.replicate 20 3 ++ List.replicate 20 5)) 4 16 ∧
    (generate_session_key sdk toyHash sdk.CUBESQL_ENCRYPTION_AES256
      (List.range 20) (List.replicate 20 3) (List.replicate 20 5)).1 = 32 ∧
    peek (generate_session_key sdk toyHash sdk.CUBESQL_ENCRYPTION_AES256
      (List.range 20) (List.replicate 20 3) (List.replicate 20 5)).2 0 12
      = peek (toyHash (xorb (List.replicate 20 3) (List.replicate 20 5))) 0 12 ∧
    peek (generate_session_key sdk toyHash sdk.CUBESQL_ENCRYPTION_AES256
      (List.range 20) (List.replicate 20 3) (List.replicate 20 5)).2 12 8
      = peek (toyHash (List.range 20 ++ List.replicate 20 3 ++ List.replicate 20 5)) 12 8 :=
  generate_session_key_layout sdk sdk_ok toyHash toyHash_length
    (List.range 20) (List.replicate 20 3) (List.replicate 20 5) (by decide) (by decide)
    (by decide)

/-! ## C6, C7: what csql_netwrite puts on the wire -/

theorem bytesAfterHeader_snoc_header (w : List WireItem) (h : InHead) :
    bytesAfterHeader (w ++ [WireItem.header h]) = [] := by
  simp [bytesAfterHeader, List.foldl_append]

theorem bytesAfterHeader_snoc_bytes (w : List WireItem) (b : Bytes) :
    bytesAfterHeader (w ++ [WireItem.bytes b]) = bytesAfterHeader w ++ b := by
  simp [bytesAfterHeader, List.foldl_append]

theorem encrypt_buffer_frame (E : Bytes → Bytes) (hE : ∀ b, b.length = 16 → (E b).length = 16)
    (x junk iv ex : Bytes) (hiv : iv.length = 16) :
    encrypt_buffer E (x ++ junk) x.length (iv ++ ex)
      = ((encrypt_buffer E x x.length iv).1 ++ junk,
         (encrypt_buffer E x x.length iv).2.1 ++ ex, x.length + 16) := by
  by_cases hx : x.length < 16
  · rw [encrypt_buffer_short_frame E hE x junk iv ex hx hiv, encrypt_buffer_short E hE x iv hx hiv]
  · obtain ⟨bs, tail, hxe, hbs, ht, hl⟩ := blocks_decomp x.length x rfl
    have hne : bs ≠ [] := by
      rintro rfl
      simp at hl
      omega
    rcases List.eq_nil_or_concat bs with h | ⟨qs, pl, hq⟩
    · exact absurd h hne
    rw [List.concat_eq_append] at hq
    subst hq
    have hqs : ∀ q ∈ qs, q.length = 16 := fun q hq => hbs q (by simp [hq])
    have hpl : pl.length = 16 := hbs pl (by simp)
    have hlen : x.length = 16 * (qs.length + 1) + tail.length := by
      rw [hxe, List.length_append, join_block_length _ hbs]; simp
    rw [hlen]
    subst hxe
    rw [List.append_assoc, encrypt_buffer_long_frame E hE qs pl tail junk iv ex hqs hpl hiv ht,
      encrypt_buffer_long E hE qs pl tail iv hqs hpl hiv ht]

theorem socketwrite_eq (db : Db) (buffer : Bytes) (n : Int) :
    csql_socketwrite db buffer n = { db with wire := db.wire ++ wbytes buffer n } := by
  unfold csql_socketwrite wbytes
  split
  · rfl
  · simp

theorem bytesAfterHeader_wbytes (w : List WireItem) (buffer : Bytes) (n : Nat)
    (h : n ≤ buffer.length) :
    bytesAfterHeader (w ++ wbytes buffer n) = bytesAfterHeader w ++ List.take n buffer := by
  unfold wbytes
  by_cases hn : (n : Int) > 0
  · simp only [hn, if_true]
    rw [bytesAfterHeader_snoc_bytes]
    simp [peek]
  · have : n = 0 := by omega
    subst this
    simp

theorem rand_fill_eq (K : SdkConsts) (db : Db) :
    csql_rand_fill K db
      = ({ db with pools := db.pools.tail },
          db.pools.headD (List.replicate K.kRANDPOOLSIZE 0)) := by
  unfold csql_rand_fill
  rcases db with ⟨e, t, u, rq, rp, tr, ib, is, ec, em, w, rx, pe, pools, un, pw, tk⟩
  cases pools <;> rfl

/-- The connection after `csql_netwrite` on an encrypted session: the header,
the size array, 16 bytes of the random pool and the buffer, both as
`encrypt_buffer` leaves them, are appended to the wire. -/
theorem netwrite_encrypted_eq (K : SdkConsts) (E : Bytes → Bytes) (db : Db) (a b : Bytes)
    (na nb : Int) (henc : db.encryption ≠ K.CUBESQL_ENCRYPTION_NONE) :
    csql_netwrite K E db (some a) na (some b) nb =
      ({ db with
          wire := db.wire ++ [WireItem.header db.request] ++ wbytes a na
            ++ wbytes (encrypt_buffer E (peek b 0 nb.toNat ++ [0]) nb.toNat
                (db.pools.headD (List.replicate K.kRANDPOOLSIZE 0))).2.1 BLOCK_LEN
            ++ wbytes (encrypt_buffer E (peek b 0 nb.toNat ++ [0]) nb.toNat
                (db.pools.headD (List.replicate K.kRANDPOOLSIZE 0))).1 nb,
          pools := db.pools.tail }, K.CUBESQL_NOERR) := by
  unfold csql_netwrite
  simp only [socketwrite_eq, csql_socketwrite_header, rand_fill_eq, henc, if_false,
    List.append_assoc]

/-- The connection after `csql_netwrite` on a session that is not encrypted. -/
theorem netwrite_clear_eq (K : SdkConsts) (E : Bytes → Bytes) (db : Db) (a b : Bytes)
    (na nb : Int) (henc : db.encryption = K.CUBESQL_ENCRYPTION_NONE) :
    csql_netwrite K E db (some a) na (some b) nb =
      ({ db with
          wire := db.wire ++ [WireItem.header db.request] ++ wbytes a na ++ wbytes b nb },
        K.CUBESQL_NOERR) := by
  unfold csql_netwrite
  simp only [socketwrite_eq, csql_socketwrite_header, henc, if_true, List.append_assoc]

/-- On the wire after an encrypted `csql_netwrite` of `nb` bytes at `b`, with a
random pool `p` of at least 16 bytes: the size array, the IV block and the
ciphertext of the buffer alone. -/
theorem netwrite_encrypted_bytes (K : SdkConsts) (E : Bytes → Bytes)
    (hE : ∀ b, b.length = 16 → (E b).length = 16) (db : Db) (a b p : Bytes) (na nb : Nat)
    (henc : db.encryption ≠ K.CUBESQL_ENCRYPTION_NONE)
    (hpools : db.pools.headD (List.replicate K.kRANDPOOLSIZE 0) = p) (hp : 16 ≤ p.length)
    (ha : na ≤ a.length) (hb : nb ≤ b.length) :
    bytesAfterHeader (csql_netwrite K E db (some a) na (some b) nb).1.wire
      = List.take na a ++ (encrypt_buffer E (List.take nb b) nb (List.take 16 p)).2.1
          ++ (encrypt_buffer E (List.take nb b) nb (List.take 16 p)).1 := by
  have hiv : (List.take 16 p).length = 16 := by simp; omega
  have hxl : (List.take nb b).length = nb := by simp; omega
  have hfr := encrypt_buffer_frame E hE (List.take nb b) [0] (List.take 16 p)
    (List.drop 16 p) hiv
  rw [List.take_append_drop, hxl] at hfr
  have hl := encrypt_buffer_lengths E hE (List.take nb b) (List.take 16 p) hiv
  rw [hxl] at hl
  have hpk : peek b 0 nb = List.take nb b := by simp [peek]
  rw [netwrite_encrypted_eq K E db a b _ _ henc]
  simp only [Int.toNat_ofNat, hpk, hpools, hfr]
  have t1 : List.take 16 ((encrypt_buffer E (List.take nb b) nb (List.take 16 p)).2.1
      ++ List.drop 16 p) = (encrypt_buffer E (List.take nb b) nb (List.take 16 p)).2.1 := by
    rw [List.take_append_of_le_length (by rw [hl.2.1])]
    exact List.take_of_length_le (by rw [hl.2.1])
  have t2 : List.take nb ((encrypt_buffer E (List.take nb b) nb (List.take 16 p)).1 ++ [0])
      = (encrypt_buffer E (List.take nb b) nb (List.take 16 p)).1 := by
    rw [List.take_append_of_le_length (by rw [hl.1])]
    exact List.take_of_length_le (by rw [hl.1])
  rw [bytesAfterHeader_wbytes _ _ _ (by simp [hl.1]),
    show (BLOCK_LEN : Int) = ((16 : Nat) : Int) from rfl,
    bytesAfterHeader_wbytes _ _ 16 (by simp [hl.2.1]),
    bytesAfterHeader_wbytes _ _ _ ha, bytesAfterHeader_snoc_header, t1, t2]
  simp

theorem netwrite_clear_bytes (K : SdkConsts) (E : Bytes → Bytes) (db : Db) (a b : Bytes)
    (na nb : Nat) (henc : db.encryption = K.CUBESQL_ENCRYPTION_NONE)
    (ha : na ≤ a.length) (hb : nb ≤ b.length) :
    bytesAfterHeader (csql_netwrite K E db (some a) na (some b) nb).1.wire
      = List.take na a ++ List.take nb b := by
  rw [netwrite_clear_eq K E db a b _ _ henc]
  simp only
  rw [bytesAfterHeader_wbytes _ _ _ hb, bytesAfterHeader_wbytes _ _ _ ha,
    bytesAfterHeader_snoc_header]
  simp

theorem netwrite_request (K : SdkConsts) (E : Bytes → Bytes) (db : Db)
    (a b : Option Bytes) (na nb : Int) :
    (csql_netwrite K E db a na b nb).1.request = db.request := by
  unfold csql_netwrite
  simp only [socketwrite_eq, csql_socketwrite_header, rand_fill_eq]
  cases a <;> cases b <;> simp only <;> split <;> rfl

theorem netwrite_none_bytes (K : SdkConsts) (E : Bytes → Bytes) (db : Db) (a : Bytes)
    (nb : Int) :
    bytesAfterHeader (csql_netwrite K E db (some a) 0 none nb).1.wire = [] := by
  unfold csql_netwrite
  simp only [socketwrite_eq, csql_socketwrite_header]
  split <;> simp [wbytes, bytesAfterHeader_snoc_header]

theorem strlen_lt : ∀ (m : Bytes), 0 ∈ m → strlen m < m.length
  | [], h => by simp at h
  | b :: rest, h => by
    by_cases hb : b = 0
    · simp [strlen, hb]
    · have : 0 ∈ rest := by
        rcases List.mem_cons.mp h with h | h
        · exact absurd h.symm hb
        · exact h
      have ih := strlen_lt rest this
      simp [strlen, hb, ih]

theorem enc32_length (i : Int) : (enc32 i).length = 4 := rfl

theorem encrypt_buffer_random_long (E : Bytes → Bytes) (b r : Bytes) (dim : Nat)
    (h : 16 ≤ dim) : (encrypt_buffer E b dim r).2.1 = r := by
  unfold encrypt_buffer
  have hd : ¬ dim < BLOCK_LEN := by simp [BLOCK_LEN]; omega
  simp only [hd, if_false]
  split <;> rfl

theorem netwrite_count (K : SdkConsts) (E : Bytes → Bytes)
    (hE : ∀ b, b.length = 16 → (E b).length = 16) (db : Db) (a b : Bytes) (na nb : Nat)
    (hpool : 16 ≤ (db.pools.headD (List.replicate K.kRANDPOOLSIZE 0)).length)
    (ha : na ≤ a.length) (hb : nb ≤ b.length) :
    (bytesAfterHeader (csql_netwrite K E db (some a) na (some b) nb).1.wire).length
      = na + nb + (if db.encryption = K.CUBESQL_ENCRYPTION_NONE then 0 else 16) := by
  by_cases henc : db.encryption = K.CUBESQL_ENCRYPTION_NONE
  · rw [netwrite_clear_bytes K E db a b na nb henc ha hb]
    simp [henc]
    omega
  · rw [netwrite_encrypted_bytes K E hE db a b _ na nb henc rfl hpool ha hb]
    have hiv : (List.take 16 (db.pools.headD (List.replicate K.kRANDPOOLSIZE 0))).length
        = 16 := by
      rw [List.length_take]; omega
    have hxl : (List.take nb b).length = nb := by simp; omega
    have hl := encrypt_buffer_lengths E hE (List.take nb b) _ hiv
    rw [hxl] at hl
    simp only [List.length_append, hl.1, hl.2.1, henc, if_false, List.length_take]
    omega

theorem initrequest_fields (K : SdkConsts) (db : Db) (packetsize nfields command selector : Int) :
    (csql_initrequest K db packetsize nfields command selector).encryption = db.encryption ∧
    (csql_initrequest K db packetsize nfields command selector).pools = db.pools ∧
    (csql_initrequest K db packetsize nfields command selector).wire = db.wire ∧
    (csql_initrequest K db packetsize nfields command selector).request.packetSize
      = (if packetsize ≠ 0 ∧ db.encryption ≠ K.CUBESQL_ENCRYPTION_NONE
          then packetsize + BLOCK_LEN else packetsize) :=
  ⟨rfl, rfl, rfl, rfl⟩

/-- The count of bytes after the header for a request whose header was built
for `nb + 4` bytes: a size array of 4 bytes and `nb` bytes of payload. -/
theorem netwrite_matches_packetSize (K : SdkConsts) (E : Bytes → Bytes)
    (hE : ∀ b, b.length = 16 → (E b).length = 16) (db db2 : Db) (a b : Bytes) (nb : Nat)
    (hpool : 16 ≤ (db.pools.headD (List.replicate K.kRANDPOOLSIZE 0)).length)
    (h1 : db2.encryption = db.encryption) (h2 : db2.pools = db.pools)
    (h3 : db2.request.packetSize
      = (if ((nb : Int) + 4 ≠ 0) ∧ db.encryption ≠ K.CUBESQL_ENCRYPTION_NONE
          then (nb : Int) + 4 + BLOCK_LEN else (nb : Int) + 4))
    (ha : 4 ≤ a.length) (hb : nb ≤ b.length) :
    (csql_netwrite K E db2 (some a) ((4 : Nat) : Int) (some b) (nb : Int)).1.request.packetSize
      = (bytesAfterHeader
          (csql_netwrite K E db2 (some a) ((4 : Nat) : Int) (some b) (nb : Int)).1.wire).length := by
  rw [netwrite_request, netwrite_count K E hE db2 a b 4 nb (by rw [h2]; exact hpool) ha hb, h3, h1]
  have hne : (nb : Int) + 4 ≠ 0 := by omega
  by_cases henc : db.encryption = K.CUBESQL_ENCRYPTION_NONE
  · simp [henc]
    omega
  · simp [henc, hne, BLOCK_LEN]
    omega

/-- C7: for every SQL string, every bind value and type, and every encryption
mode, the `packetSize` of the request header built by `csql_send_statement` and
by `csql_bind_value` equals the number of bytes that `csql_netwrite` then sends
after the header (size array, plus the 16-byte IV when encrypted, plus the
payload).  `E` keeps the block length and `csql_rand_fill` gives at least 16
bytes. -/
theorem request_packetSize (K : SdkConsts) (E : Bytes → Bytes)
    (hE : ∀ b, b.length = 16 → (E b).length = 16) (db : Db)
    (hpool : 16 ≤ (db.pools.headD (List.replicate K.kRANDPOOLSIZE 0)).length) :
    (∀ (command_type : Int) (sql : Bytes) ( is_partial server_side : Bool), 0 ∈ sql →
      (csql_send_statement K E db command_type sql is_partial server_side).1.request.packetSize
        = (bytesAfterHeader
            (csql_send_statement K E db command_type sql is_partial server_side).1.wire).length)
    ∧
    (∀ (index bindtype : Int) (value : Option Bytes) (len : Int), validValue value len →
      (csql_bind_value_send K E db index bindtype value len).1.request.packetSize
        = (bytesAfterHeader
            (csql_bind_value_send K E db index bindtype value len).1.wire).length) := by
  constructor
  · intro command_type sql is_partial server_side hsql
    have hs := strlen_lt sql hsql
    have hc : ((strlen sql : Int) + 1) = ((strlen sql + 1 : Nat) : Int) := by push_cast; rfl
    unfold csql_send_statement
    simp only [Int.mul_one, hc]
    apply netwrite_matches_packetSize K E hE db _ _ _ _ hpool
    · split
      · split <;> rfl
      · split <;> rfl
    · split
      · split <;> rfl
      · split <;> rfl
    · have h := (initrequest_fields K db (((strlen sql + 1 : Nat) : Int) + 4) 1 command_type
        K.kNO_SELECTOR).2.2.2
      split
      · split <;> exact h
      · split <;> exact h
    · exact le_of_eq (enc32_length _).symm
    · omega
  · intro index bindtype value len hv
    unfold csql_bind_value_send
    split
    · rw [netwrite_request, netwrite_none_bytes]
      split <;> rfl
    · have key : ∀ (v : Bytes) (n : Nat), n ≤ v.length →
          (csql_netwrite K E
            { csql_initrequest K db ((n : Int) + 4 * 1) 1 K.kVM_BIND K.kNO_SELECTOR with
              request := { (csql_initrequest K db ((n : Int) + 4 * 1) 1 K.kVM_BIND
                K.kNO_SELECTOR).request with flag3 := bindtype % 256, reserved1 := index } }
            (some (enc32 n)) (4 * 1) (some v) n).1.request.packetSize
          = (bytesAfterHeader (csql_netwrite K E
            { csql_initrequest K db ((n : Int) + 4 * 1) 1 K.kVM_BIND K.kNO_SELECTOR with
              request := { (csql_initrequest K db ((n : Int) + 4 * 1) 1 K.kVM_BIND
                K.kNO_SELECTOR).request with flag3 := bindtype % 256, reserved1 := index } }
            (some (enc32 n)) (4 * 1) (some v) n).1.wire).length := by
        intro v n hn
        simp only [Int.mul_one]
        exact netwrite_matches_packetSize K E hE db _ _ _ _ hpool rfl rfl
          (initrequest_fields K db ((n : Int) + 4) 1 K.kVM_BIND K.kNO_SELECTOR).2.2.2
          (le_of_eq (enc32_length _).symm) hn
      cases value with
      | none =>
        have := key [0] 0 (by simp)
        simpa using this
      | some v =>
        rcases hv with ⟨h1, h0⟩ | ⟨h0, h1⟩
        · have := key v (strlen v) (le_of_lt (strlen_lt v h0))
          simpa [h1] using this
        · have hne : ¬ (len = -1) := by omega
          have hl : len = ((len.toNat : Nat) : Int) := by omega
          have := key v len.toNat h1
          rw [← hl] at this
          simpa [hne] using this

/-- C7 at concrete inputs, on a session encrypted with AES-128: the statement
`PING;` and the text value `hi` bound with `len = -1`. -/
theorem request_packetSize_witness :
    (csql_send_statement sdk toyCipher
        { encryption := sdk.CUBESQL_ENCRYPTION_AES128, pools := [List.replicate 20 9] }
        sdk.kCOMMAND_EXECUTE (cstr "PING;") false false).1.request.packetSize
      = (bytesAfterHeader (csql_send_statement sdk toyCipher
          { encryption := sdk.CUBESQL_ENCRYPTION_AES128, pools := [List.replicate 20 9] }
          sdk.kCOMMAND_EXECUTE (cstr "PING;") false false).1.wire).length ∧
    (csql_bind_value_send sdk toyCipher
        { encryption := sdk.CUBESQL_ENCRYPTION_AES128, pools := [List.replicate 20 9] }
        1 3 (some (cstr "hi")) (-1)).1.request.packetSize
      = (bytesAfterHeader (csql_bind_value_send sdk toyCipher
          { encryption := sdk.CUBESQL_ENCRYPTION_AES128, pools := [List.replicate 20 9] }
          1 3 (some (cstr "hi")) (-1)).1.wire).length :=
  ⟨(request_packetSize sdk toyCipher toyCipher_length
      { encryption := sdk.CUBESQL_ENCRYPTION_AES128, pools := [List.replicate 20 9] }
      (by decide)).1 sdk.kCOMMAND_EXECUTE (cstr "PING;") false false (by decide),
   (request_packetSize sdk toyCipher toyCipher_length
      { encryption := sdk.CUBESQL_ENCRYPTION_AES128, pools := [List.replicate 20 9] }
      (by decide)).2 1 3 (some (cstr "hi")) (-1) (Or.inl ⟨rfl, by decide⟩)⟩

theorem bytesAfterHeader_wbytes_any (w : List WireItem) (buffer : Bytes) (n : Int) :
    bytesAfterHeader (w ++ wbytes buffer n)
      = bytesAfterHeader w ++ (if n > 0 then peek buffer 0 n.toNat else []) := by
  unfold wbytes
  split
  · rw [bytesAfterHeader_snoc_bytes]
  · simp

/-- C6 fails as stated: on a session encrypted with AES-128, for the statement
`hello world` (12 bytes with its terminator, so 16 bytes with the size array),
whatever the block cipher is, the bytes that `csql_send_statement` puts on the
wire after the header are not the IV followed by the ciphertext of
(size array ‖ payload): they start with the size array `00 00 00 0c` in clear,
where the claim has the first bytes of the IV. -/
theorem netwrite_size_array_counterexample :
    ¬ ∃ E : Bytes → Bytes,
      bytesAfterHeader (csql_send_statement sdk E
          { encryption := sdk.CUBESQL_ENCRYPTION_AES128, pools := [List.replicate 20 9] }
          sdk.kCOMMAND_EXECUTE (cstr "hello world") false false).1.wire
        = (encrypt_buffer E (enc32 12 ++ cstr "hello world") 16 (List.replicate 16 9)).2.1
          ++ (encrypt_buffer E (enc32 12 ++ cstr "hello world") 16 (List.replicate 16 9)).1 := by
  rintro ⟨E, h⟩
  rw [encrypt_buffer_random_long E _ _ 16 (le_refl _)] at h
  have hl : bytesAfterHeader (csql_send_statement sdk E
      { encryption := sdk.CUBESQL_ENCRYPTION_AES128, pools := [List.replicate 20 9] }
      sdk.kCOMMAND_EXECUTE (cstr "hello world") false false).1.wire
      = [0, 0, 0, 12] ++ (bytesAfterHeader (csql_send_statement sdk E
      { encryption := sdk.CUBESQL_ENCRYPTION_AES128, pools := [List.replicate 20 9] }
      sdk.kCOMMAND_EXECUTE (cstr "hello world") false false).1.wire).drop 4 := by
    have hsel : ¬ (sdk.kCOMMAND_EXECUTE = sdk.kCOMMAND_SELECT) := by decide
    unfold csql_send_statement
    simp only [hsel, if_false, Bool.false_eq_true]
    rw [netwrite_encrypted_eq sdk E _ _ _ _ _ (by decide)]
    simp only [bytesAfterHeader_wbytes_any, bytesAfterHeader_snoc_header, List.nil_append]
    have ha : (if (4 * 1 : Int) > 0 then peek (enc32 ((strlen (cstr "hello world") : Int) + 1)) 0
        (4 * 1 : Int).toNat else []) = [0, 0, 0, 12] := by decide
    rw [ha]
    simp
  rw [hl] at h
  have := congrArg List.head? h
  simp at this

/-- C6, amended: when the session is encrypted, the bytes that `csql_netwrite`
puts on the wire after the request header are the field-size array in clear,
then the 16-byte IV block as `encrypt_buffer` leaves it, then the ciphertext of
the payload alone.  (`p` is the pool that `csql_rand_fill` gives; the block
cipher keeps the block length.) -/
theorem csql_netwrite_encrypted_wire (K : SdkConsts) (E : Bytes → Bytes)
    (hE : ∀ b, b.length = 16 → (E b).length = 16) (db : Db) (a b p : Bytes) (na nb : Nat)
    (henc : db.encryption ≠ K.CUBESQL_ENCRYPTION_NONE)
    (hpools : db.pools.headD (List.replicate K.kRANDPOOLSIZE 0) = p) (hp : 16 ≤ p.length)
    (ha : na ≤ a.length) (hb : nb ≤ b.length) :
    bytesAfterHeader (csql_netwrite K E db (some a) na (some b) nb).1.wire
      = List.take na a ++ (encrypt_buffer E (List.take nb b) nb (List.take 16 p)).2.1
          ++ (encrypt_buffer E (List.take nb b) nb (List.take 16 p)).1 :=
  netwrite_encrypted_bytes K E hE db a b p na nb henc hpools hp ha hb

/-- C6, amended, at a concrete input: the toy cipher, a size array of 4 bytes
and a payload of 6 bytes. -/
theorem csql_netwrite_encrypted_wire_witness :
    bytesAfterHeader (csql_netwrite sdk toyCipher
        { encryption := sdk.CUBESQL_ENCRYPTION_AES128, pools := [List.replicate 20 9] }
        (some (enc32 6)) (4 : Nat) (some (cstr "PING;")) (6 : Nat)).1.wire
      = List.take 4 (enc32 6)
          ++ (encrypt_buffer toyCipher (List.take 6 (cstr "PING;")) 6
              (List.take 16 (List.replicate 20 9))).2.1
          ++ (encrypt_buffer toyCipher (List.take 6 (cstr "PING;")) 6
              (List.take 16 (List.replicate 20 9))).1 :=
  csql_netwrite_encrypted_wire sdk toyCipher toyCipher_length
    { encryption := sdk.CUBESQL_ENCRYPTION_AES128, pools := [List.replicate 20 9] }
    (enc32 6) (cstr "PING;") (List.replicate 20 9) 4 6 (by decide) rfl (by decide) (by decide)
    (by decide)

/-! ## C4, C12, C13: csql_checkheader -/

/-- C4 fails on the code: a reply with the protocol magic, `errorCode = 1` and
`packetSize = 0` (a server error without a message) passes `csql_checkheader`
(the error branch is taken only when `dsize` is not 0), so `cubesql_execute`
returns `CUBESQL_NOERR` for it and the last error stays clear. -/
theorem execute_error_without_message :
    (csql_checkheader sdk toyCipher
        { reply := { signature := sdk.PROTOCOL_SIGNATURE, errorCode := 1, packetSize := 0 } }
        (-1) (-1)).2 = (sdk.CUBESQL_NOERR, false) ∧
    (cubesql_execute sdk toyCipher toyCipher (fun _ _ => none)
        { rx := [⟨{ signature := sdk.PROTOCOL_SIGNATURE, errorCode := 1, packetSize := 0 },
                  []⟩] }
        (cstr "PING;")).2 = sdk.CUBESQL_NOERR ∧
    (cubesql_execute sdk toyCipher toyCipher (fun _ _ => none)
        { rx := [⟨{ signature := sdk.PROTOCOL_SIGNATURE, errorCode := 1, packetSize := 0 },
                  []⟩] }
        (cstr "PING;")).1.errcode = sdk.CUBESQL_NOERR := by
  decide

/-- C12: for every reply header whose signature differs from the protocol
magic, `csql_checkheader` returns an error and sets the connection's error code
to wrong-signature, whatever the other header fields and the expected size and
field count are, and schedules no payload read (`toread = 0`). -/
theorem checkheader_wrong_signature (K : SdkConsts) (hK : K.Ok) (D : Bytes → Bytes) (db : Db)
    (expected_size expected_nfields : Int)
    (hsig : db.reply.signature ≠ K.PROTOCOL_SIGNATURE) :
    (csql_checkheader K D db expected_size expected_nfields).2.1 = K.CUBESQL_ERR ∧
    (csql_checkheader K D db expected_size expected_nfields).2.1 ≠ K.CUBESQL_NOERR ∧
    (csql_checkheader K D db expected_size expected_nfields).1.errcode = K.ERR_WRONG_SIGNATURE ∧
    (csql_checkheader K D db expected_size expected_nfields).1.toread = 0 := by
  have h : csql_checkheader K D db expected_size expected_nfields
      = (csql_seterror K { db with toread := 0 } K.ERR_WRONG_SIGNATURE
          (cstr "Wrong SIGNATURE HEADER from the server"), K.CUBESQL_ERR, false) := by
    unfold csql_checkheader
    simp only [hsig, ne_eq, not_false_eq_true, if_true]
  rw [h]
  exact ⟨rfl, hK.noerr_err.symm, rfl, rfl⟩

/-- C12 at a concrete reply: a wrong magic with `errorCode = 0` and a payload
announced. -/
theorem checkheader_wrong_signature_witness :
    (csql_checkheader sdk toyCipher
      { reply := { signature := 7, errorCode := 0, packetSize := 12, numFields := 1 } }
      (-1) (-1)).2.1 = sdk.CUBESQL_ERR ∧
    (csql_checkheader sdk toyCipher
      { reply := { signature := 7, errorCode := 0, packetSize := 12, numFields := 1 } }
      (-1) (-1)).2.1 ≠ sdk.CUBESQL_NOERR ∧
    (csql_checkheader sdk toyCipher
      { reply := { signature := 7, errorCode := 0, packetSize := 12, numFields := 1 } }
      (-1) (-1)).1.errcode = sdk.ERR_WRONG_SIGNATURE ∧
    (csql_checkheader sdk toyCipher
      { reply := { signature := 7, errorCode := 0, packetSize := 12, numFields := 1 } }
      (-1) (-1)).1.toread = 0 :=
  checkheader_wrong_signature sdk sdk_ok toyCipher
    { reply := { signature := 7, errorCode := 0, packetSize := 12, numFields := 1 } }
    (-1) (-1) (by decide)

theorem strncpy_length (src : Bytes) (n : Nat) : (strncpy src n).length = n := by
  unfold strncpy
  simp

/-- The error branch of `csql_checkheader` with a message shorter than
`db->errmsg`: the message is read into `db->errmsg` itself. -/
theorem checkheader_error_static (K : SdkConsts) (D : Bytes → Bytes) (db : Db)
    (payload more : Bytes) (n : Nat)
    (hsig : db.reply.signature = K.PROTOCOL_SIGNATURE)
    (herr : db.reply.errorCode ≠ 0) (hend : db.reply.errorCode ≠ K.END_CHUNK)
    (hsize : db.reply.packetSize = n) (hn : 0 < n) (hlt : n < K.ERRMSG_SIZE)
    (hclear : db.reply.encryptedPacket = K.CUBESQL_ENCRYPTION_NONE)
    (hmsg : db.errmsg.length = K.ERRMSG_SIZE)
    (hpend : db.pending = payload ++ more) (hpl : payload.length = n) :
    (csql_checkheader K D db (-1) (-1)).2.1 = K.CUBESQL_ERR ∧
    (csql_checkheader K D db (-1) (-1)).1.errcode = db.reply.errorCode ∧
    (csql_checkheader K D db (-1) (-1)).1.errmsg
      = payload ++ [0] ++ db.errmsg.drop (n + 1) := by
  have h1 : ¬ (db.reply.errorCode = 0 ∧ ¬ ((-1 : Int) = -1) ∧ ¬ ((-1 : Int) = (n : Int))) := by
    simp
  have h3 : (0 : Int) ≤ n ∧ (n : Int) < K.ERRMSG_SIZE := ⟨by omega, by omega⟩
  have h4 : (0 : Int) < n ∧ n ≤ (payload ++ more).length := by
    constructor
    · omega
    · simp [hpl]
  have h5 : ¬ ((n : Int) = 0) := by omega
  have w1 : poke db.errmsg n [0] = List.take n db.errmsg ++ [0] ++ List.drop (n + 1) db.errmsg := by
    simp [poke]
  have p1 : peek (payload ++ more) 0 n = payload := peek_eq _ [] payload more _ _ rfl rfl hpl.symm
  have w2 : poke (List.take n db.errmsg ++ [0] ++ List.drop (n + 1) db.errmsg) 0 payload
      = [] ++ payload ++ ([0] ++ List.drop (n + 1) db.errmsg) :=
    poke_eq _ [] (List.take n db.errmsg) _ _ _ (by simp) rfl (by simp [hpl, hmsg]; omega)
  unfold csql_checkheader
  simp only [hsig, ne_eq, not_true_eq_false, if_false, hend, hsize, herr, h1, h3, h4, h5,
    false_and, not_false_eq_true, and_self, and_true, if_true, csql_socketread,
    Int.toNat_ofNat, hpend, hclear, w1, p1, Option.getD_some, w2]
  simp

/-- The error branch of `csql_checkheader` with a message that does not fit
`db->errmsg`: the message is read into a fresh buffer and copied with
`strncpy`, so `db->errmsg` is filled to its last byte. -/
theorem checkheader_error_heap (K : SdkConsts) (D : Bytes → Bytes) (db : Db)
    (payload more : Bytes) (n : Nat)
    (hsig : db.reply.signature = K.PROTOCOL_SIGNATURE)
    (herr : db.reply.errorCode ≠ 0) (hend : db.reply.errorCode ≠ K.END_CHUNK)
    (hsize : db.reply.packetSize = n) (hn : 0 < n) (hge : K.ERRMSG_SIZE ≤ n)
    (hclear : db.reply.encryptedPacket = K.CUBESQL_ENCRYPTION_NONE)
    (hin : db.insize < n)
    (hpend : db.pending = payload ++ more) (hpl : payload.length = n) :
    (csql_checkheader K D db (-1) (-1)).2.1 = K.CUBESQL_ERR ∧
    (csql_checkheader K D db (-1) (-1)).1.errcode = db.reply.errorCode ∧
    (csql_checkheader K D db (-1) (-1)).1.errmsg = strncpy payload K.ERRMSG_SIZE := by
  have h1 : ¬ (db.reply.errorCode = 0 ∧ ¬ ((-1 : Int) = -1) ∧ ¬ ((-1 : Int) = (n : Int))) := by
    simp
  have h3 : ¬ ((0 : Int) ≤ n ∧ (n : Int) < K.ERRMSG_SIZE) := by omega
  have h4 : (0 : Int) < n ∧ n ≤ (payload ++ more).length := by
    constructor
    · omega
    · simp [hpl]
  have h5 : ¬ ((n : Int) = 0) := by omega
  have h6 : ¬ (db.insize ≥ (n : Int)) := by omega
  have p1 : peek (payload ++ more) 0 n = payload := peek_eq _ [] payload more _ _ rfl rfl hpl.symm
  have w2 : poke (List.replicate n 0) 0 payload = [] ++ payload ++ [] :=
    poke_eq _ [] (List.replicate n 0) [] _ _ (by simp) rfl (by simp [hpl])
  unfold csql_checkheader
  simp only [hsig, ne_eq, not_true_eq_false, if_false, hend, hsize, herr, h1, h3, h4, h5, h6,
    false_and, not_false_eq_true, and_self, and_true, if_true, csql_socketread,
    csql_checkinbuffer, Int.toNat_ofNat, hpend, hclear, p1, Option.getD_some, w2]
  simp [csql_seterror]

/-- C13 fails as stated: whatever the size `N` of `db->errmsg` is, an error
reply whose message is `N + 1` bytes `A` does not leave these `N + 1` bytes and
a NUL in the last error: `strncpy` cuts the message to the `N` bytes of the
array. -/
theorem checkheader_long_message_counterexample :
    ¬ ∃ N : Nat,
      peek (csql_checkheader { sdk with ERRMSG_SIZE := N } toyCipher
          { reply := { signature := sdk.PROTOCOL_SIGNATURE, errorCode := 1,
                       packetSize := (N : Int) + 1 },
            errmsg := List.replicate N 0, pending := List.replicate (N + 1) 65 }
          (-1) (-1)).1.errmsg 0 (N + 2)
        = List.replicate (N + 1) 65 ++ [0] := by
  rintro ⟨N, h⟩
  have hk := (checkheader_error_heap { sdk with ERRMSG_SIZE := N } toyCipher
    { reply := { signature := sdk.PROTOCOL_SIGNATURE, errorCode := 1,
                 packetSize := (N : Int) + 1 },
      errmsg := List.replicate N 0, pending := List.replicate (N + 1) 65 }
    (List.replicate (N + 1) 65) [] (N + 1) rfl (by show (1 : Int) ≠ 0; decide)
    (by show (1 : Int) ≠ sdk.END_CHUNK; decide) (by push_cast; rfl)
    (by omega) (by show N ≤ N + 1; omega) rfl (by show (0 : Int) < ((N + 1 : Nat) : Int); omega)
    (by simp) (by simp)).2.2
  rw [hk] at h
  have hl := congrArg List.length h
  simp only [peek, List.drop_zero, List.length_take, strncpy_length, List.length_append,
    List.length_replicate, List.length_singleton] at hl
  omega

/-- C13, amended: for every reply on an unencrypted connection with
`errorCode != 0` (and not `END_CHUNK`) and every `packetSize` that is positive
and smaller than the size of `db->errmsg`, when the payload arrives,
`csql_checkheader` returns an error and leaves the connection's last error
holding code `errorCode` and, as message, exactly the `packetSize` payload bytes
followed by a NUL. -/
theorem checkheader_error_message (K : SdkConsts) (hK : K.Ok) (D : Bytes → Bytes) (db : Db)
    (payload more : Bytes) (n : Nat)
    (hsig : db.reply.signature = K.PROTOCOL_SIGNATURE)
    (herr : db.reply.errorCode ≠ 0) (hend : db.reply.errorCode ≠ K.END_CHUNK)
    (hsize : db.reply.packetSize = n) (hn : 0 < n) (hlt : n < K.ERRMSG_SIZE)
    (hclear : db.reply.encryptedPacket = K.CUBESQL_ENCRYPTION_NONE)
    (hmsg : db.errmsg.length = K.ERRMSG_SIZE)
    (hpend : db.pending = payload ++ more) (hpl : payload.length = n) :
    (csql_checkheader K D db (-1) (-1)).2.1 = K.CUBESQL_ERR ∧
    (csql_checkheader K D db (-1) (-1)).2.1 ≠ K.CUBESQL_NOERR ∧
    (csql_checkheader K D db (-1) (-1)).1.errcode = db.reply.errorCode ∧
    peek (csql_checkheader K D db (-1) (-1)).1.errmsg 0 (n + 1) = payload ++ [0] := by
  obtain ⟨h1, h2, h3⟩ := checkheader_error_static K D db payload more n hsig herr hend hsize
    hn hlt hclear hmsg hpend hpl
  refine ⟨h1, by rw [h1]; exact hK.noerr_err.symm, h2, ?_⟩
  rw [h3]
  exact peek_eq _ [] _ (List.drop (n + 1) db.errmsg) _ _ (by simp) rfl (by simp [hpl])

/-- C13, amended, at a concrete reply: error 1 with the message `no table`. -/
theorem checkheader_error_message_witness :
    (csql_checkheader sdk toyCipher
      { reply := { signature := sdk.PROTOCOL_SIGNATURE, errorCode := 1, packetSize := 8 },
        errmsg := List.replicate 1024 0,
        pending := [110, 111, 32, 116, 97, 98, 108, 101] } (-1) (-1)).2.1 = sdk.CUBESQL_ERR ∧
    (csql_checkheader sdk toyCipher
      { reply := { signature := sdk.PROTOCOL_SIGNATURE, errorCode := 1, packetSize := 8 },
        errmsg := List.replicate 1024 0,
        pending := [110, 111, 32, 116, 97, 98, 108, 101] } (-1) (-1)).2.1
      ≠ sdk.CUBESQL_NOERR ∧
    (csql_checkheader sdk toyCipher
      { reply := { signature := sdk.PROTOCOL_SIGNATURE, errorCode := 1, packetSize := 8 },
        errmsg := List.replicate 1024 0,
        pending := [110, 111, 32, 116, 97, 98, 108, 101] } (-1) (-1)).1.errcode = 1 ∧
    peek (csql_checkheader sdk toyCipher
      { reply := { signature := sdk.PROTOCOL_SIGNATURE, errorCode := 1, packetSize := 8 },
        errmsg := List.replicate 1024 0,
        pending := [110, 111, 32, 116, 97, 98, 108, 101] } (-1) (-1)).1.errmsg 0 (8 + 1)
      = [110, 111, 32, 116, 97, 98, 108, 101] ++ [0] :=
  checkheader_error_message sdk sdk_ok toyCipher
    { reply := { signature := sdk.PROTOCOL_SIGNATURE, errorCode := 1, packetSize := 8 },
      errmsg := List.replicate 1024 0,
      pending := [110, 111, 32, 116, 97, 98, 108, 101] }
    [110, 111, 32, 116, 97, 98, 108, 101] [] 8 rfl (by decide) (by decide) rfl (by decide)
    (by decide) rfl (List.length_replicate 1024 0) rfl rfl

/-! ## C2: a cursor read from one reply -/

theorem intsOf_enc32 (i : Int) (rest : Bytes) (h1 : -2147483648 ≤ i) (h2 : i < 2147483648) :
    intsOf (enc32 i ++ rest) = i :: intsOf rest := by
  unfold enc32
  simp only [List.cons_append, List.nil_append, intsOf, be32]
  congr 1
  split <;> omega

theorem encInts_length (l : List Int) : (encInts l).length = 4 * l.length := by
  induction l with
  | nil => rfl
  | cons a l ih =>
    simp only [encInts, List.map_cons, List.flatten_cons, List.length_append, enc32_length,
      List.length_cons] at ih ⊢
    omega

theorem intsOf_encInts : ∀ (l : List Int) (rest : Bytes),
    (∀ i ∈ l, -2147483648 ≤ i ∧ i < 2147483648) →
    intsOf (encInts l ++ rest) = l ++ intsOf rest
  | [], rest, _ => rfl
  | a :: l, rest, h => by
    have ha := h a (List.mem_cons_self a l)
    have hl := intsOf_encInts l rest (fun i hi => h i (List.mem_cons_of_mem a hi))
    simp only [encInts, List.map_cons, List.flatten_cons, List.append_assoc] at hl ⊢
    rw [intsOf_enc32 a _ ha.1 ha.2, hl]
    rfl

theorem strlen_append : ∀ (s rest : Bytes), (∀ b ∈ s, b ≠ 0) →
    strlen (s ++ 0 :: rest) = s.length
  | [], rest, _ => by simp [strlen]
  | b :: s, rest, h => by
    have hb := h b (List.mem_cons_self b s)
    have hs := strlen_append s rest (fun x hx => h x (List.mem_cons_of_mem b hx))
    simp [strlen, hb, hs]

theorem packStrings_length (names : List Bytes) :
    (packStrings names).length = (names.map fun s => s.length + 1).sum := by
  induction names with
  | nil => rfl
  | cons a l ih =>
    simp only [packStrings, List.map_cons, List.flatten_cons, List.length_append,
      List.length_cons, List.length_nil, List.sum_cons] at ih ⊢
    omega

theorem skipStrings_packStrings : ∀ (names : List Bytes) (rest : Bytes),
    (∀ s ∈ names, ∀ b ∈ s, b ≠ 0) →
    skipStrings (packStrings names ++ rest) names.length = (packStrings names).length
  | [], rest, _ => rfl
  | a :: l, rest, h => by
    have ha := h a (List.mem_cons_self a l)
    have hl := skipStrings_packStrings l rest (fun s hs => h s (List.mem_cons_of_mem a hs))
    have e : packStrings (a :: l) ++ rest = a ++ 0 :: (packStrings l ++ rest) := by
      simp [packStrings]
    have e2 : (packStrings (a :: l)).length = a.length + 1 + (packStrings l).length := by
      simp only [packStrings, List.map_cons, List.flatten_cons, List.length_append,
        List.length_cons, List.length_nil]
    rw [e, e2, List.length_cons, skipStrings, strlen_append a _ ha]
    have e3 : (a ++ 0 :: (packStrings l ++ rest)).drop (a.length + 1)
        = packStrings l ++ rest := by
      rw [show a ++ 0 :: (packStrings l ++ rest) = (a ++ [0]) ++ (packStrings l ++ rest) by simp]
      exact List.drop_left' (by simp)
    rw [e3, hl]

theorem cellOffset_succ (cells : List (Option Bytes)) (k : Nat) (hk : k < cells.length) :
    cellOffset cells (k + 1) = cellOffset cells k + (cellData (cells.getD k none)).length := by
  unfold cellOffset
  rw [List.take_succ, List.map_append, List.sum_append, List.getD_eq_getElem?_getD,
    List.getElem?_eq_getElem hk]
  simp

theorem cellOffset_zero (cells : List (Option Bytes)) : cellOffset cells 0 = 0 := by
  simp [cellOffset]

theorem sizes_getD (cells : List (Option Bytes)) (junk : List Int) (k : Nat)
    (hk : k < cells.length) :
    (cells.map cellSize ++ junk).getD k 0 = cellSize (cells.getD k none) := by
  rw [List.getD_eq_getElem?_getD, List.getD_eq_getElem?_getD,
    List.getElem?_append_left (by simpa using hk), List.getElem?_map,
    List.getElem?_eq_getElem hk]
  rfl

theorem sum_loop_succ (ss init : List Int) (n : Nat) :
    sum_loop ss init (n + 1) = sum_step ss (sum_loop ss init n) n := by
  unfold sum_loop
  rw [List.range_succ, List.foldl_append]
  rfl

theorem sum_step_length (ss s : List Int) (i : Nat) : (sum_step ss s i).length = s.length := by
  unfold sum_step
  split <;> split <;> simp

theorem sum_loop_spec (cells : List (Option Bytes)) (junk init : List Int)
    (hinit : cells.length ≤ init.length) : ∀ (n : Nat), n ≤ cells.length →
    (sum_loop (cells.map cellSize ++ junk) init n).length = init.length ∧
    ∀ i < n, (sum_loop (cells.map cellSize ++ junk) init n).getD i 0
      = (cellOffset cells (i + 1) : Int)
  | 0, _ => ⟨rfl, fun i hi => absurd hi (Nat.not_lt_zero i)⟩
  | n + 1, hn => by
    have ih := sum_loop_spec cells junk init hinit n (by omega)
    have hlt : n < cells.length := by omega
    rw [sum_loop_succ]
    refine ⟨by rw [sum_step_length]; exact ih.1, ?_⟩
    intro i hi
    have hsz := sizes_getD cells junk n hlt
    have hoff := cellOffset_succ cells n hlt
    have hlen : n < (sum_loop (cells.map cellSize ++ junk) init n).length := by
      rw [ih.1]; omega
    by_cases hin : i = n
    · subst hin
      unfold sum_step
      rw [hsz]
      cases hc : cells.getD i none with
      | none =>
        rw [hc] at hoff
        simp only [cellSize, cellData, List.length_nil, Nat.add_zero] at hoff ⊢
        simp only [if_true]
        by_cases h0 : i = 0
        · subst h0
          simp only [if_true, List.getD_eq_getElem?_getD, List.getElem?_set_self hlen,
            Option.getD_some]
          rw [hoff, cellOffset_zero]; rfl
        · simp only [if_neg h0, List.getD_eq_getElem?_getD, List.getElem?_set_self hlen,
            Option.getD_some]
          have := ih.2 (i - 1) (by omega)
          rw [List.getD_eq_getElem?_getD] at this
          rw [this, hoff]
          congr 2; omega
      | some b =>
        rw [hc] at hoff
        simp only [cellSize, cellData] at hoff ⊢
        have hb : ¬ ((b.length : Int) = -1) := by omega
        simp only [if_neg hb]
        by_cases h0 : i = 0
        · subst h0
          simp only [if_true, List.getD_eq_getElem?_getD, List.getElem?_set_self hlen,
            Option.getD_some]
          rw [hoff, cellOffset_zero]; simp
        · simp only [if_neg h0, List.getD_eq_getElem?_getD, List.getElem?_set_self hlen,
            Option.getD_some]
          have := ih.2 (i - 1) (by omega)
          rw [List.getD_eq_getElem?_getD] at this
          rw [this, hoff]
          have e : i - 1 + 1 = i := by omega
          rw [e]; push_cast; ring
    · have hi2 : i < n := by omega
      have := ih.2 i hi2
      rw [← this]
      unfold sum_step
      have hne : n ≠ i := fun h => hin h.symm
      split <;> split <;>
        simp only [List.getD_eq_getElem?_getD, List.getElem?_set_ne hne]

theorem cells_data_at (cells : List (Option Bytes)) (junk : Bytes) (k : Nat)
    (hk : k < cells.length) :
    peek (((cells.map cellData).flatten ++ junk).drop (cellOffset cells k)) 0
      (cellData (cells.getD k none)).length = cellData (cells.getD k none) := by
  have e : cells = cells.take k ++ cells.getD k none :: cells.drop (k + 1) := by
    rw [List.getD_eq_getElem?_getD, List.getElem?_eq_getElem hk, Option.getD_some,
      ← List.drop_eq_getElem_cons hk, List.take_append_drop]
  have h1 : (cells.map cellData).flatten ++ junk
      = ((cells.take k).map cellData).flatten ++ (cellData (cells.getD k none) ++
          (((cells.drop (k + 1)).map cellData).flatten ++ junk)) := by
    conv_lhs => rw [e]
    simp only [List.map_append, List.map_cons, List.flatten_append, List.flatten_cons,
      List.append_assoc]
  have h2 : (((cells.take k).map cellData).flatten).length = cellOffset cells k := by
    unfold cellOffset
    rw [List.length_flatten, List.map_map]
    rfl
  rw [h1, List.drop_left' h2]
  simp [peek]

/-- The cursor that the loop body of `csql_read_cursor` builds from the first
reply when that reply is whole (no partial packet, not server side). -/
theorem read_cursor_frame_single (K : SdkConsts) (db : Db) (types : List Int)
    (names : List Bytes) (tables : Option (List Bytes)) (cells : List (Option Bytes))
    (junk : Bytes) (nrows cols : Nat) (rowid : Bool)
    (hss : db.reply.flag1.server_side = false)
    (hpp : db.reply.flag1.partial_packet = false)
    (hrid : db.reply.flag1.has_rowid_column = rowid)
    (htab : db.reply.flag1.has_table_name = tables.isSome)
    (hrows : db.reply.rows = nrows) (hcols : db.reply.cols = cols)
    (hbuf : db.inbuffer = some (cursorPayload types names tables cells ++ junk))
    (htypes : types.length = cols) (hnames : names.length = cols)
    (hnul : ∀ s ∈ names, ∀ b ∈ s, b ≠ 0)
    (htables : ∀ t, tables = some t → t.length = cols ∧ ∀ s ∈ t, ∀ b ∈ s, b ≠ 0)
    (hcells : cells.length = nrows * cols)
    (hrange : ∀ x ∈ cells, (cellData x).length < 2147483648) :
    ∃ c : Cursor, read_cursor_frame K db csql_cursor_alloc 0 false = (c, false) ∧
      c.nrows = nrows ∧ c.ncols = (if rowid then (cols : Int) - 1 else cols) ∧
      c.has_rowid = rowid ∧ c.cursor_id = 0 ∧ c.nbuffer = 0 ∧ c.current_row = 1 ∧
      c.server_side = false ∧
      (∃ j, c.size = cells.map cellSize ++ j) ∧
      c.data = (cells.map cellData).flatten ++ junk ∧
      (∃ j, c.psum = sum_loop (cells.map cellSize ++ j) (List.replicate cells.length 0)
        cells.length) := by
  refine ⟨(read_cursor_frame K db csql_cursor_alloc 0 false).1, ?_, ?_⟩
  · simp [read_cursor_frame, hss, hpp, csql_cursor_alloc]
  simp only [read_cursor_frame, hss, hpp, hrid, htab, hrows, hcols, hbuf, csql_cursor_alloc,
    Bool.false_eq_true, if_false, if_true, Bool.or_false, Bool.not_false, Bool.true_or,
    false_and, true_and, and_true, Option.getD_some, ge_iff_le]
  have hsz : ∀ i ∈ cells.map cellSize, -2147483648 ≤ i ∧ i < 2147483648 := by
    intro i hi
    obtain ⟨x, hx, rfl⟩ := List.mem_map.1 hi
    have := hrange x hx
    cases x with
    | none => simp [cellSize]
    | some b => simp only [cellSize, cellData] at this ⊢; omega
  have e1 : (4 * (cols : Int)).toNat = (encInts types).length := by
    rw [encInts_length, htypes]; omega
  have e2 : ((nrows : Int) * cols * 4).toNat = (encInts (cells.map cellSize)).length := by
    rw [encInts_length, List.length_map, hcells]
    have : ((nrows : Int) * cols * 4) = ((4 * (nrows * cols) : Nat) : Int) := by
      push_cast; ring
    rw [this]; rfl
  have e3 : ((cols : Int) * nrows).toNat = cells.length := by
    rw [hcells]
    have : ((cols : Int) * nrows) = ((nrows * cols : Nat) : Int) := by push_cast; ring
    rw [this]; rfl
  have e4 : ((cols : Int)).toNat = names.length := by rw [hnames]; rfl
  have hA : List.drop (4 * (cols : Int)).toNat (cursorPayload types names tables cells ++ junk)
      = encInts (cells.map cellSize) ++ (packStrings names ++
          (packTables tables ++ ((cells.map cellData).flatten ++ junk))) := by
    rw [e1]
    unfold cursorPayload
    simp only [List.append_assoc]
    exact List.drop_left' rfl
  rw [hA, intsOf_encInts _ _ hsz, e2, List.drop_left' rfl, e3, e4,
    skipStrings_packStrings names _ hnul, List.drop_left' rfl]
  refine ⟨by simp, ⟨_, rfl⟩, ?_, ⟨_, rfl⟩⟩
  cases htb : tables with
  | none => simp [packTables]
  | some t =>
    have ht := htables t htb
    simp only [Option.isSome_some, if_true, packTables]
    rw [hnames, ← ht.1, skipStrings_packStrings t _ ht.2]
    simp

theorem cellIndex_lt (rowid : Bool) (nrows ncols row col : Nat)
    (hr1 : 1 ≤ row) (hr2 : row ≤ nrows) (hc1 : 1 ≤ col) (hc2 : col ≤ ncols) :
    cellIndex rowid ncols row col < nrows * (ncols + if rowid then 1 else 0) := by
  obtain ⟨r, rfl⟩ : ∃ r, row = r + 1 := ⟨row - 1, by omega⟩
  obtain ⟨d, rfl⟩ : ∃ d, nrows = r + 1 + d := ⟨nrows - (r + 1), by omega⟩
  unfold cellIndex
  cases rowid
  · simp only [Bool.false_eq_true, if_false, Nat.add_sub_cancel, Nat.add_zero]
    have : (r + 1 + d) * ncols = r * ncols + ncols + d * ncols := by ring
    rw [this]
    have := Nat.zero_le (d * ncols)
    omega
  · simp only [if_true, Nat.add_sub_cancel]
    have : (r + 1 + d) * (ncols + 1) = r * (ncols + 1) + (ncols + 1) + d * (ncols + 1) := by
      ring
    rw [this]
    have := Nat.zero_le (d * (ncols + 1))
    omega

/-- What `cubesql_cursor_field` returns on a cursor without chunk registry whose
arrays hold the cells `cells`. -/
theorem cursor_field_plain (K : SdkConsts) (hK : K.Ok) (c : Cursor)
    (cells : List (Option Bytes)) (js : List Int) (nrows ncols row col : Nat)
    (hnrows : c.nrows = nrows) (hncols : c.ncols = ncols)
    (hid : c.cursor_id = 0) (hnb : c.nbuffer = 0)
    (hsize : c.size = cells.map cellSize ++ js)
    (hpsum : ∃ j, c.psum = sum_loop (cells.map cellSize ++ j) (List.replicate cells.length 0)
      cells.length)
    (hcells : cells.length = nrows * (ncols + if c.has_rowid then 1 else 0))
    (hr1 : 1 ≤ row) (hr2 : row ≤ nrows) (hc1 : 1 ≤ col) (hc2 : col ≤ ncols) :
    cubesql_cursor_field K c row col
      = (c, (match cells.getD (cellIndex c.has_rowid ncols row col) none with
              | none => none
              | some _ => some (c.data.drop
                  (cellOffset cells (cellIndex c.has_rowid ncols row col)))),
          cellSize (cells.getD (cellIndex c.has_rowid ncols row col) none)) ∧
    (cellOffset cells (cellIndex c.has_rowid ncols row col) : Int)
      = (if cellIndex c.has_rowid ncols row col = 0 then 0
         else geti c.psum ((cellIndex c.has_rowid ncols row col : Int) - 1)) := by
  have hk := cellIndex_lt c.has_rowid nrows ncols row col hr1 hr2 hc1 hc2
  rw [← hcells] at hk
  obtain ⟨jp, hjp⟩ := hpsum
  have hsum := sum_loop_spec cells jp (List.replicate cells.length 0) (by simp)
    cells.length (le_refl _)
  rw [← hjp] at hsum
  generalize hkdef : cellIndex c.has_rowid ncols row col = k at hk ⊢
  -- the offset
  have hoff : (cellOffset cells k : Int) = (if k = 0 then 0 else geti c.psum ((k : Int) - 1)) := by
    by_cases h0 : k = 0
    · simp [h0, cellOffset_zero]
    · simp only [if_neg h0]
      have hlt : ¬ ((k : Int) - 1 < 0) := by omega
      have e : ((k : Int) - 1).toNat = k - 1 := by omega
      unfold geti
      rw [if_neg hlt, e, hsum.2 (k - 1) (by omega)]
      congr 2; omega
  refine ⟨?_, hoff⟩
  -- the index computed by the code
  have hn0 : (if c.has_rowid = true ∧ (col : Int) ≠ K.CUBESQL_ROWID
      then ((row : Int) - 1) * (c.ncols + 1) + col
      else ((row : Int) - 1) * c.ncols + ((col : Int) - 1)) = (k : Int) := by
    have hne : (col : Int) ≠ K.CUBESQL_ROWID := by have := hK.rowid; omega
    rw [← hkdef, hncols]
    obtain ⟨r, rfl⟩ : ∃ r, row = r + 1 := ⟨row - 1, by omega⟩
    obtain ⟨q, rfl⟩ : ∃ q, col = q + 1 := ⟨col - 1, by omega⟩
    unfold cellIndex
    cases hrid : c.has_rowid
    · simp only [Bool.false_eq_true, false_and, if_false, Nat.add_sub_cancel]
      push_cast; ring
    · simp only [true_and, if_true, hne, ne_eq, not_false_eq_true, Nat.add_sub_cancel]
      push_cast; ring
  have hfield : field_at K c row col
      = ((match cells.getD k none with
          | none => none
          | some _ => some (c.data.drop (cellOffset cells k))), cellSize (cells.getD k none)) := by
    unfold field_at
    simp only [hn0]
    have hk0 : ¬ ((k : Int) < 0) := by omega
    simp only [if_neg hk0]
    have hg : geti c.size (k : Int) = cellSize (cells.getD k none) := by
      unfold geti
      rw [if_neg hk0, hsize, Int.toNat_ofNat, sizes_getD cells js k hk]
    rw [hg]
    cases hc : cells.getD k none with
    | none => simp [cellSize]
    | some b =>
      have hb : ¬ ((b.length : Int) = -1) := by omega
      simp only [cellSize, if_neg hb]
      by_cases h0 : k = 0
      · subst h0
        simp [cellOffset_zero]
      · have hpos : (k : Int) > 0 := by omega
        rw [if_neg h0] at hoff
        simp only [if_pos hpos, ← hoff, Int.toNat_ofNat]
  unfold cubesql_cursor_field
  have h1 : ¬ ((col : Int) ≠ K.CUBESQL_ROWID ∧ ((col : Int) ≤ 0 ∨ (col : Int) > c.ncols)) := by
    rw [hncols]; omega
  have h2 : ¬ ((row : Int) > c.nrows) := by rw [hnrows]; omega
  have h3 : ¬ ((row : Int) < -2) := by omega
  have h4 : ¬ ((row : Int) = K.CUBESQL_CURROW) := by have := hK.currow; omega
  have h5 : ¬ ((row : Int) = K.CUBESQL_COLNAME) := by have := hK.colname; omega
  have h6 : ¬ ((row : Int) = K.CUBESQL_COLTABLE) := by have := hK.coltable; omega
  have h7 : ¬ ((col : Int) = K.CUBESQL_ROWID) := by have := hK.rowid; omega
  have h8 : ¬ (c.nrows = 0) := by rw [hnrows]; omega
  have h9 : ¬ (c.cursor_id = -1) := by rw [hid]; decide
  rw [if_neg h1, if_neg h2, if_neg h3]
  simp only [if_neg h4, if_neg h5, if_neg h6, h7, false_and,
    if_false, if_neg h8, if_neg h9, hnb, ne_eq, not_true_eq_false, hfield]

/-! ## Reading a reply that is not an error -/

theorem checkheader_ok (K : SdkConsts) (hK : K.Ok) (D : Bytes → Bytes) (db : Db)
    (hsig : db.reply.signature = K.PROTOCOL_SIGNATURE) (herr : db.reply.errorCode = 0) :
    csql_checkheader K D db (-1) (-1)
      = ({ db with toread := db.reply.packetSize }, K.CUBESQL_NOERR, false) := by
  have hend : ¬ ((0 : Int) = K.END_CHUNK) := fun h => hK.end_chunk h.symm
  unfold csql_checkheader
  simp only [hsig, herr, ne_eq, not_true_eq_false, if_false, hend, false_and, and_false,
    decide_False]

theorem checkheader_end_chunk (K : SdkConsts) (D : Bytes → Bytes) (db : Db)
    (hsig : db.reply.signature = K.PROTOCOL_SIGNATURE)
    (herr : db.reply.errorCode = K.END_CHUNK) :
    csql_checkheader K D db (-1) (-1)
      = ({ db with toread := db.reply.packetSize }, K.CUBESQL_NOERR, true) := by
  unfold csql_checkheader
  simp only [hsig, herr, ne_eq, not_true_eq_false, if_false, if_true, false_and, and_false,
    decide_True]

/-- A reply without payload and without error: `csql_netread` takes the header
and nothing else. -/
theorem netread_empty (K : SdkConsts) (hK : K.Ok) (D : Bytes → Bytes)
    (inflate : Bytes → Nat → Option Bytes) (db : Db) (f : Frame) (rest : List Frame)
    (is_chunk : Bool) (hrx : db.rx = f :: rest)
    (hsig : f.header.signature = K.PROTOCOL_SIGNATURE) (herr : f.header.errorCode = 0)
    (hsize : f.header.packetSize = 0) :
    csql_netread K D inflate db (-1) (-1) is_chunk
      = ({ db with reply := f.header, pending := f.payload, rx := rest, toread := 0 },
          K.CUBESQL_NOERR, false) := by
  unfold csql_netread csql_socketread_header
  simp only [hrx, ne_eq, not_true_eq_false, if_false]
  rw [checkheader_ok K hK D _ hsig herr]
  simp only [ne_eq, not_true_eq_false, if_false, Bool.false_eq_true, and_false, hsize, if_true]

/-- The end-of-chunk reply. -/
theorem netread_end_chunk (K : SdkConsts) (D : Bytes → Bytes)
    (inflate : Bytes → Nat → Option Bytes) (db : Db) (f : Frame) (rest : List Frame)
    (hrx : db.rx = f :: rest)
    (hsig : f.header.signature = K.PROTOCOL_SIGNATURE) (herr : f.header.errorCode = K.END_CHUNK)
    (hsize : f.header.packetSize = 0) :
    csql_netread K D inflate db (-1) (-1) false
      = ({ db with reply := f.header, pending := f.payload, rx := rest, toread := 0 },
          K.CUBESQL_NOERR, true) := by
  unfold csql_netread csql_socketread_header
  simp only [hrx, ne_eq, not_true_eq_false, if_false]
  rw [checkheader_end_chunk K D _ hsig herr]
  simp only [ne_eq, not_true_eq_false, if_false, Bool.false_eq_true, false_and, hsize, if_true]

/-- A reply with a payload, neither encrypted nor compressed: the payload is
at the start of `db->inbuffer` afterwards. -/
theorem netread_payload (K : SdkConsts) (hK : K.Ok) (D : Bytes → Bytes)
    (inflate : Bytes → Nat → Option Bytes) (db : Db) (f : Frame) (rest : List Frame)
    (hrx : db.rx = f :: rest)
    (hsig : f.header.signature = K.PROTOCOL_SIGNATURE) (herr : f.header.errorCode = 0)
    (hsize : f.header.packetSize = f.payload.length) (hpos : 0 < f.payload.length)
    (hclear : f.header.encryptedPacket = K.CUBESQL_ENCRYPTION_NONE)
    (hcomp : f.header.flag1.compressed_packet = false) :
    ∃ (junk : Bytes) (n : Int),
      csql_netread K D inflate db (-1) (-1) false
        = ({ db with reply := f.header, pending := [], rx := rest,
                     toread := f.payload.length, inbuffer := some (f.payload ++ junk),
                     insize := n }, K.CUBESQL_NOERR, false) := by
  have h0 : ¬ ((f.payload.length : Int) = 0) := by omega
  have h4 : (0 : Int) < f.payload.length ∧ f.payload.length ≤ f.payload.length :=
    ⟨by omega, le_refl _⟩
  have p1 : peek f.payload 0 f.payload.length = f.payload := by simp [peek]
  unfold csql_netread csql_socketread_header
  simp only [hrx, ne_eq, not_true_eq_false, if_false]
  rw [checkheader_ok K hK D _ hsig herr]
  simp only [ne_eq, not_true_eq_false, if_false, Bool.false_eq_true, and_false, hsize, h0]
  unfold csql_checkinbuffer
  by_cases hin : db.insize ≥ (f.payload.length : Int)
  · refine ⟨(db.inbuffer.getD []).drop f.payload.length, db.insize, ?_⟩
    simp only [if_pos hin, csql_socketread, h4, and_self, if_true, Int.toNat_ofNat, p1,
      ne_eq, not_true_eq_false, if_false, hclear, hcomp, Bool.false_eq_true, poke,
      List.take_zero, List.nil_append, Nat.zero_add, List.drop_length]
  · refine ⟨[], f.payload.length, ?_⟩
    simp only [if_neg hin, csql_socketread, h4, and_self, if_true, Int.toNat_ofNat, p1,
      ne_eq, not_true_eq_false, if_false, hclear, hcomp, Bool.false_eq_true, poke,
      List.take_zero, List.nil_append, Nat.zero_add, List.drop_length, Option.getD_some]
    simp

theorem cursorPayload_length (types : List Int) (names : List Bytes)
    (tables : Option (List Bytes)) (cells : List (Option Bytes)) :
    4 * types.length ≤ (cursorPayload types names tables cells).length := by
  unfold cursorPayload
  rw [List.length_append, encInts_length]
  omega

/-- A whole result set in one reply: `csql_read_cursor` returns a cursor
without chunk registry whose arrays hold the cells of the reply. -/
theorem read_cursor_single (K : SdkConsts) (hK : K.Ok) (E D : Bytes → Bytes)
    (inflate : Bytes → Nat → Option Bytes) (db : Db) (f : Frame) (rest : List Frame)
    (types : List Int) (names : List Bytes) (tables : Option (List Bytes))
    (cells : List (Option Bytes)) (nrows cols : Nat) (rowid : Bool)
    (hrx : db.rx = f :: rest)
    (hsig : f.header.signature = K.PROTOCOL_SIGNATURE) (herr : f.header.errorCode = 0)
    (hsize : f.header.packetSize = f.payload.length)
    (hclear : f.header.encryptedPacket = K.CUBESQL_ENCRYPTION_NONE)
    (hcomp : f.header.flag1.compressed_packet = false)
    (hss : f.header.flag1.server_side = false)
    (hpp : f.header.flag1.partial_packet = false)
    (hrid : f.header.flag1.has_rowid_column = rowid)
    (htab : f.header.flag1.has_table_name = tables.isSome)
    (hrows : f.header.rows = nrows) (hcols : f.header.cols = cols)
    (hpayload : f.payload = cursorPayload types names tables cells)
    (htypes : types.length = cols) (hnames : names.length = cols) (hcol : 0 < cols)
    (hnul : ∀ s ∈ names, ∀ b ∈ s, b ≠ 0)
    (htables : ∀ t, tables = some t → t.length = cols ∧ ∀ s ∈ t, ∀ b ∈ s, b ≠ 0)
    (hcells : cells.length = nrows * cols)
    (hrange : ∀ x ∈ cells, (cellData x).length < 2147483648) :
    ∃ (db1 : Db) (c : Cursor), csql_read_cursor K E D inflate db none = (db1, some c) ∧
      c.nrows = nrows ∧ c.ncols = (if rowid then (cols : Int) - 1 else cols) ∧
      c.has_rowid = rowid ∧ c.cursor_id = 0 ∧ c.nbuffer = 0 ∧ c.current_row = 1 ∧
      c.server_side = false ∧
      (∃ j, c.size = cells.map cellSize ++ j) ∧
      (∃ junk, c.data = (cells.map cellData).flatten ++ junk) ∧
      (∃ j, c.psum = sum_loop (cells.map cellSize ++ j) (List.replicate cells.length 0)
        cells.length) := by
  have hpos : 0 < f.payload.length := by
    have := cursorPayload_length types names tables cells
    rw [hpayload]; omega
  obtain ⟨junk, n, hread⟩ := netread_payload K hK D inflate db f rest hrx hsig herr hsize hpos
    hclear hcomp
  obtain ⟨c, hc, hfacts⟩ := read_cursor_frame_single K
    { db with reply := f.header, pending := [], rx := rest, toread := f.payload.length,
              inbuffer := some (f.payload ++ junk), insize := n }
    types names tables cells junk nrows cols rowid hss hpp hrid htab hrows hcols
    (by rw [hpayload]) htypes hnames hnul htables hcells hrange
  obtain ⟨h1, h2, h3, h4, h5, h6, h7, h8, h9, h10⟩ := hfacts
  refine ⟨{ db with reply := f.header, pending := [], rx := rest, toread := f.payload.length,
                    inbuffer := none, insize := 0 }, c, ?_, h1, h2, h3, h4, h5, h6, h7, h8, ⟨junk, h9⟩, h10⟩
  unfold csql_read_cursor
  simp only [hrx, List.length_cons, read_cursor_loop, hread, ne_eq, not_true_eq_false,
    if_false, Bool.false_eq_true, hc, false_and]

/-- C2: for a cursor that `csql_read_cursor` builds from one whole reply (not
partial, not server side, neither encrypted nor compressed) with `nrows` rows and
`ncols` columns, with or without a rowid column, and for every `1 <= row <= nrows`
and `1 <= col <= ncols`, `cubesql_cursor_field (c, row, col, &len)` sets `len` to
the size of cell `k` (-1 for NULL) and returns `NULL` for a NULL cell, otherwise
the pointer `c->data + psum[k-1]` (`c->data` for `k = 0`), at which the bytes of
the cell are found; `c->data` is the row-major concatenation of the cell data
and `k = (row-1)*ncols + (col-1)` without rowid column, `(row-1)*(ncols+1) + col`
with one. -/
theorem cursor_field_single_frame (K : SdkConsts) (hK : K.Ok) (E D : Bytes → Bytes)
    (inflate : Bytes → Nat → Option Bytes) (db : Db) (f : Frame) (rest : List Frame)
    (types : List Int) (names : List Bytes) (tables : Option (List Bytes))
    (cells : List (Option Bytes)) (nrows ncols row col : Nat) (rowid : Bool)
    (hrx : db.rx = f :: rest)
    (hsig : f.header.signature = K.PROTOCOL_SIGNATURE) (herr : f.header.errorCode = 0)
    (hsize : f.header.packetSize = f.payload.length)
    (hclear : f.header.encryptedPacket = K.CUBESQL_ENCRYPTION_NONE)
    (hcomp : f.header.flag1.compressed_packet = false)
    (hss : f.header.flag1.server_side = false)
    (hpp : f.header.flag1.partial_packet = false)
    (hrid : f.header.flag1.has_rowid_column = rowid)
    (htab : f.header.flag1.has_table_name = tables.isSome)
    (hrows : f.header.rows = nrows)
    (hcols : f.header.cols = ((ncols + if rowid then 1 else 0 : Nat) : Int))
    (hpayload : f.payload = cursorPayload types names tables cells)
    (htypes : types.length = ncols + if rowid then 1 else 0)
    (hnames : names.length = ncols + if rowid then 1 else 0)
    (hnul : ∀ s ∈ names, ∀ b ∈ s, b ≠ 0)
    (htables : ∀ t, tables = some t →
      t.length = (ncols + if rowid then 1 else 0) ∧ ∀ s ∈ t, ∀ b ∈ s, b ≠ 0)
    (hcells : cells.length = nrows * (ncols + if rowid then 1 else 0))
    (hrange : ∀ x ∈ cells, (cellData x).length < 2147483648)
    (hr1 : 1 ≤ row) (hr2 : row ≤ nrows) (hc1 : 1 ≤ col) (hc2 : col ≤ ncols) :
    ∃ (db1 : Db) (c : Cursor), csql_read_cursor K E D inflate db none = (db1, some c) ∧
      c.nrows = nrows ∧ c.ncols = ncols ∧
      (∃ junk, c.data = (cells.map cellData).flatten ++ junk) ∧
      (cubesql_cursor_field K c row col).2.2
        = cellSize (cells.getD (cellIndex rowid ncols row col) none) ∧
      (cubesql_cursor_field K c row col).2.1
        = (match cells.getD (cellIndex rowid ncols row col) none with
            | none => none
            | some _ => some (c.data.drop (cellOffset cells (cellIndex rowid ncols row col)))) ∧
      (cellOffset cells (cellIndex rowid ncols row col) : Int)
        = (if cellIndex rowid ncols row col = 0 then 0
           else geti c.psum ((cellIndex rowid ncols row col : Int) - 1)) ∧
      peek (c.data.drop (cellOffset cells (cellIndex rowid ncols row col))) 0
          (cellData (cells.getD (cellIndex rowid ncols row col) none)).length
        = cellData (cells.getD (cellIndex rowid ncols row col) none) := by
  obtain ⟨db1, c, hc, h1, h2, h3, h4, h5, _, _, ⟨js, h8⟩, ⟨junk, h9⟩, h10⟩ :=
    read_cursor_single K hK E D inflate db f rest types names tables cells nrows
      (ncols + if rowid then 1 else 0) rowid hrx hsig herr hsize hclear hcomp hss hpp hrid htab
      hrows hcols hpayload htypes hnames (by omega) hnul htables hcells hrange
  have hnc : c.ncols = ncols := by
    rw [h2]; cases rowid <;> simp
  have hk := cellIndex_lt rowid nrows ncols row col hr1 hr2 hc1 hc2
  rw [← hcells] at hk
  have hf := cursor_field_plain K hK c cells js nrows ncols row col h1 hnc h4 h5 h8 h10
    (by rw [h3]; exact hcells) hr1 hr2 hc1 hc2
  rw [h3] at hf
  refine ⟨db1, c, hc, h1, hnc, ⟨junk, h9⟩, ?_, ?_, hf.2, ?_⟩
  · rw [hf.1]
  · rw [hf.1]
  · rw [h9]; exact cells_data_at cells junk _ hk

theorem cursor_field_single_frame_witness :
    ∃ (db1 : Db) (c : Cursor),
      csql_read_cursor sdk toyCipher toyCipher (fun _ _ => none)
        { rx := [{ header := { signature := sdk.PROTOCOL_SIGNATURE, packetSize := 32,
                               rows := 2, cols := 2 },
                   payload := cursorPayload [1, 3] [[97], [98]] none
                     [some [1], some [2, 3], none, some [4]] }] } none = (db1, some c) ∧
      c.nrows = (2 : Nat) ∧ c.ncols = (2 : Nat) ∧
      (∃ junk, c.data
        = ([some [1], some [2, 3], none, some [4]].map cellData).flatten ++ junk) ∧
      (cubesql_cursor_field sdk c (2 : Nat) (2 : Nat)).2.2
        = cellSize ([some [1], some [2, 3], none, some [4]].getD
            (cellIndex false 2 2 2) none) ∧
      (cubesql_cursor_field sdk c (2 : Nat) (2 : Nat)).2.1
        = (match [some [1], some [2, 3], none, some [4]].getD (cellIndex false 2 2 2) none with
            | none => none
            | some _ => some (c.data.drop (cellOffset [some [1], some [2, 3], none, some [4]]
                (cellIndex false 2 2 2)))) ∧
      (cellOffset [some [1], some [2, 3], none, some [4]] (cellIndex false 2 2 2) : Int)
        = (if cellIndex false 2 2 2 = 0 then 0
           else geti c.psum ((cellIndex false 2 2 2 : Int) - 1)) ∧
      peek (c.data.drop (cellOffset [some [1], some [2, 3], none, some [4]]
          (cellIndex false 2 2 2))) 0
          (cellData ([some [1], some [2, 3], none, some [4]].getD
            (cellIndex false 2 2 2) none)).length
        = cellData ([some [1], some [2, 3], none, some [4]].getD (cellIndex false 2 2 2) none) :=
  cursor_field_single_frame sdk sdk_ok toyCipher toyCipher (fun _ _ => none)
    { rx := [{ header := { signature := sdk.PROTOCOL_SIGNATURE, packetSize := 32,
                           rows := 2, cols := 2 },
               payload := cursorPayload [1, 3] [[97], [98]] none
                 [some [1], some [2, 3], none, some [4]] }] }
    { header := { signature := sdk.PROTOCOL_SIGNATURE, packetSize := 32, rows := 2, cols := 2 },
      payload := cursorPayload [1, 3] [[97], [98]] none [some [1], some [2, 3], none, some [4]] }
    [] [1, 3] [[97], [98]] none [some [1], some [2, 3], none, some [4]] 2 2 2 2 false
    rfl rfl rfl (by decide) rfl rfl rfl rfl rfl rfl rfl rfl rfl rfl rfl (by decide)
    (by intro t h; cases h) rfl (by decide) (by decide) (by decide) (by decide) (by decide)

/-! ## C3: chunked cursors -/

/-- C3, the failing case: the result set `A, B, C, D` (one column) read from two
partial packets of two rows.  After `cubesql_cursor_field (c, 3, 1)`, which
returns `C`, the call `cubesql_cursor_field (c, 2, 1)` returns `C` again: the
test `row >= v1` of the current chunk accepts the last row of the chunk before
it.  On the cursor read from one reply the same call returns `B`. -/
theorem chunked_field_after_next_chunk :
    (csql_read_cursor sdk toyCipher toyCipher (fun _ _ => none) chunkedRx none).2.map
      (fun c => (c.nrows, c.nbuffer, c.rowcount,
        fieldBytes (cubesql_cursor_field sdk c 2 1),
        fieldBytes (cubesql_cursor_field sdk c 3 1),
        fieldBytes (cubesql_cursor_field sdk (cubesql_cursor_field sdk c 3 1).1 2 1)))
      = some (4, 2, [2, 4], some [66], some [67], some [67]) ∧
    (csql_read_cursor sdk toyCipher toyCipher (fun _ _ => none) singleRx none).2.map
      (fun c => (c.nrows, c.nbuffer,
        fieldBytes (cubesql_cursor_field sdk c 2 1),
        fieldBytes (cubesql_cursor_field sdk c 3 1),
        fieldBytes (cubesql_cursor_field sdk (cubesql_cursor_field sdk c 3 1).1 2 1)))
      = some (4, 0, some [66], some [67], some [66]) := by
  constructor <;> rfl

/-! ## What reading a reply leaves alone -/

theorem seterror_wire (K : SdkConsts) (db : Db) (e : Int) (m : Bytes) :
    (csql_seterror K db e m).wire = db.wire := rfl

theorem socketread_wire (K : SdkConsts) (db : Db) : (csql_socketread K db).1.wire = db.wire := by
  unfold csql_socketread
  split <;> rfl

theorem checkinbuffer_wire (K : SdkConsts) (db : Db) :
    (csql_checkinbuffer K db).1.wire = db.wire := by
  unfold csql_checkinbuffer
  split <;> rfl

theorem socketread_header_wire (K : SdkConsts) (db : Db) :
    (csql_socketread_header K db).1.wire = db.wire := by
  unfold csql_socketread_header
  split <;> rfl

theorem checkheader_wire (K : SdkConsts) (D : Bytes → Bytes) (db : Db) (a b : Int) :
    (csql_checkheader K D db a b).1.wire = db.wire := by
  unfold csql_checkheader
  dsimp only
  simp only [apply_ite Prod.fst, apply_ite Db.wire, seterror_wire, socketread_wire,
    checkinbuffer_wire, ite_self]

theorem netread_wire (K : SdkConsts) (D : Bytes → Bytes) (inflate : Bytes → Nat → Option Bytes)
    (db : Db) (a b : Int) (ch : Bool) :
    (csql_netread K D inflate db a b ch).1.wire = db.wire := by
  rcases h1 : csql_socketread_header K db with ⟨db1, r1⟩
  rcases h2 : csql_checkheader K D db1 a b with ⟨db2, r2, e2⟩
  rcases h3 : csql_checkinbuffer K db2 with ⟨db3, r3⟩
  rcases h4 : csql_socketread K db3 with ⟨db4, r4⟩
  have w1 : db1.wire = db.wire := by
    have := socketread_header_wire K db
    rw [h1] at this; exact this
  have w2 : db2.wire = db.wire := by
    have := checkheader_wire K D db1 a b
    rw [h2] at this; exact this.trans w1
  have w3 : db3.wire = db.wire := by
    have := checkinbuffer_wire K db2
    rw [h3] at this; exact this.trans w2
  have w4 : db4.wire = db.wire := by
    have := socketread_wire K db3
    rw [h4] at this; exact this.trans w3
  unfold csql_netread
  simp only [h1, h2, h3, h4]
  by_cases c1 : r1 ≠ K.CUBESQL_NOERR
  · rw [if_pos c1]; exact w1
  rw [if_neg c1]
  by_cases c2 : r2 ≠ K.CUBESQL_NOERR
  · rw [if_pos c2]; exact w2
  rw [if_neg c2]
  by_cases c3 : ch = true ∧ e2 = true
  · rw [if_pos c3]; exact w2
  rw [if_neg c3]
  by_cases c4 : db2.toread = 0
  · rw [if_pos c4]; exact w2
  rw [if_neg c4]
  by_cases c5 : r3 ≠ K.CUBESQL_NOERR
  · rw [if_pos c5]; exact w3
  rw [if_neg c5]
  by_cases c6 : r4 ≠ K.CUBESQL_NOERR
  · rw [if_pos c6]; exact w4
  rw [if_neg c6]
  generalize hdb5 : (if db4.reply.encryptedPacket ≠ K.CUBESQL_ENCRYPTION_NONE
    then { db4 with inbuffer := some (decrypt_buffer D (db4.inbuffer.getD []) db4.toread.toNat) }
    else db4) = db5
  have w5 : db5.wire = db.wire := by
    rw [← hdb5]
    split
    · exact w4
    · exact w4
  by_cases c7 : db5.reply.flag1.compressed_packet = true
  · rw [if_pos c7]
    generalize inflate (peek (db5.inbuffer.getD []) 0 db5.toread.toNat)
      db5.reply.expandedSize.toNat = o
    cases o with
    | none => exact w5
    | some buffer => exact w5
  · rw [if_neg c7]; exact w5

/-! ## C11: cubesql_cursor_seek on a server-side cursor -/

theorem read_cursor_frame_server_side (K : SdkConsts) (db : Db) (c : Cursor) (index : Int)
    (p : Bool) (hss : c.server_side = true) :
    (read_cursor_frame K db c index p).1.server_side = true ∧
    (read_cursor_frame K db c index p).2 = false := by
  unfold read_cursor_frame
  simp only [hss, ite_self, if_true, Bool.not_true, Bool.false_or, csql_cursor_reallocate,
    apply_ite Cursor.server_side, Bool.false_eq_true, false_and, if_false, and_self]

theorem cursor_close_wire (K : SdkConsts) (D : Bytes → Bytes)
    (inflate : Bytes → Nat → Option Bytes) (db : Db) :
    (csql_cursor_close K D inflate db).1.wire
      = db.wire ++ [WireItem.header
          (csql_initrequest K db 0 0 K.kCOMMAND_CURSOR_CLOSE K.kNO_SELECTOR).request] := by
  have h := netread_wire K D inflate
    (csql_socketwrite_header (csql_initrequest K db 0 0 K.kCOMMAND_CURSOR_CLOSE K.kNO_SELECTOR))
    (-1) (-1) false
  unfold csql_cursor_close
  dsimp only
  generalize csql_netread K D inflate _ _ _ _ = nr at h ⊢
  rcases nr with ⟨db3, r, e⟩
  exact h

/-- One run of the loop of `csql_read_cursor` for a server-side cursor that the
caller passed in: either a cursor is returned and nothing was written, or
`NULL` is returned and the request that closes the cursor was written. -/
theorem read_cursor_loop_server_side_wire (K : SdkConsts) (E D : Bytes → Bytes)
    (inflate : Bytes → Nat → Option Bytes) (fuel : Nat) (db : Db) (c : Cursor) (index : Int)
    (p : Bool) (hss : c.server_side = true) :
    (∃ c1, (read_cursor_loop K E D inflate true (fuel + 1) db c index p).2 = some c1 ∧
      (read_cursor_loop K E D inflate true (fuel + 1) db c index p).1.wire = db.wire) ∨
    ((read_cursor_loop K E D inflate true (fuel + 1) db c index p).2 = none ∧
      ∃ h2 : InHead, h2.command = K.kCOMMAND_CURSOR_CLOSE ∧
        (read_cursor_loop K E D inflate true (fuel + 1) db c index p).1.wire
          = db.wire ++ [WireItem.header h2]) := by
  rcases h1 : csql_netread K D inflate db (-1) (-1) false with ⟨db1, r, e⟩
  have w1 : db1.wire = db.wire := by
    have := netread_wire K D inflate db (-1) (-1) false
    rw [h1] at this; exact this
  rcases h2 : read_cursor_frame K db1 c index p with ⟨c1, p1⟩
  have hs := read_cursor_frame_server_side K db1 c index p hss
  rw [h2] at hs
  unfold read_cursor_loop
  simp only [h1, h2]
  by_cases g1 : r ≠ K.CUBESQL_NOERR
  · rw [if_pos g1, if_pos trivial]
    right
    refine ⟨rfl, (csql_initrequest K db1 0 0 K.kCOMMAND_CURSOR_CLOSE K.kNO_SELECTOR).request,
      rfl, ?_⟩
    show (cubesql_cursor_free K D inflate db1 c).1.wire = _
    unfold cubesql_cursor_free
    dsimp only
    rw [if_pos hss, cursor_close_wire, w1]
  rw [if_neg g1]
  by_cases g2 : e = true
  · rw [if_pos g2]
    exact Or.inl ⟨_, rfl, w1⟩
  rw [if_neg g2]
  have g3 : ¬ (p1 = true ∧ ¬ c1.server_side = true) := fun h => h.2 hs.1
  rw [if_neg g3]
  exact Or.inl ⟨_, rfl, w1⟩

/-- What `csql_cursor_step` writes for a server-side cursor: the request
`kCOMMAND_CURSOR_STEP`, and, when no reply can be read, the request that closes
the cursor, which is released. -/
theorem cursor_step_wire (K : SdkConsts) (E D : Bytes → Bytes)
    (inflate : Bytes → Nat → Option Bytes) (db : Db) (c : Cursor) (hss : c.server_side = true) :
    ((csql_cursor_step K E D inflate db c).2.2 = K.CUBESQL_NOERR ∧
      (csql_cursor_step K E D inflate db c).1.wire
        = db.wire ++ [WireItem.header
            (csql_initrequest K db 0 0 K.kCOMMAND_CURSOR_STEP K.kNO_SELECTOR).request]) ∨
    ((csql_cursor_step K E D inflate db c).2.2 = K.CUBESQL_ERR ∧
      (csql_cursor_step K E D inflate db c).2.1 = { c with freed := true } ∧
      ∃ h2 : InHead, h2.command = K.kCOMMAND_CURSOR_CLOSE ∧
        (csql_cursor_step K E D inflate db c).1.wire
          = db.wire ++ [WireItem.header
              (csql_initrequest K db 0 0 K.kCOMMAND_CURSOR_STEP K.kNO_SELECTOR).request,
            WireItem.header h2]) := by
  have h := read_cursor_loop_server_side_wire K E D inflate
    ((csql_socketwrite_header
      (csql_initrequest K db 0 0 K.kCOMMAND_CURSOR_STEP K.kNO_SELECTOR)).rx.length)
    (csql_socketwrite_header (csql_initrequest K db 0 0 K.kCOMMAND_CURSOR_STEP K.kNO_SELECTOR))
    c 1 false hss
  have hw : (csql_socketwrite_header
      (csql_initrequest K db 0 0 K.kCOMMAND_CURSOR_STEP K.kNO_SELECTOR)).wire
      = db.wire ++ [WireItem.header
          (csql_initrequest K db 0 0 K.kCOMMAND_CURSOR_STEP K.kNO_SELECTOR).request] := rfl
  unfold csql_cursor_step csql_read_cursor
  dsimp only
  generalize read_cursor_loop K E D inflate true _ _ c 1 false = res at h ⊢
  rcases res with ⟨db3, oc⟩
  cases oc with
  | none =>
    right
    rcases h with ⟨c1, h1, _⟩ | ⟨_, h2, e1, e2⟩
    · cases h1
    · refine ⟨rfl, rfl, h2, e1, ?_⟩
      show db3.wire = _
      rw [e2, hw, List.append_assoc]
      rfl
  | some c1 =>
    left
    rcases h with ⟨c2, _, e2⟩ | ⟨h1, _⟩
    · exact ⟨rfl, e2.trans hw⟩
    · cases h1

/-- C11: on a server-side cursor `cubesql_cursor_seek` with an index other than
`CUBESQL_SEEKNEXT` returns `kFALSE`, writes nothing to the socket and leaves the
cursor and the connection as they are; so does `CUBESQL_SEEKNEXT` once `eof` is
set.  `CUBESQL_SEEKNEXT` with `eof` not set writes one request header first,
with command `kCOMMAND_CURSOR_STEP` and no payload; when a cursor comes back
the call returns `kTRUE` and has written nothing else; when no reply can be
read, `csql_read_cursor` closes the cursor on the server and releases it: the
call has then written a second request header, with command
`kCOMMAND_CURSOR_CLOSE`, the cursor of the caller is released, and the call
returns `kFALSE`. -/
theorem seek_server_side (K : SdkConsts) (E D : Bytes → Bytes)
    (inflate : Bytes → Nat → Option Bytes) (db : Db) (c : Cursor) (index : Int)
    (hss : c.server_side = true) :
    (index ≠ K.CUBESQL_SEEKNEXT →
      cubesql_cursor_seek K E D inflate db c index = (db, c, false)) ∧
    (c.eof = true → cubesql_cursor_seek K E D inflate db c index = (db, c, false)) ∧
    (index = K.CUBESQL_SEEKNEXT → c.eof = false →
      ∃ h : InHead, h.command = K.kCOMMAND_CURSOR_STEP ∧ h.packetSize = 0 ∧ h.numFields = 0 ∧
        h.signature = K.PROTOCOL_SIGNATURE ∧
        (((cubesql_cursor_seek K E D inflate db c index).2.2 = true ∧
          (cubesql_cursor_seek K E D inflate db c index).1.wire
            = db.wire ++ [WireItem.header h]) ∨
         ((K.CUBESQL_NOERR ≠ K.CUBESQL_ERR →
            (cubesql_cursor_seek K E D inflate db c index).2.2 = false) ∧
          (cubesql_cursor_seek K E D inflate db c index).2.1 = { c with freed := true } ∧
          ∃ h2 : InHead, h2.command = K.kCOMMAND_CURSOR_CLOSE ∧
            (cubesql_cursor_seek K E D inflate db c index).1.wire
              = db.wire ++ [WireItem.header h, WireItem.header h2]))) := by
  refine ⟨?_, ?_, ?_⟩
  · intro h
    unfold cubesql_cursor_seek
    rw [if_pos hss, if_pos h]
  · intro h
    unfold cubesql_cursor_seek
    rw [if_pos hss]
    by_cases g : index ≠ K.CUBESQL_SEEKNEXT
    · rw [if_pos g]
    · rw [if_neg g, if_pos h]
  · intro h1 h2
    refine ⟨(csql_initrequest K db 0 0 K.kCOMMAND_CURSOR_STEP K.kNO_SELECTOR).request,
      rfl, by simp [csql_initrequest], rfl, rfl, ?_⟩
    have hw := cursor_step_wire K E D inflate db c hss
    unfold cubesql_cursor_seek
    have g : ¬ (index ≠ K.CUBESQL_SEEKNEXT) := fun h => h h1
    have g2 : ¬ (c.eof = true) := by rw [h2]; decide
    rw [if_pos hss, if_neg g, if_neg g2]
    generalize csql_cursor_step K E D inflate db c = st at hw ⊢
    rcases st with ⟨db1, c1, r⟩
    dsimp only at hw ⊢
    rcases hw with ⟨e1, e2⟩ | ⟨e1, e2, h2, e3, e4⟩
    · left
      exact ⟨by rw [e1]; simp, e2⟩
    · right
      refine ⟨?_, e2, h2, e3, e4⟩
      intro hne
      rw [e1]
      simp only [decide_eq_false_iff_not]
      exact fun h => hne h.symm

theorem seek_server_side_witness :
    (sdk.CUBESQL_SEEKFIRST ≠ sdk.CUBESQL_SEEKNEXT →
      cubesql_cursor_seek sdk toyCipher toyCipher (fun _ _ => none) stepRx stepCursor
        sdk.CUBESQL_SEEKFIRST = (stepRx, stepCursor, false)) ∧
    (({ stepCursor with eof := true } : Cursor).eof = true →
      cubesql_cursor_seek sdk toyCipher toyCipher (fun _ _ => none) stepRx
        { stepCursor with eof := true } sdk.CUBESQL_SEEKNEXT
        = (stepRx, { stepCursor with eof := true }, false)) ∧
    (sdk.CUBESQL_SEEKNEXT = sdk.CUBESQL_SEEKNEXT → stepCursor.eof = false →
      ∃ h : InHead, h.command = sdk.kCOMMAND_CURSOR_STEP ∧ h.packetSize = 0 ∧
        h.numFields = 0 ∧ h.signature = sdk.PROTOCOL_SIGNATURE ∧
        (((cubesql_cursor_seek sdk toyCipher toyCipher (fun _ _ => none) stepRx stepCursor
              sdk.CUBESQL_SEEKNEXT).2.2 = true ∧
          (cubesql_cursor_seek sdk toyCipher toyCipher (fun _ _ => none) stepRx stepCursor
              sdk.CUBESQL_SEEKNEXT).1.wire = stepRx.wire ++ [WireItem.header h]) ∨
         ((sdk.CUBESQL_NOERR ≠ sdk.CUBESQL_ERR →
            (cubesql_cursor_seek sdk toyCipher toyCipher (fun _ _ => none) stepRx stepCursor
              sdk.CUBESQL_SEEKNEXT).2.2 = false) ∧
          (cubesql_cursor_seek sdk toyCipher toyCipher (fun _ _ => none) stepRx stepCursor
              sdk.CUBESQL_SEEKNEXT).2.1 = { stepCursor with freed := true } ∧
          ∃ h2 : InHead, h2.command = sdk.kCOMMAND_CURSOR_CLOSE ∧
            (cubesql_cursor_seek sdk toyCipher toyCipher (fun _ _ => none) stepRx stepCursor
              sdk.CUBESQL_SEEKNEXT).1.wire
              = stepRx.wire ++ [WireItem.header h, WireItem.header h2]))) ∧
    (cubesql_cursor_seek sdk toyCipher toyCipher (fun _ _ => none) stepRx stepCursor
      sdk.CUBESQL_SEEKNEXT).2.2 = true ∧
    (headersOf (cubesql_cursor_seek sdk toyCipher toyCipher (fun _ _ => none) stepRx stepCursor
      sdk.CUBESQL_SEEKNEXT).1.wire).map (fun h => h.command) = [sdk.kCOMMAND_CURSOR_STEP] ∧
    (cubesql_cursor_seek sdk toyCipher toyCipher (fun _ _ => none) {} stepCursor
      sdk.CUBESQL_SEEKNEXT).2 = ({ stepCursor with freed := true }, false) ∧
    (headersOf (cubesql_cursor_seek sdk toyCipher toyCipher (fun _ _ => none) {} stepCursor
      sdk.CUBESQL_SEEKNEXT).1.wire).map (fun h => h.command)
      = [sdk.kCOMMAND_CURSOR_STEP, sdk.kCOMMAND_CURSOR_CLOSE] :=
  ⟨(seek_server_side sdk toyCipher toyCipher (fun _ _ => none) stepRx stepCursor
      sdk.CUBESQL_SEEKFIRST rfl).1,
   (seek_server_side sdk toyCipher toyCipher (fun _ _ => none) stepRx
      { stepCursor with eof := true } sdk.CUBESQL_SEEKNEXT rfl).2.1,
   (seek_server_side sdk toyCipher toyCipher (fun _ _ => none) stepRx stepCursor
      sdk.CUBESQL_SEEKNEXT rfl).2.2, by decide, by decide, by decide, by decide⟩

/-! ## C18: the size of what encrypt_buffer produces -/

/-- C18: for every payload `x` (of any length `n >= 0`), every block cipher that
maps 16-byte blocks to 16-byte blocks and every 16-byte IV block,
`encrypt_buffer (buffer, n, random, ctx)` returns `n + 16`, leaves `n` bytes of
ciphertext in `buffer[0..n)` and a 16-byte block in `random[0..16)`, and writes
no other byte: the memory after the payload (`junk`) and after the IV block
(`ex`) is as before. -/
theorem encrypt_buffer_size (E : Bytes → Bytes) (hE : ∀ b, b.length = 16 → (E b).length = 16)
    (x junk iv ex : Bytes) (hiv : iv.length = 16) :
    (encrypt_buffer E (x ++ junk) x.length (iv ++ ex)).2.2 = x.length + 16 ∧
    ∃ ct ivb : Bytes, ct.length = x.length ∧ ivb.length = 16 ∧
      (encrypt_buffer E (x ++ junk) x.length (iv ++ ex)).1 = ct ++ junk ∧
      (encrypt_buffer E (x ++ junk) x.length (iv ++ ex)).2.1 = ivb ++ ex := by
  rw [encrypt_buffer_frame E hE x junk iv ex hiv]
  have h := encrypt_buffer_lengths E hE x iv hiv
  exact ⟨rfl, _, _, h.1, h.2.1, rfl, rfl⟩

theorem encrypt_buffer_size_witness :
    (encrypt_buffer toyCipher ([1, 2, 3, 4, 5, 6, 7, 8, 9, 10, 11, 12, 13, 14, 15, 16, 17] ++ [99])
      ([1, 2, 3, 4, 5, 6, 7, 8, 9, 10, 11, 12, 13, 14, 15, 16, 17] : Bytes).length
      (List.replicate 16 7 ++ [1, 2, 3, 4])).2.2
      = ([1, 2, 3, 4, 5, 6, 7, 8, 9, 10, 11, 12, 13, 14, 15, 16, 17] : Bytes).length + 16 ∧
    ∃ ct ivb : Bytes,
      ct.length = ([1, 2, 3, 4, 5, 6, 7, 8, 9, 10, 11, 12, 13, 14, 15, 16, 17] : Bytes).length ∧
      ivb.length = 16 ∧
      (encrypt_buffer toyCipher
        ([1, 2, 3, 4, 5, 6, 7, 8, 9, 10, 11, 12, 13, 14, 15, 16, 17] ++ [99])
        ([1, 2, 3, 4, 5, 6, 7, 8, 9, 10, 11, 12, 13, 14, 15, 16, 17] : Bytes).length
        (List.replicate 16 7 ++ [1, 2, 3, 4])).1 = ct ++ [99] ∧
      (encrypt_buffer toyCipher
        ([1, 2, 3, 4, 5, 6, 7, 8, 9, 10, 11, 12, 13, 14, 15, 16, 17] ++ [99])
        ([1, 2, 3, 4, 5, 6, 7, 8, 9, 10, 11, 12, 13, 14, 15, 16, 17] : Bytes).length
        (List.replicate 16 7 ++ [1, 2, 3, 4])).2.1 = ivb ++ [1, 2, 3, 4] :=
  encrypt_buffer_size toyCipher toyCipher_length
    [1, 2, 3, 4, 5, 6, 7, 8, 9, 10, 11, 12, 13, 14, 15, 16, 17] [99] (List.replicate 16 7)
    [1, 2, 3, 4] (by decide)

/-! ## The requests that the public functions write -/

theorem headersOf_append (a b : List WireItem) :
    headersOf (a ++ b) = headersOf a ++ headersOf b := by
  simp [headersOf]

theorem headersOf_wbytes (buffer : Bytes) (n : Int) : headersOf (wbytes buffer n) = [] := by
  unfold wbytes
  split <;> rfl

/-- What `csql_netwrite` does to the connection: the request header and then
bytes are appended to the wire, random pools may be used up, nothing else
changes, and the value returned is `CUBESQL_NOERR`. -/
theorem netwrite_eq (K : SdkConsts) (E : Bytes → Bytes) (db : Db) (a b : Option Bytes)
    (na nb : Int) :
    ∃ (w : List WireItem) (p : List Bytes), headersOf w = [] ∧
      csql_netwrite K E db a na b nb
        = ({ db with wire := db.wire ++ ([WireItem.header db.request] ++ w), pools := p },
            K.CUBESQL_NOERR) := by
  unfold csql_netwrite
  simp only [socketwrite_eq, csql_socketwrite_header, rand_fill_eq, List.append_assoc]
  cases a <;> cases b <;> simp only <;> split
  all_goals try simp only [List.append_assoc]
  all_goals first
    | exact ⟨[], db.pools, rfl, rfl⟩
    | (refine ⟨_, _, ?_, rfl⟩
       simp only [headersOf_append, headersOf_wbytes, List.append_nil])

theorem netwrite_headers (K : SdkConsts) (E : Bytes → Bytes) (db : Db) (a b : Option Bytes)
    (na nb : Int) :
    headersOf (csql_netwrite K E db a na b nb).1.wire = headersOf db.wire ++ [db.request] := by
  obtain ⟨w, p, hw, h⟩ := netwrite_eq K E db a b na nb
  rw [h]
  simp only [headersOf_append, hw, List.append_nil]
  rfl

theorem netwrite_err (K : SdkConsts) (E : Bytes → Bytes) (db : Db) (a b : Option Bytes)
    (na nb : Int) :
    (csql_netwrite K E db a na b nb).1.errcode = db.errcode ∧
    (csql_netwrite K E db a na b nb).1.errmsg = db.errmsg := by
  obtain ⟨w, p, _, h⟩ := netwrite_eq K E db a b na nb
  rw [h]
  exact ⟨rfl, rfl⟩

theorem netread_headers (K : SdkConsts) (D : Bytes → Bytes)
    (inflate : Bytes → Nat → Option Bytes) (db : Db) (a b : Int) (ch : Bool) :
    headersOf (csql_netread K D inflate db a b ch).1.wire = headersOf db.wire := by
  rw [netread_wire]

/-- The request header that `csql_send_statement` writes. -/
theorem send_statement_headers (K : SdkConsts) (E : Bytes → Bytes) (db : Db)
    (command_type : Int) (sql : Bytes) ( is_partial server_side : Bool) :
    ∃ h : InHead,
      headersOf (csql_send_statement K E db command_type sql is_partial server_side).1.wire
        = headersOf db.wire ++ [h] ∧
      h.command = command_type ∧ h.selector = K.kNO_SELECTOR ∧
      h.flag1.server_side = (decide (command_type = K.kCOMMAND_SELECT) && server_side) := by
  by_cases hc : command_type = K.kCOMMAND_SELECT
  · cases server_side
    · simp only [csql_send_statement, hc, if_true, Bool.false_eq_true, if_false,
        netwrite_headers]
      exact ⟨_, rfl, rfl, rfl, by simp [csql_initrequest]⟩
    · simp only [csql_send_statement, hc, if_true, netwrite_headers]
      exact ⟨_, rfl, rfl, rfl, by simp⟩
  · cases is_partial
    · simp only [csql_send_statement, hc, if_false, Bool.false_eq_true, netwrite_headers]
      exact ⟨_, rfl, rfl, rfl, by simp [csql_initrequest]⟩
    · simp only [csql_send_statement, hc, if_false, if_true, netwrite_headers]
      exact ⟨_, rfl, rfl, rfl, by simp [csql_initrequest]⟩

theorem send_statement_wire_headers (K : SdkConsts) (E : Bytes → Bytes) (db : Db)
    (command_type : Int) (sql : Bytes) ( is_partial server_side : Bool) (w : List WireItem)
    (hw : db.wire = w) :
    ∃ h : InHead,
      headersOf (csql_send_statement K E db command_type sql is_partial server_side).1.wire
        = headersOf w ++ [h] ∧
      h.command = command_type ∧ h.selector = K.kNO_SELECTOR ∧
      h.flag1.server_side = (decide (command_type = K.kCOMMAND_SELECT) && server_side) := by
  subst hw
  exact send_statement_headers K E db command_type sql is_partial server_side

/-- The request header that `csql_ack` writes. -/
theorem ack_headers (K : SdkConsts) (E D : Bytes → Bytes) (inflate : Bytes → Nat → Option Bytes)
    (db : Db) (chunk_code : Int) :
    ∃ h : InHead, headersOf (csql_ack K E D inflate db chunk_code).1.wire
        = headersOf db.wire ++ [h] ∧ h.flag1.server_side = false := by
  unfold csql_ack
  split
  · refine ⟨(csql_initrequest K db 0 0 K.kCOMMAND_ENDCHUNK K.kNO_SELECTOR).request, ?_, rfl⟩
    dsimp only
    rw [netread_headers, netwrite_headers]
    rfl
  · split
    · refine ⟨(csql_initrequest K db 0 0 K.kCOMMAND_CHUNK_BIND chunk_code).request, ?_, rfl⟩
      dsimp only
      rw [netread_headers, netwrite_headers]
      rfl
    · refine ⟨(csql_initrequest K db 0 0 K.kCOMMAND_CHUNK chunk_code).request, ?_, rfl⟩
      dsimp only
      rw [netwrite_headers]
      rfl

/-- Reading a cursor writes acknowledgements only: request headers without the
server-side bit. -/
theorem read_cursor_loop_headers (K : SdkConsts) (E D : Bytes → Bytes)
    (inflate : Bytes → Nat → Option Bytes) : ∀ (fuel : Nat) (db : Db) (c : Cursor)
    (index : Int) (p : Bool),
    ∃ hs : List InHead,
      headersOf (read_cursor_loop K E D inflate false fuel db c index p).1.wire
        = headersOf db.wire ++ hs ∧ ∀ h ∈ hs, h.flag1.server_side = false
  | 0, db, c, index, p => ⟨[], by simp [read_cursor_loop], by simp⟩
  | fuel + 1, db, c, index, p => by
    rcases h1 : csql_netread K D inflate db (-1) (-1) false with ⟨db1, r, e⟩
    have w1 : db1.wire = db.wire := by
      have := netread_wire K D inflate db (-1) (-1) false
      rw [h1] at this; exact this
    rcases h2 : read_cursor_frame K db1 c index p with ⟨c1, p1⟩
    unfold read_cursor_loop
    simp only [h1, h2]
    by_cases g1 : r ≠ K.CUBESQL_NOERR
    · rw [if_pos g1]; exact ⟨[], by simp [w1], by simp⟩
    rw [if_neg g1]
    by_cases g2 : e = true
    · rw [if_pos g2]; exact ⟨[], by simp [w1], by simp⟩
    rw [if_neg g2]
    by_cases g3 : p1 = true ∧ ¬ c1.server_side = true
    · rw [if_pos g3]
      obtain ⟨ha, hha, hhs⟩ := ack_headers K E D inflate
        { db1 with inbuffer := none, insize := 0 } K.kCHUNK_OK
      obtain ⟨hs, hhs1, hhs2⟩ := read_cursor_loop_headers K E D inflate fuel
        (csql_ack K E D inflate { db1 with inbuffer := none, insize := 0 } K.kCHUNK_OK).1
        c1 (index + 1) p1
      refine ⟨ha :: hs, ?_, ?_⟩
      · rw [hhs1, hha]
        simp [w1]
      · intro h hh
        rcases List.mem_cons.1 hh with rfl | hh
        · exact hhs
        · exact hhs2 h hh
    · rw [if_neg g3]; exact ⟨[], by simp [w1], by simp⟩

/-! ## C20: the SELECT request -/

/-- C20, the failing case: `cubesql_select (db, "SELECT 1;", kTRUE)` writes one
request header, a `kCOMMAND_SELECT` whose server-side bit is not set. -/
theorem select_server_side_counterexample :
    (headersOf (cubesql_select sdk toyCipher toyCipher (fun _ _ => none) {}
        (cstr "SELECT 1;") true).1.wire).map (fun h => (h.command, h.flag1.server_side))
      = [(sdk.kCOMMAND_SELECT, false)] := by
  rfl

/-- C20, as the code has it: for every connection, every SQL string and both
values of `is_serverside`, the first request that `cubesql_select` writes is a
`kCOMMAND_SELECT` header without the server-side bit, and no request header
written after it (the acknowledgements of a chunked reply) has the bit either. -/
theorem select_never_server_side (K : SdkConsts) (E D : Bytes → Bytes)
    (inflate : Bytes → Nat → Option Bytes) (db : Db) (sql : Bytes) (is_serverside : Bool) :
    ∃ (h : InHead) (hs : List InHead),
      headersOf (cubesql_select K E D inflate db sql is_serverside).1.wire
        = headersOf db.wire ++ h :: hs ∧
      h.command = K.kCOMMAND_SELECT ∧ h.selector = K.kNO_SELECTOR ∧
      h.flag1.server_side = false ∧ ∀ g ∈ hs, g.flag1.server_side = false := by
  obtain ⟨h, hw, hc, hsel, hss⟩ := send_statement_wire_headers K E (cubesql_clear_errors K db)
    K.kCOMMAND_SELECT sql false false db.wire rfl
  rcases hsend : csql_send_statement K E (cubesql_clear_errors K db) K.kCOMMAND_SELECT sql
    false false with ⟨db1, r⟩
  rw [hsend] at hw
  have hss1 : h.flag1.server_side = false := by rw [hss]; simp
  unfold cubesql_select
  simp only [hsend]
  by_cases g : r ≠ K.CUBESQL_NOERR
  · rw [if_pos g]
    exact ⟨h, [], hw, hc, hsel, hss1, by simp⟩
  · rw [if_neg g]
    obtain ⟨hs, e1, e2⟩ := read_cursor_loop_headers K E D inflate (db1.rx.length + 1) db1
      csql_cursor_alloc 0 false
    refine ⟨h, hs, ?_, hc, hsel, hss1, e2⟩
    unfold csql_read_cursor
    simp only
    rw [e1, hw, List.append_assoc]
    rfl

/-! ## C14: which public functions clear the last error -/

/-- C14, the failing cases: on a connection whose last error is set,
`cubesql_vmbind_null`, `cubesql_vmclose` and `cubesql_changes` complete without a
new error (the server's reply is clean) and leave the last error as it was: code
1, message "no such table".  `cubesql_execute` on the same connection clears it
first: code `CUBESQL_NOERR`, `errmsg[0] = 0`. -/
theorem last_error_not_cleared :
    ((cubesql_vmbind_null sdk toyCipher toyCipher (fun _ _ => none) staleErrorDb 1).2,
      (cubesql_vmbind_null sdk toyCipher toyCipher (fun _ _ => none) staleErrorDb 1).1.errcode,
      (cubesql_vmbind_null sdk toyCipher toyCipher (fun _ _ => none) staleErrorDb 1).1.errmsg)
      = (sdk.CUBESQL_NOERR, 1, cstr "no such table") ∧
    ((cubesql_vmclose sdk toyCipher toyCipher (fun _ _ => none) staleErrorDb).2,
      (cubesql_vmclose sdk toyCipher toyCipher (fun _ _ => none) staleErrorDb).1.errcode,
      (cubesql_vmclose sdk toyCipher toyCipher (fun _ _ => none) staleErrorDb).1.errmsg)
      = (sdk.CUBESQL_NOERR, 1, cstr "no such table") ∧
    ((cubesql_changes sdk toyCipher toyCipher (fun _ _ => none) staleErrorDbRows).2.map
        (fun c => fieldBytes (cubesql_cursor_field sdk c 1 1)),
      (cubesql_changes sdk toyCipher toyCipher (fun _ _ => none) staleErrorDbRows).1.errcode,
      (cubesql_changes sdk toyCipher toyCipher (fun _ _ => none) staleErrorDbRows).1.errmsg)
      = (some (some [51]), 1, cstr "no such table") ∧
    ((cubesql_execute sdk toyCipher toyCipher (fun _ _ => none) staleErrorDb (cstr "PING;")).2,
      (cubesql_execute sdk toyCipher toyCipher (fun _ _ => none) staleErrorDb
        (cstr "PING;")).1.errcode,
      (cubesql_execute sdk toyCipher toyCipher (fun _ _ => none) staleErrorDb
        (cstr "PING;")).1.errmsg.head?)
      = (sdk.CUBESQL_NOERR, sdk.CUBESQL_NOERR, some 0) := by
  refine ⟨?_, ?_, ?_, ?_⟩ <;> rfl

/-! ## C16, C17: cubesql_cursor_addrow -/

theorem addrow_loop_succ (row : List (Option Bytes)) (len : List Int) (index : Int) (c : Cursor)
    (n : Nat) :
    (List.range (n + 1)).foldl (addrow_step row len index) c
      = addrow_step row len index ((List.range n).foldl (addrow_step row len index) c) n := by
  rw [List.range_succ, List.foldl_append]
  rfl

/-- What the loop of `cubesql_cursor_addrow` leaves: the cells and sizes of the
new row at `idx .. idx + n`, everything else as before. -/
theorem addrow_loop_spec (row : List (Option Bytes)) (len : List Int) (idx : Nat) (c : Cursor) :
    ∀ (n : Nat), idx + n ≤ c.cells.length → idx + n ≤ c.size0.length →
    ((List.range n).foldl (addrow_step row len idx) c).cells.length = c.cells.length ∧
    ((List.range n).foldl (addrow_step row len idx) c).size0.length = c.size0.length ∧
    ((List.range n).foldl (addrow_step row len idx) c).nrows = c.nrows ∧
    ((List.range n).foldl (addrow_step row len idx) c).ncols = c.ncols ∧
    ((List.range n).foldl (addrow_step row len idx) c).cursor_id = c.cursor_id ∧
    ((List.range n).foldl (addrow_step row len idx) c).current_row = c.current_row ∧
    ((List.range n).foldl (addrow_step row len idx) c).nalloc = c.nalloc ∧
    (∀ j < n, ((List.range n).foldl (addrow_step row len idx) c).cells.getD (idx + j) []
        = addrow_cell (row.getD j none) (len.getD j 0) ∧
      ((List.range n).foldl (addrow_step row len idx) c).size0.getD (idx + j) 0
        = len.getD j 0) ∧
    (∀ i < idx, ((List.range n).foldl (addrow_step row len idx) c).cells.getD i []
        = c.cells.getD i [] ∧
      ((List.range n).foldl (addrow_step row len idx) c).size0.getD i 0 = c.size0.getD i 0)
  | 0, _, _ => by
    simp
  | n + 1, h1, h2 => by
    obtain ⟨a1, a2, a3, a4, a5, a6, a7, a8, a9⟩ :=
      addrow_loop_spec row len idx c n (by omega) (by omega)
    rw [addrow_loop_succ]
    generalize (List.range n).foldl (addrow_step row len (idx : Int)) c = d at *
    have e : ((idx : Int) + (n : Int)).toNat = idx + n := by omega
    have l1 : idx + n < d.cells.length := by omega
    have l2 : idx + n < d.size0.length := by omega
    unfold addrow_step
    simp only [e, List.length_set]
    refine ⟨a1, a2, a3, a4, a5, a6, a7, ?_, ?_⟩
    · intro j hj
      by_cases hjn : j = n
      · subst hjn
        simp only [List.getD_eq_getElem?_getD, List.getElem?_set_self l1,
          List.getElem?_set_self l2, Option.getD_some, and_self]
      · have hne : idx + n ≠ idx + j := by omega
        have := a8 j (by omega)
        simp only [List.getD_eq_getElem?_getD, List.getElem?_set_ne hne] at this ⊢
        exact this
    · intro i hi
      have hne : idx + n ≠ i := by omega
      have := a9 i hi
      simp only [List.getD_eq_getElem?_getD, List.getElem?_set_ne hne] at this ⊢
      exact this

theorem cursor_create_custom (K : SdkConsts) (hA : 0 < K.kDEFAULT_ALLOC_ROWS)
    (nrows ncolumns : Int) (types : List Int) (names : List Bytes) (c : Cursor)
    (h : cubesql_cursor_create K nrows ncolumns types names = some c) : CustomCursor c := by
  unfold cubesql_cursor_create at h
  by_cases g : nrows < 0 ∨ ncolumns ≤ 0
  · rw [if_pos g] at h; cases h
  · rw [if_neg g] at h
    simp only [Option.some.injEq] at h
    subst h
    refine ⟨rfl, ?_, ?_, ?_, ?_, ?_⟩
    · show 0 < ncolumns
      omega
    · show (0 : Int) ≤ 0
      omega
    · show (0 : Int) ≤ if nrows > 0 then nrows else K.kDEFAULT_ALLOC_ROWS
      split <;> omega
    · simp
    · simp

/-- The fields of the cursor after `cubesql_cursor_addrow`, from the cursor
`c2` that the loop leaves. -/
theorem addrow_fields (K : SdkConsts) (c : Cursor) (row : List (Option Bytes)) (len : List Int)
    (hid : c.cursor_id = -1) :
    ∃ c2 : Cursor,
      c2 = (List.range c.ncols.toNat).foldl (addrow_step row len (c.nrows * c.ncols))
        (if c.nalloc < c.nrows * c.ncols + c.ncols
          then { c with cells := List.replicate (c.ncols * (c.nalloc + K.kDEFAULT_ALLOC_ROWS * 2)).toNat [], size0 := List.replicate (c.ncols * (c.nalloc + K.kDEFAULT_ALLOC_ROWS * 2)).toNat 0, nalloc := c.nalloc + K.kDEFAULT_ALLOC_ROWS * 2 }
          else c) ∧
      (cubesql_cursor_addrow K c row len).2 = true ∧
      (cubesql_cursor_addrow K c row len).1.nrows = c2.nrows + 1 ∧
      (cubesql_cursor_addrow K c row len).1.ncols = c2.ncols ∧
      (cubesql_cursor_addrow K c row len).1.cursor_id = c2.cursor_id ∧
      (cubesql_cursor_addrow K c row len).1.nalloc = c2.nalloc ∧
      (cubesql_cursor_addrow K c row len).1.cells = c2.cells ∧
      (cubesql_cursor_addrow K c row len).1.size0 = c2.size0 := by
  refine ⟨_, rfl, ?_⟩
  unfold cubesql_cursor_addrow
  have hid' : ¬ (c.cursor_id ≠ -1) := fun h => h hid
  rw [if_neg hid']
  dsimp only
  refine ⟨rfl, ?_, ?_, ?_, ?_, ?_, ?_⟩
  · simp only [apply_ite Cursor.nrows, ite_self]
  · simp only [apply_ite Cursor.ncols, ite_self]
  · simp only [apply_ite Cursor.cursor_id, ite_self]
  · simp only [apply_ite Cursor.nalloc, ite_self]
  · simp only [apply_ite Cursor.cells, ite_self]
  · simp only [apply_ite Cursor.size0, ite_self]

/-- The cursor after `cubesql_cursor_addrow` on a custom cursor. -/
theorem addrow_custom (K : SdkConsts) (hA : 0 < K.kDEFAULT_ALLOC_ROWS) (c : Cursor)
    (hc : CustomCursor c) (row : List (Option Bytes)) (len : List Int) (nr nc : Nat)
    (hnr : c.nrows = nr) (hnc : c.ncols = nc) :
    (cubesql_cursor_addrow K c row len).2 = true ∧
    (cubesql_cursor_addrow K c row len).1.nrows = c.nrows + 1 ∧
    (cubesql_cursor_addrow K c row len).1.ncols = c.ncols ∧
    CustomCursor (cubesql_cursor_addrow K c row len).1 ∧
    (∀ j < nc, (cubesql_cursor_addrow K c row len).1.cells.getD (nr * nc + j) []
        = addrow_cell (row.getD j none) (len.getD j 0) ∧
      (cubesql_cursor_addrow K c row len).1.size0.getD (nr * nc + j) 0 = len.getD j 0) := by
  obtain ⟨hid, hpos, hnn, hfit, hcl, hsl⟩ := hc
  obtain ⟨c2, hc2, f1, f2, f3, f4, f5, f6, f7⟩ := addrow_fields K c row len hid
  rw [f2, f3, f6, f7]
  refine ⟨f1, ?_⟩
  have hcust : ∀ p : Prop, (CustomCursor (cubesql_cursor_addrow K c row len).1 → p) →
      (c2.cursor_id = -1 → 0 < c2.ncols → 0 ≤ c2.nrows + 1 → c2.nrows + 1 ≤ c2.nalloc →
        c2.cells.length = (c2.ncols * c2.nalloc).toNat →
        c2.size0.length = (c2.ncols * c2.nalloc).toNat → p) := by
    intro p hp h1 h2 h3 h4 h5 h6
    exact hp ⟨by rw [f4]; exact h1, by rw [f3]; exact h2, by rw [f2]; exact h3,
      by rw [f2, f5]; exact h4, by rw [f6, f3, f5]; exact h5, by rw [f7, f3, f5]; exact h6⟩
  clear f1 f2 f3 f4 f5 f6 f7
  obtain ⟨na, hna⟩ : ∃ na : Nat, c.nalloc = na := ⟨c.nalloc.toNat, by omega⟩
  obtain ⟨d, hd⟩ : ∃ d : Nat, K.kDEFAULT_ALLOC_ROWS = d := ⟨K.kDEFAULT_ALLOC_ROWS.toNat, by omega⟩
  have hncpos : 0 < nc := by omega
  have hidx : c.nrows * c.ncols = ((nr * nc : Nat) : Int) := by rw [hnr, hnc]; push_cast; ring
  have hnct : c.ncols.toNat = nc := by omega
  have hcl1 : c.cells.length = nc * na := by
    rw [hcl, hnc, hna]
    have : ((nc : Int) * na) = ((nc * na : Nat) : Int) := by push_cast; ring
    rw [this]; rfl
  have hsl1 : c.size0.length = nc * na := by
    rw [hsl, hnc, hna]
    have : ((nc : Int) * na) = ((nc * na : Nat) : Int) := by push_cast; ring
    rw [this]; rfl
  have hnew : (c.ncols * (c.nalloc + K.kDEFAULT_ALLOC_ROWS * 2)).toNat = nc * (na + d * 2) := by
    rw [hnc, hna, hd]
    have : ((nc : Int) * (na + d * 2)) = ((nc * (na + d * 2) : Nat) : Int) := by push_cast; ring
    rw [this]; rfl
  have hmul : nr * nc + nc = (nr + 1) * nc := by ring
  have hle1 : nr + 1 ≤ (nr + 1) * nc := Nat.le_mul_of_pos_right _ hncpos
  have hna_le : na ≤ nc * na := Nat.le_mul_of_pos_left _ hncpos
  have hfit' : nr ≤ na := by rw [hnr, hna] at hfit; omega
  rw [hidx, hnct] at hc2
  by_cases hg : c.nalloc < ((nr * nc : Nat) : Int) + c.ncols
  · -- the arrays are replaced
    rw [if_pos hg] at hc2
    have hb : nr * nc + nc ≤ nc * (na + d * 2) := by
      rw [hmul, Nat.mul_comm nc]
      exact Nat.mul_le_mul_right nc (by omega)
    obtain ⟨a1, a2, a3, a4, a5, a6, a7, a8, _⟩ := addrow_loop_spec row len (nr * nc)
      { c with cells := List.replicate (c.ncols * (c.nalloc + K.kDEFAULT_ALLOC_ROWS * 2)).toNat [], size0 := List.replicate (c.ncols * (c.nalloc + K.kDEFAULT_ALLOC_ROWS * 2)).toNat 0, nalloc := c.nalloc + K.kDEFAULT_ALLOC_ROWS * 2 }
      nc (by simp only [List.length_replicate, hnew]; exact hb)
      (by simp only [List.length_replicate, hnew]; exact hb)
    rw [← hc2] at a1 a2 a3 a4 a5 a6 a7 a8
    simp only [List.length_replicate] at a1 a2 a3 a4 a5 a6 a7
    refine ⟨by rw [a3], a4, ?_, a8⟩
    refine hcust _ id (a5.trans hid) (by rw [a4]; exact hpos) (by rw [a3]; omega)
      (by rw [a3, a7, hnr, hna, hd]; omega) (by rw [a1, a4, a7]) (by rw [a2, a4, a7])
  · rw [if_neg hg] at hc2
    have hh : nr * nc + nc ≤ na := by
      rw [hna, hnc] at hg
      have h2 : ¬ ((na : Int) < ((nr * nc : Nat) : Int) + (nc : Int)) := hg
      omega
    have hb : nr * nc + nc ≤ nc * na := by omega
    obtain ⟨a1, a2, a3, a4, a5, a6, a7, a8, _⟩ := addrow_loop_spec row len (nr * nc) c nc
      (by rw [hcl1]; exact hb) (by rw [hsl1]; exact hb)
    rw [← hc2] at a1 a2 a3 a4 a5 a6 a7 a8
    refine ⟨by rw [a3], a4, ?_, a8⟩
    refine hcust _ id (a5.trans hid) (by rw [a4]; exact hpos) (by rw [a3]; omega)
      (by rw [a3, a7, hnr, hna]; omega) (by rw [a1, a4, a7]; exact hcl)
      (by rw [a2, a4, a7]; exact hsl)

theorem addrow_cell_copy (v : Bytes) (l : Int) (hl : 0 < l) :
    addrow_cell (some v) l = peek v 0 l.toNat := by
  unfold addrow_cell
  have h1 : ¬ (l < 0) := by omega
  have h2 : l ≠ 0 := by omega
  simp only [if_neg h1, ne_eq, h2, not_false_eq_true, if_true]

/-- What `cubesql_cursor_field` returns for a row of a custom cursor. -/
theorem cursor_field_custom (K : SdkConsts) (hK : K.Ok) (c : Cursor) (nr nc r j : Nat)
    (hid : c.cursor_id = -1) (hnr : c.nrows = nr) (hnc : c.ncols = nc)
    (hr1 : 1 ≤ r) (hr2 : r ≤ nr) (hj1 : 1 ≤ j) (hj2 : j ≤ nc) :
    cubesql_cursor_field K c r j
      = (c, some (c.cells.getD ((r - 1) * nc + (j - 1)) []),
          c.size0.getD ((r - 1) * nc + (j - 1)) 0) := by
  obtain ⟨r0, rfl⟩ : ∃ r0, r = r0 + 1 := ⟨r - 1, by omega⟩
  obtain ⟨j0, rfl⟩ : ∃ j0, j = j0 + 1 := ⟨j - 1, by omega⟩
  have hn : (((r0 + 1 : Nat) : Int) - 1) * c.ncols + (((j0 + 1 : Nat) : Int) - 1)
      = ((r0 * nc + j0 : Nat) : Int) := by
    rw [hnc]; push_cast; ring
  unfold cubesql_cursor_field
  have h1 : ¬ (((j0 + 1 : Nat) : Int) ≠ K.CUBESQL_ROWID ∧
      (((j0 + 1 : Nat) : Int) ≤ 0 ∨ ((j0 + 1 : Nat) : Int) > c.ncols)) := by
    rw [hnc]; omega
  have h2 : ¬ (((r0 + 1 : Nat) : Int) > c.nrows) := by rw [hnr]; omega
  have h3 : ¬ (((r0 + 1 : Nat) : Int) < -2) := by omega
  have h4 : ¬ (((r0 + 1 : Nat) : Int) = K.CUBESQL_CURROW) := by have := hK.currow; omega
  have h5 : ¬ (((r0 + 1 : Nat) : Int) = K.CUBESQL_COLNAME) := by have := hK.colname; omega
  have h6 : ¬ (((r0 + 1 : Nat) : Int) = K.CUBESQL_COLTABLE) := by have := hK.coltable; omega
  have h7 : ¬ (((j0 + 1 : Nat) : Int) = K.CUBESQL_ROWID) := by have := hK.rowid; omega
  have h8 : ¬ (c.nrows = 0) := by rw [hnr]; omega
  have h9 : ¬ (((r0 * nc + j0 : Nat) : Int) < 0) := by omega
  rw [if_neg h1, if_neg h2, if_neg h3]
  simp only [if_neg h4, if_neg h5, if_neg h6, h7, false_and, if_false, if_neg h8, hid, if_true,
    hn, if_neg h9, geti, Int.toNat_ofNat, Nat.add_sub_cancel]

/-- C16: `cubesql_cursor_addrow (cursor, values, sizes)` on a custom cursor (one
made by `cubesql_cursor_create`, with the rows added so far) returns `kTRUE` and
makes the row count one higher; for every column `1 <= j <= ncols`,
`cubesql_cursor_field` on the new last row then sets the length `sizes[j-1]`
(also -1, the SQL NULL) and returns the cell stored for the column, which holds
the first `sizes[j-1]` bytes of `values[j-1]` when that length is positive.  On a
cursor that is not custom (`cursor_id != -1`) the function returns `kFALSE` and
the cursor is unchanged. -/
theorem addrow_reads_back (K : SdkConsts) (hK : K.Ok) (hA : 0 < K.kDEFAULT_ALLOC_ROWS)
    (c : Cursor) (hc : CustomCursor c) (row : List (Option Bytes)) (len : List Int) (j : Nat)
    (hj1 : 1 ≤ j) (hj2 : (j : Int) ≤ c.ncols) :
    (cubesql_cursor_addrow K c row len).2 = true ∧
    (cubesql_cursor_addrow K c row len).1.nrows = c.nrows + 1 ∧
    CustomCursor (cubesql_cursor_addrow K c row len).1 ∧
    cubesql_cursor_field K (cubesql_cursor_addrow K c row len).1 (c.nrows + 1) j
      = ((cubesql_cursor_addrow K c row len).1,
          some (addrow_cell (row.getD (j - 1) none) (len.getD (j - 1) 0)),
          len.getD (j - 1) 0) ∧
    (∀ v : Bytes, row.getD (j - 1) none = some v → 0 < len.getD (j - 1) 0 →
      addrow_cell (row.getD (j - 1) none) (len.getD (j - 1) 0)
        = peek v 0 (len.getD (j - 1) 0).toNat) ∧
    (∀ d : Cursor, d.cursor_id ≠ -1 → cubesql_cursor_addrow K d row len = (d, false)) := by
  have hnn := hc.nrows_nonneg
  have hpos := hc.ncols_pos
  obtain ⟨nr, hnr⟩ : ∃ nr : Nat, c.nrows = nr := ⟨c.nrows.toNat, by omega⟩
  obtain ⟨nc, hnc⟩ : ∃ nc : Nat, c.ncols = nc := ⟨c.ncols.toNat, by omega⟩
  obtain ⟨b1, b2, b3, b4, b5⟩ := addrow_custom K hA c hc row len nr nc hnr hnc
  have hjn : j ≤ nc := by omega
  refine ⟨b1, b2, b4, ?_, ?_, ?_⟩
  · have hrow : c.nrows + 1 = ((nr + 1 : Nat) : Int) := by rw [hnr]; push_cast; rfl
    rw [hrow]
    have hf := cursor_field_custom K hK (cubesql_cursor_addrow K c row len).1 (nr + 1) nc
      (nr + 1) j b4.id (by rw [b2, hnr]; push_cast; rfl) (by rw [b3, hnc]) (by omega)
      (le_refl _) hj1 hjn
    rw [hf, Nat.add_sub_cancel]
    have := b5 (j - 1) (by omega)
    rw [this.1, this.2]
  · intro v hv hl
    rw [hv]
    exact addrow_cell_copy v _ hl
  · intro d hd
    unfold cubesql_cursor_addrow
    rw [if_pos hd]

theorem addrow_reads_back_witness :
    (cubesql_cursor_addrow sdk customOne [some [65, 66, 67]] [2]).2 = true ∧
    (cubesql_cursor_addrow sdk customOne [some [65, 66, 67]] [2]).1.nrows
      = customOne.nrows + 1 ∧
    CustomCursor (cubesql_cursor_addrow sdk customOne [some [65, 66, 67]] [2]).1 ∧
    cubesql_cursor_field sdk (cubesql_cursor_addrow sdk customOne [some [65, 66, 67]] [2]).1
        (customOne.nrows + 1) (1 : Nat)
      = ((cubesql_cursor_addrow sdk customOne [some [65, 66, 67]] [2]).1,
          some (addrow_cell (([some [65, 66, 67]] : List (Option Bytes)).getD (1 - 1) none)
            (([2] : List Int).getD (1 - 1) 0)),
          ([2] : List Int).getD (1 - 1) 0) ∧
    (∀ v : Bytes, ([some [65, 66, 67]] : List (Option Bytes)).getD (1 - 1) none = some v →
      0 < ([2] : List Int).getD (1 - 1) 0 →
      addrow_cell (([some [65, 66, 67]] : List (Option Bytes)).getD (1 - 1) none)
          (([2] : List Int).getD (1 - 1) 0)
        = peek v 0 (([2] : List Int).getD (1 - 1) 0).toNat) ∧
    (∀ d : Cursor, d.cursor_id ≠ -1 →
      cubesql_cursor_addrow sdk d [some [65, 66, 67]] [2] = (d, false)) :=
  addrow_reads_back sdk sdk_ok (by decide) customOne
    (cursor_create_custom sdk (by decide) 1 1 [3] [[110, 0]] customOne rfl)
    [some [65, 66, 67]] [2] 1 (by decide) (by decide)

/-- C17, the failing case: a custom cursor with one column and room for one
row (`cubesql_cursor_create (db, 1, 1, ...)`).  After the row `A` is added,
`cubesql_cursor_field (c, 1, 1)` returns `A` with length 1.  Adding the row `B`
succeeds and has to grow the arrays; afterwards `cubesql_cursor_field (c, 2, 1)`
returns `B`, but `cubesql_cursor_field (c, 1, 1)` no longer returns `A`: the
arrays are fresh ones (here: an empty cell, length 0), the old ones are not
copied. -/
theorem addrow_growth_loses_rows :
    (customOne.nalloc, customOneA.nrows, customOneA.nalloc,
      fieldBytes (cubesql_cursor_field sdk customOneA 1 1),
      (cubesql_cursor_field sdk customOneA 1 1).2.2) = (1, 1, 1, some [65], 1) ∧
    (cubesql_cursor_addrow sdk customOneA [some [66]] [1]).2 = true ∧
    (customOneAB.nrows, customOneAB.nalloc,
      fieldBytes (cubesql_cursor_field sdk customOneAB 2 1),
      (cubesql_cursor_field sdk customOneAB 2 1).2.2,
      fieldBytes (cubesql_cursor_field sdk customOneAB 1 1),
      (cubesql_cursor_field sdk customOneAB 1 1).2.2)
      = (2, 201, some [66], 1, some [], 0) := by
  refine ⟨?_, ?_, ?_⟩ <;> rfl

/-! ## C19: cubesql_bind -/

/-- C15, the failing case: the server's phase-1.5 reply arrives whole and does
not verify.  `csql_connect_encrypted` returns `CUBESQL_ERR`, and the last error
of the connection is as before: code `CUBESQL_NOERR`, an empty message. -/
theorem connect_unverified_reply_sets_no_error :
    ((csql_connect_encrypted sdk toyHash (fun _ => toyCipher) (fun _ => toyCipher) toyCipher
        (fun _ _ => none) connectDb).2,
      (csql_connect_encrypted sdk toyHash (fun _ => toyCipher) (fun _ => toyCipher) toyCipher
        (fun _ _ => none) connectDb).1.errcode,
      (csql_connect_encrypted sdk toyHash (fun _ => toyCipher) (fun _ => toyCipher) toyCipher
        (fun _ _ => none) connectDb).1.errmsg,
      (csql_connect_encrypted sdk toyHash (fun _ => toyCipher) (fun _ => toyCipher) toyCipher
        (fun _ _ => none) connectDb).1.rx,
      (headersOf (csql_connect_encrypted sdk toyHash (fun _ => toyCipher) (fun _ => toyCipher)
        toyCipher (fun _ _ => none) connectDb).1.wire).map (fun h => (h.command, h.selector)))
      = (sdk.CUBESQL_ERR, sdk.CUBESQL_NOERR, List.replicate 8 0, [],
          [(sdk.kCOMMAND_CONNECT, sdk.kENCRYPT_CONNECT_PHASE1)]) := by
  rfl

theorem checkheader_ok_expected (K : SdkConsts) (hK : K.Ok) (D : Bytes → Bytes) (db : Db)
    (es en : Int)
    (hsig : db.reply.signature = K.PROTOCOL_SIGNATURE) (herr : db.reply.errorCode = 0)
    (hes : es = db.reply.packetSize) (hen : en = db.reply.numFields) :
    csql_checkheader K D db es en
      = ({ db with toread := db.reply.packetSize }, K.CUBESQL_NOERR, false) := by
  have hend : ¬ ((0 : Int) = K.END_CHUNK) := fun h => hK.end_chunk h.symm
  unfold csql_checkheader
  simp only [hsig, herr, hes, hen, ne_eq, not_true_eq_false, if_false, hend, false_and,
    and_false, decide_False]

/-- A reply with the payload that the caller expects, neither encrypted nor
compressed, on a connection whose reply buffer is smaller than the payload: the
payload is `db->inbuffer` afterwards and `db->insize` its length. -/
theorem netread_fresh (K : SdkConsts) (hK : K.Ok) (D : Bytes → Bytes)
    (inflate : Bytes → Nat → Option Bytes) (f : Frame) (rest : List Frame) (es en : Int)
    (hsig : f.header.signature = K.PROTOCOL_SIGNATURE) (herr : f.header.errorCode = 0)
    (hsize : f.header.packetSize = f.payload.length) (hpos : 0 < f.payload.length)
    (hes : es = f.header.packetSize) (hen : en = f.header.numFields)
    (hclear : f.header.encryptedPacket = K.CUBESQL_ENCRYPTION_NONE)
    (hcomp : f.header.flag1.compressed_packet = false)
    (db : Db) (hrx : db.rx = f :: rest) (hin : db.insize < f.payload.length) :
    csql_netread K D inflate db es en false
      = ({ db with reply := f.header, pending := [], rx := rest,
                   toread := f.payload.length, inbuffer := some f.payload,
                   insize := f.payload.length }, K.CUBESQL_NOERR, false) := by
  have h0 : ¬ ((f.payload.length : Int) = 0) := by omega
  have h4 : (0 : Int) < f.payload.length ∧ f.payload.length ≤ f.payload.length :=
    ⟨by omega, le_refl _⟩
  have p1 : peek f.payload 0 f.payload.length = f.payload := by simp [peek]
  have hin' : ¬ (db.insize ≥ (f.payload.length : Int)) := by omega
  unfold csql_netread csql_socketread_header
  simp only [hrx, ne_eq, not_true_eq_false, if_false]
  rw [checkheader_ok_expected K hK D _ es en hsig herr hes hen]
  simp only [ne_eq, not_true_eq_false, if_false, Bool.false_eq_true, and_false, hsize, h0]
  unfold csql_checkinbuffer
  simp only [if_neg hin', csql_socketread, h4, and_self, if_true, Int.toNat_ofNat, p1,
    ne_eq, not_true_eq_false, if_false, hclear, hcomp, Bool.false_eq_true, poke,
    List.take_zero, List.nil_append, Nat.zero_add, List.drop_length, Option.getD_some,
    List.length_replicate, List.drop_replicate, Nat.sub_self, List.replicate_zero,
    List.append_nil]

/-! ## C29: the tail of the session key -/

theorem session_key_192 (K : SdkConsts) (hK : K.Ok) (H : Bytes → Bytes)
    (hH : ∀ m, (H m).length = 20) (password X Y : Bytes) :
    generate_session_key K H K.CUBESQL_ENCRYPTION_AES192 password X Y
      = (24, peek (H (xorb (peek X 0 K.kRANDPOOLSIZE) (peek Y 0 K.kRANDPOOLSIZE))) 0 4
          ++ (List.drop 4 (H (peek password 0 20 ++ peek X 0 K.kRANDPOOLSIZE
                ++ peek Y 0 K.kRANDPOOLSIZE)) ++ List.replicate 12 0)) := by
  have n1 := hK.none_128.symm
  have n2 := hK.none_192.symm
  have n4 := hK.a128_192.symm
  simp only [generate_session_key, n1, n2, n4, if_true, if_false]
  have h1 := hH (peek password 0 20 ++ peek X 0 K.kRANDPOOLSIZE ++ peek Y 0 K.kRANDPOOLSIZE)
  have h2 := hH (xorb (peek X 0 K.kRANDPOOLSIZE) (peek Y 0 K.kRANDPOOLSIZE))
  generalize H (peek password 0 20 ++ peek X 0 K.kRANDPOOLSIZE ++ peek Y 0 K.kRANDPOOLSIZE)
    = s1 at *
  generalize H (xorb (peek X 0 K.kRANDPOOLSIZE) (peek Y 0 K.kRANDPOOLSIZE)) = s2 at *
  have z : List.replicate 32 (0 : Nat) = List.replicate 20 0 ++ List.replicate 12 0 := by
    decide
  have f1 : peek s1 0 20 = s1 := peek_eq _ [] _ [] _ _ (by simp) rfl h1.symm
  have w1 : poke (List.replicate 32 0) 0 s1 = s1 ++ List.replicate 12 0 := by
    rw [z]
    exact poke_eq _ [] (List.replicate 20 0) _ _ _ rfl rfl (by simp [h1])
  have hl : (peek s2 0 4).length = 4 := by simp [peek, h2]
  have w : poke (s1 ++ List.replicate 12 0) 0 (peek s2 0 4)
      = peek s2 0 4 ++ (List.drop 4 s1 ++ List.replicate 12 0) := by
    have := poke_eq (s1 ++ List.replicate 12 0) [] (List.take 4 s1)
      (List.drop 4 s1 ++ List.replicate 12 0) (peek s2 0 4) 0
      (by simp [← List.append_assoc, List.take_append_drop]) rfl (by simp [hl, h1])
    simpa using this
  rw [f1, w1, w]

theorem session_key_256 (K : SdkConsts) (hK : K.Ok) (H : Bytes → Bytes)
    (hH : ∀ m, (H m).length = 20) (password X Y : Bytes) :
    generate_session_key K H K.CUBESQL_ENCRYPTION_AES256 password X Y
      = (32, peek (H (xorb (peek X 0 K.kRANDPOOLSIZE) (peek Y 0 K.kRANDPOOLSIZE))) 0 12
          ++ (List.drop 12 (H (peek password 0 20 ++ peek X 0 K.kRANDPOOLSIZE
                ++ peek Y 0 K.kRANDPOOLSIZE)) ++ List.replicate 12 0)) := by
  have n1 := hK.none_256.symm
  have n2 := hK.a128_256.symm
  have n4 := hK.a192_256.symm
  simp only [generate_session_key, n1, n2, n4, if_true, if_false]
  have h1 := hH (peek password 0 20 ++ peek X 0 K.kRANDPOOLSIZE ++ peek Y 0 K.kRANDPOOLSIZE)
  have h2 := hH (xorb (peek X 0 K.kRANDPOOLSIZE) (peek Y 0 K.kRANDPOOLSIZE))
  generalize H (peek password 0 20 ++ peek X 0 K.kRANDPOOLSIZE ++ peek Y 0 K.kRANDPOOLSIZE)
    = s1 at *
  generalize H (xorb (peek X 0 K.kRANDPOOLSIZE) (peek Y 0 K.kRANDPOOLSIZE)) = s2 at *
  have z : List.replicate 32 (0 : Nat) = List.replicate 20 0 ++ List.replicate 12 0 := by
    decide
  have f1 : peek s1 0 20 = s1 := peek_eq _ [] _ [] _ _ (by simp) rfl h1.symm
  have w1 : poke (List.replicate 32 0) 0 s1 = s1 ++ List.replicate 12 0 := by
    rw [z]
    exact poke_eq _ [] (List.replicate 20 0) _ _ _ rfl rfl (by simp [h1])
  have hl : (peek s2 0 12).length = 12 := by simp [peek, h2]
  have w : poke (s1 ++ List.replicate 12 0) 0 (peek s2 0 12)
      = peek s2 0 12 ++ (List.drop 12 s1 ++ List.replicate 12 0) := by
    have := poke_eq (s1 ++ List.replicate 12 0) [] (List.take 12 s1)
      (List.drop 12 s1 ++ List.replicate 12 0) (peek s2 0 12) 0
      (by simp [← List.append_assoc, List.take_append_drop]) rfl (by simp [hl, h1])
    simpa using this
  rw [f1, w1, w]

/-- C29: the tail of the session key that `generate_session_key` derives does
not depend on the password or the nonces: for a 20-byte hash `H`, every
password and all nonces `X`, `Y`, the AES-192 key has length 24 and bytes
`20..23` of the key buffer are zero, the AES-256 key has length 32 and bytes
`20..31` are zero; so two runs (with `password2`, `X2`, `Y2`) agree on those
bytes. -/
theorem session_key_tail_zero (K : SdkConsts) (hK : K.Ok) (H : Bytes → Bytes)
    (hH : ∀ m, (H m).length = 20) (password X Y password2 X2 Y2 : Bytes) :
    (generate_session_key K H K.CUBESQL_ENCRYPTION_AES192 password X Y).1 = 24 ∧
    (generate_session_key K H K.CUBESQL_ENCRYPTION_AES192 password X Y).2.length = 32 ∧
    peek (generate_session_key K H K.CUBESQL_ENCRYPTION_AES192 password X Y).2 20 4
      = [0, 0, 0, 0] ∧
    (generate_session_key K H K.CUBESQL_ENCRYPTION_AES256 password X Y).1 = 32 ∧
    (generate_session_key K H K.CUBESQL_ENCRYPTION_AES256 password X Y).2.length = 32 ∧
    peek (generate_session_key K H K.CUBESQL_ENCRYPTION_AES256 password X Y).2 20 12
      = [0, 0, 0, 0, 0, 0, 0, 0, 0, 0, 0, 0] ∧
    peek (generate_session_key K H K.CUBESQL_ENCRYPTION_AES192 password X Y).2 20 4
      = peek (generate_session_key K H K.CUBESQL_ENCRYPTION_AES192 password2 X2 Y2).2 20 4 ∧
    peek (generate_session_key K H K.CUBESQL_ENCRYPTION_AES256 password X Y).2 20 12
      = peek (generate_session_key K H K.CUBESQL_ENCRYPTION_AES256 password2 X2 Y2).2 20 12 := by
  have t192 : ∀ p x y : Bytes,
      peek (generate_session_key K H K.CUBESQL_ENCRYPTION_AES192 p x y).2 20 4
        = [0, 0, 0, 0] := by
    intro p x y
    rw [session_key_192 K hK H hH]
    have h1 := hH (peek p 0 20 ++ peek x 0 K.kRANDPOOLSIZE ++ peek y 0 K.kRANDPOOLSIZE)
    have h2 := hH (xorb (peek x 0 K.kRANDPOOLSIZE) (peek y 0 K.kRANDPOOLSIZE))
    have e := peek_eq (peek (H (xorb (peek x 0 K.kRANDPOOLSIZE) (peek y 0 K.kRANDPOOLSIZE))) 0 4
          ++ (List.drop 4 (H (peek p 0 20 ++ peek x 0 K.kRANDPOOLSIZE
                ++ peek y 0 K.kRANDPOOLSIZE)) ++ List.replicate 12 0))
      (peek (H (xorb (peek x 0 K.kRANDPOOLSIZE) (peek y 0 K.kRANDPOOLSIZE))) 0 4
          ++ List.drop 4 (H (peek p 0 20 ++ peek x 0 K.kRANDPOOLSIZE
                ++ peek y 0 K.kRANDPOOLSIZE)))
      [0, 0, 0, 0] (List.replicate 8 0) 20 4 (by simp) (by simp [peek, hH]) rfl
    exact e
  have t256 : ∀ p x y : Bytes,
      peek (generate_session_key K H K.CUBESQL_ENCRYPTION_AES256 p x y).2 20 12
        = [0, 0, 0, 0, 0, 0, 0, 0, 0, 0, 0, 0] := by
    intro p x y
    rw [session_key_256 K hK H hH]
    have h1 := hH (peek p 0 20 ++ peek x 0 K.kRANDPOOLSIZE ++ peek y 0 K.kRANDPOOLSIZE)
    have h2 := hH (xorb (peek x 0 K.kRANDPOOLSIZE) (peek y 0 K.kRANDPOOLSIZE))
    have e := peek_eq (peek (H (xorb (peek x 0 K.kRANDPOOLSIZE) (peek y 0 K.kRANDPOOLSIZE))) 0 12
          ++ (List.drop 12 (H (peek p 0 20 ++ peek x 0 K.kRANDPOOLSIZE
                ++ peek y 0 K.kRANDPOOLSIZE)) ++ List.replicate 12 0))
      (peek (H (xorb (peek x 0 K.kRANDPOOLSIZE) (peek y 0 K.kRANDPOOLSIZE))) 0 12
          ++ List.drop 12 (H (peek p 0 20 ++ peek x 0 K.kRANDPOOLSIZE
                ++ peek y 0 K.kRANDPOOLSIZE)))
      [0, 0, 0, 0, 0, 0, 0, 0, 0, 0, 0, 0] [] 20 12 (by simp) (by simp [peek, hH]) rfl
    exact e
  refine ⟨?_, ?_, t192 _ _ _, ?_, ?_, t256 _ _ _, ?_, ?_⟩
  · rw [session_key_192 K hK H hH]
  · rw [session_key_192 K hK H hH]
    simp [peek, hH]
  · rw [session_key_256 K hK H hH]
  · rw [session_key_256 K hK H hH]
    simp [peek, hH]
  · rw [t192, t192]
  · rw [t256, t256]

theorem session_key_tail_zero_witness :
    (∀ m, (toyHash m).length = 20) ∧
    peek (generate_session_key sdk toyHash sdk.CUBESQL_ENCRYPTION_AES256
      (List.replicate 20 7) (List.replicate 20 1) (List.replicate 20 2)).2 20 12
      = peek (generate_session_key sdk toyHash sdk.CUBESQL_ENCRYPTION_AES256
      (List.replicate 20 9) (List.replicate 20 3) (List.replicate 20 4)).2 20 12 :=
  ⟨toyHash_length,
   (session_key_tail_zero sdk sdk_ok toyHash toyHash_length (List.replicate 20 7)
      (List.replicate 20 1) (List.replicate 20 2) (List.replicate 20 9)
      (List.replicate 20 3) (List.replicate 20 4)).2.2.2.2.2.2.2⟩

/-! ## C28: the state after cubesql_cursor_seek on a client-side cursor -/

/-- C28: for a client-side cursor with `nrows >= 0` and every `index`,
`cubesql_cursor_seek` either returns success, and then `current_row` is the
resolved target, `0 <= current_row <= nrows` and `eof` is false, or returns
failure, and then `current_row` is unchanged and `eof` is true when the
resolved target exceeds `nrows` and is left as it was otherwise; `nrows` and
the connection are unchanged in both cases. -/
theorem seek_client_state (K : SdkConsts) (E D : Bytes → Bytes)
    (inflate : Bytes → Nat → Option Bytes) (db : Db) (c : Cursor) (index : Int)
    (hside : c.server_side = false) (hn : 0 ≤ c.nrows) :
    (cubesql_cursor_seek K E D inflate db c index).1 = db ∧
    (cubesql_cursor_seek K E D inflate db c index).2.1.nrows = c.nrows ∧
    (((cubesql_cursor_seek K E D inflate db c index).2.2 = true ∧
      (cubesql_cursor_seek K E D inflate db c index).2.1.current_row = seek_index K c index ∧
      0 ≤ (cubesql_cursor_seek K E D inflate db c index).2.1.current_row ∧
      (cubesql_cursor_seek K E D inflate db c index).2.1.current_row ≤ c.nrows ∧
      (cubesql_cursor_seek K E D inflate db c index).2.1.eof = false) ∨
     ((cubesql_cursor_seek K E D inflate db c index).2.2 = false ∧
      (cubesql_cursor_seek K E D inflate db c index).2.1.current_row = c.current_row ∧
      (cubesql_cursor_seek K E D inflate db c index).2.1.eof
        = if seek_index K c index > c.nrows then true else c.eof)) := by
  by_cases h1 : seek_index K c index > c.nrows
  · rw [seek_client_above K E D inflate db c index hside hn h1]
    exact ⟨rfl, rfl, Or.inr ⟨rfl, rfl, by rw [if_pos h1]⟩⟩
  · by_cases h2 : seek_index K c index < 0
    · rw [seek_client_below K E D inflate db c index hside hn h2]
      exact ⟨rfl, rfl, Or.inr ⟨rfl, rfl, by rw [if_neg h1]⟩⟩
    · rw [seek_client_inside K E D inflate db c index hside (by omega) (by omega)]
      exact ⟨rfl, rfl, Or.inl ⟨rfl, rfl, by show 0 ≤ seek_index K c index; omega,
        by show seek_index K c index ≤ c.nrows; omega, rfl⟩⟩

theorem seek_client_state_witness :
    ({ nrows := 3, current_row := 3, eof := false } : Cursor).server_side = false ∧
    (0 : Int) ≤ ({ nrows := 3, current_row := 3, eof := false } : Cursor).nrows ∧
    (cubesql_cursor_seek sdk toyCipher toyCipher (fun _ _ => none) connectDb
      { nrows := 3, current_row := 3, eof := false } sdk.CUBESQL_SEEKNEXT).2.1.nrows = 3 :=
  ⟨rfl, by decide,
   (seek_client_state sdk toyCipher toyCipher (fun _ _ => none) connectDb
      { nrows := 3, current_row := 3, eof := false } sdk.CUBESQL_SEEKNEXT rfl (by decide)).2.1⟩

/-! ## C23: the ciphertext of a payload of at least one block -/

theorem fullBlocks_spec : ∀ (m : Nat) (x : Bytes), 16 * m ≤ x.length →
    (fullBlocks m x).flatten = x.take (16 * m) ∧ (∀ b ∈ fullBlocks m x, b.length = 16) ∧
    (fullBlocks m x).length = m
  | 0, x, _ => by simp [fullBlocks]
  | m + 1, x, h => by
    obtain ⟨h1, h2, h3⟩ := fullBlocks_spec m (x.drop 16) (by simp; omega)
    refine ⟨?_, ?_, ?_⟩
    · simp only [fullBlocks, List.flatten_cons, h1]
      have e : 16 * (m + 1) = 16 + 16 * m := by ring
      rw [e, List.take_add]
    · intro b hb
      simp only [fullBlocks, List.mem_cons] at hb
      rcases hb with hb | hb
      · rw [hb]; simp; omega
      · exact h2 b hb
    · simp [fullBlocks, h3]

theorem cbcBlocks_append (E : Bytes → Bytes) : ∀ (qs : List Bytes) (prev pl : Bytes),
    cbcBlocks E prev (qs ++ [pl])
      = cbcBlocks E prev qs ++ [E (xorb pl (lastBlock prev (cbcBlocks E prev qs)))]
  | [], prev, pl => by simp [cbcBlocks, lastBlock]
  | q :: qs, prev, pl => by
    simp [cbcBlocks, lastBlock, cbcBlocks_append E qs]

theorem lastBlock_append (prev c : Bytes) : ∀ (cs : List Bytes),
    lastBlock prev (cs ++ [c]) = c := by
  intro cs
  induction cs generalizing prev with
  | nil => simp [lastBlock]
  | cons a cs ih => simp [lastBlock, ih]

theorem encrypt_buffer_blocks (E : Bytes → Bytes)
    (hE : ∀ b, b.length = 16 → (E b).length = 16) (x iv : Bytes)
    (hx : 16 ≤ x.length) (hiv : iv.length = 16) :
    encrypt_buffer E x x.length iv
      = (if x.length % 16 = 0 then (cbcBlocks E iv (fullBlocks (x.length / 16) x)).flatten
         else (cbcBlocks E iv (fullBlocks (x.length / 16) x)).dropLast.flatten
           ++ stealTail E (lastBlock iv (cbcBlocks E iv (fullBlocks (x.length / 16) x)))
                (tailBytes x),
         iv, x.length + 16) := by
  obtain ⟨h1, h2, h3⟩ := fullBlocks_spec (x.length / 16) x (by omega)
  have hm : 0 < x.length / 16 := by omega
  -- the last full block
  have hne : fullBlocks (x.length / 16) x ≠ [] := by
    intro h; rw [h] at h3; simp at h3; omega
  obtain ⟨qs, pl, hq⟩ : ∃ qs pl, fullBlocks (x.length / 16) x = qs ++ [pl] :=
    ⟨_, _, (List.dropLast_append_getLast hne).symm⟩
  have hqs : ∀ q ∈ qs, q.length = 16 := fun q hq1 => h2 q (by rw [hq]; simp [hq1])
  have hpl : pl.length = 16 := h2 pl (by rw [hq]; simp)
  have hlen : qs.length + 1 = x.length / 16 := by rw [← h3, hq]; simp
  have htl : (tailBytes x).length = x.length % 16 := by
    simp [tailBytes]; omega
  have hxe : x = (qs ++ [pl]).flatten ++ tailBytes x := by
    rw [← hq, h1, tailBytes, List.take_append_drop]
  have hdim : x.length = 16 * (qs.length + 1) + (tailBytes x).length := by
    rw [hlen, htl]; omega
  have key := encrypt_buffer_long E hE qs pl (tailBytes x) iv hqs hpl hiv (by rw [htl]; omega)
  rw [← hxe, ← hdim] at key
  rw [key, hq, cbcBlocks_append, lastBlock_append, List.dropLast_concat]
  by_cases hr : x.length % 16 = 0
  · have ht : tailBytes x = [] := List.eq_nil_of_length_eq_zero (by rw [htl, hr])
    rw [if_pos hr, if_pos ht]
    simp
  · have ht : tailBytes x ≠ [] := by
      intro h; rw [h] at htl; simp at htl; omega
    rw [if_neg hr, if_neg ht]

/-- C23: for every payload `x` of length `n >= 16`, with the `m = n / 16` full
blocks `P_0 .. P_(m-1)`, the tail `T` of `r = n mod 16` bytes, a block cipher
`E` and a 16-byte IV, `encrypt_buffer` leaves the IV block unchanged, returns
`n + 16` and produces the reference ciphertext: with `C_0 = E (P_0 xor IV)` and
`C_i = E (P_i xor C_(i-1))` it is `C_0 .. C_(m-1)` when `r = 0`, and when
`r > 0` it is `C_0 .. C_(m-2)`, then the block
`E ((T xor C_(m-1)[0..r)) ‖ C_(m-1)[r..16))`, then the stolen bytes
`C_(m-1)[0..r)`. -/
theorem encrypt_buffer_reference (E : Bytes → Bytes)
    (hE : ∀ b, b.length = 16 → (E b).length = 16) (x iv : Bytes)
    (hx : 16 ≤ x.length) (hiv : iv.length = 16) :
    (encrypt_buffer E x x.length iv).2.1 = iv ∧
    (encrypt_buffer E x x.length iv).2.2 = x.length + 16 ∧
    (x.length % 16 = 0 →
      (encrypt_buffer E x x.length iv).1
        = (cbcBlocks E iv (fullBlocks (x.length / 16) x)).flatten) ∧
    (x.length % 16 ≠ 0 →
      (encrypt_buffer E x x.length iv).1
        = (cbcBlocks E iv (fullBlocks (x.length / 16) x)).dropLast.flatten
          ++ (E (xorb (tailBytes x)
                  (peek (lastBlock iv (cbcBlocks E iv (fullBlocks (x.length / 16) x))) 0
                    (x.length % 16))
                ++ peek (lastBlock iv (cbcBlocks E iv (fullBlocks (x.length / 16) x)))
                    (x.length % 16) (16 - x.length % 16))
              ++ peek (lastBlock iv (cbcBlocks E iv (fullBlocks (x.length / 16) x))) 0
                    (x.length % 16))) := by
  rw [encrypt_buffer_blocks E hE x iv hx hiv]
  refine ⟨rfl, rfl, ?_, ?_⟩
  · intro hr
    show (if x.length % 16 = 0 then _ else _) = _
    rw [if_pos hr]
  · intro hr
    show (if x.length % 16 = 0 then _ else _) = _
    rw [if_neg hr]
    have htl : (tailBytes x).length = x.length % 16 := by
      simp [tailBytes]; omega
    simp only [stealTail, htl]

theorem encrypt_buffer_reference_witness :
    (∀ b : Bytes, b.length = 16 → (toyCipher b).length = 16) ∧
    16 ≤ (List.range 37).length ∧ (List.replicate 16 7 : Bytes).length = 16 ∧
    (encrypt_buffer toyCipher (List.range 37) (List.range 37).length (List.replicate 16 7)).2.1
      = List.replicate 16 7 :=
  ⟨toyCipher_length, by decide, by decide,
   (encrypt_buffer_reference toyCipher toyCipher_length (List.range 37) (List.replicate 16 7)
      (by decide) (by decide)).1⟩

/-! ## C24: the IV block after encrypt_buffer on a payload shorter than a block -/

/-- C24 does not hold: with the toy cipher, the 3-byte payload `1, 2, 3` and
the IV block of sixteen bytes `7`, the IV block that `encrypt_buffer` leaves in
`random` keeps only the first three bytes of the IV that was passed in; the
other thirteen are cipher bytes. -/
theorem encrypt_buffer_short_iv_counterexample :
    (encrypt_buffer toyCipher [1, 2, 3] 3 (List.replicate 16 7)).2.1
      = [7, 7, 7, 94, 95, 92, 93, 93, 93, 93, 93, 93, 93, 93, 93, 93] ∧
    (encrypt_buffer toyCipher [1, 2, 3] 3 (List.replicate 16 7)).2.1 ≠ List.replicate 16 7 := by
  decide

/-- C24, amended: for every payload `x` of `n < 16` bytes, every block cipher
`E` and every 16-byte IV, with the block
`B = E (IV[n..16) ‖ (x xor IV[0..n)))`, `encrypt_buffer` returns `n + 16`,
leaves `IV[0..n)` followed by the first `16 - n` bytes of `B` in the IV block,
and the last `n` bytes of `B` as the encrypted tail; the IV block is the IV
that was passed in only in its first `n` bytes. -/
theorem encrypt_buffer_short_layout (E : Bytes → Bytes)
    (hE : ∀ b, b.length = 16 → (E b).length = 16)
    (x iv : Bytes) (hx : x.length < 16) (hiv : iv.length = 16) :
    (encrypt_buffer E x x.length iv).2.2 = x.length + 16 ∧
    (encrypt_buffer E x x.length iv).2.1
      = List.take x.length iv ++ List.take (16 - x.length)
          (E (List.drop x.length iv ++ xorb x (List.take x.length iv))) ∧
    (encrypt_buffer E x x.length iv).1
      = List.drop (16 - x.length)
          (E (List.drop x.length iv ++ xorb x (List.take x.length iv))) ∧
    (encrypt_buffer E x x.length iv).2.1.length = 16 ∧
    (encrypt_buffer E x x.length iv).1.length = x.length := by
  have hl : (E (List.drop x.length iv ++ xorb x (List.take x.length iv))).length = 16 := by
    apply hE
    simp [xorb, hiv]; omega
  rw [encrypt_buffer_short E hE x iv hx hiv]
  refine ⟨rfl, rfl, rfl, ?_, ?_⟩
  · simp [hl, hiv]; omega
  · simp [hl]; omega

theorem encrypt_buffer_short_layout_witness :
    (∀ b : Bytes, b.length = 16 → (toyCipher b).length = 16) ∧
    ([1, 2, 3] : Bytes).length < 16 ∧ (List.replicate 16 7 : Bytes).length = 16 ∧
    (encrypt_buffer toyCipher [1, 2, 3] ([1, 2, 3] : Bytes).length (List.replicate 16 7)).2.2
      = ([1, 2, 3] : Bytes).length + 16 :=
  ⟨toyCipher_length, by decide, by decide,
   (encrypt_buffer_short_layout toyCipher toyCipher_length [1, 2, 3] (List.replicate 16 7)
      (by decide) (by decide)).1⟩

/-! ## C25: the prefix sums that csql_read_cursor builds -/

theorem addrows_custom (K : SdkConsts) (hA : 0 < K.kDEFAULT_ALLOC_ROWS) :
    ∀ (rows : List (List (Option Bytes) × List Int)) (c : Cursor), CustomCursor c →
      CustomCursor (addrows K c rows) ∧ (addrows K c rows).nrows = c.nrows + rows.length ∧
      (addrows K c rows).ncols = c.ncols
  | [], c, hc => ⟨hc, by simp [addrows], rfl⟩
  | r :: rows, c, hc => by
    have h := addrow_custom K hA c hc r.1 r.2 c.nrows.toNat c.ncols.toNat
      (Int.toNat_of_nonneg hc.nrows_nonneg).symm (Int.toNat_of_nonneg (le_of_lt hc.ncols_pos)).symm
    obtain ⟨_, h2, h3, h4, _⟩ := h
    have ih := addrows_custom K hA rows (cubesql_cursor_addrow K c r.1 r.2).1 h4
    have e : addrows K c (r :: rows) = addrows K (cubesql_cursor_addrow K c r.1 r.2).1 rows := rfl
    rw [e]
    refine ⟨ih.1, ?_, ?_⟩
    · rw [ih.2.1, h2]; simp; ring
    · rw [ih.2.2, h3]

theorem custom_index_bound (c r : Cursor) (hc : CustomCursor c) (hr : CustomCursor r)
    (hn : r.nrows = c.nrows + 1) (hcol : r.ncols = c.ncols) (j : Int) (h0 : 0 ≤ j)
    (hj : j < c.ncols) :
    0 ≤ c.nrows * c.ncols + j ∧ c.nrows * c.ncols + j < r.ncols * r.nalloc := by
  have h1 : 0 ≤ c.nrows * c.ncols := mul_nonneg hc.nrows_nonneg (le_of_lt hc.ncols_pos)
  have h2 : c.nrows + 1 ≤ r.nalloc := by rw [← hn]; exact hr.fits
  have h3 : c.ncols * (c.nrows + 1) ≤ c.ncols * r.nalloc :=
    mul_le_mul_of_nonneg_left h2 (le_of_lt hc.ncols_pos)
  refine ⟨by omega, ?_⟩
  rw [hcol]
  have h4 : c.ncols * (c.nrows + 1) = c.nrows * c.ncols + c.ncols := by ring
  omega

/-- C27: every custom cursor `c` reached from `cubesql_cursor_create` by any
number of calls of `cubesql_cursor_addrow` has `nrows <= nalloc` and arrays
`buffer` and `size` of `ncols * nalloc` entries, and one more
`cubesql_cursor_addrow` succeeds, keeps that, and writes its `ncols` cells at
the indices `nrows * ncols + j`, `0 <= j < ncols`, which are all below
`ncols * nalloc` for the `nalloc` of the arrays it writes to (the arrays after
the growth, when the function grows them); the cells are found there after the
call.  The allocation step `kDEFAULT_ALLOC_ROWS` is any positive number. -/
theorem custom_cursor_in_bounds (K : SdkConsts) (hA : 0 < K.kDEFAULT_ALLOC_ROWS)
    (nrows ncolumns : Int) (types : List Int) (names : List Bytes) (c0 : Cursor)
    (hcreate : cubesql_cursor_create K nrows ncolumns types names = some c0)
    (rows : List (List (Option Bytes) × List Int)) (row : List (Option Bytes))
    (len : List Int) :
    (addrows K c0 rows).nrows = rows.length ∧
    (addrows K c0 rows).nrows ≤ (addrows K c0 rows).nalloc ∧
    (addrows K c0 rows).cells.length
      = ((addrows K c0 rows).ncols * (addrows K c0 rows).nalloc).toNat ∧
    (addrows K c0 rows).size0.length
      = ((addrows K c0 rows).ncols * (addrows K c0 rows).nalloc).toNat ∧
    (cubesql_cursor_addrow K (addrows K c0 rows) row len).2 = true ∧
    (cubesql_cursor_addrow K (addrows K c0 rows) row len).1.nrows
      ≤ (cubesql_cursor_addrow K (addrows K c0 rows) row len).1.nalloc ∧
    (cubesql_cursor_addrow K (addrows K c0 rows) row len).1.cells.length
      = ((cubesql_cursor_addrow K (addrows K c0 rows) row len).1.ncols
          * (cubesql_cursor_addrow K (addrows K c0 rows) row len).1.nalloc).toNat ∧
    (cubesql_cursor_addrow K (addrows K c0 rows) row len).1.size0.length
      = ((cubesql_cursor_addrow K (addrows K c0 rows) row len).1.ncols
          * (cubesql_cursor_addrow K (addrows K c0 rows) row len).1.nalloc).toNat ∧
    ∀ j : Nat, (j : Int) < (addrows K c0 rows).ncols →
      (0 ≤ (addrows K c0 rows).nrows * (addrows K c0 rows).ncols + j ∧
       (addrows K c0 rows).nrows * (addrows K c0 rows).ncols + j
        < (cubesql_cursor_addrow K (addrows K c0 rows) row len).1.ncols
          * (cubesql_cursor_addrow K (addrows K c0 rows) row len).1.nalloc) ∧
      (cubesql_cursor_addrow K (addrows K c0 rows) row len).1.cells.getD
          ((addrows K c0 rows).nrows * (addrows K c0 rows).ncols + j).toNat []
        = addrow_cell (row.getD j none) (len.getD j 0) ∧
      (cubesql_cursor_addrow K (addrows K c0 rows) row len).1.size0.getD
          ((addrows K c0 rows).nrows * (addrows K c0 rows).ncols + j).toNat 0
        = len.getD j 0 := by
  have hc0 := cursor_create_custom K hA nrows ncolumns types names c0 hcreate
  have hn0 : c0.nrows = 0 := by
    unfold cubesql_cursor_create at hcreate
    by_cases g : nrows < 0 ∨ ncolumns ≤ 0
    · rw [if_pos g] at hcreate; cases hcreate
    · rw [if_neg g] at hcreate
      simp only [Option.some.injEq] at hcreate
      rw [← hcreate]
  obtain ⟨hc, hnr, hnc⟩ := addrows_custom K hA rows c0 hc0
  generalize addrows K c0 rows = c at *
  have h := addrow_custom K hA c hc row len c.nrows.toNat c.ncols.toNat
    (Int.toNat_of_nonneg hc.nrows_nonneg).symm (Int.toNat_of_nonneg (le_of_lt hc.ncols_pos)).symm
  obtain ⟨h1, h2, h3, h4, h5⟩ := h
  refine ⟨by rw [hnr, hn0]; simp, hc.fits, hc.cells_len, hc.size0_len, h1, h4.fits, h4.cells_len,
    h4.size0_len, ?_⟩
  intro j hj
  have hb := custom_index_bound c _ hc h4 h2 h3 j (by omega) hj
  have hj2 : j < c.ncols.toNat := by
    have := hc.ncols_pos
    omega
  have hidx : (c.nrows * c.ncols + j).toNat = c.nrows.toNat * c.ncols.toNat + j := by
    have e1 := Int.toNat_of_nonneg hc.nrows_nonneg
    have e2 := Int.toNat_of_nonneg (le_of_lt hc.ncols_pos)
    have : c.nrows * c.ncols + j = ((c.nrows.toNat * c.ncols.toNat + j : Nat) : Int) := by
      push_cast; rw [e1, e2]
    rw [this, Int.toNat_ofNat]
  rw [hidx]
  exact ⟨hb, h5 j hj2⟩

theorem custom_cursor_in_bounds_witness :
    cubesql_cursor_create sdk 1 1 [3] [[110, 0]] = some customOne ∧
    (addrows sdk customOne [([some [97]], [1])]).nrows
      = ([([some [97]], [1])] : List (List (Option Bytes) × List Int)).length :=
  ⟨by decide,
   (custom_cursor_in_bounds sdk (by decide) 1 1 [3] [[110, 0]] customOne (by decide)
      [([some [97]], [1])] [none] [0]).1⟩

/-! ## C22: the length that cubesql_receive_data reports -/

/-- C22, the failing case: a chunk of four bytes arrives and then a chunk of two
bytes.  The first `cubesql_receive_data` reports the length 4; the second
reports 4 again, not 2 (the `packetSize` of the frame just received), and the
memory it returns holds the two new bytes followed by two bytes of the chunk
before. -/
theorem receive_data_stale_length :
    (cubesql_receive_data sdk toyCipher toyCipher (fun _ _ => none) twoChunksRx 0).2
      = (some [1, 2, 3, 4], 4, false) ∧
    (cubesql_receive_data sdk toyCipher toyCipher (fun _ _ => none) twoChunksRx 0).1.reply.packetSize
      = 4 ∧
    (cubesql_receive_data sdk toyCipher toyCipher (fun _ _ => none)
      (cubesql_receive_data sdk toyCipher toyCipher (fun _ _ => none) twoChunksRx 0).1 0).2
      = (some [5, 6, 3, 4], 4, false) ∧
    (cubesql_receive_data sdk toyCipher toyCipher (fun _ _ => none)
      (cubesql_receive_data sdk toyCipher toyCipher (fun _ _ => none) twoChunksRx 0).1
        0).1.reply.packetSize = 2 := by
  refine ⟨?_, ?_, ?_, ?_⟩ <;> rfl

/-! ## Opening a connection -/

theorem sdk_connect_ok : sdk.ConnectOk := by
  constructor <;> decide

/-! ## C21: cubesql_connect_token -/

theorem ret_ite (K : SdkConsts) (c : Prop) [Decidable c] (a b : Db × Int)
    (ha : a.2 = K.CUBESQL_ERR ∨ a.2 = K.CUBESQL_NOERR)
    (hb : b.2 = K.CUBESQL_ERR ∨ b.2 = K.CUBESQL_NOERR) :
    (if c then a else b).2 = K.CUBESQL_ERR ∨ (if c then a else b).2 = K.CUBESQL_NOERR := by
  split
  · exact ha
  · exact hb

theorem connect_encrypted_ret (K : SdkConsts) (H : Bytes → Bytes)
    (aes_enc aes_dec : Bytes → Bytes → Bytes) (D0 : Bytes → Bytes)
    (inflate : Bytes → Nat → Option Bytes) (db : Db) :
    (csql_connect_encrypted K H aes_enc aes_dec D0 inflate db).2 = K.CUBESQL_ERR ∨
    (csql_connect_encrypted K H aes_enc aes_dec D0 inflate db).2 = K.CUBESQL_NOERR := by
  unfold csql_connect_encrypted
  lift_lets
  intros
  generalize csql_netread K D0 inflate _ _ _ _ = nr
  rcases nr with ⟨db10, r, e⟩
  dsimp -zeta only
  apply ret_ite
  · left; rfl
  · lift_lets
    apply ret_ite
    · left; rfl
    · lift_lets
      generalize csql_netread K _ inflate _ _ _ _ = nr2
      rcases nr2 with ⟨db21, r2, e2⟩
      dsimp -zeta only
      apply ret_ite
      · left; rfl
      · right; rfl

theorem connect_ret (K : SdkConsts) (H : Bytes → Bytes)
    (aes_enc aes_dec : Bytes → Bytes → Bytes) (D0 : Bytes → Bytes)
    (inflate : Bytes → Nat → Option Bytes) (env : ConnectEnv) (db : Db) (encryption : Int) :
    (csql_connect K H aes_enc aes_dec D0 inflate env db encryption).2 = K.CUBESQL_ERR ∨
    (csql_connect K H aes_enc aes_dec D0 inflate env db encryption).2 = K.CUBESQL_NOERR := by
  unfold csql_connect
  generalize csql_socketconnect K env db = sc
  rcases sc with ⟨dbs, fd⟩
  dsimp -zeta only
  lift_lets
  intros
  apply ret_ite
  · left; rfl
  · apply ret_ite
    · exact connect_encrypted_ret K H aes_enc aes_dec D0 inflate _
    · generalize csql_netread K D0 inflate _ _ _ _ = nr
      rcases nr with ⟨db5, r, e⟩
      dsimp -zeta only
      apply ret_ite
      · left; rfl
      · lift_lets
        generalize csql_netread K D0 inflate _ _ _ _ = nr2
        rcases nr2 with ⟨db11, r2, e2⟩
        dsimp -zeta only
        apply ret_ite
        · left; rfl
        · right; rfl

/-- The encryption value after the adjustment of `cubesql_connect_token`. -/
theorem valid_iff_accepted (K : SdkConsts) (e : Int) :
    validEncryption K e ↔
      ¬ ((if e = 128 then K.CUBESQL_ENCRYPTION_AES128
          else if e = 192 then K.CUBESQL_ENCRYPTION_AES192
          else if e = 256 then K.CUBESQL_ENCRYPTION_AES256 else e) ≠ K.CUBESQL_ENCRYPTION_NONE ∧
        (if e = 128 then K.CUBESQL_ENCRYPTION_AES128
          else if e = 192 then K.CUBESQL_ENCRYPTION_AES192
          else if e = 256 then K.CUBESQL_ENCRYPTION_AES256 else e) ≠ K.CUBESQL_ENCRYPTION_AES128 ∧
        (if e = 128 then K.CUBESQL_ENCRYPTION_AES128
          else if e = 192 then K.CUBESQL_ENCRYPTION_AES192
          else if e = 256 then K.CUBESQL_ENCRYPTION_AES256 else e) ≠ K.CUBESQL_ENCRYPTION_AES192 ∧
        (if e = 128 then K.CUBESQL_ENCRYPTION_AES128
          else if e = 192 then K.CUBESQL_ENCRYPTION_AES192
          else if e = 256 then K.CUBESQL_ENCRYPTION_AES256 else e) ≠ K.CUBESQL_ENCRYPTION_AES256 ∧
        encryption_is_ssl K e = false) := by
  unfold validEncryption encryption_is_ssl
  by_cases h1 : e = 128
  · simp [h1]
  · by_cases h2 : e = 192
    · simp [h2]
    · by_cases h3 : e = 256
      · simp [h3]
      · simp only [if_neg h1, if_neg h2, if_neg h3, decide_eq_false_iff_not]
        tauto

theorem connect_token_cases (K : SdkConsts) (env : ConnectEnv) (H : Bytes → Bytes)
    (aes_enc aes_dec : Bytes → Bytes → Bytes) (D0 : Bytes → Bytes)
    (inflate : Bytes → Nat → Option Bytes) (host : Option Bytes) (port : Int)
    (username password : Option Bytes) (timeout encryption : Int) (token : Option Bytes)
    (useOldProtocol : Bool) :
    (env.ssl_disabled = true ∧ encryption_is_ssl K encryption = true →
      cubesql_connect_token K env H aes_enc aes_dec D0 inflate host port username password
        timeout encryption token useOldProtocol = (K.CUBESQL_SSL_DISABLED_ERROR, none)) ∧
    (¬ (env.ssl_disabled = true ∧ encryption_is_ssl K encryption = true) →
      (host = none ∨ username = none ∨ password = none ∨ ¬ validEncryption K encryption) →
      cubesql_connect_token K env H aes_enc aes_dec D0 inflate host port username password
        timeout encryption token useOldProtocol = (K.CUBESQL_PARAMETER_ERROR, none)) ∧
    (¬ (env.ssl_disabled = true ∧ encryption_is_ssl K encryption = true) →
      ¬ (host = none ∨ username = none ∨ password = none ∨ ¬ validEncryption K encryption) →
      ((cubesql_connect_token K env H aes_enc aes_dec D0 inflate host port username password
          timeout encryption token useOldProtocol).2 = none ∧
        ((cubesql_connect_token K env H aes_enc aes_dec D0 inflate host port username password
          timeout encryption token useOldProtocol).1 = K.CUBESQL_SSL_CERT_ERROR ∨
         (cubesql_connect_token K env H aes_enc aes_dec D0 inflate host port username password
          timeout encryption token useOldProtocol).1 = K.CUBESQL_MEMORY_ERROR)) ∨
      ((cubesql_connect_token K env H aes_enc aes_dec D0 inflate host port username password
          timeout encryption token useOldProtocol).2 ≠ none ∧
        ((cubesql_connect_token K env H aes_enc aes_dec D0 inflate host port username password
          timeout encryption token useOldProtocol).1 = K.CUBESQL_ERR ∨
         (cubesql_connect_token K env H aes_enc aes_dec D0 inflate host port username password
          timeout encryption token useOldProtocol).1 = K.CUBESQL_NOERR))) := by
  refine ⟨?_, ?_, ?_⟩
  · intro hd
    unfold cubesql_connect_token
    dsimp only
    rw [if_pos hd]
  · intro hd hbad
    unfold cubesql_connect_token
    dsimp only
    rw [if_neg hd]
    rcases host with _ | h
    · rfl
    · rcases username with _ | u
      · rfl
      · rcases password with _ | p
        · rfl
        · have hv : ¬ validEncryption K encryption := by
            rcases hbad with hb | hb | hb | hb
            · cases hb
            · cases hb
            · cases hb
            · exact hb
          rw [valid_iff_accepted, not_not] at hv
          dsimp only
          rw [if_pos hv]
  · intro hd hgood
    have hh : host ≠ none := fun h => hgood (Or.inl h)
    have hu : username ≠ none := fun h => hgood (Or.inr (Or.inl h))
    have hp : password ≠ none := fun h => hgood (Or.inr (Or.inr (Or.inl h)))
    have hv : validEncryption K encryption := by
      by_contra h
      exact hgood (Or.inr (Or.inr (Or.inr h)))
    rw [valid_iff_accepted] at hv
    unfold cubesql_connect_token
    dsimp only
    rw [if_neg hd]
    rcases host with _ | h
    · exact absurd rfl hh
    · rcases username with _ | u
      · exact absurd rfl hu
      · rcases password with _ | p
        · exact absurd rfl hp
        · dsimp only
          rw [if_neg hv]
          generalize csql_dbinit K env _ _ _ _ _ _ = rdb
          rcases rdb with _ | rdb
          · left
            dsimp only
            split
            · exact ⟨rfl, Or.inl rfl⟩
            · exact ⟨rfl, Or.inr rfl⟩
          · right
            dsimp only
            generalize hcq : csql_connect K H aes_enc aes_dec D0 inflate _ _ _ = cr
            have hret : cr.2 = K.CUBESQL_ERR ∨ cr.2 = K.CUBESQL_NOERR := by
              rw [← hcq]
              exact connect_ret _ _ _ _ _ _ _ _ _
            rcases cr with ⟨db1, r⟩
            exact ⟨by simp, hret⟩

theorem connect_token_legacy (K : SdkConsts) (env : ConnectEnv) (H : Bytes → Bytes)
    (aes_enc aes_dec : Bytes → Bytes → Bytes) (D0 : Bytes → Bytes)
    (inflate : Bytes → Nat → Option Bytes) (host : Option Bytes) (port : Int)
    (username password : Option Bytes) (timeout : Int) (token : Option Bytes)
    (useOldProtocol : Bool) (legacy mode : Int)
    (hl : encryption_is_ssl K legacy = false) (hm : encryption_is_ssl K mode = false)
    (hmap : (if legacy = 128 then K.CUBESQL_ENCRYPTION_AES128
          else if legacy = 192 then K.CUBESQL_ENCRYPTION_AES192
          else if legacy = 256 then K.CUBESQL_ENCRYPTION_AES256 else legacy) = mode)
    (hfix : (if mode = 128 then K.CUBESQL_ENCRYPTION_AES128
          else if mode = 192 then K.CUBESQL_ENCRYPTION_AES192
          else if mode = 256 then K.CUBESQL_ENCRYPTION_AES256 else mode) = mode) :
    cubesql_connect_token K env H aes_enc aes_dec D0 inflate host port username password
        timeout legacy token useOldProtocol
      = cubesql_connect_token K env H aes_enc aes_dec D0 inflate host port username password
        timeout mode token useOldProtocol := by
  unfold cubesql_connect_token
  dsimp only
  rw [hmap, hfix, hl, hm]
  simp only [Bool.false_eq_true, if_false, ite_self]

/-- C21 does not hold in a build with `CUBESQL_DISABLE_SSL_ENCRYPTION`: with
`host = NULL` and the encryption `CUBESQL_ENCRYPTION_SSL` the function returns
`CUBESQL_SSL_DISABLED_ERROR`, which is not the parameter error. -/
theorem connect_token_ssl_disabled_counterexample :
    cubesql_connect_token sdk { ssl_disabled := true } toyHash (fun _ => toyCipher)
        (fun _ => toyCipher) toyCipher (fun _ _ => none) none 4430 (some (cstr "admin"))
        (some (cstr "admin")) 12 sdk.CUBESQL_ENCRYPTION_SSL none false
      = (sdk.CUBESQL_SSL_DISABLED_ERROR, none) ∧
    sdk.CUBESQL_SSL_DISABLED_ERROR ≠ sdk.CUBESQL_PARAMETER_ERROR := by
  constructor
  · rfl
  · decide

/-- C21, amended: `cubesql_connect_token` returns the parameter error exactly
when it does not stop at the test of a build without SSL (the build has
`CUBESQL_DISABLE_SSL_ENCRYPTION` and the encryption is one of the four SSL
modes; it returns `CUBESQL_SSL_DISABLED_ERROR` then) and `host`, `username` or
`password` is `NULL` or the encryption value is none of `NONE`, `AES128`,
`AES192`, `AES256`, `SSL`, `SSL_AES128`, `SSL_AES192`, `SSL_AES256`, 128, 192,
256; when it returns the parameter error it has made no connection object and
has not used the network; and the legacy integers 128, 192 and 256 give what
`AES128`, `AES192` and `AES256` give. -/
theorem connect_token_parameter_error (K : SdkConsts) (hC : K.ConnectOk) (env : ConnectEnv)
    (H : Bytes → Bytes) (aes_enc aes_dec : Bytes → Bytes → Bytes) (D0 : Bytes → Bytes)
    (inflate : Bytes → Nat → Option Bytes) (host : Option Bytes) (port : Int)
    (username password : Option Bytes) (timeout encryption : Int) (token : Option Bytes)
    (useOldProtocol : Bool) :
    ((cubesql_connect_token K env H aes_enc aes_dec D0 inflate host port username password
        timeout encryption token useOldProtocol).1 = K.CUBESQL_PARAMETER_ERROR ↔
      (¬ (env.ssl_disabled = true ∧ encryption_is_ssl K encryption = true) ∧
        (host = none ∨ username = none ∨ password = none ∨ ¬ validEncryption K encryption))) ∧
    ((cubesql_connect_token K env H aes_enc aes_dec D0 inflate host port username password
        timeout encryption token useOldProtocol).1 = K.CUBESQL_PARAMETER_ERROR →
      (cubesql_connect_token K env H aes_enc aes_dec D0 inflate host port username password
        timeout encryption token useOldProtocol).2 = none) ∧
    cubesql_connect_token K env H aes_enc aes_dec D0 inflate host port username password
        timeout 128 token useOldProtocol
      = cubesql_connect_token K env H aes_enc aes_dec D0 inflate host port username password
        timeout K.CUBESQL_ENCRYPTION_AES128 token useOldProtocol ∧
    cubesql_connect_token K env H aes_enc aes_dec D0 inflate host port username password
        timeout 192 token useOldProtocol
      = cubesql_connect_token K env H aes_enc aes_dec D0 inflate host port username password
        timeout K.CUBESQL_ENCRYPTION_AES192 token useOldProtocol ∧
    cubesql_connect_token K env H aes_enc aes_dec D0 inflate host port username password
        timeout 256 token useOldProtocol
      = cubesql_connect_token K env H aes_enc aes_dec D0 inflate host port username password
        timeout K.CUBESQL_ENCRYPTION_AES256 token useOldProtocol := by
  obtain ⟨c1, c2, c3⟩ := connect_token_cases K env H aes_enc aes_dec D0 inflate host port
    username password timeout encryption token useOldProtocol
  have main : (cubesql_connect_token K env H aes_enc aes_dec D0 inflate host port username
        password timeout encryption token useOldProtocol).1 = K.CUBESQL_PARAMETER_ERROR ↔
      (¬ (env.ssl_disabled = true ∧ encryption_is_ssl K encryption = true) ∧
        (host = none ∨ username = none ∨ password = none ∨
          ¬ validEncryption K encryption)) := by
    constructor
    · intro h
      by_cases hd : env.ssl_disabled = true ∧ encryption_is_ssl K encryption = true
      · rw [c1 hd] at h
        exact absurd h.symm hC.param_disabled
      · refine ⟨hd, ?_⟩
        by_contra hgood
        rcases c3 hd hgood with ⟨_, h1 | h1⟩ | ⟨_, h1 | h1⟩
        · rw [h1] at h; exact hC.param_cert h.symm
        · rw [h1] at h; exact hC.param_memory h.symm
        · rw [h1] at h; exact hC.param_err h.symm
        · rw [h1] at h; exact hC.param_noerr h.symm
    · intro h
      rw [c2 h.1 h.2]
  refine ⟨main, ?_, ?_, ?_, ?_⟩
  · intro h
    have h2 := main.1 h
    rw [c2 h2.1 h2.2]
  · apply connect_token_legacy _ _ _ _ _ _ _ _ _ _ _ _ _ _ _ _ hC.legacy128 hC.aes128
    · simp
    · simp [hC.aes128_192, hC.aes128_256]
  · apply connect_token_legacy _ _ _ _ _ _ _ _ _ _ _ _ _ _ _ _ hC.legacy192 hC.aes192
    · simp
    · simp [hC.aes192_128, hC.aes192_256]
  · apply connect_token_legacy _ _ _ _ _ _ _ _ _ _ _ _ _ _ _ _ hC.legacy256 hC.aes256
    · simp
    · simp [hC.aes256_128, hC.aes256_192]

theorem connect_token_parameter_error_witness :
    sdk.ConnectOk ∧
    ((cubesql_connect_token sdk {} toyHash (fun _ => toyCipher) (fun _ => toyCipher) toyCipher
        (fun _ _ => none) none 4430 (some (cstr "admin")) (some (cstr "admin")) 12 256 none
        false).1 = sdk.CUBESQL_PARAMETER_ERROR →
      (cubesql_connect_token sdk {} toyHash (fun _ => toyCipher) (fun _ => toyCipher) toyCipher
        (fun _ _ => none) none 4430 (some (cstr "admin")) (some (cstr "admin")) 12 256 none
        false).2 = none) :=
  ⟨sdk_connect_ok,
   (connect_token_parameter_error sdk sdk_connect_ok {} toyHash (fun _ => toyCipher)
      (fun _ => toyCipher) toyCipher (fun _ _ => none) none 4430 (some (cstr "admin"))
      (some (cstr "admin")) 12 256 none false).2.1⟩

/-! ## C30: what csql_bindexecute leaves in the arrays of the caller -/

/-- A call of `csql_bindexecute` that returns `CUBESQL_NOERR` got to its last
line: all parameters were sent. -/
theorem bindexecute_noerr_sent_all (K : SdkConsts) (hK : K.Ok) (E D : Bytes → Bytes)
    (inflate : Bytes → Nat → Option Bytes) (deflate : Bytes → Option Bytes) (db : Db)
    (sql : Bytes) (cv : List (Option Bytes)) (cs ct : List Int) (n : Int)
    (hret : (csql_bindexecute_store K E D inflate deflate db sql cv cs ct n).2.1
      = K.CUBESQL_NOERR) :
    bindexecute_sent_all K E D deflate db sql cv cs ct n = true := by
  unfold csql_bindexecute_store at hret
  unfold bindexecute_sent_all
  generalize csql_send_statement K E db K.kCOMMAND_CHUNK_BIND sql false false = st at hret ⊢
  rcases st with ⟨db1, r⟩
  dsimp only at hret ⊢
  by_cases g1 : r ≠ K.CUBESQL_NOERR
  · rw [if_pos g1] at hret
    exact absurd hret.symm hK.noerr_err
  rw [if_neg g1] at hret ⊢
  generalize csql_socketread_header K db1 = sr at hret ⊢
  rcases sr with ⟨db2, r2⟩
  dsimp only at hret ⊢
  by_cases g2 : r2 ≠ K.CUBESQL_NOERR
  · rw [if_pos g2] at hret
    exact absurd hret.symm hK.noerr_err
  rw [if_neg g2] at hret ⊢
  generalize csql_checkheader K D db2 (-1) (-1) = ch at hret ⊢
  rcases ch with ⟨db3, r3, x3⟩
  dsimp only at hret ⊢
  by_cases g3 : r3 ≠ K.CUBESQL_NOERR
  · rw [if_pos g3] at hret
    exact absurd hret.symm hK.noerr_err
  rw [if_neg g3] at hret ⊢
  generalize bind_loop_store K E D deflate n.toNat db3 0 cv cs ct = bl at hret ⊢
  rcases bl with ⟨db4, r4, cv1, cs1⟩
  dsimp only at hret ⊢
  by_cases g4 : r4 ≠ K.CUBESQL_NOERR
  · rw [if_pos g4] at hret
    exact absurd hret.symm hK.noerr_err
  exact decide_eq_true (not_not.1 g4)

theorem cumRows_zero (chunks : List (Nat × List (Option Bytes))) : cumRows chunks 0 = 0 := by
  simp [cumRows]

theorem cumRows_succ (chunks : List (Nat × List (Option Bytes))) (k : Nat)
    (hk : k < chunks.length) :
    cumRows chunks (k + 1) = cumRows chunks k + (chunks.getD k (0, [])).1 := by
  unfold cumRows
  rw [List.take_succ, List.map_append, List.sum_append, List.getD_eq_getElem?_getD,
    List.getElem?_eq_getElem hk]
  simp

theorem cumRows_le_succ (chunks : List (Nat × List (Option Bytes))) (k : Nat) :
    cumRows chunks k ≤ cumRows chunks (k + 1) := by
  by_cases hk : k < chunks.length
  · rw [cumRows_succ chunks k hk]; omega
  · unfold cumRows
    rw [List.take_of_length_le (by omega), List.take_of_length_le (by omega)]

theorem cumRows_mono (chunks : List (Nat × List (Option Bytes))) (a b : Nat) (hab : a ≤ b) :
    cumRows chunks a ≤ cumRows chunks b := by
  induction b with
  | zero =>
    have : a = 0 := by omega
    rw [this]
  | succ b ih =>
    by_cases h : a = b + 1
    · rw [h]
    · exact le_trans (ih (by omega)) (cumRows_le_succ chunks b)

/-- The chunk of a row: the index `i` with `cumRows i < row <= cumRows (i + 1)`. -/
theorem chunk_of_row (chunks : List (Nat × List (Option Bytes))) (row : Nat) (h1 : 1 ≤ row) :
    ∀ k, row ≤ cumRows chunks k →
      ∃ i, i < k ∧ cumRows chunks i < row ∧ row ≤ cumRows chunks (i + 1)
  | 0, h2 => by
    rw [cumRows_zero] at h2
    omega
  | k + 1, h2 => by
    by_cases h : row ≤ cumRows chunks k
    · obtain ⟨i, hi, h3, h4⟩ := chunk_of_row chunks row h1 k h
      exact ⟨i, by omega, h3, h4⟩
    · exact ⟨k, by omega, by omega, h2⟩

theorem chunk_unique (chunks : List (Nat × List (Option Bytes))) (row i j : Nat)
    (hi1 : cumRows chunks i < row) (hi2 : row ≤ cumRows chunks (i + 1))
    (hj1 : cumRows chunks j < row) (hj2 : row ≤ cumRows chunks (j + 1)) : i = j := by
  by_contra hne
  rcases Nat.lt_or_gt_of_ne hne with h | h
  · have := cumRows_mono chunks (i + 1) j (by omega)
    omega
  · have := cumRows_mono chunks (j + 1) i (by omega)
    omega

theorem rowcount_geti (chunks : List (Nat × List (Option Bytes))) (rc : List Int) (k : Nat)
    (h : rc = (List.range k).map (fun i => (cumRows chunks (i + 1) : Int))) (i : Nat)
    (hi : i < k) : geti rc (i : Int) = cumRows chunks (i + 1) := by
  unfold geti
  rw [if_neg (by omega), Int.toNat_ofNat, h, List.getD_eq_getElem?_getD, List.getElem?_map,
    List.getElem?_range hi]
  rfl

theorem rowcount_geti_pred (chunks : List (Nat × List (Option Bytes))) (rc : List Int) (k : Nat)
    (h : rc = (List.range k).map (fun i => (cumRows chunks (i + 1) : Int))) (i : Nat)
    (hi : i ≤ k) :
    (if i = 0 then (0 : Int) else geti rc ((i : Int) - 1)) = cumRows chunks i := by
  by_cases h0 : i = 0
  · rw [if_pos h0, h0, cumRows_zero]; rfl
  · rw [if_neg h0]
    have e : (i : Int) - 1 = ((i - 1 : Nat) : Int) := by omega
    rw [e, rowcount_geti chunks rc k h (i - 1) (by omega)]
    have : i - 1 + 1 = i := by omega
    rw [this]

theorem findSome_range {α : Type} (f : Nat → Option α) (x : α) (idx : Nat)
    (hnone : ∀ i < idx, f i = none) (hsome : f idx = some x) :
    ∀ n, idx < n → (List.range n).findSome? f = some x
  | 0, h => by omega
  | n + 1, h => by
    rw [List.range_succ, List.findSome?_append]
    by_cases hn : idx < n
    · rw [findSome_range f x idx hnone hsome n hn]
      rfl
    · have e : idx = n := by omega
      subst e
      have : (List.range idx).findSome? f = none := by
        rw [List.findSome?_eq_none_iff]
        intro i hi
        exact hnone i (List.mem_range.1 hi)
      rw [this]
      simp [hsome]

/-- The chunk that `cubesql_cursor_field` finds for a row that is after the
chunks before the current one. -/
theorem find_buffer_chunk (c : Cursor) (rowid : Bool) (ncols : Nat)
    (chunks : List (Nat × List (Option Bytes))) (cb row : Nat)
    (hc : ChunkedCursor c rowid ncols chunks cb) (h1 : cumRows chunks cb < row)
    (h2 : row ≤ cumRows chunks chunks.length) :
    ∃ idx, find_buffer c (row : Int)
        = some (idx, (cumRows chunks idx : Int), (cumRows chunks (idx + 1) : Int)) ∧
      idx < chunks.length ∧ cumRows chunks idx < row ∧ row ≤ cumRows chunks (idx + 1) := by
  have hk := hc.cb_lt
  have v1 := rowcount_geti_pred chunks c.rowcount chunks.length hc.rowcount cb (by omega)
  have v2 := rowcount_geti chunks c.rowcount chunks.length hc.rowcount cb hk
  unfold find_buffer
  rw [hc.cur, hc.nbuf]
  dsimp only
  rw [v1, v2]
  by_cases hot : row ≤ cumRows chunks (cb + 1)
  · refine ⟨cb, ?_, hk, h1, hot⟩
    rw [if_pos ⟨by omega, by omega⟩]
  · rw [if_neg (by omega)]
    by_cases hnext : cb + 1 < chunks.length ∧ row ≤ cumRows chunks (cb + 1 + 1)
    · have w2 := rowcount_geti chunks c.rowcount chunks.length hc.rowcount (cb + 1) hnext.1
      have e : ¬ ((cb : Int) = (chunks.length : Int) - 1) := by omega
      rw [if_neg e]
      have e2 : (cb : Int) + 1 = ((cb + 1 : Nat) : Int) := by omega
      rw [e2, w2]
      refine ⟨cb + 1, ?_, hnext.1, by omega, hnext.2⟩
      rw [if_pos ⟨by omega, by omega⟩]
    · have hno : ¬ ((row : Int) ≥ (cumRows chunks (cb + 1) : Int) ∧
          (row : Int) ≤ (if (cb : Int) = (chunks.length : Int) - 1
            then (cumRows chunks (cb + 1) : Int) else geti c.rowcount ((cb : Int) + 1))) := by
        by_cases e : (cb : Int) = (chunks.length : Int) - 1
        · rw [if_pos e]; omega
        · rw [if_neg e]
          have hlt : cb + 1 < chunks.length := by omega
          have w2 := rowcount_geti chunks c.rowcount chunks.length hc.rowcount (cb + 1) hlt
          have e2 : (cb : Int) + 1 = ((cb + 1 : Nat) : Int) := by omega
          rw [e2, w2]
          have : ¬ (row ≤ cumRows chunks (cb + 1 + 1)) := fun h => hnext ⟨hlt, h⟩
          omega
      rw [if_neg hno]
      obtain ⟨idx, i1, i2, i3⟩ := chunk_of_row chunks row (by omega) chunks.length h2
      refine ⟨idx, ?_, i1, i2, i3⟩
      apply findSome_range _ _ idx _ _ _ i1
      · intro i hi
        have u1 := rowcount_geti_pred chunks c.rowcount chunks.length hc.rowcount i (by omega)
        have u2 := rowcount_geti chunks c.rowcount chunks.length hc.rowcount i (by omega)
        have := cumRows_mono chunks (i + 1) idx (by omega)
        show (if (row : Int) ≥ (if i = 0 then (0 : Int) else geti c.rowcount (Int.ofNat i - 1)) ∧
          (row : Int) ≤ geti c.rowcount (Int.ofNat i) then _ else none) = none
        rw [if_neg]
        have e : Int.ofNat i = (i : Int) := rfl
        rw [e, u2]
        omega
      · have u1 := rowcount_geti_pred chunks c.rowcount chunks.length hc.rowcount idx (by omega)
        have u2 := rowcount_geti chunks c.rowcount chunks.length hc.rowcount idx i1
        show (if (row : Int) ≥ (if idx = 0 then (0 : Int)
            else geti c.rowcount (Int.ofNat idx - 1)) ∧
          (row : Int) ≤ geti c.rowcount (Int.ofNat idx) then
            some (idx, (if idx = 0 then (0 : Int) else geti c.rowcount (Int.ofNat idx - 1)),
              geti c.rowcount (Int.ofNat idx)) else none) = _
        have e : Int.ofNat idx = (idx : Int) := rfl
        rw [e, u1, u2, if_pos ⟨by omega, by omega⟩]

/-- What the end of `cubesql_cursor_field` returns when the arrays of the cursor
hold the cells `cells`, `nrows` rows. -/
theorem field_at_cells (K : SdkConsts) (hK : K.Ok) (c : Cursor)
    (cells : List (Option Bytes)) (js : List Int) (nrows ncols row col : Nat)
    (hncols : c.ncols = ncols) (hsize : c.size = cells.map cellSize ++ js)
    (hpsum : ∃ j, c.psum = sum_loop (cells.map cellSize ++ j) (List.replicate cells.length 0)
      cells.length)
    (hcells : cells.length = nrows * (ncols + if c.has_rowid then 1 else 0))
    (hr1 : 1 ≤ row) (hr2 : row ≤ nrows) (hc1 : 1 ≤ col) (hc2 : col ≤ ncols) :
    field_at K c row col
      = ((cells.getD (cellIndex c.has_rowid ncols row col) none).map
            (fun _ => c.data.drop (cellOffset cells (cellIndex c.has_rowid ncols row col))),
          cellSize (cells.getD (cellIndex c.has_rowid ncols row col) none)) := by
  have hk := cellIndex_lt c.has_rowid nrows ncols row col hr1 hr2 hc1 hc2
  rw [← hcells] at hk
  obtain ⟨jp, hjp⟩ := hpsum
  have hsum := sum_loop_spec cells jp (List.replicate cells.length 0) (by simp)
    cells.length (le_refl _)
  rw [← hjp] at hsum
  generalize hkdef : cellIndex c.has_rowid ncols row col = k at hk ⊢
  have hoff : (cellOffset cells k : Int) = (if k = 0 then 0 else geti c.psum ((k : Int) - 1)) := by
    by_cases h0 : k = 0
    · simp [h0, cellOffset_zero]
    · simp only [if_neg h0]
      have hlt : ¬ ((k : Int) - 1 < 0) := by omega
      have e : ((k : Int) - 1).toNat = k - 1 := by omega
      unfold geti
      rw [if_neg hlt, e, hsum.2 (k - 1) (by omega)]
      congr 2; omega
  have hn0 : (if c.has_rowid = true ∧ (col : Int) ≠ K.CUBESQL_ROWID
      then ((row : Int) - 1) * (c.ncols + 1) + col
      else ((row : Int) - 1) * c.ncols + ((col : Int) - 1)) = (k : Int) := by
    have hne : (col : Int) ≠ K.CUBESQL_ROWID := by have := hK.rowid; omega
    rw [← hkdef, hncols]
    obtain ⟨r, rfl⟩ : ∃ r, row = r + 1 := ⟨row - 1, by omega⟩
    obtain ⟨q, rfl⟩ : ∃ q, col = q + 1 := ⟨col - 1, by omega⟩
    unfold cellIndex
    cases hrid : c.has_rowid
    · simp only [Bool.false_eq_true, false_and, if_false, Nat.add_sub_cancel]
      push_cast; ring
    · simp only [true_and, if_true, hne, ne_eq, not_false_eq_true, Nat.add_sub_cancel]
      push_cast; ring
  unfold field_at
  simp only [hn0]
  have hk0 : ¬ ((k : Int) < 0) := by omega
  simp only [if_neg hk0]
  have hg : geti c.size (k : Int) = cellSize (cells.getD k none) := by
    unfold geti
    rw [if_neg hk0, hsize, Int.toNat_ofNat, sizes_getD cells js k hk]
  rw [hg]
  cases hc : cells.getD k none with
  | none => simp [cellSize]
  | some b =>
    have hb : ¬ ((b.length : Int) = -1) := by omega
    simp only [cellSize, if_neg hb, Option.map_some']
    by_cases h0 : k = 0
    · subst h0
      simp [cellOffset_zero]
    · have hpos : (k : Int) > 0 := by omega
      rw [if_neg h0] at hoff
      simp only [if_pos hpos, ← hoff, Int.toNat_ofNat]

theorem chunks_prefix_length (ncols : Nat) (rowid : Bool) :
    ∀ (chunks : List (Nat × List (Option Bytes))) (i : Nat),
    (∀ ch ∈ chunks, ch.2.length = ch.1 * (ncols + if rowid then 1 else 0)) →
    (((chunks.take i).map Prod.snd).flatten).length
      = cumRows chunks i * (ncols + if rowid then 1 else 0)
  | _, 0, _ => by simp [cumRows]
  | [], i + 1, _ => by simp [cumRows]
  | ch :: chunks, i + 1, h => by
    have ih := chunks_prefix_length ncols rowid chunks i
      (fun x hx => h x (List.mem_cons_of_mem ch hx))
    have h0 := h ch (List.mem_cons_self ch chunks)
    simp only [cumRows, List.take_succ_cons, List.map_cons, List.flatten_cons,
      List.length_append, List.sum_cons] at ih ⊢
    rw [ih, h0]
    ring

/-- The cell of a row among all cells and among the cells of its chunk. -/
theorem allCells_getD (ncols : Nat) (rowid : Bool) (chunks : List (Nat × List (Option Bytes)))
    (hlens : ∀ ch ∈ chunks, ch.2.length = ch.1 * (ncols + if rowid then 1 else 0))
    (idx row col : Nat) (hidx : idx < chunks.length) (h1 : cumRows chunks idx < row)
    (h2 : row ≤ cumRows chunks (idx + 1)) (hc1 : 1 ≤ col) (hc2 : col ≤ ncols) :
    (allCells chunks).getD (cellIndex rowid ncols row col) none
      = (chunks.getD idx (0, [])).2.getD
          (cellIndex rowid ncols (row - cumRows chunks idx) col) none := by
  have hsucc := cumRows_succ chunks idx hidx
  have hlen := hlens (chunks.getD idx (0, [])) (by
    rw [List.getD_eq_getElem?_getD, List.getElem?_eq_getElem hidx]
    exact List.getElem_mem hidx)
  have hloc := cellIndex_lt rowid (chunks.getD idx (0, [])).1 ncols (row - cumRows chunks idx)
    col (by omega) (by omega) hc1 hc2
  rw [← hlen] at hloc
  have hpre := chunks_prefix_length ncols rowid chunks idx hlens
  have hglob : cellIndex rowid ncols row col
      = cumRows chunks idx * (ncols + if rowid then 1 else 0)
        + cellIndex rowid ncols (row - cumRows chunks idx) col := by
    obtain ⟨r, hr⟩ : ∃ r, row = cumRows chunks idx + (r + 1) :=
      ⟨row - cumRows chunks idx - 1, by omega⟩
    rw [hr]
    have e1 : cumRows chunks idx + (r + 1) - cumRows chunks idx = r + 1 := by omega
    have e2 : cumRows chunks idx + (r + 1) - 1 = cumRows chunks idx + r := by omega
    rw [e1]
    unfold cellIndex
    cases rowid
    · simp only [Bool.false_eq_true, if_false, e2, Nat.add_sub_cancel, Nat.add_zero]
      ring
    · simp only [if_true, e2, Nat.add_sub_cancel]
      ring
  have hsplit : allCells chunks
      = ((chunks.take idx).map Prod.snd).flatten ++ ((chunks.getD idx (0, [])).2
          ++ ((chunks.drop (idx + 1)).map Prod.snd).flatten) := by
    unfold allCells
    have e : chunks = chunks.take idx ++ chunks.getD idx (0, []) :: chunks.drop (idx + 1) := by
      rw [List.getD_eq_getElem?_getD, List.getElem?_eq_getElem hidx, Option.getD_some,
        ← List.drop_eq_getElem_cons hidx, List.take_append_drop]
    conv_lhs => rw [e]
    simp only [List.map_append, List.map_cons, List.flatten_append, List.flatten_cons]
  rw [hsplit, hglob, ← hpre]
  generalize chunks.getD idx (0, []) = ch at hloc ⊢
  rw [List.getD_eq_getElem?_getD, List.getD_eq_getElem?_getD,
    List.getElem?_append_right (by omega), Nat.add_sub_cancel_left,
    List.getElem?_append_left hloc]

/-- The cursor after `cubesql_cursor_field` has made the chunk `idx` the current
one (lines 399-415). -/
theorem switch_chunk (c : Cursor) (rowid : Bool) (ncols : Nat)
    (chunks : List (Nat × List (Option Bytes))) (cb idx : Nat)
    (hc : ChunkedCursor c rowid ncols chunks cb) (hidx : idx < chunks.length) :
    ChunkedCursor
      (if c.current_buffer ≠ idx then
        if idx = 0 then
          { c with current_buffer := idx, psum := c.rowsum.getD idx [], data := c.data0, size := c.size0 }
        else
          { c with current_buffer := idx, psum := c.rowsum.getD idx [], size := intsOf (c.buffer.getD idx []), data := (c.buffer.getD idx []).drop ((((cumRows chunks (idx + 1) : Int) - (cumRows chunks idx : Int)) * (if c.has_rowid then c.ncols + 1 else c.ncols) * 4).toNat) }
       else c) rowid ncols chunks idx := by
  by_cases hsame : c.current_buffer ≠ idx
  · rw [if_pos hsame]
    obtain ⟨jr, hjr⟩ := hc.rowsum idx hidx
    by_cases h0 : idx = 0
    · rw [if_pos h0]
      subst h0
      obtain ⟨js, junk, z1, z2⟩ := hc.zero
      exact ⟨hc.id, hc.ss, hc.rid, hc.cols, hc.nbuf, rfl, hidx, hc.nrows, hc.rowcount, hc.lens,
        hc.buflen, hc.sumlen, hc.rowsum, hc.buffer, hc.zero, js, junk, jr, z1, z2, hjr⟩
    · rw [if_neg h0]
      obtain ⟨js, junk, b1, b2⟩ := hc.buffer idx (by omega) hidx
      have hsucc := cumRows_succ chunks idx hidx
      have hn : ((((cumRows chunks (idx + 1) : Int) - (cumRows chunks idx : Int))
          * (if c.has_rowid then c.ncols + 1 else c.ncols) * 4).toNat)
          = (chunks.getD idx (0, [])).1 * (ncols + if rowid then 1 else 0) * 4 := by
        rw [hsucc, hc.rid, hc.cols]
        have e : (if rowid = true then (ncols : Int) + 1 else (ncols : Int))
            = ((ncols + if rowid then 1 else 0 : Nat) : Int) := by
          cases rowid <;> simp
        rw [e]
        have e2 : ((cumRows chunks idx + (chunks.getD idx (0, [])).1 : Nat) : Int)
            - (cumRows chunks idx : Int) = ((chunks.getD idx (0, [])).1 : Int) := by
          push_cast; ring
        rw [e2]
        norm_cast
      rw [hn]
      exact ⟨hc.id, hc.ss, hc.rid, hc.cols, hc.nbuf, rfl, hidx, hc.nrows, hc.rowcount, hc.lens,
        hc.buflen, hc.sumlen, hc.rowsum, hc.buffer, hc.zero, js, junk, jr, b1, b2, hjr⟩
  · rw [if_neg hsame]
    have e : cb = idx := by
      rw [← hc.cur]
      exact not_not.1 hsame
    subst e
    exact hc

/-- One call of `cubesql_cursor_field` on a chunked cursor, for a row that is
after the chunks before the current one: the chunk of the row becomes the
current chunk, and the call returns the cell. -/
theorem cursor_field_chunked (K : SdkConsts) (hK : K.Ok) (c : Cursor) (rowid : Bool)
    (ncols : Nat) (chunks : List (Nat × List (Option Bytes))) (cb row col : Nat)
    (hc : ChunkedCursor c rowid ncols chunks cb) (h1 : cumRows chunks cb < row)
    (h2 : row ≤ cumRows chunks chunks.length) (hc1 : 1 ≤ col) (hc2 : col ≤ ncols) :
    ∃ idx, ChunkedCursor (cubesql_cursor_field K c row col).1 rowid ncols chunks idx ∧
      cumRows chunks idx < row ∧ row ≤ cumRows chunks (idx + 1) ∧
      (cubesql_cursor_field K c row col).2.2
        = cellSize ((allCells chunks).getD (cellIndex rowid ncols row col) none) ∧
      fieldBytes (cubesql_cursor_field K c row col)
        = (allCells chunks).getD (cellIndex rowid ncols row col) none := by
  obtain ⟨idx, hfb, hidx, i1, i2⟩ := find_buffer_chunk c rowid ncols chunks cb row hc h1 h2
  have hsw := switch_chunk c rowid ncols chunks cb idx hc hidx
  have g1 : ¬ ((col : Int) ≠ K.CUBESQL_ROWID ∧ ((col : Int) ≤ 0 ∨ (col : Int) > c.ncols)) := by
    rw [hc.cols]; omega
  have g2 : ¬ ((row : Int) > c.nrows) := by rw [hc.nrows]; omega
  have g3 : ¬ ((row : Int) < -2) := by omega
  have g4 : ¬ ((row : Int) = K.CUBESQL_CURROW) := by have := hK.currow; omega
  have g5 : ¬ ((row : Int) = K.CUBESQL_COLNAME) := by have := hK.colname; omega
  have g6 : ¬ ((row : Int) = K.CUBESQL_COLTABLE) := by have := hK.coltable; omega
  have g7 : ¬ ((col : Int) = K.CUBESQL_ROWID) := by have := hK.rowid; omega
  have g8 : ¬ (c.nrows = 0) := by rw [hc.nrows]; omega
  have g9 : ¬ (c.cursor_id = -1) := by rw [hc.id]; decide
  have g10 : c.nbuffer ≠ 0 := by rw [hc.nbuf]; omega
  have hrun : cubesql_cursor_field K c row col
      = ((if c.current_buffer ≠ idx then
            if idx = 0 then
              { c with current_buffer := idx, psum := c.rowsum.getD idx [], data := c.data0, size := c.size0 }
            else
              { c with current_buffer := idx, psum := c.rowsum.getD idx [], size := intsOf (c.buffer.getD idx []), data := (c.buffer.getD idx []).drop ((((cumRows chunks (idx + 1) : Int) - (cumRows chunks idx : Int)) * (if c.has_rowid then c.ncols + 1 else c.ncols) * 4).toNat) }
           else c),
         (field_at K (if c.current_buffer ≠ idx then
            if idx = 0 then
              { c with current_buffer := idx, psum := c.rowsum.getD idx [], data := c.data0, size := c.size0 }
            else
              { c with current_buffer := idx, psum := c.rowsum.getD idx [], size := intsOf (c.buffer.getD idx []), data := (c.buffer.getD idx []).drop ((((cumRows chunks (idx + 1) : Int) - (cumRows chunks idx : Int)) * (if c.has_rowid then c.ncols + 1 else c.ncols) * 4).toNat) }
           else c) ((row : Int) - (cumRows chunks idx : Int)) col).1,
         (field_at K (if c.current_buffer ≠ idx then
            if idx = 0 then
              { c with current_buffer := idx, psum := c.rowsum.getD idx [], data := c.data0, size := c.size0 }
            else
              { c with current_buffer := idx, psum := c.rowsum.getD idx [], size := intsOf (c.buffer.getD idx []), data := (c.buffer.getD idx []).drop ((((cumRows chunks (idx + 1) : Int) - (cumRows chunks idx : Int)) * (if c.has_rowid then c.ncols + 1 else c.ncols) * 4).toNat) }
           else c) ((row : Int) - (cumRows chunks idx : Int)) col).2) := by
    unfold cubesql_cursor_field
    rw [if_neg g1, if_neg g2, if_neg g3]
    simp only [if_neg g4, if_neg g5, if_neg g6, g7, false_and, if_false, if_neg g8, if_neg g9,
      if_pos g10, hfb]
  rw [hrun]
  generalize (if c.current_buffer ≠ idx then
        if idx = 0 then
          { c with current_buffer := idx, psum := c.rowsum.getD idx [], data := c.data0, size := c.size0 }
        else
          { c with current_buffer := idx, psum := c.rowsum.getD idx [], size := intsOf (c.buffer.getD idx []), data := (c.buffer.getD idx []).drop ((((cumRows chunks (idx + 1) : Int) - (cumRows chunks idx : Int)) * (if c.has_rowid then c.ncols + 1 else c.ncols) * 4).toNat) }
       else c) = c1 at hsw ⊢
  obtain ⟨js, junk, jp, n1, n2, n3⟩ := hsw.now
  have hsucc := cumRows_succ chunks idx hidx
  have hlen := hsw.lens (chunks.getD idx (0, [])) (by
    rw [List.getD_eq_getElem?_getD, List.getElem?_eq_getElem hidx]
    exact List.getElem_mem hidx)
  have hrow : (row : Int) - (cumRows chunks idx : Int) = ((row - cumRows chunks idx : Nat) : Int) := by
    omega
  rw [hrow]
  have hf := field_at_cells K hK c1 (chunks.getD idx (0, [])).2 js (chunks.getD idx (0, [])).1
    ncols (row - cumRows chunks idx) col hsw.cols n1 ⟨jp, n3⟩ (by rw [hsw.rid]; exact hlen)
    (by omega) (by omega) hc1 hc2
  rw [hsw.rid] at hf
  have hcell := allCells_getD ncols rowid chunks hsw.lens idx row col hidx i1 i2 hc1 hc2
  have hloc := cellIndex_lt rowid (chunks.getD idx (0, [])).1 ncols (row - cumRows chunks idx)
    col (by omega) (by omega) hc1 hc2
  rw [← hlen] at hloc
  refine ⟨idx, hsw, i1, i2, ?_, ?_⟩
  · show (field_at K c1 _ _).2 = _
    rw [hf, hcell]
  · unfold fieldBytes
    show Option.map _ (field_at K c1 _ _).1 = _
    rw [hf, hcell]
    dsimp only
    cases hx : (chunks.getD idx (0, [])).2.getD
        (cellIndex rowid ncols (row - cumRows chunks idx) col) none with
    | none => rfl
    | some b =>
      simp only [Option.map_some', cellSize]
      have hd := cells_data_at (chunks.getD idx (0, [])).2 junk _ hloc
      rw [hx] at hd
      rw [n2, Int.toNat_ofNat]
      exact congrArg some hd

/-- Calls of `cubesql_cursor_field` on a chunked cursor with rows in
non-decreasing order, all after the chunks before the current one: every call
returns the cell. -/
theorem fieldSeq_chunked (K : SdkConsts) (hK : K.Ok) (rowid : Bool) (ncols : Nat)
    (chunks : List (Nat × List (Option Bytes))) :
    ∀ (calls : List (Nat × Nat)) (c : Cursor) (cb : Nat),
    ChunkedCursor c rowid ncols chunks cb →
    (∀ rc ∈ calls, cumRows chunks cb < rc.1 ∧ rc.1 ≤ cumRows chunks chunks.length ∧
      1 ≤ rc.2 ∧ rc.2 ≤ ncols) →
    calls.Pairwise (fun a b => a.1 ≤ b.1) →
    fieldSeq K c calls = calls.map (fun rc =>
      ((allCells chunks).getD (cellIndex rowid ncols rc.1 rc.2) none,
        cellSize ((allCells chunks).getD (cellIndex rowid ncols rc.1 rc.2) none)))
  | [], _, _, _, _, _ => rfl
  | rc :: rest, c, cb, hc, hin, hsorted => by
    obtain ⟨h1, h2, h3, h4⟩ := hin rc (List.mem_cons_self rc rest)
    obtain ⟨idx, hc1, i1, _, hlen, hbytes⟩ := cursor_field_chunked K hK c rowid ncols chunks cb
      rc.1 rc.2 hc h1 h2 h3 h4
    have hs := List.pairwise_cons.1 hsorted
    have ih := fieldSeq_chunked K hK rowid ncols chunks rest
      (cubesql_cursor_field K c rc.1 rc.2).1 idx hc1
      (fun x hx => by
        obtain ⟨_, x2, x3, x4⟩ := hin x (List.mem_cons_of_mem rc hx)
        have := hs.1 x hx
        exact ⟨by omega, x2, x3, x4⟩) hs.2
    rw [fieldSeq, ih, List.map_cons, hbytes, hlen]

/-! ## C26: reading a chunked result set -/

theorem cumRows_append_le (chs : List (Nat × List (Option Bytes)))
    (ch : Nat × List (Option Bytes)) (i : Nat) (hi : i ≤ chs.length) :
    cumRows (chs ++ [ch]) i = cumRows chs i := by
  unfold cumRows
  rw [List.take_append_of_le_length hi]

theorem cumRows_append_last (chs : List (Nat × List (Option Bytes)))
    (ch : Nat × List (Option Bytes)) :
    cumRows (chs ++ [ch]) (chs.length + 1) = cumRows chs chs.length + ch.1 := by
  unfold cumRows
  rw [List.take_of_length_le (by simp), List.take_of_length_le (le_refl _)]
  simp

/-- One more chunk in the registry of a chunked cursor (lines 1456-1464). -/
theorem chunked_append (c : Cursor) (rowid : Bool) (ncols : Nat)
    (chs : List (Nat × List (Option Bytes))) (hc : ChunkedCursor c rowid ncols chs 0)
    (rows : Nat) (cells : List (Option Bytes)) (buf : Bytes) (psum : List Int) (na : Int)
    (hlen : cells.length = rows * (ncols + if rowid then 1 else 0))
    (hints : ∃ js, intsOf buf = cells.map cellSize ++ js)
    (hdata : ∃ junk, buf.drop (rows * (ncols + if rowid then 1 else 0) * 4)
      = (cells.map cellData).flatten ++ junk)
    (hpsum : ∃ j, psum = sum_loop (cells.map cellSize ++ j) (List.replicate cells.length 0)
      cells.length) :
    ChunkedCursor { c with has_rowid := rowid, nrows := c.nrows + rows, ncols := ncols, buffer := c.buffer ++ [buf], rowsum := c.rowsum ++ [psum], rowcount := c.rowcount ++ [c.nrows + rows], nbuffer := c.nbuffer + 1, nalloc := na }
      rowid ncols (chs ++ [(rows, cells)]) 0 := by
  have hk := hc.cb_lt
  have hget : ∀ i, i < chs.length →
      (chs ++ [(rows, cells)]).getD i (0, []) = chs.getD i (0, []) := by
    intro i hi
    rw [List.getD_eq_getElem?_getD, List.getD_eq_getElem?_getD, List.getElem?_append_left hi]
  have hlast : (chs ++ [(rows, cells)]).getD chs.length (0, []) = (rows, cells) := by
    rw [List.getD_eq_getElem?_getD, List.getElem?_append_right (le_refl _)]
    simp
  refine ⟨hc.id, hc.ss, rfl, rfl, ?_, hc.cur, by simp, ?_, ?_, ?_, ?_, ?_, ?_, ?_, ?_, ?_⟩
  · show c.nbuffer + 1 = _
    rw [hc.nbuf]; simp
  · show c.nrows + (rows : Int) = _
    rw [hc.nrows, List.length_append, List.length_singleton, cumRows_append_last]
    push_cast; rfl
  · show c.rowcount ++ [c.nrows + (rows : Int)] = _
    rw [List.length_append, List.length_singleton, List.range_succ, List.map_append,
      hc.rowcount, hc.nrows]
    congr 1
    · apply List.map_congr_left
      intro i hi
      have := List.mem_range.1 hi
      rw [cumRows_append_le chs _ (i + 1) (by omega)]
    · simp only [List.map_cons, List.map_nil]
      rw [cumRows_append_last]
      push_cast; rfl
  · intro ch hch
    rcases List.mem_append.1 hch with h | h
    · exact hc.lens ch h
    · rw [List.mem_singleton.1 h]; exact hlen
  · show (c.buffer ++ [buf]).length = _
    simp [hc.buflen]
  · show (c.rowsum ++ [psum]).length = _
    simp [hc.sumlen]
  · intro i hi
    show ∃ j, (c.rowsum ++ [psum]).getD i [] = _
    by_cases hlt : i < chs.length
    · rw [hget i hlt, List.getD_eq_getElem?_getD,
        List.getElem?_append_left (by rw [hc.sumlen]; exact hlt),
        ← List.getD_eq_getElem?_getD]
      exact hc.rowsum i hlt
    · have e : i = chs.length := by
        rw [List.length_append, List.length_singleton] at hi; omega
      subst e
      rw [hlast, List.getD_eq_getElem?_getD,
        List.getElem?_append_right (by rw [hc.sumlen]), hc.sumlen]
      simpa using hpsum
  · intro i h0 hi
    show ∃ js junk, intsOf ((c.buffer ++ [buf]).getD i []) = _ ∧
      ((c.buffer ++ [buf]).getD i []).drop _ = _
    by_cases hlt : i < chs.length
    · rw [hget i hlt, List.getD_eq_getElem?_getD,
        List.getElem?_append_left (by rw [hc.buflen]; exact hlt),
        ← List.getD_eq_getElem?_getD]
      exact hc.buffer i h0 hlt
    · have e : i = chs.length := by
        rw [List.length_append, List.length_singleton] at hi; omega
      subst e
      rw [hlast, List.getD_eq_getElem?_getD,
        List.getElem?_append_right (by rw [hc.buflen]), hc.buflen]
      obtain ⟨js, hjs⟩ := hints
      obtain ⟨junk, hjunk⟩ := hdata
      exact ⟨js, junk, by simpa using hjs, by simpa using hjunk⟩
  · rw [hget 0 hk]
    exact hc.zero
  · rw [hget 0 hk]
    exact hc.now

/-- The loop body of `csql_read_cursor` for a later reply of a chunked result
set: one more chunk in the registry. -/
theorem read_cursor_frame_next (K : SdkConsts) (db : Db) (c : Cursor) (index : Int)
    (rowid : Bool) (ncols : Nat) (chs : List (Nat × List (Option Bytes))) (rows : Nat)
    (cells : List (Option Bytes)) (junk : Bytes)
    (hc : ChunkedCursor c rowid ncols chs 0) (hidx : 0 < index)
    (hss : db.reply.flag1.server_side = false)
    (hrid : db.reply.flag1.has_rowid_column = rowid)
    (hrows : db.reply.rows = rows)
    (hcols : db.reply.cols = ((ncols + if rowid then 1 else 0 : Nat) : Int))
    (hbuf : db.inbuffer.getD [] = chunkPayload cells ++ junk)
    (hcells : cells.length = rows * (ncols + if rowid then 1 else 0))
    (hrange : ∀ x ∈ cells, (cellData x).length < 2147483648) :
    ∃ c1 : Cursor, read_cursor_frame K db c index true = (c1, true) ∧
      ChunkedCursor c1 rowid ncols (chs ++ [(rows, cells)]) 0 := by
  have hne : ¬ (index = 0) := by omega
  have hsz : ∀ i ∈ cells.map cellSize, -2147483648 ≤ i ∧ i < 2147483648 := by
    intro i hi
    obtain ⟨x, hx, rfl⟩ := List.mem_map.1 hi
    have := hrange x hx
    cases x with
    | none => simp [cellSize]
    | some b => simp only [cellSize, cellData] at this ⊢; omega
  have hints : intsOf (chunkPayload cells ++ junk)
      = cells.map cellSize ++ intsOf ((cells.map cellData).flatten ++ junk) := by
    unfold chunkPayload
    rw [List.append_assoc, intsOf_encInts _ _ hsz]
  have hdata : (chunkPayload cells ++ junk).drop
      (rows * (ncols + if rowid then 1 else 0) * 4) = (cells.map cellData).flatten ++ junk := by
    unfold chunkPayload
    rw [List.append_assoc]
    apply List.drop_left'
    rw [encInts_length, List.length_map, hcells]
    ring
  have hcount : (((ncols + if rowid then 1 else 0 : Nat) : Int) * (rows : Int)).toNat
      = cells.length := by
    rw [hcells]
    have : (((ncols + if rowid then 1 else 0 : Nat) : Int) * (rows : Int))
        = ((rows * (ncols + if rowid then 1 else 0) : Nat) : Int) := by push_cast; ring
    rw [this]; rfl
  have hnc : (if rowid = true then ((ncols + if rowid then 1 else 0 : Nat) : Int) - 1
      else ((ncols + if rowid then 1 else 0 : Nat) : Int)) = (ncols : Int) := by
    cases rowid <;> simp
  have key : ∃ na : Int, read_cursor_frame K db c index true
      = ({ c with has_rowid := rowid, nrows := c.nrows + rows, ncols := ncols, buffer := c.buffer ++ [chunkPayload cells ++ junk], rowsum := c.rowsum ++ [sum_loop (intsOf (chunkPayload cells ++ junk)) (List.replicate cells.length 0) cells.length], rowcount := c.rowcount ++ [c.nrows + rows], nbuffer := c.nbuffer + 1, nalloc := na }, true) := by
    unfold read_cursor_frame
    simp only [hss, hc.ss, hrid, hrows, hcols, hbuf, if_neg hne, Bool.false_eq_true, if_false,
      Bool.true_or, Bool.not_false, Bool.not_true, false_and, if_true, hcount, hnc, true_and]
    by_cases hre : (c.nbuffer : Int) ≥ c.nalloc
    · exact ⟨c.nalloc + K.kNUMBUFFER, by simp [hre, csql_cursor_reallocate, hc.ss]⟩
    · exact ⟨c.nalloc, by simp [hre, hc.ss]⟩
  obtain ⟨na, hna⟩ := key
  refine ⟨_, hna, ?_⟩
  exact chunked_append c rowid ncols chs hc rows cells (chunkPayload cells ++ junk) _ na hcells
    ⟨_, hints⟩ ⟨_, hdata⟩ ⟨_, by rw [hints]⟩

/-- The loop body of `csql_read_cursor` for the first reply of a chunked result
set. -/
theorem read_cursor_frame_first (K : SdkConsts) (db : Db) (types : List Int)
    (names : List Bytes) (tables : Option (List Bytes)) (cells : List (Option Bytes))
    (junk : Bytes) (nrows ncols : Nat) (rowid : Bool)
    (hss : db.reply.flag1.server_side = false)
    (hpp : db.reply.flag1.partial_packet = true)
    (hrid : db.reply.flag1.has_rowid_column = rowid)
    (htab : db.reply.flag1.has_table_name = tables.isSome)
    (hrows : db.reply.rows = nrows)
    (hcols : db.reply.cols = ((ncols + if rowid then 1 else 0 : Nat) : Int))
    (hbuf : db.inbuffer = some (cursorPayload types names tables cells ++ junk))
    (htypes : types.length = ncols + if rowid then 1 else 0)
    (hnames : names.length = ncols + if rowid then 1 else 0)
    (hnul : ∀ s ∈ names, ∀ b ∈ s, b ≠ 0)
    (htables : ∀ t, tables = some t →
      t.length = (ncols + if rowid then 1 else 0) ∧ ∀ s ∈ t, ∀ b ∈ s, b ≠ 0)
    (hcells : cells.length = nrows * (ncols + if rowid then 1 else 0))
    (hrange : ∀ x ∈ cells, (cellData x).length < 2147483648) :
    ∃ c : Cursor, read_cursor_frame K db csql_cursor_alloc 0 false = (c, true) ∧
      ChunkedCursor c rowid ncols [(nrows, cells)] 0 := by
  have hsz : ∀ i ∈ cells.map cellSize, -2147483648 ≤ i ∧ i < 2147483648 := by
    intro i hi
    obtain ⟨x, hx, rfl⟩ := List.mem_map.1 hi
    have := hrange x hx
    cases x with
    | none => simp [cellSize]
    | some b => simp only [cellSize, cellData] at this ⊢; omega
  have e1 : (4 * ((ncols + if rowid then 1 else 0 : Nat) : Int)).toNat = (encInts types).length := by
    rw [encInts_length, htypes]; omega
  have e2 : ((nrows : Int) * ((ncols + if rowid then 1 else 0 : Nat) : Int) * 4).toNat
      = (encInts (cells.map cellSize)).length := by
    rw [encInts_length, List.length_map, hcells]
    have : ((nrows : Int) * ((ncols + if rowid then 1 else 0 : Nat) : Int) * 4)
        = ((4 * (nrows * (ncols + if rowid then 1 else 0)) : Nat) : Int) := by
      push_cast; ring
    rw [this]; rfl
  have e3 : (((ncols + if rowid then 1 else 0 : Nat) : Int) * nrows).toNat = cells.length := by
    rw [hcells]
    have : (((ncols + if rowid then 1 else 0 : Nat) : Int) * nrows)
        = ((nrows * (ncols + if rowid then 1 else 0) : Nat) : Int) := by push_cast; ring
    rw [this]; rfl
  have e4 : (((ncols + if rowid then 1 else 0 : Nat) : Int)).toNat = names.length := by
    rw [hnames]; rfl
  have hA : List.drop (4 * ((ncols + if rowid then 1 else 0 : Nat) : Int)).toNat
      (cursorPayload types names tables cells ++ junk)
      = encInts (cells.map cellSize) ++ (packStrings names ++
          (packTables tables ++ ((cells.map cellData).flatten ++ junk))) := by
    rw [e1]
    unfold cursorPayload
    simp only [List.append_assoc]
    exact List.drop_left' rfl
  have hnc : (if rowid = true then ((ncols + if rowid then 1 else 0 : Nat) : Int) - 1
      else ((ncols + if rowid then 1 else 0 : Nat) : Int)) = (ncols : Int) := by
    cases rowid <;> simp
  refine ⟨(read_cursor_frame K db csql_cursor_alloc 0 false).1, ?_, ?_⟩
  · simp [read_cursor_frame, hss, hpp, csql_cursor_alloc]
  have facts : (read_cursor_frame K db csql_cursor_alloc 0 false).1.cursor_id = 0 ∧
      (read_cursor_frame K db csql_cursor_alloc 0 false).1.server_side = false ∧
      (read_cursor_frame K db csql_cursor_alloc 0 false).1.has_rowid = rowid ∧
      (read_cursor_frame K db csql_cursor_alloc 0 false).1.ncols = ncols ∧
      (read_cursor_frame K db csql_cursor_alloc 0 false).1.nbuffer = 1 ∧
      (read_cursor_frame K db csql_cursor_alloc 0 false).1.current_buffer = 0 ∧
      (read_cursor_frame K db csql_cursor_alloc 0 false).1.nrows = nrows ∧
      (read_cursor_frame K db csql_cursor_alloc 0 false).1.rowcount = [(nrows : Int)] ∧
      (read_cursor_frame K db csql_cursor_alloc 0 false).1.buffer.length = 1 ∧
      (read_cursor_frame K db csql_cursor_alloc 0 false).1.rowsum
        = [(read_cursor_frame K db csql_cursor_alloc 0 false).1.psum] ∧
      (read_cursor_frame K db csql_cursor_alloc 0 false).1.size0
        = (read_cursor_frame K db csql_cursor_alloc 0 false).1.size ∧
      (read_cursor_frame K db csql_cursor_alloc 0 false).1.data0
        = (read_cursor_frame K db csql_cursor_alloc 0 false).1.data ∧
      (read_cursor_frame K db csql_cursor_alloc 0 false).1.size
        = intsOf (encInts (cells.map cellSize) ++ (packStrings names ++
          (packTables tables ++ ((cells.map cellData).flatten ++ junk)))) ∧
      (read_cursor_frame K db csql_cursor_alloc 0 false).1.data
        = (cells.map cellData).flatten ++ junk ∧
      (read_cursor_frame K db csql_cursor_alloc 0 false).1.psum
        = sum_loop (intsOf (encInts (cells.map cellSize) ++ (packStrings names ++
          (packTables tables ++ ((cells.map cellData).flatten ++ junk)))))
            (List.replicate cells.length 0) cells.length := by
    simp only [read_cursor_frame, hss, hpp, hrid, htab, hrows, hcols, hbuf, csql_cursor_alloc,
      Bool.false_eq_true, if_false, if_true, Bool.or_false, Bool.not_false, Bool.true_or,
      Bool.or_true, Bool.not_true, false_and, true_and, and_true, Option.getD_some, ge_iff_le,
      hA, e2, e3, e4, hnc, List.drop_left' rfl, csql_cursor_reallocate, Nat.cast_zero, le_refl,
      zero_add, List.nil_append, List.length_singleton]
    rw [skipStrings_packStrings names _ hnul, List.drop_left' rfl]
    cases htb : tables with
    | none => simp [packTables]
    | some t =>
      have ht := htables t htb
      simp only [Option.isSome_some, if_true, packTables]
      rw [hnames, ← ht.1, skipStrings_packStrings t _ ht.2]
      simp
  obtain ⟨f1, f2, f3, f4, f5, f6, f7, f8, f9, f10, f11, f12, f13, f14, f15⟩ := facts
  have hints := intsOf_encInts (cells.map cellSize) (packStrings names ++
          (packTables tables ++ ((cells.map cellData).flatten ++ junk))) hsz
  refine ⟨f1, f2, f3, f4, by rw [f5]; rfl, f6, by simp, ?_, ?_, ?_, by rw [f9]; rfl,
    by rw [f10]; rfl, ?_, ?_, ?_, ?_⟩
  · rw [f7]; simp [cumRows]
  · rw [f8]; simp [cumRows]
  · intro ch hch
    rw [List.mem_singleton.1 hch]; exact hcells
  · intro i hi
    have e : i = 0 := by simpa using hi
    subst e
    rw [f10, f15, hints]
    exact ⟨_, rfl⟩
  · intro i h0 hi
    simp at hi
    omega
  · rw [f11, f12, f13, f14, hints]
    exact ⟨_, _, rfl, rfl⟩
  · rw [f13, f14, f15, hints]
    exact ⟨_, _, _, rfl, rfl, rfl⟩

/-- The acknowledgement of a chunk writes a request and reads nothing. -/
theorem ack_chunk_ok (K : SdkConsts) (h1 : K.kCHUNK_OK ≠ K.kCOMMAND_ENDCHUNK)
    (h2 : K.kCHUNK_OK ≠ K.kBIND_FINALIZE) (h3 : K.kCHUNK_OK ≠ K.kBIND_ABORT)
    (E D : Bytes → Bytes) (inflate : Bytes → Nat → Option Bytes) (db : Db) :
    (csql_ack K E D inflate db K.kCHUNK_OK).1.rx = db.rx ∧
    (csql_ack K E D inflate db K.kCHUNK_OK).1.inbuffer = db.inbuffer ∧
    (csql_ack K E D inflate db K.kCHUNK_OK).1.insize = db.insize := by
  unfold csql_ack
  rw [if_neg h1, if_neg (by rintro (h | h); exact h2 h; exact h3 h)]
  dsimp only
  obtain ⟨w, p, _, h⟩ := netwrite_eq K E (csql_initrequest K db 0 0 K.kCOMMAND_CHUNK K.kCHUNK_OK)
    none none 0 0
  rw [h]
  exact ⟨rfl, rfl, rfl⟩

/-- Reading one later reply of a chunked result set. -/
theorem netread_chunk (K : SdkConsts) (hK : K.Ok) (D : Bytes → Bytes)
    (inflate : Bytes → Nat → Option Bytes) (db : Db) (f : Frame) (rest : List Frame)
    (rowid : Bool) (ncols : Nat) (ch : Nat × List (Option Bytes))
    (hrx : db.rx = f :: rest) (hf : chunkFrame K rowid ncols f ch)
    (hin : db.inbuffer = none) :
    ∃ (db1 : Db) (junk : Bytes),
      csql_netread K D inflate db (-1) (-1) false = (db1, K.CUBESQL_NOERR, false) ∧
      db1.rx = rest ∧ db1.reply = f.header ∧
      db1.inbuffer.getD [] = chunkPayload ch.2 ++ junk := by
  obtain ⟨f1, f2, f3, f4, f5, f6, f7, f8, f9, f10, f11, f12⟩ := hf
  by_cases hpos : 0 < f.payload.length
  · obtain ⟨junk, n, h⟩ := netread_payload K hK D inflate db f rest hrx f1 f2 f3 hpos f4 f5
    exact ⟨_, junk, h, rfl, rfl, by rw [← f10]; rfl⟩
  · have h0 : f.payload = [] := List.eq_nil_of_length_eq_zero (by omega)
    have h := netread_empty K hK D inflate db f rest false hrx f1 f2 (by rw [f3, h0]; rfl)
    refine ⟨_, [], h, rfl, rfl, ?_⟩
    show db.inbuffer.getD [] = _
    rw [hin, ← f10, h0]
    rfl

/-- The loop of `csql_read_cursor` over the later replies of a chunked result
set, up to the reply that ends it. -/
theorem read_cursor_loop_chunks (K : SdkConsts) (hK : K.Ok)
    (h1 : K.kCHUNK_OK ≠ K.kCOMMAND_ENDCHUNK) (h2 : K.kCHUNK_OK ≠ K.kBIND_FINALIZE)
    (h3 : K.kCHUNK_OK ≠ K.kBIND_ABORT) (E D : Bytes → Bytes)
    (inflate : Bytes → Nat → Option Bytes) (rowid : Bool) (ncols : Nat) :
    ∀ (fs : List Frame) (chs2 : List (Nat × List (Option Bytes))),
    List.Forall₂ (chunkFrame K rowid ncols) fs chs2 →
    ∀ (fuel : Nat) (db : Db) (c : Cursor) (index : Int)
      (chs : List (Nat × List (Option Bytes))) (fend : Frame) (rest : List Frame),
    fs.length + 1 ≤ fuel → 0 < index → db.rx = fs ++ fend :: rest → endFrame K fend →
    db.inbuffer = none → ChunkedCursor c rowid ncols chs 0 →
    ∃ (db1 : Db) (c1 : Cursor),
      read_cursor_loop K E D inflate false fuel db c index true = (db1, some c1) ∧
      ChunkedCursor c1 rowid ncols (chs ++ chs2) 0
  | [], _, hfs, fuel, db, c, index, chs, fend, rest, hfuel, hidx, hrx, hend, hin, hc => by
    cases hfs
    obtain ⟨fuel1, rfl⟩ : ∃ k, fuel = k + 1 := ⟨fuel - 1, by simp at hfuel; omega⟩
    have hread := netread_end_chunk K D inflate db fend rest hrx hend.1 hend.2.1 hend.2.2
    refine ⟨{ db with reply := fend.header, pending := fend.payload, rx := rest, toread := 0 }, c,
      ?_, by rw [List.append_nil]; exact hc⟩
    rw [read_cursor_loop]
    simp only [hread, ne_eq, not_true_eq_false, if_false, if_true, hc.ss, Bool.false_eq_true]
  | f :: fs, _, hfs, fuel, db, c, index, chs, fend, rest, hfuel, hidx, hrx, hend, hin, hc => by
    cases hfs with
    | cons hf hrest =>
      rename_i ch chs2
      obtain ⟨fuel1, rfl⟩ : ∃ k, fuel = k + 1 := ⟨fuel - 1, by simp at hfuel; omega⟩
      obtain ⟨db1, junk, hread, r1, r2, r3⟩ := netread_chunk K hK D inflate db f
        (fs ++ fend :: rest) rowid ncols ch hrx hf hin
      obtain ⟨f1, f2, f3, f4, f5, f6, f7, f8, f9, f10, f11, f12⟩ := hf
      obtain ⟨c1, hframe, hc1⟩ := read_cursor_frame_next K db1 c index rowid ncols chs ch.1
        ch.2 junk hc hidx (by rw [r2]; exact f6) (by rw [r2]; exact f7) (by rw [r2]; exact f8)
        (by rw [r2]; exact f9) r3 f11 f12
      obtain ⟨a1, a2, a3⟩ := ack_chunk_ok K h1 h2 h3 E D inflate
        { db1 with inbuffer := none, insize := 0 }
      obtain ⟨db2, c2, hloop, hc2⟩ := read_cursor_loop_chunks K hK h1 h2 h3 E D inflate rowid
        ncols fs chs2 hrest fuel1
        (csql_ack K E D inflate { db1 with inbuffer := none, insize := 0 } K.kCHUNK_OK).1 c1
        (index + 1) (chs ++ [ch]) fend rest (by simp at hfuel; omega) (by omega)
        (by rw [a1]; exact r1) hend (by rw [a2]) hc1
      refine ⟨db2, c2, ?_, by rw [List.append_assoc] at hc2; exact hc2⟩
      rw [read_cursor_loop]
      simp only [hread, ne_eq, not_true_eq_false, if_false, Bool.false_eq_true, hframe,
        hc1.ss, not_false_eq_true, and_self, if_true, hloop]

/-- A chunked result set: `csql_read_cursor` returns a chunked cursor whose
registry holds the chunks and whose current chunk is the first. -/
theorem read_cursor_chunked (K : SdkConsts) (hK : K.Ok)
    (h1 : K.kCHUNK_OK ≠ K.kCOMMAND_ENDCHUNK) (h2 : K.kCHUNK_OK ≠ K.kBIND_FINALIZE)
    (h3 : K.kCHUNK_OK ≠ K.kBIND_ABORT) (E D : Bytes → Bytes)
    (inflate : Bytes → Nat → Option Bytes) (db : Db) (rowid : Bool) (ncols : Nat)
    (types : List Int) (names : List Bytes) (tables : Option (List Bytes))
    (f0 : Frame) (fs : List Frame) (fend : Frame) (rest : List Frame)
    (ch0 : Nat × List (Option Bytes)) (chs : List (Nat × List (Option Bytes)))
    (hcol : 0 < ncols)
    (hrx : db.rx = f0 :: (fs ++ fend :: rest))
    (hf0 : cursorFrame K true rowid ncols types names tables f0 ch0)
    (hfs : List.Forall₂ (chunkFrame K rowid ncols) fs chs) (hend : endFrame K fend) :
    ∃ (db1 : Db) (c : Cursor), csql_read_cursor K E D inflate db none = (db1, some c) ∧
      ChunkedCursor c rowid ncols (ch0 :: chs) 0 := by
  obtain ⟨g1, g2, g3, g4, g5, g6, g7, g8, g9, g10, g11, g12, g13, g14, g15, g16, g17, g18⟩ := hf0
  have hpos : 0 < f0.payload.length := by
    have := cursorPayload_length types names tables ch0.2
    rw [g12]; omega
  obtain ⟨junk, n, hread⟩ := netread_payload K hK D inflate db f0 (fs ++ fend :: rest) hrx g1 g2
    g3 hpos g4 g5
  obtain ⟨c, hframe, hc⟩ := read_cursor_frame_first K
    { db with reply := f0.header, pending := [], rx := fs ++ fend :: rest, toread := f0.payload.length, inbuffer := some (f0.payload ++ junk), insize := n }
    types names tables ch0.2 junk ch0.1 ncols rowid g6 g7 g8 g9 g10 g11 (by rw [g12]) g13 g14
    g15 g16 g17 g18
  obtain ⟨a1, a2, a3⟩ := ack_chunk_ok K h1 h2 h3 E D inflate
    { db with reply := f0.header, pending := [], rx := fs ++ fend :: rest, toread := f0.payload.length, inbuffer := none, insize := 0 }
  obtain ⟨db2, c2, hloop, hc2⟩ := read_cursor_loop_chunks K hK h1 h2 h3 E D inflate rowid
    ncols fs chs hfs ((fs ++ fend :: rest).length + 1)
    (csql_ack K E D inflate { db with reply := f0.header, pending := [], rx := fs ++ fend :: rest, toread := f0.payload.length, inbuffer := none, insize := 0 } K.kCHUNK_OK).1
    c 1 [ch0] fend rest (by simp) (by decide) (by rw [a1]) hend (by rw [a2]) hc
  refine ⟨db2, c2, ?_, hc2⟩
  unfold csql_read_cursor
  dsimp only
  rw [read_cursor_loop]
  simp only [hread, ne_eq, not_true_eq_false, if_false, Bool.false_eq_true, hframe, hc.ss,
    not_false_eq_true, and_self, if_true]
  rw [hrx, List.length_cons]
  exact hloop

/-! ## C26: a chunked cursor read in row order -/

/-- Calls of `cubesql_cursor_field` on a cursor without chunk registry whose
arrays hold the cells `cells`: every call returns the cell. -/
theorem fieldSeq_plain (K : SdkConsts) (hK : K.Ok) (c : Cursor)
    (cells : List (Option Bytes)) (js : List Int) (junk : Bytes) (nrows ncols : Nat)
    (hnrows : c.nrows = nrows) (hncols : c.ncols = ncols)
    (hid : c.cursor_id = 0) (hnb : c.nbuffer = 0)
    (hsize : c.size = cells.map cellSize ++ js)
    (hdata : c.data = (cells.map cellData).flatten ++ junk)
    (hpsum : ∃ j, c.psum = sum_loop (cells.map cellSize ++ j) (List.replicate cells.length 0)
      cells.length)
    (hcells : cells.length = nrows * (ncols + if c.has_rowid then 1 else 0)) :
    ∀ (calls : List (Nat × Nat)),
    (∀ rc ∈ calls, 1 ≤ rc.1 ∧ rc.1 ≤ nrows ∧ 1 ≤ rc.2 ∧ rc.2 ≤ ncols) →
    fieldSeq K c calls = calls.map (fun rc =>
      (cells.getD (cellIndex c.has_rowid ncols rc.1 rc.2) none,
        cellSize (cells.getD (cellIndex c.has_rowid ncols rc.1 rc.2) none)))
  | [], _ => rfl
  | rc :: rest, hin => by
    obtain ⟨r1, r2, r3, r4⟩ := hin rc (List.mem_cons_self rc rest)
    have hf := (cursor_field_plain K hK c cells js nrows ncols rc.1 rc.2 hnrows hncols hid hnb
      hsize hpsum hcells r1 r2 r3 r4).1
    have hk := cellIndex_lt c.has_rowid nrows ncols rc.1 rc.2 r1 r2 r3 r4
    rw [← hcells] at hk
    have ih := fieldSeq_plain K hK c cells js junk nrows ncols hnrows hncols hid hnb hsize hdata
      hpsum hcells rest (fun x hx => hin x (List.mem_cons_of_mem rc hx))
    rw [fieldSeq, hf]
    dsimp only
    rw [ih, List.map_cons]
    congr 1
    unfold fieldBytes
    dsimp only
    cases hx : cells.getD (cellIndex c.has_rowid ncols rc.1 rc.2) none with
    | none => rfl
    | some b =>
      have hd := cells_data_at cells junk _ hk
      rw [hx] at hd
      simp only [Option.map_some', cellSize, Int.toNat_ofNat]
      rw [hdata]
      exact congrArg (fun x => (some x, (b.length : Int))) hd

theorem allCells_length (ncols : Nat) (rowid : Bool) (chunks : List (Nat × List (Option Bytes)))
    (hlens : ∀ ch ∈ chunks, ch.2.length = ch.1 * (ncols + if rowid then 1 else 0)) :
    (allCells chunks).length = cumRows chunks chunks.length * (ncols + if rowid then 1 else 0) := by
  have h := chunks_prefix_length ncols rowid chunks chunks.length hlens
  rw [List.take_of_length_le (le_refl _)] at h
  exact h

/-- C26: a result set that arrives in any number of chunks (a first partial
packet, later replies, the reply that ends the chunks; chunks may have zero
rows) is read into a chunked cursor, and calls of `cubesql_cursor_field` on it
with rows in non-decreasing order (any columns) return, each of them, the cell
of the row and the column, bytes and length: the same as the calls on the
cursor read from one whole reply that holds the same rows. -/
theorem chunked_field_in_row_order (K : SdkConsts) (hK : K.Ok)
    (h1 : K.kCHUNK_OK ≠ K.kCOMMAND_ENDCHUNK) (h2 : K.kCHUNK_OK ≠ K.kBIND_FINALIZE)
    (h3 : K.kCHUNK_OK ≠ K.kBIND_ABORT) (E D : Bytes → Bytes)
    (inflate : Bytes → Nat → Option Bytes) (db dbw : Db) (rowid : Bool) (ncols : Nat)
    (types : List Int) (names : List Bytes) (tables : Option (List Bytes))
    (f0 : Frame) (fs : List Frame) (fend : Frame) (rest : List Frame)
    (ch0 : Nat × List (Option Bytes)) (chs : List (Nat × List (Option Bytes)))
    (g : Frame) (grest : List Frame) (calls : List (Nat × Nat))
    (hcol : 0 < ncols)
    (hrx : db.rx = f0 :: (fs ++ fend :: rest))
    (hf0 : cursorFrame K true rowid ncols types names tables f0 ch0)
    (hfs : List.Forall₂ (chunkFrame K rowid ncols) fs chs) (hend : endFrame K fend)
    (hgrx : dbw.rx = g :: grest)
    (hg : cursorFrame K false rowid ncols types names tables g
      (cumRows (ch0 :: chs) (chs.length + 1), allCells (ch0 :: chs)))
    (hcalls : ∀ rc ∈ calls, 1 ≤ rc.1 ∧ rc.1 ≤ cumRows (ch0 :: chs) (chs.length + 1) ∧
      1 ≤ rc.2 ∧ rc.2 ≤ ncols)
    (hsorted : calls.Pairwise (fun a b => a.1 ≤ b.1)) :
    ∃ (db1 : Db) (c : Cursor) (db2 : Db) (cw : Cursor),
      csql_read_cursor K E D inflate db none = (db1, some c) ∧
      csql_read_cursor K E D inflate dbw none = (db2, some cw) ∧
      c.nbuffer = chs.length + 1 ∧ cw.nbuffer = 0 ∧
      c.nrows = cumRows (ch0 :: chs) (chs.length + 1) ∧ cw.nrows = c.nrows ∧
      fieldSeq K c calls = calls.map (fun rc =>
        ((allCells (ch0 :: chs)).getD (cellIndex rowid ncols rc.1 rc.2) none,
          cellSize ((allCells (ch0 :: chs)).getD (cellIndex rowid ncols rc.1 rc.2) none))) ∧
      fieldSeq K c calls = fieldSeq K cw calls := by
  obtain ⟨db1, c, hread, hc⟩ := read_cursor_chunked K hK h1 h2 h3 E D inflate db rowid ncols types
    names tables f0 fs fend rest ch0 chs hcol hrx hf0 hfs hend
  obtain ⟨g1, g2, g3, g4, g5, g6, g7, g8, g9, g10, g11, g12, g13, g14, g15, g16, g17, g18⟩ := hg
  obtain ⟨db2, cw, hw, w1, w2, w3, w4, w5, _, _, ⟨js, w8⟩, ⟨junk, w9⟩, w10⟩ :=
    read_cursor_single K hK E D inflate dbw g grest types names tables (allCells (ch0 :: chs))
      (cumRows (ch0 :: chs) (chs.length + 1)) (ncols + if rowid then 1 else 0) rowid hgrx g1 g2
      g3 g4 g5 g6 g7 g8 g9 g10 g11 g12 g13 g14 (by omega) g15 g16 g17 g18
  have hwc : cw.ncols = ncols := by
    rw [w2]; cases rowid <;> simp
  have hlen : (ch0 :: chs).length = chs.length + 1 := rfl
  have hseq := fieldSeq_chunked K hK rowid ncols (ch0 :: chs) calls c 0 hc
    (fun rc hrc => by
      obtain ⟨a1, a2, a3, a4⟩ := hcalls rc hrc
      rw [cumRows_zero]
      exact ⟨by omega, a2, a3, a4⟩) hsorted
  have hplain := fieldSeq_plain K hK cw (allCells (ch0 :: chs)) js junk
    (cumRows (ch0 :: chs) (chs.length + 1)) ncols w1 hwc w4 w5 w8 w9 w10
    (by rw [w3]; exact g17) calls hcalls
  rw [w3] at hplain
  refine ⟨db1, c, db2, cw, hread, hw, by rw [hc.nbuf]; rfl, w5, ?_, ?_, hseq, ?_⟩
  · rw [hc.nrows]; rfl
  · rw [w1, hc.nrows]; rfl
  · rw [hseq, hplain]

theorem chunked_field_in_row_order_witness :
    ∃ (db1 : Db) (c : Cursor) (db2 : Db) (cw : Cursor),
      csql_read_cursor sdk toyCipher toyCipher (fun _ _ => none) chunkedRx none = (db1, some c) ∧
      csql_read_cursor sdk toyCipher toyCipher (fun _ _ => none) singleRx none = (db2, some cw) ∧
      c.nbuffer = [((2 : Nat), [some [67], some [68]])].length + 1 ∧ cw.nbuffer = 0 ∧
      c.nrows = cumRows [(2, [some [65], some [66]]), (2, [some [67], some [68]])]
        ([((2 : Nat), [some [67], some [68]])].length + 1) ∧
      cw.nrows = c.nrows ∧
      fieldSeq sdk c [(2, 1), (3, 1), (3, 1), (4, 1)]
        = [(2, 1), (3, 1), (3, 1), (4, 1)].map (fun rc =>
          ((allCells [(2, [some [65], some [66]]), (2, [some [67], some [68]])]).getD
              (cellIndex false 1 rc.1 rc.2) none,
            cellSize ((allCells [(2, [some [65], some [66]]), (2, [some [67], some [68]])]).getD
              (cellIndex false 1 rc.1 rc.2) none))) ∧
      fieldSeq sdk c [(2, 1), (3, 1), (3, 1), (4, 1)]
        = fieldSeq sdk cw [(2, 1), (3, 1), (3, 1), (4, 1)] :=
  chunked_field_in_row_order sdk sdk_ok (by decide) (by decide) (by decide) toyCipher toyCipher
    (fun _ _ => none) chunkedRx singleRx false 1 [3] [[110]] none
    { header := { signature := sdk.PROTOCOL_SIGNATURE, packetSize := 16, rows := 2, cols := 1, flag1 := { partial_packet := true } }, payload := cursorPayload [3] [[110]] none [some [65], some [66]] }
    [{ header := { signature := sdk.PROTOCOL_SIGNATURE, packetSize := 10, rows := 2, cols := 1, flag1 := { partial_packet := true } }, payload := chunkPayload [some [67], some [68]] }]
    { header := { signature := sdk.PROTOCOL_SIGNATURE, errorCode := sdk.END_CHUNK }, payload := [] }
    [] (2, [some [65], some [66]]) [(2, [some [67], some [68]])]
    { header := { signature := sdk.PROTOCOL_SIGNATURE, packetSize := 26, rows := 4, cols := 1 }, payload := cursorPayload [3] [[110]] none [some [65], some [66], some [67], some [68]] }
    [] [(2, 1), (3, 1), (3, 1), (4, 1)] (by decide) rfl
    ⟨rfl, rfl, by decide, rfl, rfl, rfl, rfl, rfl, rfl, rfl, rfl, rfl, rfl, rfl, by decide,
      (fun t h => nomatch h), by decide, by decide⟩
    (List.Forall₂.cons
      ⟨rfl, rfl, by decide, rfl, rfl, rfl, rfl, rfl, rfl, rfl, by decide, by decide⟩
      List.Forall₂.nil)
    ⟨rfl, rfl, rfl⟩ rfl
    ⟨rfl, rfl, by decide, rfl, rfl, rfl, rfl, rfl, rfl, by decide, rfl, by decide, rfl, rfl,
      by decide, (fun t h => nomatch h), by decide, by decide⟩
    (by decide) (by decide)

end CubeSQL
